import Mathlib

/-! flashcache: the on-device metadata of the cache (flashcache_conf.c)

A shallow embedding of `flashcache_md_store`, `flashcache_md_create` and
`flashcache_md_load`, the three functions that write and read the superblock
(sector 0) and the per-slot descriptors (sectors 1 ..) of the cache device.

Conventions of the embedding.

* flashcache is a Linux kernel module, and the kernel is compiled with wrapping
  signed arithmetic; a C `int` is an `Int` passed through `int32` at every
  assignment, `unsigned int` and `sector_t` values are `Nat`s reduced modulo
  `2^32` and `2^64`.
* `flashcache.h` is not among the sources.  Its constants are the fields of
  `Params`; every theorem holds for all values that satisfy `Params.wf`.
* A pointer into the metadata I/O buffer is a pair: the 512-byte sector of the
  buffer it points into, and the index of the descriptor inside that sector.
* The environment (`Env`) decides the result of every `vmalloc` and of every
  synchronous I/O request, and supplies the content of fresh memory.  In
  flashcache_ctr a `vmalloc` of no bytes fails whatever the environment says.
* A `panic` (also the one behind `VERIFY`) ends the run: `Outcome.panic`.
* The compile-time option FLASHCACHE_DO_CHECKSUMS is taken as not defined.
-/

namespace Flashcache

/-! ## Machine integers -/

/-- Value of an integer expression after assignment to a C `int`. -/
def int32 (x : Int) : Int := (x + 2147483648) % 4294967296 - 2147483648

/-- Value of an integer expression after conversion to `unsigned int`. -/
def uint32 (x : Int) : Nat := (x % 4294967296).toNat

/-- Value of an integer expression after conversion to `sector_t` or
`unsigned long` (64 bits). -/
def uint64 (x : Int) : Nat := (x % 18446744073709551616).toNat

/-! ## Constants of flashcache.h -/

/-- The constants and macros of flashcache.h that the three functions use.
`MD_BLOCKS_PER_SECTOR` is `512 / sizeof(struct flash_cacheblock)` and
`METADATA_IO_BLOCKSIZE_SECT` is `METADATA_IO_BLOCKSIZE / 512`. -/
structure Params where
  INVALID : Nat
  VALID : Nat
  DIRTY : Nat
  CACHE_MD_STATE_DIRTY : Nat
  CACHE_MD_STATE_CLEAN : Nat
  CACHE_MD_STATE_FASTCLEAN : Nat
  CACHE_MD_STATE_UNSTABLE : Nat
  MD_BLOCKS_PER_SECTOR : Nat
  METADATA_IO_BLOCKSIZE_SECT : Nat
  INDEX_TO_MD_SECTOR : Nat → Nat
  FLASHCACHE_VERSION : Nat
  DEV_PATHLEN : Nat

/-- What the code relies on: a sector holds between 1 and 512 descriptors, an
I/O block holds at least one sector, the number of descriptors of an I/O block
is an `int`, and the four superblock states are four different values. -/
def Params.wf (P : Params) : Prop :=
  1 ≤ P.MD_BLOCKS_PER_SECTOR ∧ P.MD_BLOCKS_PER_SECTOR ≤ 512 ∧
  1 ≤ P.METADATA_IO_BLOCKSIZE_SECT ∧
  P.MD_BLOCKS_PER_SECTOR * P.METADATA_IO_BLOCKSIZE_SECT < 2147483648 ∧
  P.CACHE_MD_STATE_DIRTY ≠ P.CACHE_MD_STATE_CLEAN ∧
  P.CACHE_MD_STATE_DIRTY ≠ P.CACHE_MD_STATE_FASTCLEAN ∧
  P.CACHE_MD_STATE_CLEAN ≠ P.CACHE_MD_STATE_FASTCLEAN ∧
  P.CACHE_MD_STATE_UNSTABLE ≠ P.CACHE_MD_STATE_DIRTY ∧
  P.CACHE_MD_STATE_UNSTABLE ≠ P.CACHE_MD_STATE_CLEAN ∧
  P.CACHE_MD_STATE_UNSTABLE ≠ P.CACHE_MD_STATE_FASTCLEAN

instance (P : Params) : Decidable P.wf := by
  unfold Params.wf
  infer_instance

/-! ## Data -/

/-- In-memory cache slot (`struct cacheblock`), the fields the metadata code
touches. -/
structure cacheblock where
  cache_state : Nat
  nr_queued : Int
  dbn : Nat
  deriving DecidableEq

/-- On-device slot descriptor (`struct flash_cacheblock`). -/
structure flash_cacheblock where
  dbn : Nat
  cache_state : Nat
  deriving DecidableEq

/-- On-device superblock (`struct flash_superblock`). -/
structure flash_superblock where
  cache_sb_state : Nat
  block_size : Nat
  size : Nat
  assoc : Nat
  disk_devname : List Nat
  cache_devname : List Nat
  cache_devsize : Nat
  disk_devsize : Nat
  cache_version : Nat
  deriving DecidableEq

/-- The cache instance (`struct cache_c`), the fields the metadata code touches.
`cache` is the slot array; `cache_devsize` and `disk_devsize` stand for
`to_sector(bdev->bd_inode->i_size)` of the two devices.  `md_sectors` is an
`int` (the code prints it with `%d`): the field holds its 32 bits as a number
below 2^32, and `int32` of the field is the value that an expression reads,
negative from 2^31 on. -/
structure cache_c where
  cache : Nat → cacheblock
  size : Nat
  assoc : Nat
  block_size : Nat
  block_shift : Nat
  block_mask : Nat
  consecutive_shift : Nat
  md_sectors : Nat
  disk_devname : List Nat
  cache_devname : List Nat
  cache_devsize : Nat
  disk_devsize : Nat

/-- Content of the cache device: sector 0 read as a superblock, and sector
`s ≥ 1` read as an array of descriptors, `md s p` being descriptor `p` of
sector `s`. -/
structure Disk where
  sb : flash_superblock
  md : Nat → Nat → flash_cacheblock

/-- Direction of an I/O request. -/
inductive io_dir where
  | READ
  | WRITE
  deriving DecidableEq

/-- One request issued to the cache device (`where.sector`, `where.count`, the
direction) and the error code it returned. -/
structure io_req where
  rw : io_dir
  sector : Nat
  count : Nat
  error : Int
  deriving DecidableEq

/-- The cache device and the requests issued to it so far, newest first. -/
structure Io where
  dev : Disk
  log : List io_req

/-- What the code cannot control: the error code of the `k`-th I/O request of a
call, whether its `k`-th `vmalloc` succeeds, and what fresh memory holds. -/
structure Env where
  io_error : Nat → Int
  vmalloc_ok : Nat → Bool
  buf_garbage : Nat → Nat → flash_cacheblock
  cache_garbage : Nat → cacheblock

/-- What a metadata function leaves behind when it returns. -/
structure md_result where
  ret : Int
  dmc : cache_c
  io : Io

/-! ## Synchronous I/O -/

/-- Sectors `sector .. sector + count - 1` take the first `count` sectors of
the buffer. -/
def Disk.write_md (dev : Disk) (sector count : Nat)
    (buf : Nat → Nat → flash_cacheblock) : Disk :=
  { dev with md := fun s p =>
      if sector ≤ s ∧ s < sector + count then buf (s - sector) p else dev.md s p }

/-- The first `count` sectors of the buffer take sectors
`sector .. sector + count - 1`. -/
def Disk.read_md (dev : Disk) (sector count : Nat)
    (buf : Nat → Nat → flash_cacheblock) : Nat → Nat → flash_cacheblock :=
  fun s p => if s < count then dev.md (sector + s) p else buf s p

/-- Modelled from the spec: flashcache_dm_io_sync_vm is defined outside
flashcache_conf.c; by section 4.A it is synchronous I/O against a device region
that returns success or an error code.  This is a WRITE of descriptor sectors;
a request that fails leaves the device as it was. -/
def flashcache_dm_io_sync_vm_write_md (env : Env) (io : Io) (sector count : Nat)
    (buf : Nat → Nat → flash_cacheblock) : Int × Io :=
  let error := env.io_error io.log.length
  (error,
    { dev := if error = 0 then io.dev.write_md sector count buf else io.dev
      log := ⟨io_dir.WRITE, sector, count, error⟩ :: io.log })

/-- Modelled from the spec: flashcache_dm_io_sync_vm (section 4.A), a WRITE of
the superblock, one sector at sector 0. -/
def flashcache_dm_io_sync_vm_write_sb (env : Env) (io : Io)
    (header : flash_superblock) : Int × Io :=
  let error := env.io_error io.log.length
  (error,
    { dev := if error = 0 then { io.dev with sb := header } else io.dev
      log := ⟨io_dir.WRITE, 0, 1, error⟩ :: io.log })

/-- Modelled from the spec: flashcache_dm_io_sync_vm (section 4.A), a READ of
sector 0 into the header buffer. -/
def flashcache_dm_io_sync_vm_read_sb (env : Env) (io : Io) :
    Int × flash_superblock × Io :=
  let error := env.io_error io.log.length
  (error, io.dev.sb, { io with log := ⟨io_dir.READ, 0, 1, error⟩ :: io.log })

/-- Modelled from the spec: flashcache_dm_io_sync_vm (section 4.A), a READ of
descriptor sectors into the metadata buffer. -/
def flashcache_dm_io_sync_vm_read_md (env : Env) (io : Io) (sector count : Nat)
    (buf : Nat → Nat → flash_cacheblock) :
    Int × (Nat → Nat → flash_cacheblock) × Io :=
  let error := env.io_error io.log.length
  (error, if error = 0 then io.dev.read_md sector count buf else buf,
    { io with log := ⟨io_dir.READ, sector, count, error⟩ :: io.log })

/-- Modelled from the spec: strncpy of the C library, on strings kept as lists
of character codes: the characters before the first NUL, at most `n` of them,
padded with NULs to `n` characters. -/
def strncpy (src : List Nat) (n : Nat) : List Nat :=
  let s := (src.takeWhile (fun c => c ≠ 0)).take n
  s ++ List.replicate (n - s.length) 0

/-! ## Loops -/

/-- How a loop that may leave its function ends: it runs to its end (`run`),
the function executes `return 1` (`ret1`), it panics, or the iteration bound
of the model is used up. -/
inductive Flow (σ : Type) where
  | run : σ → Flow σ
  | ret1 : σ → Flow σ
  | panic : Flow σ
  | timeout : Flow σ

/-- A C loop `while (cond) body`, also the `for` loops with their increment at
the end of `body`, run for at most `fuel` passes. -/
def while_loop {σ : Type} (cond : σ → Bool) (body : σ → Flow σ) : Nat → σ → Flow σ
  | 0, _ => Flow.timeout
  | fuel + 1, s =>
    if cond s then
      match body s with
      | Flow.run s1 => while_loop cond body fuel s1
      | other => other
    else Flow.run s

/-- The statement after a loop inside a loop body: `f` is applied where the
inner loop ran to its end; a return, a panic or a timeout is passed on. -/
def Flow.map_run {σ : Type} (f : σ → σ) : Flow σ → Flow σ
  | Flow.run s => Flow.run (f s)
  | other => other

/-- How a call ends: it returns, it panics, or the iteration bound of the
model is used up. -/
inductive Outcome (α : Type) where
  | returned : α → Outcome α
  | panic : Outcome α
  | timeout : Outcome α

/-- The code after a loop of a function: `rest` is what follows where the loop
ran to its end, and `ret1` is what the function leaves behind where the loop
executed `return 1`. -/
def Flow.finish {σ α : Type} (r : Flow σ) (ret1 : σ → α) (rest : σ → Outcome α) :
    Outcome α :=
  match r with
  | Flow.run s => rest s
  | Flow.ret1 s => Outcome.returned (ret1 s)
  | Flow.panic => Outcome.panic
  | Flow.timeout => Outcome.timeout

/-- Iteration bound of the loops of the model.  A loop over a C `int` counter
leaves within `2^32` passes. -/
def loop_fuel : Nat := 4294967297

/-! ## flashcache_md_store -/

/-- The local variables of the descriptor loop of flashcache_md_store and of
flashcache_md_create, with the metadata buffer (`buf`, the memory behind
`meta_data_cacheblock`) and the cache device. -/
structure md_locals where
  i : Int
  j : Int
  slots_written : Int
  sectors_written : Int
  num_valid : Int
  num_dirty : Int
  write_errors : Int
  next_ptr : Nat × Nat
  where_sector : Nat
  buf : Nat → Nat → flash_cacheblock
  cdev : Io

/-- The assignments through `next_ptr`: the descriptor it points at takes `d`. -/
def buf_set (buf : Nat → Nat → flash_cacheblock) (ptr : Nat × Nat)
    (d : flash_cacheblock) : Nat → Nat → flash_cacheblock :=
  fun s p => if s = ptr.1 ∧ p = ptr.2 then d else buf s p

/-- The descriptor written for a slot: its dbn and its state masked to
`INVALID | VALID | DIRTY`. -/
def md_descriptor (P : Params) (c : cacheblock) : flash_cacheblock :=
  { dbn := c.dbn
    cache_state := c.cache_state &&& (P.INVALID ||| P.VALID ||| P.DIRTY) }

/-- One pass of the `for` loop of flashcache_md_store (lines 634-676). -/
def md_store_body (P : Params) (dmc : cache_c) (env : Env) (s : md_locals) :
    md_locals :=
  let c := dmc.cache s.i.toNat
  let num_valid :=
    if c.cache_state &&& P.VALID ≠ 0 then int32 (s.num_valid + 1) else s.num_valid
  let num_dirty :=
    if c.cache_state &&& P.DIRTY ≠ 0 then int32 (s.num_dirty + 1) else s.num_dirty
  let buf := buf_set s.buf s.next_ptr (md_descriptor P c)
  let next_ptr := (s.next_ptr.1, s.next_ptr.2 + 1)
  let slots_written := int32 (s.slots_written + 1)
  let j := int32 (s.j - 1)
  if j = 0 then
    if uint64 slots_written
        = uint64 (P.MD_BLOCKS_PER_SECTOR * P.METADATA_IO_BLOCKSIZE_SECT) then
      let where_count := uint64 slots_written / P.MD_BLOCKS_PER_SECTOR
      let slots_written := 0
      let sectors_written := int32 (s.sectors_written + where_count)
      let r := flashcache_dm_io_sync_vm_write_md env s.cdev s.where_sector where_count buf
      let write_errors :=
        if r.1 ≠ 0 then int32 (s.write_errors + 1) else s.write_errors
      let where_sector := uint64 (s.where_sector + where_count)
      { i := int32 (s.i + 1)
        j := int32 P.MD_BLOCKS_PER_SECTOR
        slots_written := slots_written
        sectors_written := sectors_written
        num_valid := num_valid
        num_dirty := num_dirty
        write_errors := write_errors
        next_ptr := (uint64 slots_written / P.MD_BLOCKS_PER_SECTOR, 0)
        where_sector := where_sector
        buf := buf
        cdev := r.2 }
    else
      { s with
        i := int32 (s.i + 1)
        j := int32 P.MD_BLOCKS_PER_SECTOR
        slots_written := slots_written
        num_valid := num_valid
        num_dirty := num_dirty
        next_ptr := (uint64 slots_written / P.MD_BLOCKS_PER_SECTOR, 0)
        buf := buf }
  else
    { s with
      i := int32 (s.i + 1)
      j := j
      slots_written := slots_written
      num_valid := num_valid
      num_dirty := num_dirty
      next_ptr := next_ptr
      buf := buf }

/-- The loop `for (i = 0 ; i < dmc->size ; i++)` of flashcache_md_store; the
`int` counter is converted to `sector_t` for the comparison. -/
def md_store_loop (P : Params) (dmc : cache_c) (env : Env) (fuel : Nat)
    (s : md_locals) : Flow md_locals :=
  while_loop (fun s => decide (uint64 s.i < dmc.size))
    (fun s => Flow.run (md_store_body P dmc env s)) fuel s

/-- The block after the loop of flashcache_md_store (lines 677-694): the
sectors left in the buffer are written out; `none` is the panic of
`VERIFY(slots_written > 0)`. -/
def md_store_rest (P : Params) (env : Env) (s : md_locals) : Option md_locals :=
  if s.next_ptr ≠ (0, 0) then
    if ¬ (s.slots_written > 0) then none
    else
      let where_count := uint64 s.slots_written / P.MD_BLOCKS_PER_SECTOR
      let where_count :=
        if uint64 s.slots_written % P.MD_BLOCKS_PER_SECTOR ≠ 0 then
          uint64 (where_count + 1)
        else where_count
      let sectors_written := int32 (s.sectors_written + where_count)
      let r := flashcache_dm_io_sync_vm_write_md env s.cdev s.where_sector where_count s.buf
      let write_errors :=
        if r.1 ≠ 0 then int32 (s.write_errors + 1) else s.write_errors
      some { s with
        sectors_written := sectors_written
        write_errors := write_errors
        cdev := r.2 }
  else some s

/-- The debug computation `sectors_expected` of the three functions. -/
def sectors_expected (P : Params) (size : Nat) : Int :=
  let e := int32 ((size / P.MD_BLOCKS_PER_SECTOR : Nat) : Int)
  if size % P.MD_BLOCKS_PER_SECTOR ≠ 0 then int32 (e + 1) else e

/-- The superblock written by flashcache_md_store (lines 714-729). -/
def md_store_header (P : Params) (dmc : cache_c) (write_errors num_dirty : Int) :
    flash_superblock :=
  { cache_sb_state :=
      if write_errors = 0 then
        if num_dirty = 0 then P.CACHE_MD_STATE_CLEAN
        else P.CACHE_MD_STATE_FASTCLEAN
      else P.CACHE_MD_STATE_UNSTABLE
    block_size := dmc.block_size
    size := dmc.size
    assoc := dmc.assoc
    disk_devname := strncpy dmc.disk_devname P.DEV_PATHLEN
    cache_devname := strncpy dmc.cache_devname P.DEV_PATHLEN
    cache_devsize := dmc.cache_devsize
    disk_devsize := dmc.disk_devsize
    cache_version := P.FLASHCACHE_VERSION }

/-- The state of the locals when the loop of flashcache_md_store (and of
flashcache_md_create) is entered (lines 629-633). -/
def md_locals_init (P : Params) (env : Env) (dev : Disk) : md_locals :=
  { i := 0
    j := int32 P.MD_BLOCKS_PER_SECTOR
    slots_written := 0
    sectors_written := 0
    num_valid := 0
    num_dirty := 0
    write_errors := 0
    next_ptr := (0, 0)
    where_sector := 1
    buf := env.buf_garbage
    cdev := { dev := dev, log := [] } }

/-- The function flashcache_md_store (lines 605-764).  `vmalloc` number 0 is
the metadata buffer, number 1 the header. -/
def flashcache_md_store (P : Params) (dmc : cache_c) (env : Env) (dev : Disk) :
    Outcome md_result :=
  if env.vmalloc_ok 0 = false then
    Outcome.returned { ret := 1, dmc := dmc, io := { dev := dev, log := [] } }
  else
    (md_store_loop P dmc env loop_fuel (md_locals_init P env dev)).finish
      (fun s => { ret := 1, dmc := dmc, io := s.cdev })
      (fun s1 =>
        match md_store_rest P env s1 with
        | none => Outcome.panic
        | some s =>
          if sectors_expected P dmc.size ≠ s.sectors_written then Outcome.panic
          else if env.vmalloc_ok 1 = false then
            Outcome.returned { ret := 1, dmc := dmc, io := s.cdev }
          else
            let header := md_store_header P dmc s.write_errors s.num_dirty
            let r := flashcache_dm_io_sync_vm_write_sb env s.cdev header
            Outcome.returned { ret := 0, dmc := dmc, io := r.2 })

/-! ## flashcache_md_create -/

/-- The loop of flashcache_md_create that initialises the slot array (lines
841-848), on the pair of the counter `i` and the array: the slot `cache[i]`
takes dbn 0, state INVALID and nr_queued 0. -/
def md_create_init_loop (P : Params) (size : Nat) (fuel : Nat)
    (s : Int × (Nat → cacheblock)) : Flow (Int × (Nat → cacheblock)) :=
  while_loop (fun s => decide (uint64 s.1 < size))
    (fun s => Flow.run
      (int32 (s.1 + 1),
        Function.update s.2 s.1.toNat
          { dbn := 0, cache_state := P.INVALID, nr_queued := 0 })) fuel s

/-- One pass of the descriptor loop of flashcache_md_create (lines 859-902);
`ret1` is the `return 1` after a failed write. -/
def md_create_body (P : Params) (dmc : cache_c) (env : Env) (s : md_locals) :
    Flow md_locals :=
  let c := dmc.cache s.i.toNat
  let buf := buf_set s.buf s.next_ptr (md_descriptor P c)
  let next_ptr := (s.next_ptr.1, s.next_ptr.2 + 1)
  let slots_written := int32 (s.slots_written + 1)
  let j := int32 (s.j - 1)
  if j = 0 then
    if uint64 slots_written
        = uint64 (P.MD_BLOCKS_PER_SECTOR * P.METADATA_IO_BLOCKSIZE_SECT) then
      let where_count := uint64 slots_written / P.MD_BLOCKS_PER_SECTOR
      let slots_written := 0
      let sectors_written := int32 (s.sectors_written + where_count)
      let r := flashcache_dm_io_sync_vm_write_md env s.cdev s.where_sector where_count buf
      if r.1 ≠ 0 then
        Flow.ret1 { s with
          j := j
          slots_written := slots_written
          sectors_written := sectors_written
          next_ptr := next_ptr
          buf := buf
          cdev := r.2 }
      else
        let where_sector := uint64 (s.where_sector + where_count)
        Flow.run { s with
          i := int32 (s.i + 1)
          j := int32 P.MD_BLOCKS_PER_SECTOR
          slots_written := slots_written
          sectors_written := sectors_written
          next_ptr := (uint64 slots_written / P.MD_BLOCKS_PER_SECTOR, 0)
          where_sector := where_sector
          buf := buf
          cdev := r.2 }
    else
      Flow.run { s with
        i := int32 (s.i + 1)
        j := int32 P.MD_BLOCKS_PER_SECTOR
        slots_written := slots_written
        next_ptr := (uint64 slots_written / P.MD_BLOCKS_PER_SECTOR, 0)
        buf := buf }
  else
    Flow.run { s with
      i := int32 (s.i + 1)
      j := j
      slots_written := slots_written
      next_ptr := next_ptr
      buf := buf }

/-- The descriptor loop `for (i = 0 ; i < dmc->size ; i++)` of
flashcache_md_create. -/
def md_create_loop (P : Params) (dmc : cache_c) (env : Env) (fuel : Nat)
    (s : md_locals) : Flow md_locals :=
  while_loop (fun s => decide (uint64 s.i < dmc.size)) (md_create_body P dmc env) fuel s

/-- The block after the descriptor loop of flashcache_md_create (lines
903-923). -/
def md_create_rest (P : Params) (env : Env) (s : md_locals) : Flow md_locals :=
  if s.next_ptr ≠ (0, 0) then
    if ¬ (s.slots_written > 0) then Flow.panic
    else
      let where_count := uint64 s.slots_written / P.MD_BLOCKS_PER_SECTOR
      let where_count :=
        if uint64 s.slots_written % P.MD_BLOCKS_PER_SECTOR ≠ 0 then
          uint64 (where_count + 1)
        else where_count
      let sectors_written := int32 (s.sectors_written + where_count)
      let r := flashcache_dm_io_sync_vm_write_md env s.cdev s.where_sector where_count s.buf
      if r.1 ≠ 0 then
        Flow.ret1 { s with sectors_written := sectors_written, cdev := r.2 }
      else
        Flow.run { s with sectors_written := sectors_written, cdev := r.2 }
  else Flow.run s

/-- The geometry computed by flashcache_md_create (lines 811-816) from
`dmc->size` in sectors: the instance with the new `md_sectors` and `size`.  The
first estimate of the metadata is assigned to the `int` field `md_sectors`, and
`dmc->size -= dmc->md_sectors` converts that `int` to the 64 bits of `sector_t`
with its sign. -/
def md_create_geometry (P : Params) (dmc : cache_c) : cache_c :=
  let md_sectors := int32 (P.INDEX_TO_MD_SECTOR (dmc.size / dmc.block_size) + 1 + 1)
  let size := uint64 ((dmc.size : Int) - md_sectors)
  let size := size / dmc.block_size
  let size := uint64 ((size / dmc.assoc * dmc.assoc : Nat) : Int)
  let md_sectors := uint32 (P.INDEX_TO_MD_SECTOR size + 1 + 1)
  { dmc with md_sectors := md_sectors, size := size }

/-- The superblock written by flashcache_md_create (lines 935-943) and by
flashcache_md_load (lines 1154-1162). -/
def md_dirty_header (P : Params) (dmc : cache_c) : flash_superblock :=
  { cache_sb_state := P.CACHE_MD_STATE_DIRTY
    block_size := dmc.block_size
    size := dmc.size
    assoc := dmc.assoc
    disk_devname := strncpy dmc.disk_devname P.DEV_PATHLEN
    cache_devname := strncpy dmc.cache_devname P.DEV_PATHLEN
    cache_devsize := dmc.cache_devsize
    disk_devsize := dmc.disk_devsize
    cache_version := P.FLASHCACHE_VERSION }

/-- The function flashcache_md_create (lines 766-960).  `vmalloc` number 0 is
the header, number 1 the slot array, number 2 the metadata buffer.  A division
by zero (`block_size` or `assoc` zero) stops the kernel: `panic`. -/
def flashcache_md_create (P : Params) (dmc : cache_c) (force : Int) (env : Env)
    (dev : Disk) : Outcome md_result :=
  let io0 : Io := { dev := dev, log := [] }
  if env.vmalloc_ok 0 = false then Outcome.returned { ret := 1, dmc := dmc, io := io0 }
  else
    let r := flashcache_dm_io_sync_vm_read_sb env io0
    let header := r.2.1
    if r.1 ≠ 0 then Outcome.returned { ret := 1, dmc := dmc, io := r.2.2 }
    else if force = 0 ∧
        (header.cache_sb_state = P.CACHE_MD_STATE_DIRTY ∨
         header.cache_sb_state = P.CACHE_MD_STATE_CLEAN ∨
         header.cache_sb_state = P.CACHE_MD_STATE_FASTCLEAN) then
      Outcome.returned { ret := 1, dmc := dmc, io := r.2.2 }
    else if dmc.block_size = 0 ∨ dmc.assoc = 0 then Outcome.panic
    else
      let dmc := md_create_geometry P dmc
      let dev_size := dmc.cache_devsize
      let cache_size := uint64 (int32 dmc.md_sectors + dmc.size * dmc.block_size)
      if cache_size > dev_size then
        Outcome.returned { ret := 1, dmc := dmc, io := r.2.2 }
      else if env.vmalloc_ok 1 = false then
        Outcome.returned { ret := 1, dmc := dmc, io := r.2.2 }
      else
        (md_create_init_loop P dmc.size loop_fuel (0, env.cache_garbage)).finish
          (fun _ => { ret := 1, dmc := dmc, io := r.2.2 })
          (fun c =>
            let dmc := { dmc with cache := c.2 }
            if env.vmalloc_ok 2 = false then
              Outcome.returned { ret := 1, dmc := dmc, io := r.2.2 }
            else
              let s0 := { md_locals_init P env dev with cdev := r.2.2 }
              (md_create_loop P dmc env loop_fuel s0).finish
                (fun s => { ret := 1, dmc := dmc, io := s.cdev })
                (fun s1 =>
                  (md_create_rest P env s1).finish
                    (fun s => { ret := 1, dmc := dmc, io := s.cdev })
                    (fun s =>
                      if sectors_expected P dmc.size ≠ s.sectors_written then Outcome.panic
                      else
                        let w := flashcache_dm_io_sync_vm_write_sb env s.cdev
                          (md_dirty_header P dmc)
                        if w.1 ≠ 0 then Outcome.returned { ret := 1, dmc := dmc, io := w.2 }
                        else Outcome.returned { ret := 0, dmc := dmc, io := w.2 })))

/-! ## flashcache_md_load -/

/-- The search of ffs for the lowest set bit, over at most `fuel` bits. -/
def ffs_aux : Nat → Nat → Nat
  | 0, _ => 0
  | fuel + 1, x => if x % 2 = 1 then 1 else 1 + ffs_aux fuel (x / 2)

/-- The kernel function ffs on a 32-bit word: the position, from 1, of the
lowest set bit, and 0 for the word 0. -/
def ffs (x : Nat) : Int :=
  if x % 4294967296 = 0 then 0 else ffs_aux 32 (x % 4294967296)

/-- The local variables of the read loop of flashcache_md_load, with the
metadata buffer, the slot array being filled and the cache device. -/
structure md_load_locals where
  i : Int
  j : Int
  size : Int
  slots_read : Int
  sectors_read : Int
  dirty_loaded : Int
  num_valid : Int
  next_ptr : Nat × Nat
  where_sector : Nat
  buf : Nat → Nat → flash_cacheblock
  cache : Nat → cacheblock
  cdev : Io

/-- One pass of the inner `for` loop of flashcache_md_load (lines 1095-1139):
slot `i` is filled from the descriptor under `next_ptr`; `none` is the panic
of the `VERIFY`. -/
def md_load_body (P : Params) (clean_shutdown : Int) (s : md_load_locals) :
    Option md_load_locals :=
  let next_ptr :=
    if uint64 s.j % P.MD_BLOCKS_PER_SECTOR = 0 then
      (uint64 s.j / P.MD_BLOCKS_PER_SECTOR, 0)
    else s.next_ptr
  let d := s.buf next_ptr.1 next_ptr.2
  let c := { s.cache s.i.toNat with nr_queued := 0 }
  if clean_shutdown ≠ 0 ∨ d.cache_state &&& P.DIRTY ≠ 0 then
    let dirty_loaded :=
      if d.cache_state &&& P.DIRTY ≠ 0 then int32 (s.dirty_loaded + 1)
      else s.dirty_loaded
    let c := { c with cache_state := d.cache_state }
    if c.cache_state &&& (P.VALID ||| P.INVALID) = (P.VALID ||| P.INVALID) then none
    else
      let num_valid :=
        if c.cache_state &&& P.VALID ≠ 0 then int32 (s.num_valid + 1) else s.num_valid
      let c := { c with dbn := d.dbn }
      some { s with
        i := int32 (s.i + 1)
        j := int32 (s.j + 1)
        dirty_loaded := dirty_loaded
        num_valid := num_valid
        next_ptr := (next_ptr.1, next_ptr.2 + 1)
        cache := Function.update s.cache s.i.toNat c }
  else
    let c := { c with cache_state := P.INVALID, dbn := 0 }
    some { s with
      i := int32 (s.i + 1)
      j := int32 (s.j + 1)
      next_ptr := (next_ptr.1, next_ptr.2 + 1)
      cache := Function.update s.cache s.i.toNat c }

/-- The inner loop `for (j = 0 ; j < slots_read ; j++)` of flashcache_md_load. -/
def md_load_inner (P : Params) (clean_shutdown : Int) (fuel : Nat)
    (s : md_load_locals) : Flow md_load_locals :=
  while_loop (fun s => decide (s.j < s.slots_read))
    (fun s =>
      match md_load_body P clean_shutdown s with
      | none => Flow.panic
      | some s1 => Flow.run s1) fuel s

/-- One pass of the loop `while (size > 0)` of flashcache_md_load (lines
1073-1140): an I/O block of descriptors is read and its slots are filled. -/
def md_load_block (P : Params) (clean_shutdown : Int) (env : Env)
    (s : md_load_locals) : Flow md_load_locals :=
  let slots_read :=
    min s.size (int32 (int32 P.MD_BLOCKS_PER_SECTOR * P.METADATA_IO_BLOCKSIZE_SECT))
  let where_count :=
    if uint64 slots_read % P.MD_BLOCKS_PER_SECTOR ≠ 0 then
      uint64 (1 + ((uint64 slots_read / P.MD_BLOCKS_PER_SECTOR : Nat) : Int))
    else uint64 slots_read / P.MD_BLOCKS_PER_SECTOR
  let sectors_read := int32 (s.sectors_read + where_count)
  let r := flashcache_dm_io_sync_vm_read_md env s.cdev s.where_sector where_count s.buf
  if r.1 ≠ 0 then
    Flow.ret1 { s with
      slots_read := slots_read, sectors_read := sectors_read, cdev := r.2.2 }
  else
    let where_sector := uint64 (s.where_sector + where_count)
    Flow.map_run (fun s1 => { s1 with size := int32 (s1.size - s1.slots_read) })
      (md_load_inner P clean_shutdown loop_fuel
        { s with
          j := 0
          slots_read := slots_read
          sectors_read := sectors_read
          next_ptr := (0, 0)
          where_sector := where_sector
          buf := r.2.1
          cdev := r.2.2 })

/-- The loop `while (size > 0)` of flashcache_md_load. -/
def md_load_loop (P : Params) (clean_shutdown : Int) (env : Env) (fuel : Nat)
    (s : md_load_locals) : Flow md_load_locals :=
  while_loop (fun s => decide (s.size > 0)) (md_load_block P clean_shutdown env) fuel s

/-- The fields of the instance that flashcache_md_load sets from the
superblock it read (lines 1025-1031). -/
def md_load_geometry (P : Params) (dmc : cache_c) (header : flash_superblock) :
    cache_c :=
  { dmc with
    block_size := header.block_size
    block_shift := uint32 (ffs header.block_size - 1)
    block_mask := uint32 ((header.block_size : Int) - 1)
    size := header.size
    assoc := header.assoc
    consecutive_shift := uint32 (ffs header.assoc - 1)
    md_sectors := uint32 (P.INDEX_TO_MD_SECTOR header.size + 1 + 1) }

/-- The flag `clean_shutdown` that flashcache_md_load derives from the state of
the superblock (lines 1012-1024). -/
def md_load_clean_shutdown (P : Params) (header : flash_superblock) : Int :=
  if header.cache_sb_state = P.CACHE_MD_STATE_DIRTY then 0
  else if header.cache_sb_state = P.CACHE_MD_STATE_CLEAN then 1
  else 1

/-- The state of the locals when the read loop of flashcache_md_load is entered
(lines 1069-1071). -/
def md_load_locals_init (env : Env) (dmc : cache_c) (cdev : Io) : md_load_locals :=
  { i := 0
    j := 0
    size := int32 dmc.size
    slots_read := 0
    sectors_read := 0
    dirty_loaded := 0
    num_valid := 0
    next_ptr := (0, 0)
    where_sector := 1
    buf := env.buf_garbage
    cache := dmc.cache
    cdev := cdev }

/-- The function flashcache_md_load (lines 962-1183).  `vmalloc` number 0 is the
header, number 1 the slot array, number 2 the block buffer, number 3 the
metadata buffer. -/
def flashcache_md_load (P : Params) (dmc : cache_c) (env : Env) (dev : Disk) :
    Outcome md_result :=
  let io0 : Io := { dev := dev, log := [] }
  if env.vmalloc_ok 0 = false then Outcome.returned { ret := 1, dmc := dmc, io := io0 }
  else
    let r := flashcache_dm_io_sync_vm_read_sb env io0
    let header := r.2.1
    if r.1 ≠ 0 then Outcome.returned { ret := 1, dmc := dmc, io := r.2.2 }
    else if ¬ (header.cache_sb_state = P.CACHE_MD_STATE_DIRTY ∨
        header.cache_sb_state = P.CACHE_MD_STATE_CLEAN ∨
        header.cache_sb_state = P.CACHE_MD_STATE_FASTCLEAN) then
      Outcome.returned { ret := 1, dmc := dmc, io := r.2.2 }
    else
      let clean_shutdown := md_load_clean_shutdown P header
      let dmc := md_load_geometry P dmc header
      if env.vmalloc_ok 1 = false then
        Outcome.returned { ret := 1, dmc := dmc, io := r.2.2 }
      else
        let dmc := { dmc with cache := env.cache_garbage }
        if env.vmalloc_ok 2 = false then
          Outcome.returned { ret := 1, dmc := dmc, io := r.2.2 }
        else if env.vmalloc_ok 3 = false then
          Outcome.returned { ret := 1, dmc := dmc, io := r.2.2 }
        else
          let s0 := md_load_locals_init env dmc r.2.2
          (md_load_loop P clean_shutdown env loop_fuel s0).finish
            (fun s => { ret := 1, dmc := { dmc with cache := s.cache }, io := s.cdev })
            (fun s =>
              let dmc := { dmc with cache := s.cache }
              if sectors_expected P dmc.size ≠ s.sectors_read then Outcome.panic
              else
                let w := flashcache_dm_io_sync_vm_write_sb env s.cdev (md_dirty_header P dmc)
                if w.1 ≠ 0 then Outcome.returned { ret := 1, dmc := dmc, io := w.2 }
                else Outcome.returned { ret := 0, dmc := dmc, io := w.2 })

/-! ## Invariants, relations and sample inputs -/

/-- Number of the slots `0 .. k-1` whose state has a bit of `flag` set. -/
def count_flag (flag : Nat) (cache : Nat → cacheblock) : Nat → Nat
  | 0 => 0
  | k + 1 => count_flag flag cache k + (if (cache k).cache_state &&& flag ≠ 0 then 1 else 0)

/-- Where the descriptor loop stands after `k` passes: `S` sectors were handed
to the device, `q` full sectors and `p` further descriptors wait in the buffer.
The requests `ops` issued by the loop are descriptor writes; while none of them
failed, the descriptors of the slots `0 .. k-1` are on the device or in the
buffer, each at its place. -/
structure md_pos (P : Params) (dmc : cache_c) (sb0 : flash_superblock)
    (log0 : List io_req) (S q p : Nat) (ops : List io_req) (k : Nat)
    (s : md_locals) : Prop where
  hq : q < P.METADATA_IO_BLOCKSIZE_SECT
  hp : p < P.MD_BLOCKS_PER_SECTOR
  hk : k = (S + q) * P.MD_BLOCKS_PER_SECTOR + p
  hi : s.i = int32 k
  hj : s.j = (P.MD_BLOCKS_PER_SECTOR : Int) - p
  hsl : s.slots_written = ((q * P.MD_BLOCKS_PER_SECTOR + p : Nat) : Int)
  hsw : s.sectors_written = int32 S
  hnp : s.next_ptr = (q, p)
  hws : s.where_sector = 1 + S
  hsb : s.cdev.dev.sb = sb0
  hlog : s.cdev.log = ops ++ log0
  hlen : ops.length ≤ k
  hops : ∀ op ∈ ops, op.rw = io_dir.WRITE ∧ 1 ≤ op.sector
  hcont : (∀ op ∈ ops, op.error = 0) →
    ∀ sec pos, pos < P.MD_BLOCKS_PER_SECTOR →
      sec * P.MD_BLOCKS_PER_SECTOR + pos < k →
      (sec < S → s.cdev.dev.md (1 + sec) pos
        = md_descriptor P (dmc.cache (sec * P.MD_BLOCKS_PER_SECTOR + pos))) ∧
      (S ≤ sec → s.buf (sec - S) pos
        = md_descriptor P (dmc.cache (sec * P.MD_BLOCKS_PER_SECTOR + pos)))

/-- The pass of the descriptor loop from the state `s` hands an I/O block to the
device. -/
def md_body_writes (P : Params) (s : md_locals) : Prop :=
  int32 (s.j - 1) = 0 ∧
    uint64 (int32 (s.slots_written + 1))
      = uint64 ((P.MD_BLOCKS_PER_SECTOR : Int) * (P.METADATA_IO_BLOCKSIZE_SECT : Int))

instance (P : Params) (s : md_locals) : Decidable (md_body_writes P s) := by
  unfold md_body_writes
  infer_instance

/-- The counters of flashcache_md_store after `k` passes: the VALID and the
DIRTY slots among `0 .. k-1`, and the failed requests among those issued. -/
structure md_counts (P : Params) (dmc : cache_c) (k : Nat) (s : md_locals) : Prop where
  hnv : s.num_valid = int32 (count_flag P.VALID dmc.cache k)
  hnd : s.num_dirty = int32 (count_flag P.DIRTY dmc.cache k)
  hwe : s.write_errors = int32 (s.cdev.log.countP (fun op => decide (op.error ≠ 0)))

/-- The invariant of the loop of flashcache_md_store after `k` passes. -/
def md_store_inv (P : Params) (dmc : cache_c) (env : Env) (sb0 : flash_superblock)
    (k : Nat) (s : md_locals) : Prop :=
  (∃ S q p ops, md_pos P dmc sb0 [] S q p ops k s ∧
    ∀ op ∈ ops, ∃ n, op.error = env.io_error n) ∧ md_counts P dmc k s

/-- The number of passes of a loop `for (i = 0 ; i < size ; i++)` over an `int`
counter: all of `size` when `size` is at most `2^31`, and `2^31` otherwise, the
counter then being negative. -/
def int_loop_passes (size : Nat) : Nat := min size 2147483648

/-- What flashcache_md_store and flashcache_md_create have reached when the
descriptors of the slots `0 .. k-1` are written out: the sector count of the
debug test, the untouched superblock, and, the requests `ops` all being
successful descriptor writes, every descriptor at its place on the device. -/
structure md_written (P : Params) (dmc : cache_c) (sb0 : flash_superblock)
    (log0 : List io_req) (ops : List io_req) (k : Nat) (s : md_locals) : Prop where
  hsw : s.sectors_written = sectors_expected P k
  hsb : s.cdev.dev.sb = sb0
  hlog : s.cdev.log = ops ++ log0
  hlen : ops.length ≤ k + 1
  hops : ∀ op ∈ ops, op.rw = io_dir.WRITE ∧ 1 ≤ op.sector
  hcont : (∀ op ∈ ops, op.error = 0) → ∀ i, i < k →
    s.cdev.dev.md (1 + i / P.MD_BLOCKS_PER_SECTOR) (i % P.MD_BLOCKS_PER_SECTOR)
      = md_descriptor P (dmc.cache i)

/-- The block after the loop, where no request fails or failures are only
counted: the state it leaves. -/
def md_rest_state (P : Params) (env : Env) (s : md_locals) : md_locals :=
  if s.next_ptr ≠ (0, 0) then
    let where_count := uint64 s.slots_written / P.MD_BLOCKS_PER_SECTOR
    let where_count :=
      if uint64 s.slots_written % P.MD_BLOCKS_PER_SECTOR ≠ 0 then uint64 (where_count + 1)
      else where_count
    { s with
      sectors_written := int32 (s.sectors_written + where_count)
      cdev := (flashcache_dm_io_sync_vm_write_md env s.cdev s.where_sector where_count s.buf).2 }
  else s

/-- The state flashcache_md_store is in after the block that follows its
loop. -/
def md_store_rest_state (P : Params) (env : Env) (s : md_locals) : md_locals :=
  { md_rest_state P env s with
    write_errors :=
      if s.next_ptr ≠ (0, 0) ∧ env.io_error s.cdev.log.length ≠ 0 then
        int32 (s.write_errors + 1)
      else s.write_errors }

/-- The slot that flashcache_md_load makes of a descriptor: the descriptor is
taken over after a clean shutdown or when it is DIRTY, and the slot is INVALID
with dbn 0 otherwise. -/
def md_load_slot (P : Params) (clean_shutdown : Int) (d : flash_cacheblock) :
    cacheblock :=
  if clean_shutdown ≠ 0 ∨ d.cache_state &&& P.DIRTY ≠ 0 then
    { cache_state := d.cache_state, nr_queued := 0, dbn := d.dbn }
  else { cache_state := P.INVALID, nr_queued := 0, dbn := 0 }

/-- The `VERIFY` of flashcache_md_load passes on a descriptor: it is not a
descriptor that is taken over with both VALID and INVALID set. -/
def md_load_verify (P : Params) (clean_shutdown : Int) (d : flash_cacheblock) : Prop :=
  ¬ ((clean_shutdown ≠ 0 ∨ d.cache_state &&& P.DIRTY ≠ 0) ∧
    d.cache_state &&& (P.VALID ||| P.INVALID) = (P.VALID ||| P.INVALID))

instance (P : Params) (clean_shutdown : Int) (d : flash_cacheblock) :
    Decidable (md_load_verify P clean_shutdown d) := by
  unfold md_load_verify
  infer_instance

/-- Where the inner loop of flashcache_md_load stands after `j0` passes over an
I/O block that starts at descriptor sector `T`: `next_ptr` is at descriptor `r`
of sector `a` of the buffer, and the slots before `T * M + j0` are loaded from
their descriptors on `dev`. -/
structure md_load_pos (P : Params) (clean_shutdown : Int) (dev : Disk)
    (s0 : md_load_locals) (T a r j0 : Nat) (s : md_load_locals) : Prop where
  hr : r ≤ P.MD_BLOCKS_PER_SECTOR
  hj0 : j0 = a * P.MD_BLOCKS_PER_SECTOR + r
  hle : (j0 : Int) ≤ s0.slots_read
  hj : s.j = j0
  hi : s.i = ((T * P.MD_BLOCKS_PER_SECTOR + j0 : Nat) : Int)
  hnp : s.next_ptr = (a, r)
  hsr : s.slots_read = s0.slots_read
  hsz : s.size = s0.size
  hsec : s.sectors_read = s0.sectors_read
  hws : s.where_sector = s0.where_sector
  hcdev : s.cdev = s0.cdev
  hbuf : s.buf = s0.buf
  hcache : ∀ sec pos, pos < P.MD_BLOCKS_PER_SECTOR →
    sec * P.MD_BLOCKS_PER_SECTOR + pos < T * P.MD_BLOCKS_PER_SECTOR + j0 →
    s.cache (sec * P.MD_BLOCKS_PER_SECTOR + pos)
      = md_load_slot P clean_shutdown (dev.md (1 + sec) pos) ∧
    md_load_verify P clean_shutdown (dev.md (1 + sec) pos)

/-- Where the loop `while (size > 0)` of flashcache_md_load stands after `T`
descriptor sectors are read, `L` being the number of slots to load: the slots
before `min (T * M) L` are loaded from their descriptors on `dev`, and the
requests `ops` issued by the loop are reads. -/
structure md_load_inv (P : Params) (clean_shutdown : Int) (dev : Disk)
    (log0 : List io_req) (L T : Nat) (ops : List io_req) (s : md_load_locals) : Prop where
  hL : L ≤ 2147483647
  hT : T * P.MD_BLOCKS_PER_SECTOR < L + P.MD_BLOCKS_PER_SECTOR
  hsz : s.size = (L : Int) - ((min (T * P.MD_BLOCKS_PER_SECTOR) L : Nat) : Int)
  hi : s.i = ((min (T * P.MD_BLOCKS_PER_SECTOR) L : Nat) : Int)
  hsec : s.sectors_read = int32 T
  hws : s.where_sector = 1 + T
  hdev : s.cdev.dev = dev
  hlog : s.cdev.log = ops ++ log0
  hops : ∀ op ∈ ops, op.rw = io_dir.READ ∧ op.error = 0
  hcache : ∀ sec pos, pos < P.MD_BLOCKS_PER_SECTOR →
    sec * P.MD_BLOCKS_PER_SECTOR + pos < min (T * P.MD_BLOCKS_PER_SECTOR) L →
    s.cache (sec * P.MD_BLOCKS_PER_SECTOR + pos)
      = md_load_slot P clean_shutdown (dev.md (1 + sec) pos) ∧
    md_load_verify P clean_shutdown (dev.md (1 + sec) pos)

/-- The locals when the inner loop of flashcache_md_load is entered, `c` sectors
with `n` descriptors being read at descriptor sector `T`. -/
def md_load_inner_init (s : md_load_locals) (dev : Disk) (T n c : Nat) : md_load_locals :=
  { s with
    j := 0
    slots_read := (n : Int)
    sectors_read := int32 ((T : Int) + (c : Int))
    next_ptr := (0, 0)
    where_sector := 1 + (T + c)
    buf := dev.read_md (1 + T) c s.buf
    cdev := { dev := dev, log := ⟨io_dir.READ, 1 + T, c, 0⟩ :: s.cdev.log } }

/-- The instance flashcache_md_load works on once the superblock is read and
the slot array allocated. -/
def md_load_dmc (P : Params) (dmc : cache_c) (env : Env) (dev : Disk) : cache_c :=
  { md_load_geometry P dmc dev.sb with cache := env.cache_garbage }

/-- The cache device after the read of the superblock succeeded. -/
def md_load_cdev (dev : Disk) : Io :=
  { dev := dev, log := [⟨io_dir.READ, 0, 1, 0⟩] }

/-- The state in which flashcache_md_create returns after the write of an I/O
block failed in the pass from `s`. -/
def md_create_ret_state (P : Params) (dmc : cache_c) (env : Env) (s : md_locals) :
    md_locals :=
  let buf := buf_set s.buf s.next_ptr (md_descriptor P (dmc.cache s.i.toNat))
  let where_count := uint64 (int32 (s.slots_written + 1)) / P.MD_BLOCKS_PER_SECTOR
  { s with
    j := int32 (s.j - 1)
    slots_written := 0
    sectors_written := int32 (s.sectors_written + where_count)
    next_ptr := (s.next_ptr.1, s.next_ptr.2 + 1)
    buf := buf
    cdev := (flashcache_dm_io_sync_vm_write_md env s.cdev s.where_sector where_count buf).2 }

/-- The state a pass of the loop of flashcache_md_create leaves where it does
not return: that of flashcache_md_store, the counters apart. -/
def md_create_run_state (P : Params) (dmc : cache_c) (env : Env) (s : md_locals) :
    md_locals :=
  { md_store_body P dmc env s with
    num_valid := s.num_valid
    num_dirty := s.num_dirty
    write_errors := s.write_errors }

/-- The invariant of the descriptor loop of flashcache_md_create after `k`
passes: that of flashcache_md_store, and no request has failed. -/
def md_create_inv (P : Params) (dmc : cache_c) (sb0 : flash_superblock)
    (log0 : List io_req) (k : Nat) (s : md_locals) : Prop :=
  ∃ S q p ops, md_pos P dmc sb0 log0 S q p ops k s ∧ ∀ op ∈ ops, op.error = 0

/-- The slot that flashcache_md_create initialises. -/
def md_create_slot (P : Params) : cacheblock :=
  { dbn := 0, cache_state := P.INVALID, nr_queued := 0 }

/-- The invariant of the loop that initialises the slot array, after `k`
passes. -/
def md_init_inv (P : Params) (garbage : Nat → cacheblock) (k : Nat)
    (s : Int × (Nat → cacheblock)) : Prop :=
  s.1 = int32 (k : Int) ∧ (∀ m : Nat, m < k → s.2 m = md_create_slot P) ∧
    (∀ m : Nat, k ≤ m → s.2 m = garbage m)

/-- The cache device after flashcache_md_create has read the superblock. -/
def md_create_cdev (env : Env) (dev : Disk) : Io :=
  { dev := dev, log := [⟨io_dir.READ, 0, 1, env.io_error 0⟩] }

/-- The locals when the descriptor loop of flashcache_md_create is entered. -/
def md_create_locals_init (P : Params) (env : Env) (dev : Disk) : md_locals :=
  { md_locals_init P env dev with cdev := md_create_cdev env dev }

/-- Sample constants, those of a build with 16-byte descriptors and metadata
I/O blocks of 256 KiB: the flag masks INVALID 1, VALID 2 and DIRTY 0x40, the
superblock states 0xdeadbeef (DIRTY), 0xfacecafe (CLEAN), 0xcafefeed (FASTCLEAN)
and 0xc8249756 (UNSTABLE), 32 descriptors in a sector and 512 sectors in a
metadata I/O block. -/
def sample_params : Params :=
  { INVALID := 1
    VALID := 2
    DIRTY := 64
    CACHE_MD_STATE_DIRTY := 3735928559
    CACHE_MD_STATE_CLEAN := 4207856382
    CACHE_MD_STATE_FASTCLEAN := 3405709037
    CACHE_MD_STATE_UNSTABLE := 3357840214
    MD_BLOCKS_PER_SECTOR := 32
    METADATA_IO_BLOCKSIZE_SECT := 512
    INDEX_TO_MD_SECTOR := fun i => i / 32
    FLASHCACHE_VERSION := 1
    DEV_PATHLEN := 128 }

/-- An environment in which every allocation and every I/O request succeeds. -/
def sample_env : Env :=
  { io_error := fun _ => 0
    vmalloc_ok := fun _ => true
    buf_garbage := fun _ _ => { dbn := 0, cache_state := 0 }
    cache_garbage := fun _ => { cache_state := 0, nr_queued := 0, dbn := 7 } }

/-- A superblock with the given state and number of slots. -/
def sample_sb (state size : Nat) : flash_superblock :=
  { cache_sb_state := state
    block_size := 8
    size := size
    assoc := 4
    disk_devname := []
    cache_devname := []
    cache_devsize := 1000
    disk_devsize := 100000
    cache_version := 1 }

/-- A cache device with the given superblock whose descriptors all are
VALID | DIRTY with dbn 5. -/
def sample_disk (state size : Nat) : Disk :=
  { sb := sample_sb state size
    md := fun _ _ => { dbn := 5, cache_state := 66 } }

/-- The sample device with a DIRTY superblock. -/
def sample_disk_dirty (size : Nat) : Disk :=
  sample_disk sample_params.CACHE_MD_STATE_DIRTY size

/-- The sample device with a CLEAN superblock. -/
def sample_disk_clean (size : Nat) : Disk :=
  sample_disk sample_params.CACHE_MD_STATE_CLEAN size

/-- The sample device with a FASTCLEAN superblock. -/
def sample_disk_fastclean (size : Nat) : Disk :=
  sample_disk sample_params.CACHE_MD_STATE_FASTCLEAN size

/-- The sample device with an UNSTABLE superblock. -/
def sample_disk_unstable (size : Nat) : Disk :=
  sample_disk sample_params.CACHE_MD_STATE_UNSTABLE size

/-- An instance with `size` slots, each VALID with the dbn of its index plus
ten; the slots from `dirty_from` on also are DIRTY. -/
def sample_dmc (size dirty_from : Nat) : cache_c :=
  { cache := fun i =>
      { cache_state := if dirty_from ≤ i then 66 else 2, nr_queued := 0, dbn := i + 10 }
    size := size
    assoc := 4
    block_size := 8
    block_shift := 3
    block_mask := 7
    consecutive_shift := 2
    md_sectors := 0
    disk_devname := []
    cache_devname := []
    cache_devsize := 1000
    disk_devsize := 100000 }

/-- Two ways a loop ends are related: they end the same way, in related
states. -/
def Flow.rel {σ : Type} (R : σ → σ → Prop) : Flow σ → Flow σ → Prop
  | Flow.run a, Flow.run b => R a b
  | Flow.ret1 a, Flow.ret1 b => R a b
  | Flow.panic, Flow.panic => True
  | Flow.timeout, Flow.timeout => True
  | _, _ => False

/-- The locals `t` are the locals `s` but for the content of the cache
device. -/
def md_sim (s t : md_locals) : Prop :=
  t = { s with cdev := { dev := t.cdev.dev, log := s.cdev.log } }

/-- The return code of a call of one of the metadata functions. -/
def md_return_code (o : Outcome md_result) : Outcome Int :=
  match o with
  | Outcome.returned r => Outcome.returned r.ret
  | Outcome.panic => Outcome.panic
  | Outcome.timeout => Outcome.timeout

/-- The result of a call that returned. -/
def Outcome.toOption {α : Type} : Outcome α → Option α
  | Outcome.returned r => some r
  | Outcome.panic => none
  | Outcome.timeout => none

/-- An environment in which the first I/O request of a call fails with error
5 and everything else succeeds. -/
def sample_env_fail : Env :=
  { sample_env with io_error := fun k => if k = 0 then 5 else 0 }

/-- An instance as flashcache_ctr hands it to flashcache_md_create: `size` is
the size of the cache device in sectors, with blocks of 8 sectors and sets of 4
blocks. -/
def sample_dmc_new (sectors : Nat) : cache_c :=
  { sample_dmc sectors 0 with cache_devsize := sectors }

/-- A CLEAN superblock of three slots with blocks of 3 sectors and sets of 5
slots: none of the three numbers is a power of two. -/
def sample_sb_odd : flash_superblock :=
  { sample_sb sample_params.CACHE_MD_STATE_CLEAN 3 with block_size := 3, assoc := 5 }

/-- A cache device with the superblock `sample_sb_odd` whose descriptors all
are VALID with dbn 5. -/
def sample_disk_odd : Disk :=
  { sb := sample_sb_odd
    md := fun _ _ => { dbn := 5, cache_state := 2 } }

/-- A cache device with a DIRTY superblock of `size` slots whose descriptors
all have the DIRTY flag alone, with dbn 5. -/
def sample_disk_dirty_only (size : Nat) : Disk :=
  { sb := sample_sb sample_params.CACHE_MD_STATE_DIRTY size
    md := fun _ _ => { dbn := 5, cache_state := 64 } }

/-- The flag masks are as the slot tests need them: INVALID and DIRTY share no
bit, and VALID has a bit that INVALID has not. -/
def Params.flags_wf (P : Params) : Prop :=
  P.INVALID &&& P.DIRTY = 0 ∧ P.VALID ||| P.INVALID ≠ P.INVALID

instance (P : Params) : Decidable P.flags_wf := by
  unfold Params.flags_wf
  infer_instance

/-- An environment in which every allocation and every I/O request succeeds and
fresh memory for the slot array holds slots with the flags VALID, INVALID and
DIRTY all set. -/
def sample_env_junk : Env :=
  { sample_env with cache_garbage := fun _ => { cache_state := 67, nr_queued := 0, dbn := 7 } }

/-- An environment in which every allocation and every I/O request succeeds and
fresh memory for the metadata buffer holds descriptors with dbn 9 and state
9. -/
def sample_env_buf : Env :=
  { sample_env with buf_garbage := fun _ _ => { dbn := 9, cache_state := 9 } }

/-- The macro INDEX_TO_MD_SECTOR of flashcache.h is the quotient by
MD_BLOCKS_PER_SECTOR: the descriptor sector, counted from the first one, in
which flashcache_md_store lays down the descriptor of a slot. -/
def Params.md_index_wf (P : Params) : Prop :=
  ∀ i, P.INDEX_TO_MD_SECTOR i = i / P.MD_BLOCKS_PER_SECTOR

/-- An instance as flashcache_ctr hands it to flashcache_md_create for a
requested size of one sector with blocks of 2^29 sectors and sets of one slot,
on a cache device of 2^30 sectors. -/
def sample_dmc_wrap : cache_c :=
  { sample_dmc 1 0 with block_size := 536870912, assoc := 1, cache_devsize := 1073741824 }

/-- An instance as flashcache_ctr hands it to flashcache_md_create for a
requested size of 1000 sectors on a cache device of 100 sectors. -/
def sample_dmc_small : cache_c :=
  { sample_dmc 1000 0 with cache_devsize := 100 }

/-- A cache set (`struct cache_set`), without the heads of its LRU list; the
four fields are 32-bit unsigned words. -/
structure cache_set where
  set_fifo_next : Nat
  set_clean_next : Nat
  nr_dirty : Nat
  clean_inprog : Nat
  deriving DecidableEq

/-- The cache instance as flashcache_ctr, flashcache_dtr and
flashcache_sync_for_remove see it: the fields of `struct cache_c` that the
metadata code touches (`dmc`), the array of cache sets, and the counters and
tunables.  An index beyond the array of sets addresses the memory behind it. -/
structure cache_inst where
  dmc : cache_c
  cache_sets : Nat → cache_set
  nr_dirty : Int
  cached_blocks : Nat
  fast_remove_in_prog : Int
  max_clean_ios_total : Int
  max_clean_ios_set : Int
  dirty_thresh_set : Int
  sync_index : Int
  clean_inprog : Int

/-- The function flashcache_sync_for_remove (lines 1749-1781), a `do ... while`
loop run for at most `fuel` further passes.  `fast_remove` is the global
`sysctl_flashcache_fast_remove`.  The model is sequential: no job is in flight,
so that `msleep` and `wait_event` return at once.  The cleaning started by
flashcache_sync_all, a function defined outside flashcache_conf.c, and awaited
by `wait_event` is the parameter `sync_all`. -/
def flashcache_sync_for_remove (fast_remove : Int) (sync_all : cache_inst → cache_inst)
    (fuel : Nat) (s : cache_inst) : Flow cache_inst :=
  let body : cache_inst → Flow cache_inst := fun s =>
    if fast_remove = 0 then
      Flow.run (sync_all { s with max_clean_ios_total := 20, max_clean_ios_set := 10 })
    else
      Flow.run { s with fast_remove_in_prog := 1 }
  match body s with
  | Flow.run s1 =>
    while_loop (fun s => decide (fast_remove = 0 ∧ s.nr_dirty > 0)) body fuel s1
  | other => other

/-- The function flashcache_dtr (lines 1515-1605) up to the call of
flashcache_md_store: what the removal of an instance does to the cache device.
The statements that follow print statistics and free the instance. -/
def flashcache_dtr (P : Params) (fast_remove : Int) (sync_all : cache_inst → cache_inst)
    (s : cache_inst) (env : Env) (dev : Disk) : Outcome md_result :=
  (flashcache_sync_for_remove fast_remove sync_all loop_fuel s).finish
    (fun s1 => { ret := 1, dmc := s1.dmc, io := { dev := dev, log := [] } })
    (fun s1 => flashcache_md_store P s1.dmc env dev)

/-- An instance around the slot table `dmc`, with no set DIRTY-counted and the
counters at zero except `nr_dirty`. -/
def sample_inst (dmc : cache_c) (nr_dirty : Int) : cache_inst :=
  { dmc := dmc
    cache_sets := fun _ =>
      { set_fifo_next := 0, set_clean_next := 0, nr_dirty := 0, clean_inprog := 0 }
    nr_dirty := nr_dirty
    cached_blocks := 0
    fast_remove_in_prog := 0
    max_clean_ios_total := 4
    max_clean_ios_set := 2
    dirty_thresh_set := 0
    sync_index := 0
    clean_inprog := 0 }

/-- Constants of flashcache.h and of errno.h that flashcache_ctr uses. -/
structure ctr_consts where
  CACHE_RELOAD : Int
  CACHE_CREATE : Int
  CACHE_FORCECREATE : Int
  DEFAULT_BLOCK_SIZE : Nat
  DEFAULT_CACHE_ASSOC : Nat
  FLASHCACHE_MAX_ASSOC : Nat
  EINVAL : Int
  ENOMEM : Int

/-- What the code relies on: the error numbers are positive, the three
persistence modes are positive and ascending values of an `int`, and the
default block size and the default associativity are 32-bit powers of two, the
associativity not above FLASHCACHE_MAX_ASSOC. -/
def ctr_consts.wf (C : ctr_consts) : Prop :=
  0 < C.EINVAL ∧ 0 < C.ENOMEM ∧
  0 < C.CACHE_RELOAD ∧ C.CACHE_RELOAD < C.CACHE_CREATE ∧
  C.CACHE_CREATE < C.CACHE_FORCECREATE ∧
  C.DEFAULT_BLOCK_SIZE ≠ 0 ∧ C.DEFAULT_BLOCK_SIZE &&& (C.DEFAULT_BLOCK_SIZE - 1) = 0 ∧
  C.DEFAULT_BLOCK_SIZE < 4294967296 ∧
  C.DEFAULT_CACHE_ASSOC ≠ 0 ∧ C.DEFAULT_CACHE_ASSOC &&& (C.DEFAULT_CACHE_ASSOC - 1) = 0 ∧
  C.DEFAULT_CACHE_ASSOC ≤ C.FLASHCACHE_MAX_ASSOC ∧ C.DEFAULT_CACHE_ASSOC < 4294967296 ∧
  C.CACHE_FORCECREATE < 2147483648

instance (C : ctr_consts) : Decidable C.wf := by
  unfold ctr_consts.wf
  infer_instance

/-- The arguments of flashcache_ctr.  `argv[0]` and `argv[1]` are the paths of
the two devices.  Of each further argument the model keeps what `sscanf` makes
of it: `none` where the conversion fails, and the number converted otherwise.
An argument at a position from `argc` on is not looked at. -/
structure ctr_args where
  argc : Nat
  disk_path : List Nat
  cache_path : List Nat
  persistence : Option Nat
  block_size : Option Nat
  size : Option Nat
  assoc : Option Nat

/-- What flashcache_ctr cannot control: whether `kzalloc` succeeds, the error
codes of the device lookups and of the creation of the two clients, the sizes
of the two devices in sectors, the environment of the metadata function it
calls, whether its two `vmalloc`s succeed, what the fresh memory of the set
array holds, and the values of three sysctl variables. -/
structure ctr_env where
  kzalloc_ok : Bool
  disk_dev_error : Int
  cache_dev_error : Int
  io_client_error : Int
  kcopyd_error : Int
  disk_devsize : Nat
  cache_devsize : Nat
  md : Env
  cache_sets_ok : Bool
  cache_sets_garbage : Nat → cache_set
  md_sectors_buf_ok : Bool
  sysctl_flashcache_dirty_thresh : Int
  sysctl_max_clean_ios_total : Int
  sysctl_max_clean_ios_set : Int

/-- What flashcache_ctr leaves behind when it returns: its return value, the
instance (on a failure the one that was freed), and the cache device with the
requests issued to it. -/
structure ctr_result where
  r : Int
  inst : cache_inst
  io : Io

/-- The instance after `kzalloc`, every field zero, with the sizes of the two
devices that `cache_devsize` and `disk_devsize` stand for. -/
def ctr_kzalloc (env : ctr_env) : cache_inst :=
  { dmc :=
      { cache := fun _ => { cache_state := 0, nr_queued := 0, dbn := 0 }
        size := 0
        assoc := 0
        block_size := 0
        block_shift := 0
        block_mask := 0
        consecutive_shift := 0
        md_sectors := 0
        disk_devname := []
        cache_devname := []
        cache_devsize := env.cache_devsize
        disk_devsize := env.disk_devsize }
    cache_sets := env.cache_sets_garbage
    nr_dirty := 0
    cached_blocks := 0
    fast_remove_in_prog := 0
    max_clean_ios_total := 0
    max_clean_ios_set := 0
    dirty_thresh_set := 0
    sync_index := 0
    clean_inprog := 0 }

/-- A loop `for (i = 0 ; i < n ; i++)` over a counter of type `sector_t`, which
does not wrap for `n` below 2^64: the passes `0 .. n-1` in order, and `none`
where a pass stops the kernel. -/
def for_loop {σ : Type} (body : Nat → σ → Option σ) : Nat → σ → Option σ
  | 0, s => some s
  | n + 1, s => (for_loop body n s).bind (body n)

/-- One pass of the loop of flashcache_ctr that counts the VALID and the DIRTY
slots (lines 1430-1437).  The division `i / dmc->assoc` by zero stops the
kernel. -/
def ctr_count_body (P : Params) (i : Nat) (s : cache_inst) : Option cache_inst :=
  let st := (s.dmc.cache i).cache_state
  let s1 :=
    if st &&& P.VALID ≠ 0 then { s with cached_blocks := uint64 (s.cached_blocks + 1) }
    else s
  if st &&& P.DIRTY ≠ 0 then
    if s1.dmc.assoc = 0 then none
    else
      let set := s1.cache_sets (i / s1.dmc.assoc)
      some { s1 with
        cache_sets := Function.update s1.cache_sets (i / s1.dmc.assoc)
          { set with nr_dirty := uint32 (set.nr_dirty + 1) }
        nr_dirty := int32 (s1.nr_dirty + 1) }
  else some s1

/-- The statements of flashcache_ctr from the label `init` on (lines
1368-1453).  A `vmalloc` of no bytes returns NULL, so the allocation of the set
array fails where the number of sets is 0, and that of `md_sectors_buf` where
`md_sectors - 1` is 0, whatever the environment says.  The loop that pushes the
slots into the LRU lists and the loop over `md_sectors_buf` touch no field of
the model. -/
def ctr_init (P : Params) (C : ctr_consts) (env : ctr_env) (s : cache_inst) (io : Io) :
    Outcome ctr_result :=
  if env.cache_sets_ok = false ∨ s.dmc.size >>> s.dmc.consecutive_shift = 0 then
    Outcome.returned { r := -C.ENOMEM, inst := s, io := io }
  else
    let nsets := s.dmc.size >>> s.dmc.consecutive_shift
    let s1 := { s with
      cache_sets := fun i =>
        if i < nsets then
          { set_fifo_next := uint32 (i * s.dmc.assoc)
            set_clean_next := uint32 (i * s.dmc.assoc)
            nr_dirty := 0
            clean_inprog := 0 }
        else env.cache_sets_garbage i }
    if env.md_sectors_buf_ok = false ∨ int32 s.dmc.md_sectors - 1 = 0 then
      Outcome.returned { r := -C.ENOMEM, inst := s1, io := io }
    else
      let s2 := { s1 with
        sync_index := 0
        clean_inprog := 0
        dirty_thresh_set :=
          int32 ((uint32 (s1.dmc.assoc * env.sysctl_flashcache_dirty_thresh) / 100 : Nat) : Int)
        max_clean_ios_total := env.sysctl_max_clean_ios_total
        max_clean_ios_set := env.sysctl_max_clean_ios_set }
      match for_loop (ctr_count_body P) s2.dmc.size s2 with
      | none => Outcome.panic
      | some s3 => Outcome.returned { r := 0, inst := s3, io := io }

/-- The block-size argument of flashcache_ctr (lines 1308-1322): `none` where
the function leaves with -EINVAL, and the instance with `block_size`,
`block_shift` and `block_mask` set otherwise. -/
def ctr_block_size (C : ctr_consts) (args : ctr_args) (s : cache_inst) : Option cache_inst :=
  let set := fun (b : Nat) =>
    { s with dmc := { s.dmc with
        block_size := b
        block_shift := uint32 (ffs b - 1)
        block_mask := uint32 ((b : Int) - 1) } }
  if args.argc ≥ 4 then
    match args.block_size with
    | none => none
    | some v =>
      let b := uint32 v
      if b = 0 ∨ b &&& (b - 1) ≠ 0 then none else some (set b)
  else some (set C.DEFAULT_BLOCK_SIZE)

/-- The size argument of flashcache_ctr (lines 1324-1333), in sectors. -/
def ctr_size (env : ctr_env) (args : ctr_args) (s : cache_inst) : Option cache_inst :=
  if args.argc ≥ 5 then
    match args.size with
    | none => none
    | some v => some { s with dmc := { s.dmc with size := uint64 v } }
  else some { s with dmc := { s.dmc with size := env.cache_devsize } }

/-- The associativity argument of flashcache_ctr (lines 1335-1352). -/
def ctr_assoc (C : ctr_consts) (args : ctr_args) (s : cache_inst) : Option cache_inst :=
  let set := fun (a : Nat) =>
    { s with dmc := { s.dmc with assoc := a, consecutive_shift := uint32 (ffs a - 1) } }
  if args.argc ≥ 6 then
    match args.assoc with
    | none => none
    | some v =>
      let a := uint32 v
      if a = 0 ∨ a &&& (a - 1) ≠ 0 ∨ a > C.FLASHCACHE_MAX_ASSOC ∨ s.dmc.size < a then none
      else some (set a)
  else some (set C.DEFAULT_CACHE_ASSOC)

/-- The persistence argument of flashcache_ctr (lines 1286-1298): `none` where
the function leaves with -EINVAL, and the value of the `int` variable
`persistence` otherwise, 0 when there is no such argument. -/
def ctr_persistence (C : ctr_consts) (args : ctr_args) : Option Int :=
  if args.argc ≥ 3 then
    match args.persistence with
    | none => none
    | some v =>
      let persistence := int32 (uint32 v)
      if persistence < C.CACHE_RELOAD ∨ persistence > C.CACHE_FORCECREATE then none
      else some persistence
  else some 0

/-- The call of one of the metadata functions in flashcache_ctr and the test of
its return value: -EINVAL on a failure, the statements from `init` on
otherwise. -/
def ctr_after_md (P : Params) (C : ctr_consts) (env : ctr_env) (s : cache_inst)
    (m : Outcome md_result) : Outcome ctr_result :=
  match m with
  | Outcome.returned res =>
    if res.ret ≠ 0 then
      Outcome.returned { r := -C.EINVAL, inst := { s with dmc := res.dmc }, io := res.io }
    else ctr_init P C env { s with dmc := res.dmc } res.io
  | Outcome.panic => Outcome.panic
  | Outcome.timeout => Outcome.timeout

/-- The statements of flashcache_ctr from the persistence argument to the call
of flashcache_md_load or flashcache_md_create (lines 1286-1366), followed by
those from `init` on. -/
def ctr_configure (P : Params) (C : ctr_consts) (env : ctr_env) (args : ctr_args)
    (s3 : cache_inst) (dev : Disk) : Outcome ctr_result :=
  let io0 : Io := { dev := dev, log := [] }
  let fail := fun (r : Int) (s : cache_inst) =>
    Outcome.returned { r := r, inst := s, io := io0 }
  match ctr_persistence C args with
  | none => fail (-C.EINVAL) s3
  | some persistence =>
    if persistence = C.CACHE_RELOAD then
      ctr_after_md P C env s3 (flashcache_md_load P s3.dmc env.md dev)
    else
      match ctr_block_size C args s3 with
      | none => fail (-C.EINVAL) s3
      | some s4 =>
        match ctr_size env args s4 with
        | none => fail (-C.EINVAL) s4
        | some s5 =>
          match ctr_assoc C args s5 with
          | none => fail (-C.EINVAL) s5
          | some s6 =>
            if persistence = C.CACHE_CREATE then
              ctr_after_md P C env s6 (flashcache_md_create P s6.dmc 0 env.md dev)
            else
              ctr_after_md P C env s6 (flashcache_md_create P s6.dmc 1 env.md dev)

/-- The instance when flashcache_ctr comes to the persistence argument: the
names of the two devices are set, and flashcache_kcached_init has cleared
`fast_remove_in_prog`. -/
def ctr_setup (P : Params) (env : ctr_env) (args : ctr_args) : cache_inst :=
  let s0 := ctr_kzalloc env
  { s0 with
    dmc := { s0.dmc with
      disk_devname := strncpy args.disk_path P.DEV_PATHLEN
      cache_devname := strncpy args.cache_path P.DEV_PATHLEN }
    fast_remove_in_prog := 0 }

/-- The function flashcache_ctr (lines 1213-1474), for a kernel from 2.6.27 on,
where flashcache_kcached_init returns 0. -/
def flashcache_ctr (P : Params) (C : ctr_consts) (env : ctr_env) (args : ctr_args)
    (dev : Disk) : Outcome ctr_result :=
  let io0 : Io := { dev := dev, log := [] }
  let s0 := ctr_kzalloc env
  let fail := fun (r : Int) (s : cache_inst) =>
    Outcome.returned { r := r, inst := s, io := io0 }
  if args.argc < 2 then fail (-C.EINVAL) s0
  else if env.kzalloc_ok = false then fail C.ENOMEM s0
  else if env.disk_dev_error ≠ 0 then fail env.disk_dev_error s0
  else
    let s1 := { s0 with dmc := { s0.dmc with
      disk_devname := strncpy args.disk_path P.DEV_PATHLEN } }
    if env.cache_dev_error ≠ 0 then fail env.cache_dev_error s1
    else
      let s2 := { s1 with dmc := { s1.dmc with
        cache_devname := strncpy args.cache_path P.DEV_PATHLEN } }
      if env.io_client_error ≠ 0 then fail env.io_client_error s2
      else if env.kcopyd_error ≠ 0 then fail env.kcopyd_error s2
      else ctr_configure P C env args (ctr_setup P env args) dev

/-- The steps of flashcache_ctr before the persistence argument succeed: the
instance is allocated, the two devices are found and the two clients are
created. -/
def ctr_env.setup_ok (env : ctr_env) : Prop :=
  env.kzalloc_ok = true ∧ env.disk_dev_error = 0 ∧ env.cache_dev_error = 0 ∧
  env.io_client_error = 0 ∧ env.kcopyd_error = 0

instance (env : ctr_env) : Decidable env.setup_ok := by
  unfold ctr_env.setup_ok
  infer_instance

/-- Sample constants, those of flashcache.h and errno.h: the modes 1, 2 and 3,
blocks of 8 sectors and sets of 512 slots by default, sets of at most 8192
slots, EINVAL 22 and ENOMEM 12. -/
def sample_consts : ctr_consts :=
  { CACHE_RELOAD := 1
    CACHE_CREATE := 2
    CACHE_FORCECREATE := 3
    DEFAULT_BLOCK_SIZE := 8
    DEFAULT_CACHE_ASSOC := 512
    FLASHCACHE_MAX_ASSOC := 8192
    EINVAL := 22
    ENOMEM := 12 }

/-- An environment of flashcache_ctr in which nothing fails, with a cache
device of `sectors` sectors and the environment `md` for the metadata
function. -/
def sample_ctr_env (sectors : Nat) (md : Env) : ctr_env :=
  { kzalloc_ok := true
    disk_dev_error := 0
    cache_dev_error := 0
    io_client_error := 0
    kcopyd_error := 0
    disk_devsize := 100000
    cache_devsize := sectors
    md := md
    cache_sets_ok := true
    cache_sets_garbage := fun _ =>
      { set_fifo_next := 9, set_clean_next := 9, nr_dirty := 9, clean_inprog := 9 }
    md_sectors_buf_ok := true
    sysctl_flashcache_dirty_thresh := 20
    sysctl_max_clean_ios_total := 4
    sysctl_max_clean_ios_set := 2 }

/-- An argument vector of `argc` arguments with the given persistence, block
size, size and associativity. -/
def sample_args (argc : Nat) (persistence block_size size assoc : Option Nat) : ctr_args :=
  { argc := argc
    disk_path := [47, 100]
    cache_path := [47, 99]
    persistence := persistence
    block_size := block_size
    size := size
    assoc := assoc }

/-- The number of slots among the first `n` that lie in set `t`, for sets of
`assoc` slots, and have a bit of `flag` set. -/
def count_set (flag assoc t : Nat) (cache : Nat → cacheblock) : Nat → Nat
  | 0 => 0
  | n + 1 => count_set flag assoc t cache n
      + (if n / assoc = t ∧ (cache n).cache_state &&& flag ≠ 0 then 1 else 0)

/-- An environment in which nothing fails and fresh memory, that of the slot
array too, is as in `sample_env_junk`. -/
def sample_ctr_env_junk : ctr_env := sample_ctr_env 1000 sample_env_junk

/-- The requests `ops`, newest first, are writes of consecutive runs of
sectors: the oldest starts at sector 1, each of the others starts at the sector
that follows the run of the one before it, each covers at least one sector, and
`next` is the sector that follows the run of the newest. -/
def md_chain : List io_req → Nat → Prop
  | [], next => next = 1
  | op :: rest, next =>
    op.rw = io_dir.WRITE ∧ op.sector + op.count = next ∧ 1 ≤ op.count ∧
      md_chain rest op.sector

/-- The number of sectors that the requests cover together. -/
def md_sectors_total (ops : List io_req) : Nat :=
  (ops.map (fun op => op.count)).sum

/-- The requests that the descriptor loop has issued after `k` passes are
consecutive writes from sector 1 up to `where.sector`. -/
def md_chained (P : Params) (dmc : cache_c) (sb0 : flash_superblock)
    (log0 : List io_req) (k : Nat) (s : md_locals) : Prop :=
  ∀ S q p ops, md_pos P dmc sb0 log0 S q p ops k s → md_chain ops (1 + S)

/-- The descriptor sectors of the device that no write among the requests has
covered hold what the device `dev0` held. -/
def md_untouched (dev0 : Disk) (io : Io) : Prop :=
  ∀ sec pos, (∀ op ∈ io.log, op.rw = io_dir.WRITE →
      ¬ (op.sector ≤ sec ∧ sec < op.sector + op.count)) →
    io.dev.md sec pos = dev0.md sec pos

/-- An instance of 2^31 + 2^37 slots, those from 2^31 on DIRTY, as
flashcache_md_create leaves it on a cache device of 1116758868998 sectors. -/
def sample_dmc_giant : cache_c :=
  { sample_dmc 139586437120 2147483648 with cache_devsize := 1116758868998 }

/-- An instance as flashcache_ctr hands it to flashcache_md_create on a cache
device of 17247241254 sectors, which gives 2^31 + 4 slots. -/
def sample_dmc_over : cache_c := sample_dmc_new 17247241254

/-- A call that ends in a panic. -/
def Outcome.is_panic {α : Type} : Outcome α → Bool
  | Outcome.panic => true
  | _ => false

/-- A cache device with a CLEAN superblock of three slots whose descriptors
have both VALID and INVALID set. -/
def sample_disk_both : Disk :=
  { sb := sample_sb sample_params.CACHE_MD_STATE_CLEAN 3
    md := fun _ _ => { dbn := 5, cache_state := 3 } }

/-- An environment in which the second request, the first write of descriptors,
fails with the error 5 and nothing else fails. -/
def sample_env_write_fail : Env :=
  { sample_env with io_error := fun k => if k = 1 then 5 else 0 }

/-- The bounds and the default of the dirty threshold, constants of
flashcache.h. -/
structure thresh_consts where
  DIRTY_THRESH_MIN : Int
  DIRTY_THRESH_MAX : Int
  DIRTY_THRESH_DEF : Int

/-- The default lies between the bounds, and the bounds are percentages. -/
def thresh_consts.wf (T : thresh_consts) : Prop :=
  0 ≤ T.DIRTY_THRESH_MIN ∧ T.DIRTY_THRESH_MIN ≤ T.DIRTY_THRESH_DEF ∧
  T.DIRTY_THRESH_DEF ≤ T.DIRTY_THRESH_MAX ∧ T.DIRTY_THRESH_MAX ≤ 100

instance (T : thresh_consts) : Decidable T.wf := by
  unfold thresh_consts.wf
  infer_instance

/-- The globals that flashcache_dirty_thresh_sysctl_handler touches: the `int`
variable `sysctl_flashcache_dirty_thresh`, and the instances on the list that
starts at `cache_list_head` and is linked by `next_cache`. -/
structure sysctl_globals where
  sysctl_flashcache_dirty_thresh : Int
  cache_list : List cache_inst

/-- The function flashcache_dirty_thresh_sysctl_handler (lines 191-224).  The
entry of the table for `dirty_thresh_pct` sets no bounds, so for a write
`proc_dointvec_minmax` leaves in the variable the `int` it has read from the
user, here `written`; for a read it leaves the variable as it is.  The model is
sequential: the bit lock on the list is free.  The result is the return value
and the globals. -/
def flashcache_dirty_thresh_sysctl_handler (T : thresh_consts) (write : Int) (written : Int)
    (g : sysctl_globals) : Int × sysctl_globals :=
  if write ≠ 0 then
    let thresh :=
      if written > T.DIRTY_THRESH_MAX ∨ written < T.DIRTY_THRESH_MIN then T.DIRTY_THRESH_DEF
      else written
    (0, { sysctl_flashcache_dirty_thresh := thresh
          cache_list := g.cache_list.map (fun dmc =>
            { dmc with
              dirty_thresh_set :=
                int32 ((uint32 (dmc.dmc.assoc * thresh) / 100 : Nat) : Int) }) })
  else (0, g)

/-- Sample bounds of the dirty threshold: 10 and 90 per cent, and the default
of 20 per cent. -/
def sample_thresh : thresh_consts :=
  { DIRTY_THRESH_MIN := 10, DIRTY_THRESH_MAX := 90, DIRTY_THRESH_DEF := 20 }

/-- Two sample instances on the list, of sets of 4 and of 512 slots. -/
def sample_globals : sysctl_globals :=
  { sysctl_flashcache_dirty_thresh := 20
    cache_list := [sample_inst (sample_dmc 8 3) 5,
      sample_inst { sample_dmc 1024 0 with assoc := 512 } 0] }

/-- The sample device with a CLEAN superblock of 2^26 slots whose associativity
field holds 2^26: one set of 2^26 slots. -/
def sample_disk_wide : Disk :=
  { sample_disk_clean 67108864 with
    sb := { (sample_disk_clean 67108864).sb with assoc := 67108864 } }

/-! ## Lemmas -/

/-! ## Machine integers: facts -/

theorem int32_of_range {x : Int} (h1 : -2147483648 ≤ x) (h2 : x < 2147483648) :
    int32 x = x := by
  unfold int32; omega

theorem int32_int32_add (x y : Int) : int32 (int32 x + y) = int32 (x + y) := by
  unfold int32; omega

theorem uint64_natCast {n : Nat} (h : n < 18446744073709551616) :
    uint64 (n : Int) = n := by
  unfold uint64; omega

theorem uint64_of_nonneg {x : Int} (h1 : 0 ≤ x) (h2 : x < 18446744073709551616) :
    uint64 x = x.toNat := by
  unfold uint64; omega

/-! ## Loops: the invariant rule -/

/-- A loop whose body keeps an invariant indexed by the number of passes, whose
test holds before pass `N` and fails after it, runs to its end and leaves the
invariant at `N`. -/
theorem while_loop_run {σ : Type} (cond : σ → Bool) (body : σ → Flow σ)
    (Inv : Nat → σ → Prop) (N : Nat)
    (hcond : ∀ k s, Inv k s → k < N → cond s = true)
    (hstop : ∀ s, Inv N s → cond s = false)
    (hbody : ∀ k s, Inv k s → k < N → ∃ s1, body s = Flow.run s1 ∧ Inv (k + 1) s1) :
    ∀ (n k : Nat) (s : σ) (fuel : Nat), k + n = N → Inv k s → n < fuel →
      ∃ s1, while_loop cond body fuel s = Flow.run s1 ∧ Inv N s1 := by
  intro n
  induction n with
  | zero =>
    intro k s fuel hk hinv hfuel
    obtain ⟨f, rfl⟩ : ∃ f, fuel = f + 1 := ⟨fuel - 1, by omega⟩
    have hkN : k = N := by omega
    subst hkN
    refine ⟨s, ?_, hinv⟩
    simp [while_loop, hstop s hinv]
  | succ n ih =>
    intro k s fuel hk hinv hfuel
    obtain ⟨f, rfl⟩ : ∃ f, fuel = f + 1 := ⟨fuel - 1, by omega⟩
    have hlt : k < N := by omega
    obtain ⟨s1, hb, hinv1⟩ := hbody k s hinv hlt
    obtain ⟨s2, h2, hinv2⟩ := ih (k + 1) s1 f (by omega) hinv1 (by omega)
    refine ⟨s2, ?_, hinv2⟩
    simp [while_loop, hcond k s hinv hlt, hb, h2]

/-! ## Loops: partial and total correctness -/

/-- Partial correctness: where a loop runs to its end, an invariant of its
body holds there and the test fails. -/
theorem while_loop_partial {σ : Type} (cond : σ → Bool) (body : σ → Flow σ)
    (Inv : σ → Prop)
    (hbody : ∀ s s1, Inv s → cond s = true → body s = Flow.run s1 → Inv s1) :
    ∀ (fuel : Nat) (s s1 : σ), Inv s → while_loop cond body fuel s = Flow.run s1 →
      Inv s1 ∧ cond s1 = false := by
  intro fuel
  induction fuel with
  | zero =>
    intro s s1 _ h
    simp [while_loop] at h
  | succ f ih =>
    intro s s1 hinv h
    by_cases hc : cond s = true
    · simp only [while_loop, hc, if_true] at h
      cases hb : body s with
      | run s2 =>
        rw [hb] at h
        exact ih s2 s1 (hbody s s2 hinv hc hb) h
      | ret1 s2 => rw [hb] at h; simp at h
      | panic => rw [hb] at h; simp at h
      | timeout => rw [hb] at h; simp at h
    · simp only [while_loop, hc] at h
      simp only [Bool.false_eq_true, if_false, Flow.run.injEq] at h
      subst h
      exact ⟨hinv, by simpa using hc⟩

/-- Total correctness: a loop whose body runs, keeps an invariant and lowers a
measure runs to its end when the fuel exceeds the measure. -/
theorem while_loop_total {σ : Type} (cond : σ → Bool) (body : σ → Flow σ)
    (Inv : σ → Prop) (μ : σ → Nat)
    (hbody : ∀ s, Inv s → cond s = true → ∃ s1, body s = Flow.run s1 ∧ Inv s1 ∧ μ s1 < μ s) :
    ∀ (fuel : Nat) (s : σ), Inv s → μ s < fuel →
      ∃ s1, while_loop cond body fuel s = Flow.run s1 := by
  intro fuel
  induction fuel with
  | zero => intro s _ h; omega
  | succ f ih =>
    intro s hinv hμ
    by_cases hc : cond s = true
    · obtain ⟨s2, hb, hinv2, hlt⟩ := hbody s hinv hc
      obtain ⟨s3, h3⟩ := ih s2 hinv2 (by omega)
      exact ⟨s3, by simp [while_loop, hc, hb, h3]⟩
    · exact ⟨s, by simp [while_loop, hc]⟩

theorem mul_add_le_of_lt {M a b c d : Nat} (hd : d ≤ M)
    (h : a * M + b < c * M + d) : a ≤ c := by
  by_contra hac
  have h1 : (c + 1) * M ≤ a * M := Nat.mul_le_mul_right _ (by omega)
  have h2 : (c + 1) * M = c * M + M := Nat.succ_mul _ _
  omega

theorem mul_add_unique {M a b c d : Nat} (hb : b < M) (hd : d < M)
    (h : a * M + b = c * M + d) : a = c ∧ b = d := by
  have h1 : a ≤ c := by
    apply mul_add_le_of_lt (M := M) (b := 0) (d := M) (Nat.le_refl _)
    omega
  have h2 : c ≤ a := by
    apply mul_add_le_of_lt (M := M) (b := 0) (d := M) (Nat.le_refl _)
    omega
  have h3 : a = c := Nat.le_antisymm h1 h2
  subst h3
  exact ⟨rfl, by omega⟩

theorem slots_bound {M B q p : Nat} (hq : q < B) (hp : p < M) :
    q * M + p + 1 ≤ M * B := by
  have h1 : (q + 1) * M ≤ B * M := Nat.mul_le_mul_right _ hq
  have h2 : (q + 1) * M = q * M + M := Nat.succ_mul _ _
  have h3 : B * M = M * B := Nat.mul_comm _ _
  omega

/-- The three ways a pass of the descriptor loop treats its counters. -/
theorem md_step_facts {P : Params} {q p : Nat} {s : md_locals} (hP : P.wf)
    (hq : q < P.METADATA_IO_BLOCKSIZE_SECT) (hp : p < P.MD_BLOCKS_PER_SECTOR)
    (hj : s.j = (P.MD_BLOCKS_PER_SECTOR : Int) - p)
    (hsl : s.slots_written = ((q * P.MD_BLOCKS_PER_SECTOR + p : Nat) : Int)) :
    int32 (s.slots_written + 1) = ((q * P.MD_BLOCKS_PER_SECTOR + p + 1 : Nat) : Int) ∧
    (int32 (s.j - 1) = 0 ↔ p + 1 = P.MD_BLOCKS_PER_SECTOR) ∧
    int32 (s.j - 1) = (P.MD_BLOCKS_PER_SECTOR : Int) - ((p + 1 : Nat) : Int) ∧
    int32 (P.MD_BLOCKS_PER_SECTOR : Int) = (P.MD_BLOCKS_PER_SECTOR : Int) - ((0 : Nat) : Int) ∧
    (p + 1 = P.MD_BLOCKS_PER_SECTOR →
      uint64 (((q * P.MD_BLOCKS_PER_SECTOR + p + 1 : Nat) : Int))
        / P.MD_BLOCKS_PER_SECTOR = q + 1 ∧
      (uint64 (((q * P.MD_BLOCKS_PER_SECTOR + p + 1 : Nat) : Int))
        = uint64 ((P.MD_BLOCKS_PER_SECTOR : Int) * (P.METADATA_IO_BLOCKSIZE_SECT : Int))
        ↔ q + 1 = P.METADATA_IO_BLOCKSIZE_SECT)) := by
  obtain ⟨hM1, hM2, hB1, hMB, -⟩ := hP
  have hb := slots_bound hq hp
  have e1 : int32 (s.slots_written + 1)
      = ((q * P.MD_BLOCKS_PER_SECTOR + p + 1 : Nat) : Int) := by
    rw [hsl, int32_of_range (by omega) (by omega)]; push_cast; ring
  have e2 : int32 (s.j - 1) = (P.MD_BLOCKS_PER_SECTOR : Int) - ((p + 1 : Nat) : Int) := by
    rw [hj, int32_of_range (by omega) (by omega)]; push_cast; ring
  refine ⟨e1, ?_, e2, ?_, ?_⟩
  · rw [e2]; omega
  · rw [int32_of_range (by omega) (by omega)]; simp
  · intro hp1
    have hslq : q * P.MD_BLOCKS_PER_SECTOR + p + 1 = (q + 1) * P.MD_BLOCKS_PER_SECTOR := by
      rw [Nat.succ_mul]; omega
    have hu1 : uint64 (((q * P.MD_BLOCKS_PER_SECTOR + p + 1 : Nat) : Int))
        = (q + 1) * P.MD_BLOCKS_PER_SECTOR := by
      rw [uint64_natCast (by omega), hslq]
    have hu2 : uint64 ((P.MD_BLOCKS_PER_SECTOR : Int) * (P.METADATA_IO_BLOCKSIZE_SECT : Int))
        = P.METADATA_IO_BLOCKSIZE_SECT * P.MD_BLOCKS_PER_SECTOR := by
      rw [← Int.natCast_mul, uint64_natCast (by omega), Nat.mul_comm]
    rw [hu1, hu2]
    refine ⟨Nat.mul_div_cancel _ (by omega), ?_⟩
    constructor
    · intro e
      exact Nat.eq_of_mul_eq_mul_right (show 0 < P.MD_BLOCKS_PER_SECTOR by omega) e
    · intro e
      rw [e]

/-- What the buffer and the device hold once the descriptor of slot `k` is
stored under `next_ptr`. -/
theorem md_pos_buf {P : Params} {dmc : cache_c} {sb0 : flash_superblock}
    {log0 : List io_req} {S q p : Nat} {ops : List io_req} {k : Nat} {s : md_locals}
    (h : md_pos P dmc sb0 log0 S q p ops k s) (hok : ∀ op ∈ ops, op.error = 0)
    (sec pos : Nat) (hpos : pos < P.MD_BLOCKS_PER_SECTOR)
    (hlt : sec * P.MD_BLOCKS_PER_SECTOR + pos < k + 1) :
    (sec < S → s.cdev.dev.md (1 + sec) pos
        = md_descriptor P (dmc.cache (sec * P.MD_BLOCKS_PER_SECTOR + pos))) ∧
    (S ≤ sec → buf_set s.buf (q, p) (md_descriptor P (dmc.cache k)) (sec - S) pos
        = md_descriptor P (dmc.cache (sec * P.MD_BLOCKS_PER_SECTOR + pos))) := by
  have hk0 := h.hk
  have hp := h.hp
  constructor
  · intro hsec
    have h1 : (sec + 1) * P.MD_BLOCKS_PER_SECTOR ≤ S * P.MD_BLOCKS_PER_SECTOR :=
      Nat.mul_le_mul_right _ hsec
    have h2 : (sec + 1) * P.MD_BLOCKS_PER_SECTOR
        = sec * P.MD_BLOCKS_PER_SECTOR + P.MD_BLOCKS_PER_SECTOR := Nat.succ_mul _ _
    have h3 : (S + q) * P.MD_BLOCKS_PER_SECTOR
        = S * P.MD_BLOCKS_PER_SECTOR + q * P.MD_BLOCKS_PER_SECTOR := Nat.add_mul _ _ _
    exact (h.hcont hok sec pos hpos (by omega)).1 hsec
  · intro hsec
    by_cases hkk : sec * P.MD_BLOCKS_PER_SECTOR + pos = k
    · obtain ⟨e1, e2⟩ := mul_add_unique hpos hp (hkk.trans hk0)
      subst e1 e2
      have e3 : S + q - S = q := by omega
      simp [buf_set, e3, hkk]
    · have hne : ¬ (sec - S = q ∧ pos = p) := by
        rintro ⟨e1, e2⟩
        apply hkk
        have e3 : sec = S + q := by omega
        rw [e3, e2, hk0]
      simp only [buf_set, hne, if_false]
      exact (h.hcont hok sec pos hpos (by omega)).2 hsec

/-- A pass of the loop of flashcache_md_store keeps `md_pos`; the request it
issues, if any, is the write of an I/O block. -/
theorem md_pos_store_body {P : Params} {dmc : cache_c} {sb0 : flash_superblock}
    {log0 : List io_req} {S q p : Nat} {ops : List io_req} {k : Nat} {s : md_locals}
    (env : Env) (hP : P.wf) (hk : k < 2147483648)
    (h : md_pos P dmc sb0 log0 S q p ops k s) :
    ∃ S1 q1 p1 ops1,
      md_pos P dmc sb0 log0 S1 q1 p1 ops1 (k + 1) (md_store_body P dmc env s) ∧
      (md_body_writes P s → ∃ c,
        ops1 = ⟨io_dir.WRITE, s.where_sector, c, env.io_error s.cdev.log.length⟩ :: ops) ∧
      (¬ md_body_writes P s → ops1 = ops) := by
  obtain ⟨hsl1, hj0, hj1, hMj, hbd⟩ := md_step_facts hP h.hq h.hp h.hj h.hsl
  have hi : s.i.toNat = k := by
    rw [h.hi, int32_of_range (by omega) (by omega)]; omega
  have hi1 : int32 (s.i + 1) = int32 ((k + 1 : Nat) : Int) := by
    rw [h.hi, int32_int32_add]; push_cast; rfl
  have hnp0 := h.hnp
  by_cases hp1 : p + 1 = P.MD_BLOCKS_PER_SECTOR
  · obtain ⟨hdiv, hfull⟩ := hbd hp1
    by_cases hq1B : q + 1 = P.METADATA_IO_BLOCKSIZE_SECT
    · have hSle : S + (q + 1) ≤ 4294967296 := by
        have h1 := h.hk
        have h2 : S ≤ S * P.MD_BLOCKS_PER_SECTOR := Nat.le_mul_of_pos_right _ (by omega)
        have h3 : (S + q) * P.MD_BLOCKS_PER_SECTOR
          = S * P.MD_BLOCKS_PER_SECTOR + q * P.MD_BLOCKS_PER_SECTOR := Nat.add_mul _ _ _
        have h4 := hP.2.2.2.1
        have h5 := hP.1
        have h6 : P.METADATA_IO_BLOCKSIZE_SECT
          ≤ P.MD_BLOCKS_PER_SECTOR * P.METADATA_IO_BLOCKSIZE_SECT :=
          Nat.le_mul_of_pos_left _ (by omega)
        omega
      have hws1 : uint64 ((s.where_sector : Int) + ((q + 1 : Nat) : Int)) = 1 + (S + (q + 1)) := by
        rw [h.hws, ← Int.natCast_add, uint64_natCast (by omega)]; omega
      have hsw1 : int32 (s.sectors_written + ((q + 1 : Nat) : Int))
          = int32 ((S + (q + 1) : Nat) : Int) := by
        rw [h.hsw, int32_int32_add]; push_cast; rfl
      have hu0 : uint64 0 / P.MD_BLOCKS_PER_SECTOR = 0 := by
        simp [uint64]
      have hwr : md_body_writes P s :=
        ⟨hj0.mpr hp1, by rw [hsl1]; exact hfull.mpr hq1B⟩
      refine ⟨S + (q + 1), 0, 0,
        ⟨io_dir.WRITE, s.where_sector, q + 1, env.io_error s.cdev.log.length⟩ :: ops, ?_,
        fun _ => ⟨q + 1, rfl⟩, fun hn => absurd hwr hn⟩
      unfold md_store_body
      simp only []
      rw [if_pos (hj0.mpr hp1), hsl1, if_pos (hfull.mpr hq1B), hdiv, hMj, hi1, hnp0, hi,
        hws1, hsw1, hu0]
      exact
        { hq := by have := hP.2.2.1; omega
          hp := by have := hP.1; omega
          hk := by
            have := h.hk
            have h3 : (S + (q + 1) + 0) * P.MD_BLOCKS_PER_SECTOR
              = (S + q) * P.MD_BLOCKS_PER_SECTOR + P.MD_BLOCKS_PER_SECTOR := by
              rw [Nat.add_zero, ← Nat.add_assoc, Nat.succ_mul]
            omega
          hi := rfl
          hj := rfl
          hsl := by simp
          hsw := rfl
          hnp := rfl
          hws := rfl
          hsb := by
            by_cases he : env.io_error s.cdev.log.length = 0
            · simp [flashcache_dm_io_sync_vm_write_md, he, Disk.write_md, h.hsb]
            · simp [flashcache_dm_io_sync_vm_write_md, he, h.hsb]
          hlog := by
            simp only [flashcache_dm_io_sync_vm_write_md, h.hlog, List.cons_append]
          hlen := by have := h.hlen; simp only [List.length_cons]; omega
          hops := by
            intro op hop
            rcases List.mem_cons.mp hop with e | hop1
            · subst e
              exact ⟨rfl, by simp [h.hws]⟩
            · exact h.hops op hop1
          hcont := by
            intro hok sec pos hpos hlt
            have herr : env.io_error s.cdev.log.length = 0 :=
              hok _ (List.mem_cons_self _ _)
            have hok1 : ∀ op ∈ ops, op.error = 0 := fun op hop =>
              hok op (List.mem_cons_of_mem _ hop)
            have hsec : sec ≤ S + q := by
              have hk0 := h.hk
              exact mul_add_le_of_lt (M := P.MD_BLOCKS_PER_SECTOR) (a := sec) (b := pos)
                (c := S + q) (d := P.MD_BLOCKS_PER_SECTOR) (Nat.le_refl _) (by omega)
            have hb := md_pos_buf h hok1 sec pos hpos hlt
            refine ⟨fun _ => ?_, fun hle => absurd hle (by omega)⟩
            simp only [flashcache_dm_io_sync_vm_write_md, herr, if_true, Disk.write_md, h.hws]
            by_cases hsS : sec < S
            · have hn : ¬ (1 + S ≤ 1 + sec ∧ 1 + sec < 1 + S + (q + 1)) := by omega
              rw [if_neg hn]
              exact hb.1 hsS
            · have hy : 1 + S ≤ 1 + sec ∧ 1 + sec < 1 + S + (q + 1) := by omega
              have e3 : 1 + sec - (1 + S) = sec - S := by omega
              rw [if_pos hy, e3]
              exact hb.2 (by omega) }
    · have hwr : ¬ md_body_writes P s := by
        rintro ⟨-, h2⟩
        rw [hsl1] at h2
        exact hq1B (hfull.mp h2)
      refine ⟨S, q + 1, 0, ops, ?_, fun hw => absurd hw hwr, fun _ => rfl⟩
      unfold md_store_body
      simp only []
      rw [if_pos (hj0.mpr hp1), hsl1, if_neg (fun e => hq1B (hfull.mp e)), hdiv, hMj, hi1,
        hnp0, hi]
      exact
        { hq := by have := h.hq; omega
          hp := by have := h.hp; omega
          hk := by
            have := h.hk
            have h3 : (S + (q + 1)) * P.MD_BLOCKS_PER_SECTOR
              = (S + q) * P.MD_BLOCKS_PER_SECTOR + P.MD_BLOCKS_PER_SECTOR := by
              rw [← Nat.add_assoc, Nat.succ_mul]
            omega
          hi := rfl
          hj := rfl
          hsl := by
            have h3 : (q + 1) * P.MD_BLOCKS_PER_SECTOR
              = q * P.MD_BLOCKS_PER_SECTOR + P.MD_BLOCKS_PER_SECTOR := Nat.succ_mul _ _
            simp only []; omega
          hsw := h.hsw
          hnp := rfl
          hws := h.hws
          hsb := h.hsb
          hlog := h.hlog
          hlen := by have := h.hlen; omega
          hops := h.hops
          hcont := fun hok sec pos hpos hlt => md_pos_buf h hok sec pos hpos hlt }
  · have hwr : ¬ md_body_writes P s := fun hw => hp1 (hj0.mp hw.1)
    refine ⟨S, q, p + 1, ops, ?_, fun hw => absurd hw hwr, fun _ => rfl⟩
    unfold md_store_body
    simp only []
    rw [if_neg (fun e => hp1 (hj0.mp e)), hsl1, hj1, hi1, hnp0, hi]
    exact
      { hq := h.hq
        hp := by have := h.hp; omega
        hk := by have := h.hk; omega
        hi := rfl
        hj := rfl
        hsl := rfl
        hsw := h.hsw
        hnp := rfl
        hws := h.hws
        hsb := h.hsb
        hlog := h.hlog
        hlen := by have := h.hlen; omega
        hops := h.hops
        hcont := fun hok sec pos hpos hlt => md_pos_buf h hok sec pos hpos hlt }

theorem int32_count_succ (c : Nat) (b : Prop) [Decidable b] (x : Int)
    (hx : x = int32 c) :
    (if b then int32 (x + 1) else x) = int32 ((c + (if b then 1 else 0) : Nat) : Int) := by
  rw [hx]
  by_cases hb : b
  · rw [if_pos hb, if_pos hb, int32_int32_add, Int.natCast_add, Int.natCast_one]
  · rw [if_neg hb, if_neg hb, Nat.add_zero]

theorem md_counts_store_body {P : Params} {dmc : cache_c} {k : Nat} {s : md_locals}
    (env : Env) (hi : s.i.toNat = k) (h : md_counts P dmc k s) :
    md_counts P dmc (k + 1) (md_store_body P dmc env s) := by
  have hv := int32_count_succ (count_flag P.VALID dmc.cache k)
    ((dmc.cache k).cache_state &&& P.VALID ≠ 0) s.num_valid h.hnv
  have hd := int32_count_succ (count_flag P.DIRTY dmc.cache k)
    ((dmc.cache k).cache_state &&& P.DIRTY ≠ 0) s.num_dirty h.hnd
  unfold md_store_body
  simp only []
  rw [hi]
  by_cases c1 : int32 (s.j - 1) = 0
  · rw [if_pos c1]
    by_cases c2 : uint64 (int32 (s.slots_written + 1))
        = uint64 ((P.MD_BLOCKS_PER_SECTOR : Int) * (P.METADATA_IO_BLOCKSIZE_SECT : Int))
    · rw [if_pos c2]
      refine ⟨hv, hd, ?_⟩
      simp only [flashcache_dm_io_sync_vm_write_md, List.countP_cons]
      have hwe := h.hwe
      have := int32_count_succ _ (env.io_error s.cdev.log.length ≠ 0) _ hwe
      rw [this]
      simp
    · rw [if_neg c2]
      exact ⟨hv, hd, h.hwe⟩
  · rw [if_neg c1]
    exact ⟨hv, hd, h.hwe⟩

theorem md_pos_init (P : Params) (dmc : cache_c) (env : Env) (dev : Disk)
    (log0 : List io_req) (hP : P.wf) :
    md_pos P dmc dev.sb log0 0 0 0 [] 0
      { md_locals_init P env dev with cdev := { dev := dev, log := log0 } } := by
  obtain ⟨hM1, hM2, hB1, hMB, -⟩ := hP
  exact
    { hq := by omega
      hp := by omega
      hk := by simp
      hi := by simp [md_locals_init, int32]
      hj := by
        simp only [md_locals_init]
        rw [int32_of_range (by omega) (by omega)]; simp
      hsl := by simp [md_locals_init]
      hsw := by simp [md_locals_init, int32]
      hnp := rfl
      hws := rfl
      hsb := rfl
      hlog := rfl
      hlen := by simp
      hops := by simp
      hcont := by
        intro _ sec pos _ hlt
        exact absurd hlt (by omega) }

theorem int_loop_cond {size k : Nat} {i : Int} (hi : i = int32 k)
    (hk : k < int_loop_passes size) : decide (uint64 i < size) = true := by
  unfold int_loop_passes at hk
  have h1 : int32 (k : Int) = k := int32_of_range (by omega) (by omega)
  rw [hi, h1, uint64_natCast (by omega)]
  simp; omega

theorem int_loop_stop {size : Nat} {i : Int} (hsize : size ≤ 18446744071562067968)
    (hi : i = int32 (int_loop_passes size)) : decide (uint64 i < size) = false := by
  unfold int_loop_passes at hi
  rw [hi]
  simp only [decide_eq_false_iff_not, not_lt]
  unfold uint64 int32
  omega

theorem md_store_loop_run (P : Params) (dmc : cache_c) (env : Env) (dev : Disk)
    (hP : P.wf) (hsize : dmc.size ≤ 18446744071562067968) :
    ∃ s, md_store_loop P dmc env loop_fuel (md_locals_init P env dev) = Flow.run s ∧
      md_store_inv P dmc env dev.sb (int_loop_passes dmc.size) s := by
  unfold md_store_loop
  apply while_loop_run _ _ (md_store_inv P dmc env dev.sb) (int_loop_passes dmc.size)
    ?_ ?_ ?_ (int_loop_passes dmc.size) 0 _ loop_fuel (by omega)
  · refine ⟨⟨0, 0, 0, [], md_pos_init P dmc env dev [] hP, by simp⟩, ?_⟩
    exact ⟨by simp [md_locals_init, count_flag, int32],
      by simp [md_locals_init, count_flag, int32],
      by simp [md_locals_init, int32]⟩
  · unfold int_loop_passes loop_fuel; omega
  · rintro k s ⟨⟨S, q, p, ops, h, -⟩, -⟩ hk
    exact int_loop_cond h.hi hk
  · rintro s ⟨⟨S, q, p, ops, h, -⟩, -⟩
    exact int_loop_stop hsize h.hi
  · rintro k s ⟨⟨S, q, p, ops, h, horig⟩, hc⟩ hk
    have hk1 : k < 2147483648 := by unfold int_loop_passes at hk; omega
    have hi : s.i.toNat = k := by
      rw [h.hi, int32_of_range (by omega) (by omega)]; omega
    obtain ⟨S1, q1, p1, ops1, h1, hw, hnw⟩ := md_pos_store_body env hP hk1 h
    refine ⟨_, rfl, ⟨S1, q1, p1, ops1, h1, ?_⟩, md_counts_store_body env hi hc⟩
    by_cases hwr : md_body_writes P s
    · obtain ⟨c, hc1⟩ := hw hwr
      rw [hc1]
      intro op hop
      rcases List.mem_cons.mp hop with rfl | hop
      · exact ⟨_, rfl⟩
      · exact horig op hop
    · rw [hnw hwr]
      exact horig

theorem sectors_expected_eq {P : Params} {T p k : Nat} (hp : p < P.MD_BLOCKS_PER_SECTOR)
    (hk : k = T * P.MD_BLOCKS_PER_SECTOR + p) :
    sectors_expected P k = int32 ((T + (if p ≠ 0 then 1 else 0) : Nat) : Int) := by
  have hdiv : k / P.MD_BLOCKS_PER_SECTOR = T := by
    rw [hk, Nat.mul_comm, Nat.mul_add_div (by omega), Nat.div_eq_of_lt hp, Nat.add_zero]
  have hmod : k % P.MD_BLOCKS_PER_SECTOR = p := by
    rw [hk, Nat.mul_comm, Nat.mul_add_mod, Nat.mod_eq_of_lt hp]
  unfold sectors_expected
  simp only []
  rw [hdiv, hmod]
  by_cases hp0 : p = 0
  · simp [hp0]
  · rw [if_pos hp0, if_pos hp0, int32_int32_add]; push_cast; rfl

theorem md_pos_slots_pos {P : Params} {dmc : cache_c} {sb0 : flash_superblock}
    {log0 : List io_req} {S q p : Nat} {ops : List io_req} {k : Nat} {s : md_locals}
    (hP : P.wf) (h : md_pos P dmc sb0 log0 S q p ops k s) (hne : s.next_ptr ≠ (0, 0)) :
    s.slots_written > 0 := by
  have h1 := h.hnp
  have h2 := h.hsl
  have hM := hP.1
  have hqp : q ≠ 0 ∨ p ≠ 0 := by
    by_contra hc
    push_neg at hc
    apply hne
    rw [h1, hc.1, hc.2]
  have h3 : q ≤ q * P.MD_BLOCKS_PER_SECTOR := Nat.le_mul_of_pos_right _ (by omega)
  omega

theorem md_pos_rest {P : Params} {dmc : cache_c} {sb0 : flash_superblock}
    {log0 : List io_req} {S q p : Nat} {ops : List io_req} {k : Nat} {s : md_locals}
    (env : Env) (hP : P.wf)
    (h : md_pos P dmc sb0 log0 S q p ops k s) :
    ∃ ops1, md_written P dmc sb0 log0 ops1 k (md_rest_state P env s) ∧
      ∀ op ∈ ops1, op ∈ ops ∨
        (s.next_ptr ≠ (0, 0) ∧ op.error = env.io_error s.cdev.log.length) := by
  have hM := hP.1
  have hb := slots_bound h.hq h.hp
  have hMB := hP.2.2.2.1
  have hexp := sectors_expected_eq (T := S + q) h.hp h.hk
  have hfinal : ∀ (dev1 : Disk),
      (∀ sec pos, pos < P.MD_BLOCKS_PER_SECTOR → sec * P.MD_BLOCKS_PER_SECTOR + pos < k →
        dev1.md (1 + sec) pos
          = md_descriptor P (dmc.cache (sec * P.MD_BLOCKS_PER_SECTOR + pos))) →
      ∀ i, i < k →
        dev1.md (1 + i / P.MD_BLOCKS_PER_SECTOR) (i % P.MD_BLOCKS_PER_SECTOR)
          = md_descriptor P (dmc.cache i) := by
    intro dev1 hd i hi
    have e := Nat.div_add_mod i P.MD_BLOCKS_PER_SECTOR
    have hm := Nat.mod_lt i (show P.MD_BLOCKS_PER_SECTOR > 0 by omega)
    have e2 : i / P.MD_BLOCKS_PER_SECTOR * P.MD_BLOCKS_PER_SECTOR
        + i % P.MD_BLOCKS_PER_SECTOR = i := by rw [Nat.mul_comm]; exact e
    have := hd (i / P.MD_BLOCKS_PER_SECTOR) (i % P.MD_BLOCKS_PER_SECTOR) hm (by omega)
    rw [e2] at this
    exact this
  by_cases hne : s.next_ptr ≠ (0, 0)
  · have hqp : q ≠ 0 ∨ p ≠ 0 := by
      by_contra hc
      push_neg at hc
      apply hne
      rw [h.hnp, hc.1, hc.2]
    have hu : uint64 s.slots_written = q * P.MD_BLOCKS_PER_SECTOR + p := by
      rw [h.hsl, uint64_natCast (by omega)]
    have hdiv : (q * P.MD_BLOCKS_PER_SECTOR + p) / P.MD_BLOCKS_PER_SECTOR = q := by
      rw [Nat.mul_comm, Nat.mul_add_div (by omega), Nat.div_eq_of_lt h.hp, Nat.add_zero]
    have hmod : (q * P.MD_BLOCKS_PER_SECTOR + p) % P.MD_BLOCKS_PER_SECTOR = p := by
      rw [Nat.mul_comm, Nat.mul_add_mod, Nat.mod_eq_of_lt h.hp]
    have hqB : q < 2147483648 := by
      have h3 : q ≤ q * P.MD_BLOCKS_PER_SECTOR := Nat.le_mul_of_pos_right _ (by omega)
      omega
    have hcnt : (if p ≠ 0 then uint64 (((q : Nat) : Int) + 1) else q)
        = q + (if p ≠ 0 then 1 else 0) := by
      by_cases hp0 : p = 0
      · simp [hp0]
      · rw [if_pos hp0, if_pos hp0]
        have : ((q : Nat) : Int) + 1 = ((q + 1 : Nat) : Int) := by push_cast; rfl
        rw [this, uint64_natCast (by omega)]
    refine ⟨⟨io_dir.WRITE, s.where_sector, q + (if p ≠ 0 then 1 else 0),
      env.io_error s.cdev.log.length⟩ :: ops, ?_, ?_⟩
    rotate_left
    · intro op hop
      rcases List.mem_cons.mp hop with e | hop1
      · right; rw [e]; exact ⟨hne, rfl⟩
      · left; exact hop1
    unfold md_rest_state
    rw [if_pos hne]
    simp only []
    rw [hu, hdiv, hmod, hcnt]
    exact
      { hsw := by
          simp only []
          rw [hexp, h.hsw, int32_int32_add]
          congr 1
          push_cast
          ring
        hsb := by
          by_cases he : env.io_error s.cdev.log.length = 0
          · simp [flashcache_dm_io_sync_vm_write_md, he, Disk.write_md, h.hsb]
          · simp [flashcache_dm_io_sync_vm_write_md, he, h.hsb]
        hlog := by simp only [flashcache_dm_io_sync_vm_write_md, h.hlog, List.cons_append]
        hlen := by have := h.hlen; simp only [List.length_cons]; omega
        hops := by
          intro op hop
          rcases List.mem_cons.mp hop with e | hop1
          · subst e
            exact ⟨rfl, by simp [h.hws]⟩
          · exact h.hops op hop1
        hcont := by
          intro hok
          have herr : env.io_error s.cdev.log.length = 0 :=
            hok _ (List.mem_cons_self _ _)
          have hok1 : ∀ op ∈ ops, op.error = 0 := fun op hop =>
            hok op (List.mem_cons_of_mem _ hop)
          apply hfinal
          intro sec pos hpos hlt
          have hc := h.hcont hok1 sec pos hpos hlt
          have hsec : sec ≤ S + q ∧ (sec = S + q → pos < p) := by
            have hk0 := h.hk
            constructor
            · exact mul_add_le_of_lt (M := P.MD_BLOCKS_PER_SECTOR) (a := sec) (b := pos)
                (c := S + q) (d := P.MD_BLOCKS_PER_SECTOR) (Nat.le_refl _)
                (by have := h.hp; omega)
            · intro e; rw [e] at hlt; omega
          simp only [flashcache_dm_io_sync_vm_write_md, herr, if_true, Disk.write_md, h.hws]
          by_cases hsS : sec < S
          · have hn : ¬ (1 + S ≤ 1 + sec
                ∧ 1 + sec < 1 + S + (q + (if p ≠ 0 then 1 else 0))) := by omega
            rw [if_neg hn]
            exact hc.1 hsS
          · have hy : 1 + S ≤ 1 + sec
                ∧ 1 + sec < 1 + S + (q + (if p ≠ 0 then 1 else 0)) := by
              refine ⟨by omega, ?_⟩
              by_cases hp0 : p = 0
              · have := hsec.2; rw [if_neg (by simpa using hp0)]; omega
              · rw [if_pos hp0]; omega
            have e3 : 1 + sec - (1 + S) = sec - S := by omega
            rw [if_pos hy, e3]
            exact hc.2 (by omega) }
  · have hqp : q = 0 ∧ p = 0 := by
      have h1 := h.hnp
      push_neg at hne
      rw [hne] at h1
      exact ⟨(Prod.mk.inj h1).1.symm, (Prod.mk.inj h1).2.symm⟩
    refine ⟨ops, ?_, fun op hop => Or.inl hop⟩
    unfold md_rest_state
    rw [if_neg hne]
    exact
      { hsw := by rw [hexp, h.hsw, hqp.1, hqp.2]; simp
        hsb := h.hsb
        hlog := h.hlog
        hlen := by have := h.hlen; omega
        hops := h.hops
        hcont := by
          intro hok
          apply hfinal
          intro sec pos hpos hlt
          have hc := h.hcont hok sec pos hpos hlt
          have hsec : sec < S := by
            have hk0 := h.hk
            simp only [hqp.1, hqp.2, Nat.add_zero] at hk0
            by_contra hge
            have : S * P.MD_BLOCKS_PER_SECTOR ≤ sec * P.MD_BLOCKS_PER_SECTOR :=
              Nat.mul_le_mul_right _ (by omega)
            omega
          exact hc.1 hsec }

theorem md_store_rest_eq {P : Params} (env : Env) {s : md_locals}
    (hpos : s.next_ptr ≠ (0, 0) → s.slots_written > 0) :
    md_store_rest P env s = some (md_store_rest_state P env s) := by
  unfold md_store_rest md_store_rest_state md_rest_state
  by_cases hne : s.next_ptr ≠ (0, 0)
  · have h1 : ¬ ¬ (s.slots_written > 0) := not_not.mpr (hpos hne)
    rw [if_pos hne, if_pos hne, if_neg h1]
    simp only [flashcache_dm_io_sync_vm_write_md, hne, true_and, ne_eq, not_false_eq_true]
  · rw [if_neg hne, if_neg hne, if_neg (fun hc => hne hc.1)]

theorem md_store_rest_errors {P : Params} (env : Env) {s : md_locals}
    (hwe : s.write_errors = int32 (s.cdev.log.countP (fun op => decide (op.error ≠ 0)))) :
    (md_store_rest_state P env s).write_errors
      = int32 ((md_store_rest_state P env s).cdev.log.countP
          (fun op => decide (op.error ≠ 0))) := by
  unfold md_store_rest_state md_rest_state
  by_cases hne : s.next_ptr ≠ (0, 0)
  · have := int32_count_succ _ (env.io_error s.cdev.log.length ≠ 0) _ hwe
    rw [if_pos hne]
    simp only [hne, true_and, ne_eq, not_false_eq_true, flashcache_dm_io_sync_vm_write_md,
      List.countP_cons]
    simp only [ne_eq] at this
    rw [this]
    simp
  · rw [if_neg hne, if_neg (fun hc => hne hc.1)]
    exact hwe

theorem md_store_rest_dirty {P : Params} (env : Env) (s : md_locals) :
    (md_store_rest_state P env s).num_dirty = s.num_dirty := by
  unfold md_store_rest_state md_rest_state
  by_cases hne : s.next_ptr ≠ (0, 0)
  · rw [if_pos hne]
  · rw [if_neg hne]

/-- What flashcache_md_store does: with `N` the number of passes of its loop,
the descriptors of the slots `0 .. N-1` are written out, the debug test compares
the sector counts of `size` and of `N`, and the superblock follows. -/
theorem md_store_run (P : Params) (dmc : cache_c) (env : Env) (dev : Disk)
    (hP : P.wf) (hsize : dmc.size ≤ 18446744071562067968)
    (hv0 : env.vmalloc_ok 0 = true) :
    ∃ s ops, md_written P dmc dev.sb [] ops (int_loop_passes dmc.size) s ∧
      (∀ op ∈ ops, ∃ n, op.error = env.io_error n) ∧
      s.num_dirty = int32 (count_flag P.DIRTY dmc.cache (int_loop_passes dmc.size)) ∧
      s.write_errors = int32 (ops.countP (fun op => decide (op.error ≠ 0))) ∧
      flashcache_md_store P dmc env dev =
        if sectors_expected P dmc.size ≠ sectors_expected P (int_loop_passes dmc.size) then
          Outcome.panic
        else if env.vmalloc_ok 1 = false then
          Outcome.returned { ret := 1, dmc := dmc, io := s.cdev }
        else
          Outcome.returned
            { ret := 0
              dmc := dmc
              io := (flashcache_dm_io_sync_vm_write_sb env s.cdev
                (md_store_header P dmc s.write_errors s.num_dirty)).2 } := by
  obtain ⟨s1, hloop, ⟨S, q, p, ops, hpos, horig⟩, hcnt⟩ :=
    md_store_loop_run P dmc env dev hP hsize
  obtain ⟨ops1, hw, horig1⟩ := md_pos_rest env hP hpos
  have hrest := md_store_rest_eq (P := P) env (fun hne => md_pos_slots_pos hP hpos hne)
  have herr := md_store_rest_errors (P := P) env hcnt.hwe
  have hlog : (md_store_rest_state P env s1).cdev.log = ops1 := by
    have := hw.hlog
    rw [List.append_nil] at this
    exact this
  refine ⟨md_store_rest_state P env s1, ops1, ?_, ?_, ?_, ?_, ?_⟩
  · exact
      { hsw := hw.hsw
        hsb := hw.hsb
        hlog := hw.hlog
        hlen := hw.hlen
        hops := hw.hops
        hcont := hw.hcont }
  · intro op hop
    rcases horig1 op hop with h1 | ⟨-, h2⟩
    · exact horig op h1
    · exact ⟨_, h2⟩
  · rw [md_store_rest_dirty]; exact hcnt.hnd
  · rw [herr, hlog]
  · unfold flashcache_md_store
    rw [if_neg (by simp [hv0]), hloop]
    simp only [Flow.finish]
    rw [hrest]
    simp only []
    have : (md_store_rest_state P env s1).sectors_written
        = sectors_expected P (int_loop_passes dmc.size) := hw.hsw
    rw [this]

/-- The descriptor the inner loop is about to read: pass `j0` reads descriptor
`r1` of sector `a1` of the buffer. -/
theorem md_load_ptr {P : Params} {a r j0 : Nat} (hM : 1 ≤ P.MD_BLOCKS_PER_SECTOR)
    (hr : r ≤ P.MD_BLOCKS_PER_SECTOR) (hj0 : j0 = a * P.MD_BLOCKS_PER_SECTOR + r)
    (hjb : j0 < 18446744073709551616) :
    ∃ a1 r1, r1 < P.MD_BLOCKS_PER_SECTOR ∧ j0 = a1 * P.MD_BLOCKS_PER_SECTOR + r1 ∧
      (if uint64 (j0 : Int) % P.MD_BLOCKS_PER_SECTOR = 0 then
          (uint64 (j0 : Int) / P.MD_BLOCKS_PER_SECTOR, 0)
        else (a, r)) = (a1, r1) := by
  rw [uint64_natCast hjb]
  by_cases hm : j0 % P.MD_BLOCKS_PER_SECTOR = 0
  · refine ⟨j0 / P.MD_BLOCKS_PER_SECTOR, 0, by omega, ?_, by rw [if_pos hm]⟩
    have := Nat.div_add_mod j0 P.MD_BLOCKS_PER_SECTOR
    rw [hm, Nat.mul_comm] at this
    omega
  · refine ⟨a, r, ?_, hj0, by rw [if_neg hm]⟩
    rcases Nat.lt_or_ge r P.MD_BLOCKS_PER_SECTOR with h | h
    · exact h
    · exfalso
      apply hm
      have hrM : r = P.MD_BLOCKS_PER_SECTOR := Nat.le_antisymm hr h
      rw [hj0, hrM]
      have : a * P.MD_BLOCKS_PER_SECTOR + P.MD_BLOCKS_PER_SECTOR
          = (a + 1) * P.MD_BLOCKS_PER_SECTOR := (Nat.succ_mul _ _).symm
      rw [this, Nat.mul_mod_left]

/-- A pass of the inner loop reads the descriptor of slot `T * M + j0`; it
panics where the `VERIFY` fails on it, and otherwise loads the slot and keeps
the invariant. -/
theorem md_load_pos_body {P : Params} {clean_shutdown : Int} {dev : Disk}
    {s0 : md_load_locals} {T a r j0 : Nat} {s : md_load_locals} (hP : P.wf)
    (hT : T * P.MD_BLOCKS_PER_SECTOR + j0 < 2147483647)
    (hbuf0 : ∀ a r, r < P.MD_BLOCKS_PER_SECTOR →
      ((a * P.MD_BLOCKS_PER_SECTOR + r : Nat) : Int) < s0.slots_read →
      s0.buf a r = dev.md (1 + T + a) r)
    (h : md_load_pos P clean_shutdown dev s0 T a r j0 s)
    (hc : decide (s.j < s.slots_read) = true) :
    ∃ a1 r1, r1 < P.MD_BLOCKS_PER_SECTOR ∧ j0 = a1 * P.MD_BLOCKS_PER_SECTOR + r1 ∧
      ∃ s1, (md_load_verify P clean_shutdown (dev.md (1 + (T + a1)) r1) →
          md_load_pos P clean_shutdown dev s0 T a1 (r1 + 1) (j0 + 1) s1) ∧
        md_load_body P clean_shutdown s
          = if md_load_verify P clean_shutdown (dev.md (1 + (T + a1)) r1) then some s1
            else none := by
  have hM := hP.1
  obtain ⟨a1, r1, hr1, hj1, hptr⟩ := md_load_ptr hM h.hr h.hj0 (by omega)
  have hlt : (j0 : Int) < s0.slots_read := by
    have := h.hj; have := h.hsr
    simp only [decide_eq_true_eq] at hc
    omega
  have hd : s.buf a1 r1 = dev.md (1 + (T + a1)) r1 := by
    rw [h.hbuf, hbuf0 a1 r1 hr1 (by rw [← hj1]; exact hlt), Nat.add_assoc]
  have hidx : s.i.toNat = (T + a1) * P.MD_BLOCKS_PER_SECTOR + r1 := by
    rw [h.hi, Nat.add_mul]; omega
  have hi1 : int32 (s.i + 1) = ((T * P.MD_BLOCKS_PER_SECTOR + (j0 + 1) : Nat) : Int) := by
    rw [h.hi, int32_of_range (by omega) (by omega)]; push_cast; ring
  have hjj : int32 ((j0 : Int) + 1) = ((j0 + 1 : Nat) : Int) := by
    rw [int32_of_range (by omega) (by omega)]; push_cast; ring
  refine ⟨a1, r1, hr1, hj1, ?_⟩
  unfold md_load_body
  simp only []
  rw [h.hj, h.hnp, hptr]
  simp only []
  rw [hd, hidx, hi1, hjj]
  have hslot : ∀ (c : cacheblock) (sec pos : Nat), pos < P.MD_BLOCKS_PER_SECTOR →
      sec * P.MD_BLOCKS_PER_SECTOR + pos < T * P.MD_BLOCKS_PER_SECTOR + (j0 + 1) →
      c = md_load_slot P clean_shutdown (dev.md (1 + (T + a1)) r1) →
      md_load_verify P clean_shutdown (dev.md (1 + (T + a1)) r1) →
      Function.update s.cache ((T + a1) * P.MD_BLOCKS_PER_SECTOR + r1) c
        (sec * P.MD_BLOCKS_PER_SECTOR + pos)
        = md_load_slot P clean_shutdown (dev.md (1 + sec) pos) ∧
      md_load_verify P clean_shutdown (dev.md (1 + sec) pos) := by
    intro c sec pos hpos hlt2 hcv hvv
    by_cases hkk : sec * P.MD_BLOCKS_PER_SECTOR + pos
        = (T + a1) * P.MD_BLOCKS_PER_SECTOR + r1
    · obtain ⟨e1, e2⟩ := mul_add_unique hpos hr1 hkk
      rw [hkk, Function.update_same, hcv, e1, e2]
      exact ⟨rfl, hvv⟩
    · rw [Function.update_noteq hkk]
      apply h.hcache sec pos hpos
      rw [Nat.add_mul] at hkk
      omega
  by_cases hcond : clean_shutdown ≠ 0 ∨ (dev.md (1 + (T + a1)) r1).cache_state &&& P.DIRTY ≠ 0
  · rw [if_pos hcond]
    refine ⟨{ s with
      i := ((T * P.MD_BLOCKS_PER_SECTOR + (j0 + 1) : Nat) : Int)
      j := ((j0 + 1 : Nat) : Int)
      dirty_loaded :=
        if (dev.md (1 + (T + a1)) r1).cache_state &&& P.DIRTY ≠ 0 then
          int32 (s.dirty_loaded + 1)
        else s.dirty_loaded
      num_valid :=
        if (dev.md (1 + (T + a1)) r1).cache_state &&& P.VALID ≠ 0 then
          int32 (s.num_valid + 1)
        else s.num_valid
      next_ptr := (a1, r1 + 1)
      cache := Function.update s.cache ((T + a1) * P.MD_BLOCKS_PER_SECTOR + r1)
        { cache_state := (dev.md (1 + (T + a1)) r1).cache_state
          nr_queued := 0
          dbn := (dev.md (1 + (T + a1)) r1).dbn } }, ?_, ?_⟩
    rotate_left
    · by_cases hv : (dev.md (1 + (T + a1)) r1).cache_state &&& (P.VALID ||| P.INVALID)
          = (P.VALID ||| P.INVALID)
      · have hver : ¬ md_load_verify P clean_shutdown (dev.md (1 + (T + a1)) r1) := by
          unfold md_load_verify; exact not_not.mpr ⟨hcond, hv⟩
        rw [if_pos hv, if_neg hver]
      · have hver : md_load_verify P clean_shutdown (dev.md (1 + (T + a1)) r1) := by
          unfold md_load_verify; exact fun hx => hv hx.2
        rw [if_neg hv, if_pos hver]
    · intro hvv
      exact
        { hr := by omega
          hj0 := by omega
          hle := by push_cast; omega
          hj := rfl
          hi := rfl
          hnp := rfl
          hsr := h.hsr
          hsz := h.hsz
          hsec := h.hsec
          hws := h.hws
          hcdev := h.hcdev
          hbuf := h.hbuf
          hcache := fun sec pos hpos hlt2 =>
            hslot _ sec pos hpos hlt2 (by simp [md_load_slot, hcond]) hvv }
  · have hver : md_load_verify P clean_shutdown (dev.md (1 + (T + a1)) r1) := by
      unfold md_load_verify; exact fun hx => hcond hx.1
    rw [if_neg hcond]
    refine ⟨_, ?_, (if_pos hver).symm⟩
    intro hvv
    exact
      { hr := by omega
        hj0 := by omega
        hle := by push_cast; omega
        hj := rfl
        hi := rfl
        hnp := rfl
        hsr := h.hsr
        hsz := h.hsz
        hsec := h.hsec
        hws := h.hws
        hcdev := h.hcdev
        hbuf := h.hbuf
        hcache := fun sec pos hpos hlt2 =>
          hslot _ sec pos hpos hlt2 (by simp [md_load_slot, hcond]) hvv }

/-- The number of sectors that hold `n` descriptors, as flashcache_md_load
computes it: it covers `n` descriptors and less than one sector more. -/
theorem sector_count_facts {M n : Nat} (hM : 1 ≤ M) :
    n ≤ (if n % M ≠ 0 then 1 + n / M else n / M) * M ∧
    (if n % M ≠ 0 then 1 + n / M else n / M) * M < n + M ∧
    (n % M = 0 → (if n % M ≠ 0 then 1 + n / M else n / M) * M = n) := by
  have e := Nat.div_add_mod n M
  have hm := Nat.mod_lt n (show M > 0 by omega)
  have e2 : n / M * M = M * (n / M) := Nat.mul_comm _ _
  by_cases h0 : n % M = 0
  · rw [if_neg (by simpa using h0)]
    exact ⟨by omega, by omega, fun _ => by omega⟩
  · rw [if_pos h0]
    have e3 : (1 + n / M) * M = M + n / M * M := by rw [Nat.add_mul, Nat.one_mul]
    exact ⟨by omega, by omega, fun h => absurd h h0⟩

/-- The inner loop of flashcache_md_load, where it runs to its end, has loaded
the `slots_read` slots of its I/O block. -/
theorem md_load_inner_run {P : Params} {clean_shutdown : Int} {dev : Disk}
    {s0 s1 : md_load_locals} {T n : Nat} (hP : P.wf) (fuel : Nat)
    (hn : s0.slots_read = n)
    (hT : T * P.MD_BLOCKS_PER_SECTOR + n ≤ 2147483647)
    (hbuf0 : ∀ a r, r < P.MD_BLOCKS_PER_SECTOR →
      ((a * P.MD_BLOCKS_PER_SECTOR + r : Nat) : Int) < s0.slots_read →
      s0.buf a r = dev.md (1 + T + a) r)
    (h0 : md_load_pos P clean_shutdown dev s0 T 0 0 0 s0)
    (hrun : md_load_inner P clean_shutdown fuel s0 = Flow.run s1) :
    ∃ a r, md_load_pos P clean_shutdown dev s0 T a r n s1 := by
  unfold md_load_inner at hrun
  have := while_loop_partial _ _
    (fun s => ∃ a r j0, md_load_pos P clean_shutdown dev s0 T a r j0 s) ?_ fuel s0 s1
    ⟨0, 0, 0, h0⟩ hrun
  · obtain ⟨⟨a, r, j0, h⟩, hc⟩ := this
    have h1 := h.hle
    have h2 := h.hj
    have h3 := h.hsr
    simp only [decide_eq_false_iff_not, not_lt] at hc
    have : j0 = n := by omega
    subst this
    exact ⟨a, r, h⟩
  · rintro s s2 ⟨a, r, j0, h⟩ hc hb
    have hlt : (j0 : Int) < n := by
      have := h.hj; have := h.hsr
      simp only [decide_eq_true_eq] at hc
      omega
    obtain ⟨a1, r1, -, -, s3, h3, hbody⟩ := md_load_pos_body hP (by omega) hbuf0 h hc
    rw [hbody] at hb
    by_cases hv : md_load_verify P clean_shutdown (dev.md (1 + (T + a1)) r1)
    · rw [if_pos hv] at hb
      simp only [Flow.run.injEq] at hb
      subst hb
      exact ⟨a1, r1 + 1, j0 + 1, h3 hv⟩
    · rw [if_neg hv] at hb
      simp at hb

/-- The inner loop of flashcache_md_load runs to its end where the `VERIFY`
passes on every descriptor of its I/O block. -/
theorem md_load_inner_total {P : Params} {clean_shutdown : Int} {dev : Disk}
    {s0 : md_load_locals} {T n : Nat} (hP : P.wf)
    (hn : s0.slots_read = n)
    (hT : T * P.MD_BLOCKS_PER_SECTOR + n ≤ 2147483647)
    (hbuf0 : ∀ a r, r < P.MD_BLOCKS_PER_SECTOR →
      ((a * P.MD_BLOCKS_PER_SECTOR + r : Nat) : Int) < s0.slots_read →
      s0.buf a r = dev.md (1 + T + a) r)
    (hver : ∀ a r, r < P.MD_BLOCKS_PER_SECTOR → a * P.MD_BLOCKS_PER_SECTOR + r < n →
      md_load_verify P clean_shutdown (dev.md (1 + (T + a)) r))
    (h0 : md_load_pos P clean_shutdown dev s0 T 0 0 0 s0) :
    ∃ s1, md_load_inner P clean_shutdown loop_fuel s0 = Flow.run s1 := by
  unfold md_load_inner
  apply while_loop_total _ _
    (fun s => ∃ a r j0, md_load_pos P clean_shutdown dev s0 T a r j0 s)
    (fun s => (s.slots_read - s.j).toNat) ?_ loop_fuel s0 ⟨0, 0, 0, h0⟩
  · have := h0.hj
    simp only [hn, this]
    unfold loop_fuel
    omega
  · rintro s ⟨a, r, j0, h⟩ hc
    have hlt : (j0 : Int) < n := by
      have := h.hj; have := h.hsr
      simp only [decide_eq_true_eq] at hc
      omega
    obtain ⟨a1, r1, hr1, hj1, s3, h3, hbody⟩ := md_load_pos_body hP (by omega) hbuf0 h hc
    have hv := hver a1 r1 hr1 (by omega)
    refine ⟨s3, ?_, ⟨a1, r1 + 1, j0 + 1, h3 hv⟩, ?_⟩
    · rw [hbody, if_pos hv]
    · simp only []
      rw [(h3 hv).hsr, (h3 hv).hj, h.hsr, h.hj, hn]
      push_cast
      omega

/-- The arithmetic of one I/O block of flashcache_md_load: `n` slots are read
in `c` sectors. -/
theorem md_load_block_arith {M B L T : Nat} (hM : 1 ≤ M) (hB : 1 ≤ B)
    (hlt : T * M < L) :
    let n := min (L - T * M) (M * B)
    let c := if n % M ≠ 0 then 1 + n / M else n / M
    1 ≤ n ∧ (T + c) * M < L + M ∧ min ((T + c) * M) L = T * M + n ∧
    (∀ a r, a * M + r < n → a < c) := by
  intro n c
  obtain ⟨h1, h2, h3⟩ := sector_count_facts (M := M) (n := n) hM
  have hMB : 1 ≤ M * B := Nat.mul_pos hM hB
  have hn1 : 1 ≤ n := by
    show 1 ≤ min (L - T * M) (M * B)
    omega
  have hTc : (T + c) * M = T * M + c * M := Nat.add_mul _ _ _
  have hnle : n ≤ L - T * M := Nat.min_le_left _ _
  have hcases : n = L - T * M ∨ (n = M * B ∧ n % M = 0) := by
    rcases Nat.le_total (L - T * M) (M * B) with h | h
    · left; exact Nat.min_eq_left h
    · right
      have : n = M * B := Nat.min_eq_right h
      exact ⟨this, by rw [this, Nat.mul_mod_right]⟩
  refine ⟨hn1, ?_, ?_, ?_⟩
  · show (T + c) * M < L + M
    have : c * M < n + M := h2
    omega
  · show min ((T + c) * M) L = T * M + n
    have h1' : n ≤ c * M := h1
    rcases hcases with h | ⟨_, h⟩
    · omega
    · have : c * M = n := h3 h
      omega
  · intro a r har
    have h1' : n ≤ c * M := h1
    by_contra hac
    have : c * M ≤ a * M := Nat.mul_le_mul_right _ (by omega)
    omega

/-- The two counts of a pass of the loop `while (size > 0)`: the slots and the
sectors of the I/O block. -/
theorem md_load_block_counts {P : Params} {L T : Nat} {size : Int} (hP : P.wf)
    (hlt : T * P.MD_BLOCKS_PER_SECTOR < L)
    (hsz : size = (L : Int) - ((T * P.MD_BLOCKS_PER_SECTOR : Nat) : Int)) :
    let n := min (L - T * P.MD_BLOCKS_PER_SECTOR)
      (P.MD_BLOCKS_PER_SECTOR * P.METADATA_IO_BLOCKSIZE_SECT)
    let c := if n % P.MD_BLOCKS_PER_SECTOR ≠ 0 then 1 + n / P.MD_BLOCKS_PER_SECTOR
      else n / P.MD_BLOCKS_PER_SECTOR
    min size (int32 (int32 P.MD_BLOCKS_PER_SECTOR * P.METADATA_IO_BLOCKSIZE_SECT)) = (n : Int) ∧
    (if uint64 (n : Int) % P.MD_BLOCKS_PER_SECTOR ≠ 0 then
        uint64 (1 + ((uint64 (n : Int) / P.MD_BLOCKS_PER_SECTOR : Nat) : Int))
      else uint64 (n : Int) / P.MD_BLOCKS_PER_SECTOR) = c := by
  intro n c
  obtain ⟨hM1, hM2, hB1, hMB, -⟩ := hP
  have hnle : n ≤ L - T * P.MD_BLOCKS_PER_SECTOR := Nat.min_le_left _ _
  have hun : uint64 (n : Int) = n := uint64_natCast (by omega)
  constructor
  · have e1 : int32 (P.MD_BLOCKS_PER_SECTOR : Int) = P.MD_BLOCKS_PER_SECTOR :=
      int32_of_range (by omega) (by omega)
    have e2 : int32 ((P.MD_BLOCKS_PER_SECTOR : Int) * (P.METADATA_IO_BLOCKSIZE_SECT : Int))
        = ((P.MD_BLOCKS_PER_SECTOR * P.METADATA_IO_BLOCKSIZE_SECT : Nat) : Int) := by
      rw [← Int.natCast_mul, int32_of_range (by omega) (by omega)]
    have e3 : size = ((L - T * P.MD_BLOCKS_PER_SECTOR : Nat) : Int) := by omega
    rw [e1, e2, e3]
    exact (Nat.cast_min _ _).symm
  · rw [hun]
    by_cases h0 : n % P.MD_BLOCKS_PER_SECTOR = 0
    · rw [if_neg (by simpa using h0)]
      show n / P.MD_BLOCKS_PER_SECTOR = c
      show _ = if n % P.MD_BLOCKS_PER_SECTOR ≠ 0 then _ else _
      rw [if_neg (by simpa using h0)]
    · rw [if_pos h0]
      show _ = if n % P.MD_BLOCKS_PER_SECTOR ≠ 0 then _ else _
      rw [if_pos h0]
      have hd : n / P.MD_BLOCKS_PER_SECTOR ≤ n := Nat.div_le_self _ _
      have : (1 : Int) + ((n / P.MD_BLOCKS_PER_SECTOR : Nat) : Int)
          = ((1 + n / P.MD_BLOCKS_PER_SECTOR : Nat) : Int) := by push_cast; rfl
      rw [this, uint64_natCast (by omega)]

/-- The pass of the loop `while (size > 0)` from a state of the invariant: `n`
slots are read in `c` sectors, a failed read makes the function return, and
the inner loop is entered otherwise. -/
theorem md_load_block_eq {P : Params} {clean_shutdown : Int} {dev : Disk}
    {log0 : List io_req} {L T : Nat} {ops : List io_req} (env : Env)
    {s : md_load_locals} (hP : P.wf)
    (h : md_load_inv P clean_shutdown dev log0 L T ops s)
    (hc : decide (s.size > 0) = true) :
    ∃ n c, 1 ≤ n ∧ T * P.MD_BLOCKS_PER_SECTOR + n ≤ L ∧
      (T + c) * P.MD_BLOCKS_PER_SECTOR < L + P.MD_BLOCKS_PER_SECTOR ∧
      min ((T + c) * P.MD_BLOCKS_PER_SECTOR) L = T * P.MD_BLOCKS_PER_SECTOR + n ∧
      s.size = (L : Int) - ((T * P.MD_BLOCKS_PER_SECTOR : Nat) : Int) ∧
      md_load_pos P clean_shutdown dev (md_load_inner_init s dev T n c) T 0 0 0
        (md_load_inner_init s dev T n c) ∧
      (∀ a r, r < P.MD_BLOCKS_PER_SECTOR →
        ((a * P.MD_BLOCKS_PER_SECTOR + r : Nat) : Int)
          < (md_load_inner_init s dev T n c).slots_read →
        (md_load_inner_init s dev T n c).buf a r = dev.md (1 + T + a) r) ∧
      md_load_block P clean_shutdown env s =
        if env.io_error s.cdev.log.length ≠ 0 then
          Flow.ret1 { s with
            slots_read := (n : Int)
            sectors_read := int32 ((T : Int) + (c : Int))
            cdev := { dev := dev
                      log := ⟨io_dir.READ, 1 + T, c, env.io_error s.cdev.log.length⟩
                        :: s.cdev.log } }
        else
          Flow.map_run (fun s1 => { s1 with size := int32 (s1.size - s1.slots_read) })
            (md_load_inner P clean_shutdown loop_fuel (md_load_inner_init s dev T n c)) := by
  have hM := hP.1
  have hL := h.hL
  have hlt : T * P.MD_BLOCKS_PER_SECTOR < L := by
    have := h.hsz
    simp only [gt_iff_lt, decide_eq_true_eq] at hc
    omega
  have hmin : min (T * P.MD_BLOCKS_PER_SECTOR) L = T * P.MD_BLOCKS_PER_SECTOR :=
    Nat.min_eq_left (Nat.le_of_lt hlt)
  have hsz : s.size = (L : Int) - ((T * P.MD_BLOCKS_PER_SECTOR : Nat) : Int) := by
    rw [h.hsz, hmin]
  obtain ⟨hn, hcnt⟩ := md_load_block_counts hP hlt hsz
  obtain ⟨hn1, hT1, hmin1, hac⟩ := md_load_block_arith (M := P.MD_BLOCKS_PER_SECTOR)
    (B := P.METADATA_IO_BLOCKSIZE_SECT) (L := L) (T := T) hM hP.2.2.1 hlt
  generalize hndef : min (L - T * P.MD_BLOCKS_PER_SECTOR)
      (P.MD_BLOCKS_PER_SECTOR * P.METADATA_IO_BLOCKSIZE_SECT) = n at hn hcnt hn1 hT1 hmin1 hac
  generalize hcdef : (if n % P.MD_BLOCKS_PER_SECTOR ≠ 0 then 1 + n / P.MD_BLOCKS_PER_SECTOR
      else n / P.MD_BLOCKS_PER_SECTOR) = c at hcnt hT1 hmin1 hac
  have hnL : T * P.MD_BLOCKS_PER_SECTOR + n ≤ L := by
    have : n ≤ L - T * P.MD_BLOCKS_PER_SECTOR := by rw [← hndef]; exact Nat.min_le_left _ _
    omega
  have hTc : (T + c) * P.MD_BLOCKS_PER_SECTOR
      = T * P.MD_BLOCKS_PER_SECTOR + c * P.MD_BLOCKS_PER_SECTOR := Nat.add_mul _ _ _
  have hcle : T + c ≤ 4294967296 := by
    have : T + c ≤ (T + c) * P.MD_BLOCKS_PER_SECTOR := Nat.le_mul_of_pos_right _ (by omega)
    have := hP.2.1
    omega
  have hws1 : uint64 (((1 + T : Nat) : Int) + (c : Int)) = 1 + (T + c) := by
    rw [← Int.natCast_add, uint64_natCast (by omega)]; omega
  refine ⟨n, c, hn1, hnL, hT1, hmin1, hsz, ?_, ?_, ?_⟩
  · exact
      { hr := Nat.zero_le _
        hj0 := by simp
        hle := by simp [md_load_inner_init]
        hj := by simp [md_load_inner_init]
        hi := by
          show s.i = _
          rw [h.hi, hmin, Nat.add_zero]
        hnp := rfl
        hsr := rfl
        hsz := rfl
        hsec := rfl
        hws := rfl
        hcdev := rfl
        hbuf := rfl
        hcache := by
          intro sec pos hpos hlt2
          exact h.hcache sec pos hpos (by rw [hmin]; omega) }
  · intro a r hr har
    have har' : a * P.MD_BLOCKS_PER_SECTOR + r < n := by
      simp only [md_load_inner_init] at har
      exact_mod_cast har
    have hac' := hac a r har'
    simp only [md_load_inner_init, Disk.read_md, hac', if_true]
  · unfold md_load_block
    simp only []
    rw [hn, hcnt]
    simp only [flashcache_dm_io_sync_vm_read_md]
    rw [h.hdev, h.hws, h.hsec, int32_int32_add, hws1]
    by_cases herr : env.io_error s.cdev.log.length = 0
    · simp only [herr, ne_eq, not_true_eq_false, if_false, if_true, md_load_inner_init]
    · simp only [herr, ne_eq, not_false_eq_true, if_true]

/-- A pass of the loop `while (size > 0)` that neither returns nor panics keeps
the invariant and lowers `size`. -/
theorem md_load_block_run {P : Params} {clean_shutdown : Int} {dev : Disk}
    {log0 : List io_req} {L T : Nat} {ops : List io_req} {env : Env}
    {s s1 : md_load_locals} (hP : P.wf)
    (h : md_load_inv P clean_shutdown dev log0 L T ops s)
    (hc : decide (s.size > 0) = true)
    (hb : md_load_block P clean_shutdown env s = Flow.run s1) :
    ∃ T1 ops1, md_load_inv P clean_shutdown dev log0 L T1 ops1 s1 ∧
      s1.size.toNat < s.size.toNat := by
  obtain ⟨n, c, hn1, hnL, hT1, hmin1, hsz, hinit, hbuf0, heq⟩ := md_load_block_eq env hP h hc
  have hL := h.hL
  rw [heq] at hb
  by_cases herr : env.io_error s.cdev.log.length = 0
  · rw [if_neg (by simpa using herr)] at hb
    cases hin : md_load_inner P clean_shutdown loop_fuel (md_load_inner_init s dev T n c) with
    | run s2 =>
      rw [hin] at hb
      simp only [Flow.map_run, Flow.run.injEq] at hb
      obtain ⟨a, r, h2⟩ := @md_load_inner_run P clean_shutdown dev _ _ T n hP loop_fuel rfl
        (by omega) hbuf0 hinit hin
      have hs2sz : s2.size = s.size := h2.hsz
      have hs2sr : s2.slots_read = (n : Int) := h2.hsr
      have hsize1 : int32 (s2.size - s2.slots_read)
          = (L : Int) - ((T * P.MD_BLOCKS_PER_SECTOR + n : Nat) : Int) := by
        rw [hs2sz, hs2sr, hsz, int32_of_range (by push_cast; omega) (by push_cast; omega)]
        push_cast; ring
      refine ⟨T + c, ⟨io_dir.READ, 1 + T, c, 0⟩ :: ops, ?_, ?_⟩
      · subst hb
        exact
          { hL := hL
            hT := hT1
            hsz := by show int32 (s2.size - s2.slots_read) = _; rw [hsize1, hmin1]
            hi := by show s2.i = _; rw [h2.hi, hmin1]
            hsec := by
              show s2.sectors_read = _
              rw [h2.hsec]
              show int32 ((T : Int) + (c : Int)) = _
              rw [← Int.natCast_add]
            hws := h2.hws.trans rfl
            hdev := by show s2.cdev.dev = dev; rw [h2.hcdev]; rfl
            hlog := by
              show s2.cdev.log = _
              rw [h2.hcdev]
              show _ :: s.cdev.log = _
              rw [h.hlog, List.cons_append]
            hops := by
              intro op hop
              rcases List.mem_cons.mp hop with e | hop1
              · subst e; exact ⟨rfl, rfl⟩
              · exact h.hops op hop1
            hcache := by
              intro sec pos hpos hlt2
              exact h2.hcache sec pos hpos (by rw [hmin1] at hlt2; exact hlt2) }
      · subst hb
        show (int32 (s2.size - s2.slots_read)).toNat < _
        rw [hsize1, hsz]
        push_cast
        omega
    | ret1 s2 => rw [hin] at hb; simp [Flow.map_run] at hb
    | panic => rw [hin] at hb; simp [Flow.map_run] at hb
    | timeout => rw [hin] at hb; simp [Flow.map_run] at hb
  · rw [if_pos (by simpa using herr)] at hb
    simp at hb

/-- A pass of the loop `while (size > 0)` runs to its end where the read
succeeds and the `VERIFY` passes on the descriptors of the slots below `L`. -/
theorem md_load_block_total {P : Params} {clean_shutdown : Int} {dev : Disk}
    {log0 : List io_req} {L T : Nat} {ops : List io_req} {env : Env}
    {s : md_load_locals} (hP : P.wf)
    (h : md_load_inv P clean_shutdown dev log0 L T ops s)
    (hc : decide (s.size > 0) = true)
    (herr : env.io_error s.cdev.log.length = 0)
    (hver : ∀ sec pos, pos < P.MD_BLOCKS_PER_SECTOR →
      sec * P.MD_BLOCKS_PER_SECTOR + pos < L →
      md_load_verify P clean_shutdown (dev.md (1 + sec) pos)) :
    ∃ s1, md_load_block P clean_shutdown env s = Flow.run s1 := by
  obtain ⟨n, c, hn1, hnL, hT1, hmin1, hsz, hinit, hbuf0, heq⟩ := md_load_block_eq env hP h hc
  have hL := h.hL
  obtain ⟨s2, hin⟩ := @md_load_inner_total P clean_shutdown dev _ T n hP rfl (by omega)
    hbuf0
    (by
      intro a r hr har
      apply hver (T + a) r hr
      rw [Nat.add_mul]
      omega)
    hinit
  rw [heq, if_neg (by simpa using herr), hin]
  exact ⟨_, rfl⟩

theorem md_load_inv_init (P : Params) (clean_shutdown : Int) (env : Env) (dmc : cache_c)
    (cdev : Io) (hP : P.wf) (hsize : dmc.size < 2147483648) :
    md_load_inv P clean_shutdown cdev.dev cdev.log dmc.size 0 []
      (md_load_locals_init env dmc cdev) := by
  have hM := hP.1
  have h0 : min (0 * P.MD_BLOCKS_PER_SECTOR) dmc.size = 0 := by simp
  exact
    { hL := by omega
      hT := by omega
      hsz := by
        rw [h0]
        show int32 (dmc.size : Int) = _
        rw [int32_of_range (by omega) (by omega)]; simp
      hi := by rw [h0]; rfl
      hsec := by show (0 : Int) = _; simp [int32]
      hws := rfl
      hdev := rfl
      hlog := rfl
      hops := by simp
      hcache := by
        intro sec pos _ hlt
        rw [h0] at hlt
        exact absurd hlt (by omega) }

/-- The loop `while (size > 0)` of flashcache_md_load, where it runs to its end,
has loaded the slots `0 .. L-1` from their descriptors, reading only. -/
theorem md_load_loop_run {P : Params} {clean_shutdown : Int} {dev : Disk}
    {log0 : List io_req} {L : Nat} {env : Env} {s0 s1 : md_load_locals} (hP : P.wf)
    (fuel : Nat) (h0 : md_load_inv P clean_shutdown dev log0 L 0 [] s0)
    (hrun : md_load_loop P clean_shutdown env fuel s0 = Flow.run s1) :
    ∃ T ops, md_load_inv P clean_shutdown dev log0 L T ops s1 ∧
      L ≤ T * P.MD_BLOCKS_PER_SECTOR := by
  unfold md_load_loop at hrun
  have := while_loop_partial _ _
    (fun s => ∃ T ops, md_load_inv P clean_shutdown dev log0 L T ops s) ?_ fuel s0 s1
    ⟨0, [], h0⟩ hrun
  · obtain ⟨⟨T, ops, h⟩, hc⟩ := this
    refine ⟨T, ops, h, ?_⟩
    have := h.hsz
    simp only [gt_iff_lt, decide_eq_false_iff_not, not_lt] at hc
    omega
  · rintro s s2 ⟨T, ops, h⟩ hc hb
    obtain ⟨T1, ops1, h1, -⟩ := md_load_block_run hP h hc hb
    exact ⟨T1, ops1, h1⟩

/-- The loop `while (size > 0)` of flashcache_md_load runs to its end where no
request fails and the `VERIFY` passes on the descriptors of the slots below
`L`. -/
theorem md_load_loop_total {P : Params} {clean_shutdown : Int} {dev : Disk}
    {log0 : List io_req} {L : Nat} {env : Env} {s0 : md_load_locals} (hP : P.wf)
    (h0 : md_load_inv P clean_shutdown dev log0 L 0 [] s0)
    (herr : ∀ k, env.io_error k = 0)
    (hver : ∀ sec pos, pos < P.MD_BLOCKS_PER_SECTOR →
      sec * P.MD_BLOCKS_PER_SECTOR + pos < L →
      md_load_verify P clean_shutdown (dev.md (1 + sec) pos)) :
    ∃ s1, md_load_loop P clean_shutdown env loop_fuel s0 = Flow.run s1 := by
  unfold md_load_loop
  apply while_loop_total _ _
    (fun s => ∃ T ops, md_load_inv P clean_shutdown dev log0 L T ops s)
    (fun s => s.size.toNat) ?_ loop_fuel s0 ⟨0, [], h0⟩
  · have h1 := h0.hsz
    have h2 := h0.hL
    unfold loop_fuel
    omega
  · rintro s ⟨T, ops, h⟩ hc
    obtain ⟨s1, hb⟩ := md_load_block_total hP h hc (herr _) hver
    obtain ⟨T1, ops1, h1, hlt⟩ := md_load_block_run hP h hc hb
    exact ⟨s1, hb, ⟨T1, ops1, h1⟩, hlt⟩

/-- The sector count of the debug test, for the loop of flashcache_md_load at
its end. -/
theorem sectors_expected_of_cover {P : Params} {L T : Nat} (hM : 1 ≤ P.MD_BLOCKS_PER_SECTOR)
    (h1 : L ≤ T * P.MD_BLOCKS_PER_SECTOR)
    (h2 : T * P.MD_BLOCKS_PER_SECTOR < L + P.MD_BLOCKS_PER_SECTOR) :
    sectors_expected P L = int32 (T : Int) := by
  by_cases he : L = T * P.MD_BLOCKS_PER_SECTOR
  · rw [sectors_expected_eq (T := T) (p := 0) (by omega) (by omega)]
    simp
  · have hT : 1 ≤ T := by
      rcases Nat.eq_zero_or_pos T with h | h
      · subst h; simp at h1; omega
      · exact h
    have e : T * P.MD_BLOCKS_PER_SECTOR
        = (T - 1) * P.MD_BLOCKS_PER_SECTOR + P.MD_BLOCKS_PER_SECTOR := by
      have : T = (T - 1) + 1 := by omega
      conv_lhs => rw [this, Nat.succ_mul]
    rw [sectors_expected_eq (T := T - 1) (p := L - (T - 1) * P.MD_BLOCKS_PER_SECTOR)
      (by omega) (by omega)]
    have hp : L - (T - 1) * P.MD_BLOCKS_PER_SECTOR ≠ 0 := by omega
    rw [if_pos hp]
    congr 1
    omega

/-- A successful flashcache_md_load: the superblock state is accepted, the read
loop ran to its end, the debug test passed and the superblock was written. -/
theorem md_load_success {P : Params} {dmc : cache_c} {env : Env} {dev : Disk}
    {r : md_result}
    (h : flashcache_md_load P dmc env dev = Outcome.returned r) (hret : r.ret = 0) :
    (dev.sb.cache_sb_state = P.CACHE_MD_STATE_DIRTY ∨
      dev.sb.cache_sb_state = P.CACHE_MD_STATE_CLEAN ∨
      dev.sb.cache_sb_state = P.CACHE_MD_STATE_FASTCLEAN) ∧
    ∃ s, md_load_loop P (md_load_clean_shutdown P dev.sb) env loop_fuel
          (md_load_locals_init env (md_load_dmc P dmc env dev) (md_load_cdev dev))
          = Flow.run s ∧
      sectors_expected P dev.sb.size = s.sectors_read ∧
      r = { ret := 0
            dmc := { md_load_dmc P dmc env dev with cache := s.cache }
            io := { dev := { s.cdev.dev with
                      sb := md_dirty_header P
                        { md_load_dmc P dmc env dev with cache := s.cache } }
                    log := ⟨io_dir.WRITE, 0, 1, 0⟩ :: s.cdev.log } } := by
  unfold flashcache_md_load at h
  simp only [flashcache_dm_io_sync_vm_read_sb, List.length_nil] at h
  by_cases hv0 : env.vmalloc_ok 0 = false
  · rw [if_pos hv0] at h
    simp only [Outcome.returned.injEq] at h
    subst h; simp at hret
  rw [if_neg hv0] at h
  by_cases he0 : env.io_error 0 ≠ 0
  · rw [if_pos he0] at h
    simp only [Outcome.returned.injEq] at h
    subst h; simp at hret
  rw [if_neg he0] at h
  by_cases hst : ¬ (dev.sb.cache_sb_state = P.CACHE_MD_STATE_DIRTY ∨
      dev.sb.cache_sb_state = P.CACHE_MD_STATE_CLEAN ∨
      dev.sb.cache_sb_state = P.CACHE_MD_STATE_FASTCLEAN)
  · rw [if_pos hst] at h
    simp only [Outcome.returned.injEq] at h
    subst h; simp at hret
  rw [if_neg hst] at h
  by_cases hv1 : env.vmalloc_ok 1 = false
  · rw [if_pos hv1] at h
    simp only [Outcome.returned.injEq] at h
    subst h; simp at hret
  rw [if_neg hv1] at h
  by_cases hv2 : env.vmalloc_ok 2 = false
  · rw [if_pos hv2] at h
    simp only [Outcome.returned.injEq] at h
    subst h; simp at hret
  rw [if_neg hv2] at h
  by_cases hv3 : env.vmalloc_ok 3 = false
  · rw [if_pos hv3] at h
    simp only [Outcome.returned.injEq] at h
    subst h; simp at hret
  rw [if_neg hv3] at h
  have he0' : env.io_error 0 = 0 := not_not.mp he0
  rw [he0'] at h
  refine ⟨not_not.mp hst, ?_⟩
  cases hl : md_load_loop P (md_load_clean_shutdown P dev.sb) env loop_fuel
      (md_load_locals_init env (md_load_dmc P dmc env dev) (md_load_cdev dev)) with
  | run s =>
    refine ⟨s, rfl, ?_⟩
    unfold md_load_dmc md_load_cdev at hl
    rw [hl] at h
    simp only [Flow.finish, flashcache_dm_io_sync_vm_write_sb] at h
    by_cases hse : sectors_expected P (md_load_geometry P dmc dev.sb).size ≠ s.sectors_read
    · rw [if_pos hse] at h
      simp at h
    rw [if_neg hse] at h
    by_cases hw : env.io_error s.cdev.log.length ≠ 0
    · rw [if_pos hw] at h
      simp only [Outcome.returned.injEq] at h
      subst h; simp at hret
    rw [if_neg hw] at h
    have hw' : env.io_error s.cdev.log.length = 0 := not_not.mp hw
    simp only [Outcome.returned.injEq] at h
    refine ⟨not_not.mp hse, ?_⟩
    rw [← h]
    simp only [hw', if_true]
    rfl
  | ret1 s =>
    unfold md_load_dmc md_load_cdev at hl
    rw [hl] at h
    simp only [Flow.finish, Outcome.returned.injEq] at h
    subst h; simp at hret
  | panic =>
    unfold md_load_dmc md_load_cdev at hl
    rw [hl] at h
    simp [Flow.finish] at h
  | timeout =>
    unfold md_load_dmc md_load_cdev at hl
    rw [hl] at h
    simp [Flow.finish] at h

theorem div_mod_index {M : Nat} (hM : 1 ≤ M) (i : Nat) :
    i % M < M ∧ i / M * M + i % M = i := by
  refine ⟨Nat.mod_lt i (by omega), ?_⟩
  have := Nat.div_add_mod i M
  rw [Nat.mul_comm] at this
  exact this

/-- What a successful flashcache_md_load leaves, for a slot count that fits an
`int`: the geometry of the superblock in the instance, every slot loaded from
its descriptor, the descriptors untouched and the superblock rewritten DIRTY
with that geometry. -/
theorem md_load_slots {P : Params} {dmc : cache_c} {env : Env} {dev : Disk}
    {r : md_result} (hP : P.wf) (hsize : dev.sb.size < 2147483648)
    (h : flashcache_md_load P dmc env dev = Outcome.returned r) (hret : r.ret = 0) :
    r.dmc.size = dev.sb.size ∧ r.dmc.block_size = dev.sb.block_size ∧
    r.dmc.assoc = dev.sb.assoc ∧ r.io.dev.md = dev.md ∧
    r.io.dev.sb = md_dirty_header P r.dmc ∧
    ∀ i, i < dev.sb.size →
      r.dmc.cache i = md_load_slot P (md_load_clean_shutdown P dev.sb)
        (dev.md (1 + i / P.MD_BLOCKS_PER_SECTOR) (i % P.MD_BLOCKS_PER_SECTOR)) ∧
      md_load_verify P (md_load_clean_shutdown P dev.sb)
        (dev.md (1 + i / P.MD_BLOCKS_PER_SECTOR) (i % P.MD_BLOCKS_PER_SECTOR)) := by
  obtain ⟨-, s, hl, -, hr⟩ := md_load_success h hret
  have h0 := md_load_inv_init P (md_load_clean_shutdown P dev.sb) env
    (md_load_dmc P dmc env dev) (md_load_cdev dev) hP hsize
  obtain ⟨T, ops, hinv, hLT⟩ := md_load_loop_run hP loop_fuel h0 hl
  have hmin : min (T * P.MD_BLOCKS_PER_SECTOR) dev.sb.size = dev.sb.size :=
    Nat.min_eq_right hLT
  subst hr
  refine ⟨rfl, rfl, rfl, ?_, rfl, ?_⟩
  · show s.cdev.dev.md = dev.md
    rw [hinv.hdev]; rfl
  · intro i hi
    obtain ⟨h1, h2⟩ := div_mod_index hP.1 i
    have := hinv.hcache (i / P.MD_BLOCKS_PER_SECTOR) (i % P.MD_BLOCKS_PER_SECTOR) h1
      (by
        show _ < min (T * P.MD_BLOCKS_PER_SECTOR) dev.sb.size
        rw [hmin, h2]; exact hi)
    rw [h2] at this
    exact this

/-- The function flashcache_md_load returns 0 where the superblock state is
accepted, the slot count fits an `int`, no `vmalloc` and no request fails, and
the `VERIFY` passes on the descriptor of every slot. -/
theorem md_load_total {P : Params} (dmc : cache_c) {env : Env} {dev : Disk} (hP : P.wf)
    (hsize : dev.sb.size < 2147483648)
    (hst : dev.sb.cache_sb_state = P.CACHE_MD_STATE_DIRTY ∨
      dev.sb.cache_sb_state = P.CACHE_MD_STATE_CLEAN ∨
      dev.sb.cache_sb_state = P.CACHE_MD_STATE_FASTCLEAN)
    (herr : ∀ k, env.io_error k = 0) (hv : ∀ k, env.vmalloc_ok k = true)
    (hver : ∀ i, i < dev.sb.size →
      md_load_verify P (md_load_clean_shutdown P dev.sb)
        (dev.md (1 + i / P.MD_BLOCKS_PER_SECTOR) (i % P.MD_BLOCKS_PER_SECTOR))) :
    ∃ r, flashcache_md_load P dmc env dev = Outcome.returned r ∧ r.ret = 0 := by
  have h0 := md_load_inv_init P (md_load_clean_shutdown P dev.sb) env
    (md_load_dmc P dmc env dev) (md_load_cdev dev) hP hsize
  have hver' : ∀ sec pos, pos < P.MD_BLOCKS_PER_SECTOR →
      sec * P.MD_BLOCKS_PER_SECTOR + pos < dev.sb.size →
      md_load_verify P (md_load_clean_shutdown P dev.sb) (dev.md (1 + sec) pos) := by
    intro sec pos hpos hlt
    have := hver (sec * P.MD_BLOCKS_PER_SECTOR + pos) hlt
    have hd : (sec * P.MD_BLOCKS_PER_SECTOR + pos) / P.MD_BLOCKS_PER_SECTOR = sec := by
      rw [Nat.mul_comm, Nat.mul_add_div (by have := hP.1; omega), Nat.div_eq_of_lt hpos,
        Nat.add_zero]
    have hm : (sec * P.MD_BLOCKS_PER_SECTOR + pos) % P.MD_BLOCKS_PER_SECTOR = pos := by
      rw [Nat.mul_comm, Nat.mul_add_mod, Nat.mod_eq_of_lt hpos]
    rw [hd, hm] at this
    exact this
  obtain ⟨s, hl⟩ := @md_load_loop_total P _ _ _ _ env _ hP h0 herr hver'
  obtain ⟨T, ops, hinv, hLT⟩ := md_load_loop_run hP loop_fuel h0 hl
  have hse : sectors_expected P dev.sb.size = s.sectors_read := by
    rw [hinv.hsec]
    exact sectors_expected_of_cover hP.1 hLT hinv.hT
  unfold md_load_dmc md_load_cdev at hl
  unfold flashcache_md_load
  simp only [flashcache_dm_io_sync_vm_read_sb, List.length_nil, herr, hv, hst]
  simp only [Bool.true_eq_false, if_false, ne_eq, not_true_eq_false, not_false_eq_true]
  rw [hl]
  simp only [Flow.finish, flashcache_dm_io_sync_vm_write_sb, herr]
  have hse' : sectors_expected P (md_load_geometry P dmc dev.sb).size = s.sectors_read := hse
  rw [if_neg (not_not.mpr hse')]
  simp

/-- A pass of the loop of flashcache_md_create is a pass of the loop of
flashcache_md_store, but for the counters and for the return at a failed
write. -/
theorem md_create_body_eq (P : Params) (dmc : cache_c) (env : Env) (s : md_locals) :
    md_create_body P dmc env s =
      if md_body_writes P s ∧ env.io_error s.cdev.log.length ≠ 0 then
        Flow.ret1 (md_create_ret_state P dmc env s)
      else Flow.run (md_create_run_state P dmc env s) := by
  unfold md_create_body md_create_run_state md_store_body md_create_ret_state md_body_writes
  simp only []
  by_cases c1 : int32 (s.j - 1) = 0
  · by_cases c2 : uint64 (int32 (s.slots_written + 1))
        = uint64 ((P.MD_BLOCKS_PER_SECTOR : Int) * (P.METADATA_IO_BLOCKSIZE_SECT : Int))
    · by_cases c3 : env.io_error s.cdev.log.length = 0
      · simp only [c1, c2, c3, flashcache_dm_io_sync_vm_write_md, ne_eq, not_true_eq_false,
          and_false, if_false, if_true, and_self]
      · simp only [c1, c2, c3, flashcache_dm_io_sync_vm_write_md, ne_eq, not_false_eq_true,
          and_self, if_true]
    · simp only [c1, c2, false_and, and_false, if_false, if_true]
  · simp only [c1, false_and, if_false]

/-- The invariant `md_pos` does not look at the counters of
flashcache_md_store. -/
theorem md_pos_counters {P : Params} {dmc : cache_c} {sb0 : flash_superblock}
    {log0 : List io_req} {S q p : Nat} {ops : List io_req} {k : Nat} {s : md_locals}
    (a b c : Int) (h : md_pos P dmc sb0 log0 S q p ops k s) :
    md_pos P dmc sb0 log0 S q p ops k
      { s with num_valid := a, num_dirty := b, write_errors := c } :=
  { hq := h.hq
    hp := h.hp
    hk := h.hk
    hi := h.hi
    hj := h.hj
    hsl := h.hsl
    hsw := h.hsw
    hnp := h.hnp
    hws := h.hws
    hsb := h.hsb
    hlog := h.hlog
    hlen := h.hlen
    hops := h.hops
    hcont := h.hcont }

/-- A pass of the descriptor loop of flashcache_md_create: it returns where the
write of an I/O block fails, and keeps the invariant otherwise. -/
theorem md_create_inv_body {P : Params} {dmc : cache_c} {sb0 : flash_superblock}
    {log0 : List io_req} {k : Nat} {s : md_locals} (env : Env) (hP : P.wf)
    (hk : k < 2147483648) (h : md_create_inv P dmc sb0 log0 k s) :
    (md_body_writes P s ∧ env.io_error s.cdev.log.length ≠ 0 ∧
      md_create_body P dmc env s = Flow.ret1 (md_create_ret_state P dmc env s)) ∨
    (md_create_body P dmc env s = Flow.run (md_create_run_state P dmc env s) ∧
      md_create_inv P dmc sb0 log0 (k + 1) (md_create_run_state P dmc env s)) := by
  obtain ⟨S, q, p, ops, hpos, hok⟩ := h
  obtain ⟨S1, q1, p1, ops1, h1, hw, hnw⟩ := md_pos_store_body env hP hk hpos
  rw [md_create_body_eq]
  by_cases hc : md_body_writes P s ∧ env.io_error s.cdev.log.length ≠ 0
  · left
    exact ⟨hc.1, hc.2, if_pos hc⟩
  · right
    refine ⟨if_neg hc, S1, q1, p1, ops1, md_pos_counters _ _ _ h1, ?_⟩
    by_cases hwr : md_body_writes P s
    · obtain ⟨c, hc1⟩ := hw hwr
      have herr : env.io_error s.cdev.log.length = 0 := by
        by_contra hne
        exact hc ⟨hwr, hne⟩
      intro op hop
      rw [hc1] at hop
      rcases List.mem_cons.mp hop with e | hop1
      · rw [e]; exact herr
      · exact hok op hop1
    · rw [hnw hwr]
      exact hok

/-- The descriptor loop of flashcache_md_create, where it runs to its end, has
made all its passes, and no request has failed. -/
theorem md_create_loop_run {P : Params} {dmc : cache_c} {sb0 : flash_superblock}
    {log0 : List io_req} {env : Env} {s0 s1 : md_locals} (hP : P.wf)
    (hsize : dmc.size ≤ 18446744071562067968) (fuel : Nat)
    (h0 : md_create_inv P dmc sb0 log0 0 s0)
    (hrun : md_create_loop P dmc env fuel s0 = Flow.run s1) :
    md_create_inv P dmc sb0 log0 (int_loop_passes dmc.size) s1 := by
  unfold md_create_loop at hrun
  have := while_loop_partial _ _
    (fun s => ∃ k, k ≤ int_loop_passes dmc.size ∧ md_create_inv P dmc sb0 log0 k s)
    ?_ fuel s0 s1 ⟨0, Nat.zero_le _, h0⟩ hrun
  · obtain ⟨⟨k, hk, hinv⟩, hc⟩ := this
    rcases Nat.lt_or_ge k (int_loop_passes dmc.size) with hlt | hge
    · obtain ⟨S, q, p, ops, hpos, -⟩ := hinv
      have := int_loop_cond hpos.hi hlt
      rw [this] at hc
      exact absurd hc (by simp)
    · have : k = int_loop_passes dmc.size := Nat.le_antisymm hk hge
      rw [← this]; exact hinv
  · rintro s s2 ⟨k, hk, hinv⟩ hc hb
    have hlt : k < int_loop_passes dmc.size := by
      rcases Nat.lt_or_ge k (int_loop_passes dmc.size) with hlt | hge
      · exact hlt
      · have hkN : k = int_loop_passes dmc.size := Nat.le_antisymm hk hge
        obtain ⟨S, q, p, ops, hpos, -⟩ := hinv
        have := int_loop_stop hsize (hkN ▸ hpos.hi)
        rw [this] at hc
        exact absurd hc (by simp)
    have hk1 : k < 2147483648 := by unfold int_loop_passes at hlt; omega
    rcases md_create_inv_body env hP hk1 hinv with ⟨-, -, hret⟩ | ⟨hr, hinv1⟩
    · rw [hret] at hb; simp at hb
    · rw [hr] at hb
      simp only [Flow.run.injEq] at hb
      subst hb
      exact ⟨k + 1, hlt, hinv1⟩

/-- The descriptor loop of flashcache_md_create runs to its end where no
request fails. -/
theorem md_create_loop_total {P : Params} {dmc : cache_c} {sb0 : flash_superblock}
    {log0 : List io_req} {env : Env} {s0 : md_locals} (hP : P.wf)
    (hsize : dmc.size ≤ 18446744071562067968)
    (herr : ∀ k, env.io_error k = 0)
    (h0 : md_create_inv P dmc sb0 log0 0 s0) :
    ∃ s1, md_create_loop P dmc env loop_fuel s0 = Flow.run s1 := by
  unfold md_create_loop
  have hcond : ∀ k s, md_create_inv P dmc sb0 log0 k s → k < int_loop_passes dmc.size →
      decide (uint64 s.i < dmc.size) = true := by
    rintro k s ⟨S, q, p, ops, h, -⟩ hk
    exact int_loop_cond h.hi hk
  have hstop : ∀ s, md_create_inv P dmc sb0 log0 (int_loop_passes dmc.size) s →
      decide (uint64 s.i < dmc.size) = false := by
    rintro s ⟨S, q, p, ops, h, -⟩
    exact int_loop_stop hsize h.hi
  have hbody : ∀ k s, md_create_inv P dmc sb0 log0 k s → k < int_loop_passes dmc.size →
      ∃ s1, md_create_body P dmc env s = Flow.run s1 ∧
        md_create_inv P dmc sb0 log0 (k + 1) s1 := by
    rintro k s hinv hk
    have hk1 : k < 2147483648 := by unfold int_loop_passes at hk; omega
    rcases md_create_inv_body env hP hk1 hinv with ⟨-, hne, -⟩ | ⟨hr, hinv1⟩
    · exact absurd (herr _) hne
    · exact ⟨_, hr, hinv1⟩
  obtain ⟨s1, h1, -⟩ := while_loop_run _ _ (md_create_inv P dmc sb0 log0)
    (int_loop_passes dmc.size) hcond hstop hbody (int_loop_passes dmc.size) 0 s0 loop_fuel
    (by omega) h0 (by unfold int_loop_passes loop_fuel; omega)
  exact ⟨s1, h1⟩

theorem md_create_rest_eq {P : Params} (env : Env) {s : md_locals}
    (hpos : s.next_ptr ≠ (0, 0) → s.slots_written > 0) :
    md_create_rest P env s =
      if s.next_ptr ≠ (0, 0) ∧ env.io_error s.cdev.log.length ≠ 0 then
        Flow.ret1 (md_rest_state P env s)
      else Flow.run (md_rest_state P env s) := by
  unfold md_create_rest md_rest_state
  by_cases hne : s.next_ptr ≠ (0, 0)
  · have h1 : ¬ ¬ (s.slots_written > 0) := not_not.mpr (hpos hne)
    rw [if_pos hne, if_pos hne, if_neg h1]
    by_cases herr : env.io_error s.cdev.log.length = 0
    · simp only [flashcache_dm_io_sync_vm_write_md, herr, ne_eq, not_true_eq_false,
        and_false, if_false]
    · simp only [flashcache_dm_io_sync_vm_write_md, herr, hne, ne_eq, not_false_eq_true,
        and_self, if_true]
  · rw [if_neg hne, if_neg hne, if_neg (fun hc => hne hc.1)]

/-- The loop of flashcache_md_create that initialises the slot array runs to
its end; the slots of its passes are initialised, the others are as they
were. -/
theorem md_create_init_run (P : Params) (size : Nat) (garbage : Nat → cacheblock)
    (hsize : size ≤ 18446744071562067968) :
    ∃ c, md_create_init_loop P size loop_fuel (0, garbage) = Flow.run c ∧
      (∀ m : Nat, m < int_loop_passes size → c.2 m = md_create_slot P) ∧
      (∀ m : Nat, int_loop_passes size ≤ m → c.2 m = garbage m) := by
  unfold md_create_init_loop
  have hcond : ∀ k (s : Int × (Nat → cacheblock)), md_init_inv P garbage k s →
      k < int_loop_passes size → decide (uint64 s.1 < size) = true := by
    rintro k s ⟨h, -, -⟩ hk
    exact int_loop_cond h hk
  have hstop : ∀ (s : Int × (Nat → cacheblock)),
      md_init_inv P garbage (int_loop_passes size) s →
      decide (uint64 s.1 < size) = false := by
    rintro s ⟨h, -, -⟩
    exact int_loop_stop hsize h
  have hbody : ∀ k (s : Int × (Nat → cacheblock)), md_init_inv P garbage k s →
      k < int_loop_passes size →
      ∃ s1, Flow.run (int32 (s.1 + 1),
          Function.update s.2 s.1.toNat
            ({ dbn := 0, cache_state := P.INVALID, nr_queued := 0 } : cacheblock)) = Flow.run s1 ∧
        md_init_inv P garbage (k + 1) s1 := by
    rintro k s ⟨hi, hlo, hhi⟩ hk
    have hk1 : k < 2147483648 := by unfold int_loop_passes at hk; omega
    have hidx : s.1.toNat = k := by
      rw [hi, int32_of_range (by omega) (by omega)]; omega
    refine ⟨_, rfl, ?_, ?_, ?_⟩
    · show int32 (s.1 + 1) = _
      rw [hi, int32_int32_add]; push_cast; rfl
    · intro m hm
      show Function.update s.2 s.1.toNat _ m = _
      rw [hidx]
      by_cases hmk : m = k
      · rw [hmk, Function.update_same]; rfl
      · rw [Function.update_noteq hmk]; exact hlo m (by omega)
    · intro m hm
      show Function.update s.2 s.1.toNat _ m = _
      rw [hidx, Function.update_noteq (by omega)]
      exact hhi m (by omega)
  have h0 : md_init_inv P garbage 0 (0, garbage) :=
    ⟨by simp [int32], by intro m hm; omega, by intro m _; rfl⟩
  obtain ⟨c, h1, -, h2, h3⟩ := while_loop_run _ _ (md_init_inv P garbage)
    (int_loop_passes size) hcond hstop hbody (int_loop_passes size) 0 (0, garbage) loop_fuel
    (by omega) h0 (by unfold int_loop_passes loop_fuel; omega)
  exact ⟨c, h1, h2, h3⟩

/-- A successful flashcache_md_create: the superblock was read, no existing
cache stood in the way, the geometry fits the device, the three loops ran to
their end, the debug test passed and the superblock was written. -/
theorem md_create_success {P : Params} {dmc : cache_c} {force : Int} {env : Env}
    {dev : Disk} {r : md_result}
    (h : flashcache_md_create P dmc force env dev = Outcome.returned r)
    (hret : r.ret = 0) :
    env.io_error 0 = 0 ∧
    ¬ (force = 0 ∧
      (dev.sb.cache_sb_state = P.CACHE_MD_STATE_DIRTY ∨
       dev.sb.cache_sb_state = P.CACHE_MD_STATE_CLEAN ∨
       dev.sb.cache_sb_state = P.CACHE_MD_STATE_FASTCLEAN)) ∧
    ∃ c s1 s,
      md_create_init_loop P (md_create_geometry P dmc).size loop_fuel (0, env.cache_garbage)
        = Flow.run c ∧
      md_create_loop P { md_create_geometry P dmc with cache := c.2 } env loop_fuel
        (md_create_locals_init P env dev) = Flow.run s1 ∧
      md_create_rest P env s1 = Flow.run s ∧
      sectors_expected P (md_create_geometry P dmc).size = s.sectors_written ∧
      r = { ret := 0
            dmc := { md_create_geometry P dmc with cache := c.2 }
            io := { dev := { s.cdev.dev with
                      sb := md_dirty_header P { md_create_geometry P dmc with cache := c.2 } }
                    log := ⟨io_dir.WRITE, 0, 1, 0⟩ :: s.cdev.log } } := by
  unfold flashcache_md_create at h
  simp only [flashcache_dm_io_sync_vm_read_sb, List.length_nil] at h
  by_cases hv0 : env.vmalloc_ok 0 = false
  · rw [if_pos hv0] at h
    simp only [Outcome.returned.injEq] at h
    subst h; simp at hret
  rw [if_neg hv0] at h
  by_cases he0 : env.io_error 0 ≠ 0
  · rw [if_pos he0] at h
    simp only [Outcome.returned.injEq] at h
    subst h; simp at hret
  rw [if_neg he0] at h
  by_cases hst : force = 0 ∧
      (dev.sb.cache_sb_state = P.CACHE_MD_STATE_DIRTY ∨
       dev.sb.cache_sb_state = P.CACHE_MD_STATE_CLEAN ∨
       dev.sb.cache_sb_state = P.CACHE_MD_STATE_FASTCLEAN)
  · rw [if_pos hst] at h
    simp only [Outcome.returned.injEq] at h
    subst h; simp at hret
  rw [if_neg hst] at h
  by_cases hz : dmc.block_size = 0 ∨ dmc.assoc = 0
  · rw [if_pos hz] at h
    simp at h
  rw [if_neg hz] at h
  by_cases hfit : uint64 (int32 ((md_create_geometry P dmc).md_sectors : Int)
      + ((md_create_geometry P dmc).size : Int) * ((md_create_geometry P dmc).block_size : Int))
      > (md_create_geometry P dmc).cache_devsize
  · rw [if_pos hfit] at h
    simp only [Outcome.returned.injEq] at h
    subst h; simp at hret
  rw [if_neg hfit] at h
  by_cases hv1 : env.vmalloc_ok 1 = false
  · rw [if_pos hv1] at h
    simp only [Outcome.returned.injEq] at h
    subst h; simp at hret
  rw [if_neg hv1] at h
  refine ⟨not_not.mp he0, hst, ?_⟩
  cases hi : md_create_init_loop P (md_create_geometry P dmc).size loop_fuel
      (0, env.cache_garbage) with
  | run c =>
    rw [hi] at h
    simp only [Flow.finish] at h
    by_cases hv2 : env.vmalloc_ok 2 = false
    · rw [if_pos hv2] at h
      simp only [Outcome.returned.injEq] at h
      subst h; simp at hret
    rw [if_neg hv2] at h
    cases hl : md_create_loop P { md_create_geometry P dmc with cache := c.2 } env loop_fuel
        (md_create_locals_init P env dev) with
    | run s1 =>
      have hl' := hl
      unfold md_create_locals_init md_create_cdev at hl
      rw [hl] at h
      simp only [] at h
      cases hr : md_create_rest P env s1 with
      | run s =>
        rw [hr] at h
        simp only [flashcache_dm_io_sync_vm_write_sb] at h
        by_cases hse : sectors_expected P (md_create_geometry P dmc).size ≠ s.sectors_written
        · rw [if_pos hse] at h
          simp at h
        rw [if_neg hse] at h
        by_cases hw : env.io_error s.cdev.log.length ≠ 0
        · rw [if_pos hw] at h
          simp only [Outcome.returned.injEq] at h
          subst h; simp at hret
        rw [if_neg hw] at h
        have hw' : env.io_error s.cdev.log.length = 0 := not_not.mp hw
        simp only [Outcome.returned.injEq] at h
        refine ⟨c, s1, s, rfl, hl', hr, not_not.mp hse, ?_⟩
        rw [← h]
        simp only [hw', if_true]
      | ret1 s =>
        rw [hr] at h
        simp only [Outcome.returned.injEq] at h
        subst h; simp at hret
      | panic => rw [hr] at h; simp at h
      | timeout => rw [hr] at h; simp at h
    | ret1 s =>
      unfold md_create_locals_init md_create_cdev at hl
      rw [hl] at h
      simp only [Outcome.returned.injEq] at h
      subst h; simp at hret
    | panic =>
      unfold md_create_locals_init md_create_cdev at hl
      rw [hl] at h; simp at h
    | timeout =>
      unfold md_create_locals_init md_create_cdev at hl
      rw [hl] at h; simp at h
  | ret1 c =>
    rw [hi] at h
    simp only [Flow.finish, Outcome.returned.injEq] at h
    subst h; simp at hret
  | panic => rw [hi] at h; simp [Flow.finish] at h
  | timeout => rw [hi] at h; simp [Flow.finish] at h

/-- What a successful flashcache_md_create leaves, `N` being the number of
passes of its loops over the final slot count: the new geometry in the
instance, the slots below `N` initialised and the others as `vmalloc` gave
them, an INVALID descriptor on the device for every slot below `N`, and the
superblock written DIRTY with the new geometry. -/
theorem md_create_post {P : Params} {dmc : cache_c} {force : Int} {env : Env}
    {dev : Disk} {r : md_result} (hP : P.wf)
    (hsize : (md_create_geometry P dmc).size ≤ 18446744071562067968)
    (h : flashcache_md_create P dmc force env dev = Outcome.returned r)
    (hret : r.ret = 0) :
    r.dmc = { md_create_geometry P dmc with cache := r.dmc.cache } ∧
    (∀ m : Nat, m < int_loop_passes (md_create_geometry P dmc).size →
      r.dmc.cache m = md_create_slot P) ∧
    (∀ m : Nat, int_loop_passes (md_create_geometry P dmc).size ≤ m →
      r.dmc.cache m = env.cache_garbage m) ∧
    (∀ i : Nat, i < int_loop_passes (md_create_geometry P dmc).size →
      r.io.dev.md (1 + i / P.MD_BLOCKS_PER_SECTOR) (i % P.MD_BLOCKS_PER_SECTOR)
        = md_descriptor P (md_create_slot P)) ∧
    r.io.dev.sb = md_dirty_header P r.dmc := by
  obtain ⟨-, -, c, s1, s, hi, hl, hr, -, hreq⟩ := md_create_success h hret
  obtain ⟨c1, hi1, hlo, hhi⟩ := md_create_init_run P (md_create_geometry P dmc).size
    env.cache_garbage hsize
  have hc : c1 = c := by
    rw [hi] at hi1
    exact (Flow.run.inj hi1).symm
  subst hc
  have h0 : md_create_inv P { md_create_geometry P dmc with cache := c1.2 } dev.sb
      (md_create_cdev env dev).log 0 (md_create_locals_init P env dev) :=
    ⟨0, 0, 0, [], md_pos_init P _ env dev _ hP, by simp⟩
  obtain ⟨S, q, p, ops, hpos, hok⟩ := @md_create_loop_run P
    { md_create_geometry P dmc with cache := c1.2 } _ _ env _ _ hP hsize loop_fuel h0 hl
  obtain ⟨ops1, hw, hops1⟩ := md_pos_rest env hP hpos
  rw [md_create_rest_eq env (fun hne => md_pos_slots_pos hP hpos hne)] at hr
  by_cases hf : s1.next_ptr ≠ (0, 0) ∧ env.io_error s1.cdev.log.length ≠ 0
  · rw [if_pos hf] at hr; simp at hr
  rw [if_neg hf] at hr
  simp only [Flow.run.injEq] at hr
  have hok1 : ∀ op ∈ ops1, op.error = 0 := by
    intro op hop
    rcases hops1 op hop with h1 | ⟨h1, h2⟩
    · exact hok op h1
    · rw [h2]
      by_contra hne
      exact hf ⟨h1, hne⟩
  subst hreq
  refine ⟨rfl, hlo, hhi, ?_, rfl⟩
  intro i hi2
  show s.cdev.dev.md _ _ = _
  rw [← hr, hw.hcont hok1 i hi2]
  show md_descriptor P (c1.2 i) = _
  rw [hlo i hi2]

/-- The function flashcache_md_create returns 0 where no existing cache stands
in the way, the geometry is computed without a division by zero and fits the
device, no `vmalloc` and no request fails, and the debug test finds the sector
count of the slot count equal to that of the passes of the loop. -/
theorem md_create_total {P : Params} {dmc : cache_c} {force : Int} {env : Env}
    {dev : Disk} (hP : P.wf)
    (hst : ¬ (force = 0 ∧
      (dev.sb.cache_sb_state = P.CACHE_MD_STATE_DIRTY ∨
       dev.sb.cache_sb_state = P.CACHE_MD_STATE_CLEAN ∨
       dev.sb.cache_sb_state = P.CACHE_MD_STATE_FASTCLEAN)))
    (hz : ¬ (dmc.block_size = 0 ∨ dmc.assoc = 0))
    (hfit : ¬ (uint64 (int32 ((md_create_geometry P dmc).md_sectors : Int)
      + ((md_create_geometry P dmc).size : Int) * ((md_create_geometry P dmc).block_size : Int))
      > (md_create_geometry P dmc).cache_devsize))
    (hsize : (md_create_geometry P dmc).size ≤ 18446744071562067968)
    (hsec : sectors_expected P (md_create_geometry P dmc).size
      = sectors_expected P (int_loop_passes (md_create_geometry P dmc).size))
    (herr : ∀ k, env.io_error k = 0) (hv : ∀ k, env.vmalloc_ok k = true) :
    ∃ r, flashcache_md_create P dmc force env dev = Outcome.returned r ∧ r.ret = 0 := by
  obtain ⟨c, hi, -, -⟩ := md_create_init_run P (md_create_geometry P dmc).size
    env.cache_garbage hsize
  have h0 : md_create_inv P { md_create_geometry P dmc with cache := c.2 } dev.sb
      (md_create_cdev env dev).log 0 (md_create_locals_init P env dev) :=
    ⟨0, 0, 0, [], md_pos_init P _ env dev _ hP, by simp⟩
  obtain ⟨s1, hl⟩ := @md_create_loop_total P
    { md_create_geometry P dmc with cache := c.2 } _ _ env _ hP hsize herr h0
  obtain ⟨S, q, p, ops, hpos, -⟩ := @md_create_loop_run P
    { md_create_geometry P dmc with cache := c.2 } _ _ env _ _ hP hsize loop_fuel h0 hl
  obtain ⟨ops1, hw, -⟩ := md_pos_rest env hP hpos
  have hr := md_create_rest_eq (P := P) env (fun hne => md_pos_slots_pos hP hpos hne)
  rw [if_neg (fun hc => hc.2 (herr _))] at hr
  have hsw : sectors_expected P (md_create_geometry P dmc).size
      = (md_rest_state P env s1).sectors_written := by
    rw [hsec]; exact hw.hsw.symm
  unfold md_create_locals_init md_create_cdev at hl
  unfold flashcache_md_create
  simp only [flashcache_dm_io_sync_vm_read_sb, List.length_nil, herr, hv]
  simp only [Bool.true_eq_false, if_false, ne_eq, not_true_eq_false]
  rw [if_neg hst, if_neg hz, if_neg hfit, hi]
  rw [herr 0] at hl
  simp only [Flow.finish]
  rw [hl]
  simp only []
  rw [hr]
  simp only [flashcache_dm_io_sync_vm_write_sb, herr]
  rw [if_neg (not_not.mpr hsw)]
  simp

/-! ## Superblocks that flashcache_md_load rejects -/

/-- The function flashcache_md_load on a superblock whose state is none of
DIRTY, CLEAN and FASTCLEAN: it returns 1 and leaves the device and the instance
as they are. -/
theorem md_load_reject (P : Params) (dmc : cache_c) (env : Env) (dev : Disk)
    (hst2 : ¬ (dev.sb.cache_sb_state = P.CACHE_MD_STATE_DIRTY ∨
      dev.sb.cache_sb_state = P.CACHE_MD_STATE_CLEAN ∨
      dev.sb.cache_sb_state = P.CACHE_MD_STATE_FASTCLEAN)) :
    ∃ r, flashcache_md_load P dmc env dev = Outcome.returned r ∧ r.ret = 1 ∧
      (∀ op ∈ r.io.log, op.rw ≠ io_dir.WRITE) ∧ r.io.dev = dev ∧ r.dmc = dmc := by
  unfold flashcache_md_load
  simp only []
  by_cases hv : env.vmalloc_ok 0 = false
  · rw [if_pos hv]
    exact ⟨_, rfl, rfl, by simp, rfl, rfl⟩
  · rw [if_neg hv]
    by_cases hr : (flashcache_dm_io_sync_vm_read_sb env { dev := dev, log := [] }).1 ≠ 0
    · rw [if_pos hr]
      exact ⟨_, rfl, rfl, by simp [flashcache_dm_io_sync_vm_read_sb], rfl, rfl⟩
    · have hst3 : ¬ ((flashcache_dm_io_sync_vm_read_sb env
            { dev := dev, log := [] }).2.1.cache_sb_state = P.CACHE_MD_STATE_DIRTY ∨
          (flashcache_dm_io_sync_vm_read_sb env
            { dev := dev, log := [] }).2.1.cache_sb_state = P.CACHE_MD_STATE_CLEAN ∨
          (flashcache_dm_io_sync_vm_read_sb env
            { dev := dev, log := [] }).2.1.cache_sb_state = P.CACHE_MD_STATE_FASTCLEAN) := hst2
      rw [if_neg hr, if_pos hst3]
      exact ⟨_, rfl, rfl, by simp [flashcache_dm_io_sync_vm_read_sb], rfl, rfl⟩

/-- The state UNSTABLE is none of the states flashcache_md_load accepts. -/
theorem md_unstable_rejected {P : Params} (hP : P.wf) {st : Nat}
    (hu : st = P.CACHE_MD_STATE_UNSTABLE) :
    ¬ (st = P.CACHE_MD_STATE_DIRTY ∨ st = P.CACHE_MD_STATE_CLEAN ∨
      st = P.CACHE_MD_STATE_FASTCLEAN) := by
  obtain ⟨-, -, -, -, -, -, -, h1, h2, h3⟩ := hP
  rw [hu]
  exact fun h => h.elim h1 (fun h => h.elim h2 h3)

/-- A loop run from two related states ends in the same way, when the loop
condition does not tell related states apart and the body keeps the relation. -/
theorem while_loop_rel {σ : Type} (R : σ → σ → Prop) (cond : σ → Bool)
    (body : σ → Flow σ) (hc : ∀ a b, R a b → cond a = cond b)
    (hb : ∀ a b, R a b → Flow.rel R (body a) (body b)) :
    ∀ (fuel : Nat) (a b : σ), R a b →
      Flow.rel R (while_loop cond body fuel a) (while_loop cond body fuel b) := by
  intro fuel
  induction fuel with
  | zero =>
    intro a b _
    simp only [while_loop, Flow.rel]
  | succ n ih =>
    intro a b hab
    simp only [while_loop]
    rw [← hc a b hab]
    by_cases hca : cond a = true
    · rw [if_pos hca, if_pos hca]
      have h1 := hb a b hab
      cases ha : body a with
      | run a1 =>
        cases hb1 : body b with
        | run b1 =>
          rw [ha, hb1] at h1
          exact ih a1 b1 h1
        | ret1 b1 => rw [ha, hb1] at h1; exact h1.elim
        | panic => rw [ha, hb1] at h1; exact h1.elim
        | timeout => rw [ha, hb1] at h1; exact h1.elim
      | ret1 a1 =>
        cases hb1 : body b with
        | run b1 => rw [ha, hb1] at h1; exact h1.elim
        | ret1 b1 => rw [ha, hb1] at h1; exact h1
        | panic => rw [ha, hb1] at h1; exact h1.elim
        | timeout => rw [ha, hb1] at h1; exact h1.elim
      | panic =>
        cases hb1 : body b with
        | run b1 => rw [ha, hb1] at h1; exact h1.elim
        | ret1 b1 => rw [ha, hb1] at h1; exact h1.elim
        | panic => trivial
        | timeout => rw [ha, hb1] at h1; exact h1.elim
      | timeout =>
        cases hb1 : body b with
        | run b1 => rw [ha, hb1] at h1; exact h1.elim
        | ret1 b1 => rw [ha, hb1] at h1; exact h1.elim
        | panic => rw [ha, hb1] at h1; exact h1.elim
        | timeout => trivial
    · rw [if_neg hca, if_neg hca]
      exact hab

/-- A pass of the descriptor loop of flashcache_md_create does not look at the
content of the cache device. -/
theorem md_create_body_sim (P : Params) (dmc : cache_c) (env : Env) (s t : md_locals)
    (h : md_sim s t) :
    Flow.rel md_sim (md_create_body P dmc env s) (md_create_body P dmc env t) := by
  unfold md_sim at h
  rw [h]
  unfold md_create_body
  simp only []
  by_cases c1 : int32 (s.j - 1) = 0
  · by_cases c2 : uint64 (int32 (s.slots_written + 1))
        = uint64 ((P.MD_BLOCKS_PER_SECTOR : Int) * (P.METADATA_IO_BLOCKSIZE_SECT : Int))
    · by_cases c3 : env.io_error s.cdev.log.length = 0
      · simp only [c1, c2, c3, flashcache_dm_io_sync_vm_write_md, ne_eq, not_true_eq_false,
          if_false, if_true, Flow.rel, md_sim]
      · simp only [c1, c2, c3, flashcache_dm_io_sync_vm_write_md, ne_eq, not_false_eq_true,
          if_false, if_true, Flow.rel, md_sim]
    · simp only [c1, c2, if_false, if_true, Flow.rel, md_sim]
  · simp only [c1, if_false, Flow.rel, md_sim]

/-- The block after the descriptor loop of flashcache_md_create does not look
at the content of the cache device. -/
theorem md_create_rest_sim (P : Params) (env : Env) (s t : md_locals) (h : md_sim s t) :
    Flow.rel md_sim (md_create_rest P env s) (md_create_rest P env t) := by
  unfold md_sim at h
  rw [h]
  unfold md_create_rest
  simp only []
  by_cases c1 : s.next_ptr ≠ (0, 0)
  · rw [if_pos c1, if_pos c1]
    by_cases c2 : ¬ (s.slots_written > 0)
    · rw [if_pos c2, if_pos c2]
      trivial
    · rw [if_neg c2, if_neg c2]
      by_cases c3 : env.io_error s.cdev.log.length = 0
      · simp only [c3, flashcache_dm_io_sync_vm_write_md, ne_eq, not_true_eq_false,
          if_false, if_true, Flow.rel, md_sim]
      · simp only [c3, flashcache_dm_io_sync_vm_write_md, ne_eq, not_false_eq_true,
          if_false, if_true, Flow.rel, md_sim]
  · rw [if_neg c1, if_neg c1]
    simp only [Flow.rel, md_sim]

/-- What follows the descriptor loop of flashcache_md_create has the same return
code from two states that differ in the content of the cache device only. -/
theorem md_create_tail_code (P : Params) (dmc : cache_c) (env : Env)
    (L1 L2 : Flow md_locals) (h : Flow.rel md_sim L1 L2) :
    md_return_code (L1.finish (fun s => { ret := 1, dmc := dmc, io := s.cdev })
        (fun s1 =>
          (md_create_rest P env s1).finish
            (fun s => { ret := 1, dmc := dmc, io := s.cdev })
            (fun s =>
              if sectors_expected P dmc.size ≠ s.sectors_written then Outcome.panic
              else
                if (flashcache_dm_io_sync_vm_write_sb env s.cdev
                    (md_dirty_header P dmc)).1 ≠ 0 then
                  Outcome.returned
                    { ret := 1
                      dmc := dmc
                      io := (flashcache_dm_io_sync_vm_write_sb env s.cdev
                        (md_dirty_header P dmc)).2 }
                else
                  Outcome.returned
                    { ret := 0
                      dmc := dmc
                      io := (flashcache_dm_io_sync_vm_write_sb env s.cdev
                        (md_dirty_header P dmc)).2 })))
      = md_return_code (L2.finish (fun s => { ret := 1, dmc := dmc, io := s.cdev })
        (fun s1 =>
          (md_create_rest P env s1).finish
            (fun s => { ret := 1, dmc := dmc, io := s.cdev })
            (fun s =>
              if sectors_expected P dmc.size ≠ s.sectors_written then Outcome.panic
              else
                if (flashcache_dm_io_sync_vm_write_sb env s.cdev
                    (md_dirty_header P dmc)).1 ≠ 0 then
                  Outcome.returned
                    { ret := 1
                      dmc := dmc
                      io := (flashcache_dm_io_sync_vm_write_sb env s.cdev
                        (md_dirty_header P dmc)).2 }
                else
                  Outcome.returned
                    { ret := 0
                      dmc := dmc
                      io := (flashcache_dm_io_sync_vm_write_sb env s.cdev
                        (md_dirty_header P dmc)).2 }))) := by
  cases L1 with
  | run a =>
    cases L2 with
    | run b =>
      simp only [Flow.finish]
      have hr := md_create_rest_sim P env a b h
      revert hr
      generalize md_create_rest P env a = R1
      generalize md_create_rest P env b = R2
      intro hr
      cases R1 with
      | run a1 =>
        cases R2 with
        | run b1 =>
          simp only [Flow.finish]
          have hs : b1.sectors_written = a1.sectors_written := by
            have h2 : md_sim a1 b1 := hr
            unfold md_sim at h2
            rw [h2]
          have hl : b1.cdev.log = a1.cdev.log := by
            have h2 : md_sim a1 b1 := hr
            unfold md_sim at h2
            rw [h2]
          simp only [flashcache_dm_io_sync_vm_write_sb, hs, hl]
          by_cases c1 : sectors_expected P dmc.size ≠ a1.sectors_written
          · rw [if_pos c1, if_pos c1]
          · rw [if_neg c1, if_neg c1]
            by_cases c2 : env.io_error a1.cdev.log.length ≠ 0
            · rw [if_pos c2, if_pos c2]
              rfl
            · rw [if_neg c2, if_neg c2]
              rfl
        | ret1 b1 => exact hr.elim
        | panic => exact hr.elim
        | timeout => exact hr.elim
      | ret1 a1 =>
        cases R2 with
        | run b1 => exact hr.elim
        | ret1 b1 => rfl
        | panic => exact hr.elim
        | timeout => exact hr.elim
      | panic =>
        cases R2 with
        | run b1 => exact hr.elim
        | ret1 b1 => exact hr.elim
        | panic => rfl
        | timeout => exact hr.elim
      | timeout =>
        cases R2 with
        | run b1 => exact hr.elim
        | ret1 b1 => exact hr.elim
        | panic => exact hr.elim
        | timeout => rfl
    | ret1 b => exact h.elim
    | panic => exact h.elim
    | timeout => exact h.elim
  | ret1 a =>
    cases L2 with
    | run b => exact h.elim
    | ret1 b => rfl
    | panic => exact h.elim
    | timeout => exact h.elim
  | panic =>
    cases L2 with
    | run b => exact h.elim
    | ret1 b => exact h.elim
    | panic => rfl
    | timeout => exact h.elim
  | timeout =>
    cases L2 with
    | run b => exact h.elim
    | ret1 b => exact h.elim
    | panic => exact h.elim
    | timeout => rfl

/-- What follows a loop that ran to its end. -/
theorem Flow.finish_of_run {σ α : Type} (s : σ) (ret1 : σ → α) (rest : σ → Outcome α) :
    (Flow.run s).finish ret1 rest = rest s := rfl

/-- The return code of flashcache_md_create depends on the cache device only
through the test of the superblock state. -/
theorem md_create_code_dev (P : Params) (dmc : cache_c) (force : Int) (env : Env)
    (dev dev2 : Disk)
    (hst : (force = 0 ∧
        (dev.sb.cache_sb_state = P.CACHE_MD_STATE_DIRTY ∨
         dev.sb.cache_sb_state = P.CACHE_MD_STATE_CLEAN ∨
         dev.sb.cache_sb_state = P.CACHE_MD_STATE_FASTCLEAN)) ↔
      (force = 0 ∧
        (dev2.sb.cache_sb_state = P.CACHE_MD_STATE_DIRTY ∨
         dev2.sb.cache_sb_state = P.CACHE_MD_STATE_CLEAN ∨
         dev2.sb.cache_sb_state = P.CACHE_MD_STATE_FASTCLEAN))) :
    md_return_code (flashcache_md_create P dmc force env dev)
      = md_return_code (flashcache_md_create P dmc force env dev2) := by
  unfold flashcache_md_create
  simp only []
  by_cases hv0 : env.vmalloc_ok 0 = false
  · rw [if_pos hv0, if_pos hv0]
    rfl
  rw [if_neg hv0, if_neg hv0]
  have e1 : ∀ d : Disk,
      (flashcache_dm_io_sync_vm_read_sb env { dev := d, log := [] }).1 = env.io_error 0 :=
    fun _ => rfl
  have e2 : ∀ d : Disk,
      (flashcache_dm_io_sync_vm_read_sb env { dev := d, log := [] }).2.1 = d.sb :=
    fun _ => rfl
  rw [e1, e1, e2, e2]
  by_cases hr : env.io_error 0 ≠ 0
  · rw [if_pos hr, if_pos hr]
    rfl
  rw [if_neg hr, if_neg hr]
  by_cases hf : force = 0 ∧
      (dev.sb.cache_sb_state = P.CACHE_MD_STATE_DIRTY ∨
       dev.sb.cache_sb_state = P.CACHE_MD_STATE_CLEAN ∨
       dev.sb.cache_sb_state = P.CACHE_MD_STATE_FASTCLEAN)
  · rw [if_pos hf, if_pos (hst.mp hf)]
    rfl
  rw [if_neg hf, if_neg (fun h => hf (hst.mpr h))]
  by_cases hz : dmc.block_size = 0 ∨ dmc.assoc = 0
  · rw [if_pos hz, if_pos hz]
  rw [if_neg hz, if_neg hz]
  by_cases hfit : uint64 (int32 ((md_create_geometry P dmc).md_sectors : Int)
      + ((md_create_geometry P dmc).size : Int) * ((md_create_geometry P dmc).block_size : Int))
      > (md_create_geometry P dmc).cache_devsize
  · rw [if_pos hfit, if_pos hfit]
    rfl
  rw [if_neg hfit, if_neg hfit]
  by_cases hv1 : env.vmalloc_ok 1 = false
  · rw [if_pos hv1, if_pos hv1]
    rfl
  rw [if_neg hv1, if_neg hv1]
  generalize md_create_init_loop P (md_create_geometry P dmc).size loop_fuel
    (0, env.cache_garbage) = L
  cases L with
  | ret1 c => rfl
  | panic => rfl
  | timeout => rfl
  | run c =>
    rw [Flow.finish_of_run, Flow.finish_of_run]
    by_cases hv2 : env.vmalloc_ok 2 = false
    · rw [if_pos hv2, if_pos hv2]
      rfl
    rw [if_neg hv2, if_neg hv2]
    refine md_create_tail_code P _ env _ _ ?_
    unfold md_create_loop
    apply while_loop_rel
    · intro a b hab
      unfold md_sim at hab
      rw [hab]
    · exact md_create_body_sim P _ env
    · rfl

/-! ## flashcache_md_load on a slot count that is not positive as an `int` -/

/-- A loop whose condition fails at once leaves the state as it is. -/
theorem while_loop_stop {σ : Type} (cond : σ → Bool) (body : σ → Flow σ) (fuel : Nat)
    (s : σ) (h : cond s = false) (hf : 0 < fuel) :
    while_loop cond body fuel s = Flow.run s := by
  cases fuel with
  | zero => omega
  | succ n =>
    simp only [while_loop, h]
    rfl

/-- Where the slot count of the superblock is zero or negative as an `int`,
flashcache_md_load reads no descriptor: with no failure of the environment it
goes from the superblock straight to the debug test and the rewrite of the
superblock. -/
theorem md_load_skip {P : Params} (dmc : cache_c) {env : Env} {dev : Disk}
    (hst : dev.sb.cache_sb_state = P.CACHE_MD_STATE_DIRTY ∨
      dev.sb.cache_sb_state = P.CACHE_MD_STATE_CLEAN ∨
      dev.sb.cache_sb_state = P.CACHE_MD_STATE_FASTCLEAN)
    (herr : ∀ k, env.io_error k = 0) (hv : ∀ k, env.vmalloc_ok k = true)
    (hsz : int32 dev.sb.size ≤ 0) :
    flashcache_md_load P dmc env dev =
      if sectors_expected P dev.sb.size ≠ 0 then Outcome.panic
      else Outcome.returned
        { ret := 0
          dmc := md_load_dmc P dmc env dev
          io := { dev := { dev with sb := md_dirty_header P (md_load_dmc P dmc env dev) }
                  log := [⟨io_dir.WRITE, 0, 1, 0⟩, ⟨io_dir.READ, 0, 1, 0⟩] } } := by
  have hl : md_load_loop P (md_load_clean_shutdown P dev.sb) env loop_fuel
      (md_load_locals_init env (md_load_dmc P dmc env dev) (md_load_cdev dev))
      = Flow.run (md_load_locals_init env (md_load_dmc P dmc env dev) (md_load_cdev dev)) := by
    unfold md_load_loop
    apply while_loop_stop
    · simpa [md_load_locals_init, md_load_dmc, md_load_geometry] using hsz
    · unfold loop_fuel
      omega
  have hv0 : ¬ env.vmalloc_ok 0 = false := by rw [hv]; decide
  have hv1 : ¬ env.vmalloc_ok 1 = false := by rw [hv]; decide
  have hv2 : ¬ env.vmalloc_ok 2 = false := by rw [hv]; decide
  have hv3 : ¬ env.vmalloc_ok 3 = false := by rw [hv]; decide
  unfold flashcache_md_load
  simp only [flashcache_dm_io_sync_vm_read_sb, List.length_nil]
  rw [if_neg hv0, if_neg (not_not.mpr (herr 0)), if_neg (not_not.mpr hst), if_neg hv1,
    if_neg hv2, if_neg hv3]
  unfold md_load_dmc md_load_cdev at hl
  rw [herr 0, hl]
  simp only [Flow.finish, flashcache_dm_io_sync_vm_write_sb, herr, md_load_locals_init]
  by_cases hse : sectors_expected P dev.sb.size ≠ 0
  · rw [if_pos hse]
    simp only [md_load_geometry]
    rw [if_pos hse]
  · rw [if_neg hse]
    simp only [md_load_geometry]
    rw [if_neg hse]
    rfl

/-! ## What flashcache_md_store leaves -/

theorem count_flag_le (flag : Nat) (cache : Nat → cacheblock) (n : Nat) :
    count_flag flag cache n ≤ n := by
  induction n with
  | zero => simp [count_flag]
  | succ k ih =>
    simp only [count_flag]
    split <;> omega

/-- No slot among `0 .. n-1` has the flag exactly when the count is zero. -/
theorem count_flag_eq_zero (flag : Nat) (cache : Nat → cacheblock) (n : Nat) :
    count_flag flag cache n = 0 ↔ ∀ i, i < n → (cache i).cache_state &&& flag = 0 := by
  induction n with
  | zero => simp [count_flag]
  | succ k ih =>
    simp only [count_flag]
    constructor
    · intro h i hi
      by_cases hk : (cache k).cache_state &&& flag ≠ 0
      · rw [if_pos hk] at h
        omega
      · rw [if_neg hk] at h
        rcases Nat.lt_succ_iff_lt_or_eq.mp hi with h1 | h1
        · exact ih.mp (by omega) i h1
        · rw [h1]
          exact not_not.mp hk
    · intro h
      have h1 := ih.mpr (fun i hi => h i (by omega))
      have h2 := h k (by omega)
      rw [h1, if_neg (not_not.mpr h2)]

/-- A count below `2^32` is zero as an `int` only if it is zero. -/
theorem int32_eq_zero_iff {c : Nat} (hc : c < 4294967296) : int32 (c : Int) = 0 ↔ c = 0 := by
  unfold int32
  omega

/-- The counter `write_errors` of flashcache_md_store is zero exactly when no
request failed: the loop issues fewer than 2^32 requests. -/
theorem md_store_errors_zero {P : Params} {dmc : cache_c} {sb0 : flash_superblock}
    {ops : List io_req} {s : md_locals}
    (hw : md_written P dmc sb0 [] ops (int_loop_passes dmc.size) s)
    (hwe : s.write_errors = int32 (ops.countP (fun op => decide (op.error ≠ 0)))) :
    s.write_errors = 0 ↔ ∀ op ∈ ops, op.error = 0 := by
  rw [hwe, int32_eq_zero_iff, List.countP_eq_zero]
  · simp
  · have h1 := hw.hlen
    have h2 := List.countP_le_length (fun op : io_req => decide (op.error ≠ 0)) (l := ops)
    unfold int_loop_passes at h1
    omega

/-- The counter `num_dirty` of flashcache_md_store is zero exactly when none
of the slots the loop visits is DIRTY. -/
theorem md_store_dirty_zero {P : Params} {dmc : cache_c} {s : md_locals}
    (hnd : s.num_dirty = int32 (count_flag P.DIRTY dmc.cache (int_loop_passes dmc.size))) :
    s.num_dirty = 0 ↔
      ∀ i, i < int_loop_passes dmc.size → (dmc.cache i).cache_state &&& P.DIRTY = 0 := by
  rw [hnd, int32_eq_zero_iff, count_flag_eq_zero]
  have := count_flag_le P.DIRTY dmc.cache (int_loop_passes dmc.size)
  unfold int_loop_passes at this ⊢
  omega

/-- The run of flashcache_md_store whose allocations succeed and whose debug
test passes: it returns 0 after the write of the superblock. -/
theorem md_store_returned (P : Params) (dmc : cache_c) (env : Env) (dev : Disk)
    (hP : P.wf) (hsize : dmc.size ≤ 18446744071562067968)
    (hv0 : env.vmalloc_ok 0 = true) (hv1 : env.vmalloc_ok 1 = true)
    (hsec : sectors_expected P dmc.size = sectors_expected P (int_loop_passes dmc.size)) :
    ∃ s ops, md_written P dmc dev.sb [] ops (int_loop_passes dmc.size) s ∧
      (∀ op ∈ ops, ∃ n, op.error = env.io_error n) ∧
      s.cdev.log = ops ∧
      (s.write_errors = 0 ↔ ∀ op ∈ ops, op.error = 0) ∧
      (s.num_dirty = 0 ↔
        ∀ i, i < int_loop_passes dmc.size → (dmc.cache i).cache_state &&& P.DIRTY = 0) ∧
      flashcache_md_store P dmc env dev =
        Outcome.returned
          { ret := 0
            dmc := dmc
            io := (flashcache_dm_io_sync_vm_write_sb env s.cdev
              (md_store_header P dmc s.write_errors s.num_dirty)).2 } := by
  obtain ⟨s, ops, hw, horig, hnd, hwe, heq⟩ := md_store_run P dmc env dev hP hsize hv0
  rw [if_neg (not_not.mpr hsec), if_neg (by rw [hv1]; decide)] at heq
  refine ⟨s, ops, hw, horig, ?_, md_store_errors_zero hw hwe, md_store_dirty_zero hnd, heq⟩
  have := hw.hlog
  rw [List.append_nil] at this
  exact this

/-! ## Flag masks -/

theorem land_mask_idem (x m : Nat) : (x &&& m) &&& m = x &&& m := by
  apply Nat.eq_of_testBit_eq
  intro i
  simp only [Nat.testBit_land]
  cases x.testBit i <;> cases m.testBit i <;> rfl

theorem land_mask_sub (x a b c : Nat) :
    (x &&& (a ||| b ||| c)) &&& (b ||| a) = x &&& (b ||| a) := by
  apply Nat.eq_of_testBit_eq
  intro i
  simp only [Nat.testBit_land, Nat.testBit_lor]
  cases x.testBit i <;> cases a.testBit i <;> cases b.testBit i <;> cases c.testBit i <;> rfl

theorem land_mask_self (a b c : Nat) : a &&& (a ||| b ||| c) = a := by
  apply Nat.eq_of_testBit_eq
  intro i
  simp only [Nat.testBit_land, Nat.testBit_lor]
  cases a.testBit i <;> cases b.testBit i <;> cases c.testBit i <;> rfl

/-! ## Store, then load -/

/-- After a clean shutdown (superblock CLEAN or FASTCLEAN) the flag
`clean_shutdown` of flashcache_md_load is 1. -/
theorem md_load_clean_shutdown_one {P : Params} (hP : P.wf) {sb : flash_superblock}
    (hst : sb.cache_sb_state = P.CACHE_MD_STATE_CLEAN ∨
      sb.cache_sb_state = P.CACHE_MD_STATE_FASTCLEAN) :
    md_load_clean_shutdown P sb = 1 := by
  obtain ⟨-, -, -, -, h1, h2, -⟩ := hP
  unfold md_load_clean_shutdown
  have hnd : ¬ sb.cache_sb_state = P.CACHE_MD_STATE_DIRTY := by
    intro hd
    rcases hst with h | h
    · exact h1 (hd.symm.trans h)
    · exact h2 (hd.symm.trans h)
  rw [if_neg hnd]
  split <;> rfl

/-- The function flashcache_md_load on the image of a slot table: where the
superblock is CLEAN or FASTCLEAN with fewer than 2^31 slots, the descriptor of
every slot is the one flashcache_md_store makes of a slot that is not both VALID
and INVALID, and the environment does not fail, the call returns 0 and every
slot has the dbn and the masked state of the slot it was made of. -/
theorem md_load_of_image {P : Params} (dmc2 : cache_c) {env2 : Env} {dev2 : Disk}
    (cache : Nat → cacheblock) (hP : P.wf) (hsize : dev2.sb.size < 2147483648)
    (hst : dev2.sb.cache_sb_state = P.CACHE_MD_STATE_CLEAN ∨
      dev2.sb.cache_sb_state = P.CACHE_MD_STATE_FASTCLEAN)
    (hmd : ∀ i, i < dev2.sb.size →
      dev2.md (1 + i / P.MD_BLOCKS_PER_SECTOR) (i % P.MD_BLOCKS_PER_SECTOR)
        = md_descriptor P (cache i))
    (hslots : ∀ i, i < dev2.sb.size →
      (cache i).cache_state &&& (P.VALID ||| P.INVALID) ≠ (P.VALID ||| P.INVALID))
    (herr : ∀ k, env2.io_error k = 0) (hv : ∀ k, env2.vmalloc_ok k = true) :
    ∃ rl, flashcache_md_load P dmc2 env2 dev2 = Outcome.returned rl ∧ rl.ret = 0 ∧
      rl.dmc.size = dev2.sb.size ∧ rl.dmc.block_size = dev2.sb.block_size ∧
      rl.dmc.assoc = dev2.sb.assoc ∧
      ∀ i, i < dev2.sb.size →
        (rl.dmc.cache i).dbn = (cache i).dbn ∧
        (rl.dmc.cache i).cache_state
          = (cache i).cache_state &&& (P.INVALID ||| P.VALID ||| P.DIRTY) := by
  have hcs := md_load_clean_shutdown_one hP hst
  have hacc : dev2.sb.cache_sb_state = P.CACHE_MD_STATE_DIRTY ∨
      dev2.sb.cache_sb_state = P.CACHE_MD_STATE_CLEAN ∨
      dev2.sb.cache_sb_state = P.CACHE_MD_STATE_FASTCLEAN :=
    hst.elim (fun h => Or.inr (Or.inl h)) (fun h => Or.inr (Or.inr h))
  obtain ⟨rl, hl, hret⟩ := md_load_total dmc2 hP hsize hacc herr hv (by
    intro i hi
    rw [hmd i hi]
    unfold md_load_verify md_descriptor
    simp only []
    rw [land_mask_sub]
    exact fun hc => hslots i hi hc.2)
  obtain ⟨h1, h2, h3, -, -, hs⟩ := md_load_slots hP hsize hl hret
  refine ⟨rl, hl, hret, h1, h2, h3, ?_⟩
  intro i hi
  rw [(hs i hi).1, hcs, hmd i hi]
  unfold md_load_slot md_descriptor
  simp only []
  rw [if_pos (Or.inl (by decide))]
  exact ⟨rfl, rfl⟩

/-- The superblock flashcache_md_store writes looks at `num_dirty` only to see
whether it is zero. -/
theorem md_store_header_count (P : Params) (dmc : cache_c) (we : Int) {c : Nat}
    (hc : c < 4294967296) :
    md_store_header P dmc we (int32 (c : Int)) = md_store_header P dmc we (c : Int) := by
  unfold md_store_header
  have h1 : (int32 (c : Int) = 0) ↔ ((c : Int) = 0) := by
    rw [int32_eq_zero_iff hc]
    omega
  by_cases h0 : (c : Int) = 0
  · rw [if_pos (h1.mpr h0), if_pos h0]
  · rw [if_neg (fun h => h0 (h1.mp h)), if_neg h0]

/-- The run of flashcache_md_store on at most 2^31 slots in which no allocation
and no request fails: it returns 0 and leaves on the device the superblock of
the instance and the descriptor of every slot. -/
theorem md_store_ok (P : Params) (dmc : cache_c) (env : Env) (dev : Disk)
    (hP : P.wf) (hsize : dmc.size ≤ 2147483648)
    (hv0 : env.vmalloc_ok 0 = true) (hv1 : env.vmalloc_ok 1 = true)
    (herr : ∀ k, env.io_error k = 0) :
    ∃ r, flashcache_md_store P dmc env dev = Outcome.returned r ∧ r.ret = 0 ∧
      (∀ op ∈ r.io.log, op.error = 0) ∧
      r.io.dev.sb = md_store_header P dmc 0 (count_flag P.DIRTY dmc.cache dmc.size) ∧
      ∀ i, i < dmc.size →
        r.io.dev.md (1 + i / P.MD_BLOCKS_PER_SECTOR) (i % P.MD_BLOCKS_PER_SECTOR)
          = md_descriptor P (dmc.cache i) := by
  have hN : int_loop_passes dmc.size = dmc.size := by
    unfold int_loop_passes
    omega
  obtain ⟨s, ops, hw, horig, hnd, hwe, heq⟩ := md_store_run P dmc env dev hP (by omega) hv0
  rw [hN] at hw hnd heq
  rw [if_neg (fun hne => hne rfl), if_neg (by rw [hv1]; decide)] at heq
  have hall : ∀ op ∈ ops, op.error = 0 := by
    intro op hop
    obtain ⟨n, hn⟩ := horig op hop
    rw [hn]
    exact herr n
  have hlog : s.cdev.log = ops := by
    have := hw.hlog
    rw [List.append_nil] at this
    exact this
  have hwe0 : s.write_errors = 0 := by
    rw [hwe, List.countP_eq_zero.mpr (by simpa using hall)]
    rfl
  have hcnt : count_flag P.DIRTY dmc.cache dmc.size < 4294967296 := by
    have := count_flag_le P.DIRTY dmc.cache dmc.size
    omega
  refine ⟨_, heq, rfl, ?_, ?_, ?_⟩
  · intro op hop
    simp only [flashcache_dm_io_sync_vm_write_sb, hlog, List.mem_cons] at hop
    rcases hop with rfl | hop
    · exact herr _
    · exact hall op hop
  · simp only [flashcache_dm_io_sync_vm_write_sb, herr, if_true]
    rw [hwe0, hnd, md_store_header_count P dmc 0 hcnt]
  · intro i hi
    simp only [flashcache_dm_io_sync_vm_write_sb, herr, if_true]
    exact hw.hcont hall i hi

theorem land_lor_self (a b : Nat) : a &&& (b ||| a) = a := by
  apply Nat.eq_of_testBit_eq
  intro i
  simp only [Nat.testBit_land, Nat.testBit_lor]
  cases a.testBit i <;> cases b.testBit i <;> rfl

/-! ## The geometry of flashcache_md_create and flashcache_md_load -/

theorem uint32_natCast_mod (n : Nat) : uint32 (n : Int) = n % 4294967296 := by
  unfold uint32
  omega

/-- The number of metadata sectors that flashcache_md_create computes. -/
theorem md_create_geometry_md (P : Params) (dmc : cache_c) :
    (md_create_geometry P dmc).md_sectors
      = (P.INDEX_TO_MD_SECTOR (md_create_geometry P dmc).size + 2) % 4294967296 := by
  rw [← uint32_natCast_mod]
  unfold md_create_geometry
  simp only []
  congr 1

/-- The number of metadata sectors that flashcache_md_load computes. -/
theorem md_load_geometry_md (P : Params) (dmc : cache_c) (header : flash_superblock) :
    (md_load_geometry P dmc header).md_sectors
      = (P.INDEX_TO_MD_SECTOR (md_load_geometry P dmc header).size + 2) % 4294967296 := by
  rw [← uint32_natCast_mod]
  unfold md_load_geometry
  simp only []
  congr 1

/-- The quotient rounded up, `(n + M - 1) / M`, against the quotient `n / M`. -/
theorem ceil_div_facts {M : Nat} (hM : 1 ≤ M) (n : Nat) :
    (n % M = 0 → (n + M - 1) / M = n / M) ∧ (n % M ≠ 0 → (n + M - 1) / M = n / M + 1) := by
  have h1 : n / M * M + n % M = n := by
    rw [Nat.mul_comm]
    exact Nat.div_add_mod n M
  have h2 := Nat.mod_lt n (show M > 0 by omega)
  constructor
  · intro h0
    apply Nat.div_eq_of_lt_le
    · omega
    · rw [Nat.succ_mul]
      omega
  · intro h0
    apply Nat.div_eq_of_lt_le
    · rw [Nat.succ_mul]
      omega
    · rw [Nat.succ_mul, Nat.succ_mul]
      omega

/-- The slot count that flashcache_md_create computes, where the first estimate
of the metadata fits the `int` field `md_sectors` and does not exceed the
requested size. -/
theorem md_create_geometry_size (P : Params) (dmc : cache_c)
    (hS : dmc.size < 18446744073709551616)
    (h32 : P.INDEX_TO_MD_SECTOR (dmc.size / dmc.block_size) + 2 < 2147483648)
    (hest : P.INDEX_TO_MD_SECTOR (dmc.size / dmc.block_size) + 2 ≤ dmc.size) :
    (md_create_geometry P dmc).size
      = (dmc.size - (P.INDEX_TO_MD_SECTOR (dmc.size / dmc.block_size) + 2))
          / dmc.block_size / dmc.assoc * dmc.assoc := by
  have h1 : int32 ((P.INDEX_TO_MD_SECTOR (dmc.size / dmc.block_size) : Int) + 1 + 1)
      = ((P.INDEX_TO_MD_SECTOR (dmc.size / dmc.block_size) + 2 : Nat) : Int) := by
    unfold int32
    omega
  have h2 : uint64 ((dmc.size : Int)
      - ((P.INDEX_TO_MD_SECTOR (dmc.size / dmc.block_size) + 2 : Nat) : Int))
      = dmc.size - (P.INDEX_TO_MD_SECTOR (dmc.size / dmc.block_size) + 2) := by
    unfold uint64
    omega
  have h3 : (dmc.size - (P.INDEX_TO_MD_SECTOR (dmc.size / dmc.block_size) + 2))
      / dmc.block_size / dmc.assoc * dmc.assoc < 18446744073709551616 := by
    have a1 := Nat.div_mul_le_self
      ((dmc.size - (P.INDEX_TO_MD_SECTOR (dmc.size / dmc.block_size) + 2)) / dmc.block_size)
      dmc.assoc
    have a2 := Nat.div_le_self
      (dmc.size - (P.INDEX_TO_MD_SECTOR (dmc.size / dmc.block_size) + 2)) dmc.block_size
    omega
  unfold md_create_geometry
  simp only []
  rw [h1, h2, uint64_natCast h3]

/-- The function flashcache_md_create stops the kernel where no existing cache
stands in the way, the geometry is computed without a division by zero and
passes the test against the device, no `vmalloc` and no request fails, and the
debug test finds the sector count of the slot count different from that of the
passes of the loop. -/
theorem md_create_panic {P : Params} {dmc : cache_c} {force : Int} {env : Env}
    {dev : Disk} (hP : P.wf)
    (hst : ¬ (force = 0 ∧
      (dev.sb.cache_sb_state = P.CACHE_MD_STATE_DIRTY ∨
       dev.sb.cache_sb_state = P.CACHE_MD_STATE_CLEAN ∨
       dev.sb.cache_sb_state = P.CACHE_MD_STATE_FASTCLEAN)))
    (hz : ¬ (dmc.block_size = 0 ∨ dmc.assoc = 0))
    (hfit : ¬ (uint64 (int32 ((md_create_geometry P dmc).md_sectors : Int)
      + ((md_create_geometry P dmc).size : Int) * ((md_create_geometry P dmc).block_size : Int))
      > (md_create_geometry P dmc).cache_devsize))
    (hsize : (md_create_geometry P dmc).size ≤ 18446744071562067968)
    (hsec : sectors_expected P (md_create_geometry P dmc).size
      ≠ sectors_expected P (int_loop_passes (md_create_geometry P dmc).size))
    (herr : ∀ k, env.io_error k = 0) (hv : ∀ k, env.vmalloc_ok k = true) :
    flashcache_md_create P dmc force env dev = Outcome.panic := by
  obtain ⟨c, hi, -, -⟩ := md_create_init_run P (md_create_geometry P dmc).size
    env.cache_garbage hsize
  have h0 : md_create_inv P { md_create_geometry P dmc with cache := c.2 } dev.sb
      (md_create_cdev env dev).log 0 (md_create_locals_init P env dev) :=
    ⟨0, 0, 0, [], md_pos_init P _ env dev _ hP, by simp⟩
  obtain ⟨s1, hl⟩ := @md_create_loop_total P
    { md_create_geometry P dmc with cache := c.2 } _ _ env _ hP hsize herr h0
  obtain ⟨S, q, p, ops, hpos, -⟩ := @md_create_loop_run P
    { md_create_geometry P dmc with cache := c.2 } _ _ env _ _ hP hsize loop_fuel h0 hl
  obtain ⟨ops1, hw, -⟩ := md_pos_rest env hP hpos
  have hr := md_create_rest_eq (P := P) env (fun hne => md_pos_slots_pos hP hpos hne)
  rw [if_neg (fun hc => hc.2 (herr _))] at hr
  have hsw : sectors_expected P (md_create_geometry P dmc).size
      ≠ (md_rest_state P env s1).sectors_written := by
    intro he
    apply hsec
    rw [he]
    exact hw.hsw
  unfold md_create_locals_init md_create_cdev at hl
  unfold flashcache_md_create
  simp only [flashcache_dm_io_sync_vm_read_sb, List.length_nil, herr, hv]
  simp only [Bool.true_eq_false, if_false, ne_eq, not_true_eq_false]
  rw [if_neg hst, if_neg hz, if_neg hfit, hi]
  rw [herr 0] at hl
  simp only [Flow.finish]
  rw [hl]
  simp only []
  rw [hr]
  simp only [flashcache_dm_io_sync_vm_write_sb, herr]
  rw [if_pos hsw]

/-- A successful flashcache_md_create has computed its geometry without a
division by zero, and the geometry has passed the test against the device. -/
theorem md_create_success_fit {P : Params} {dmc : cache_c} {force : Int} {env : Env}
    {dev : Disk} {r : md_result}
    (h : flashcache_md_create P dmc force env dev = Outcome.returned r)
    (hret : r.ret = 0) :
    ¬ (dmc.block_size = 0 ∨ dmc.assoc = 0) ∧
    ¬ (uint64 (int32 ((md_create_geometry P dmc).md_sectors : Int)
      + ((md_create_geometry P dmc).size : Int) * ((md_create_geometry P dmc).block_size : Int))
      > (md_create_geometry P dmc).cache_devsize) := by
  unfold flashcache_md_create at h
  simp only [flashcache_dm_io_sync_vm_read_sb, List.length_nil] at h
  by_cases hv0 : env.vmalloc_ok 0 = false
  · rw [if_pos hv0] at h
    simp only [Outcome.returned.injEq] at h
    subst h; simp at hret
  rw [if_neg hv0] at h
  by_cases he0 : env.io_error 0 ≠ 0
  · rw [if_pos he0] at h
    simp only [Outcome.returned.injEq] at h
    subst h; simp at hret
  rw [if_neg he0] at h
  by_cases hst : force = 0 ∧
      (dev.sb.cache_sb_state = P.CACHE_MD_STATE_DIRTY ∨
       dev.sb.cache_sb_state = P.CACHE_MD_STATE_CLEAN ∨
       dev.sb.cache_sb_state = P.CACHE_MD_STATE_FASTCLEAN)
  · rw [if_pos hst] at h
    simp only [Outcome.returned.injEq] at h
    subst h; simp at hret
  rw [if_neg hst] at h
  by_cases hz : dmc.block_size = 0 ∨ dmc.assoc = 0
  · rw [if_pos hz] at h
    simp at h
  rw [if_neg hz] at h
  by_cases hfit : uint64 (int32 ((md_create_geometry P dmc).md_sectors : Int)
      + ((md_create_geometry P dmc).size : Int) * ((md_create_geometry P dmc).block_size : Int))
      > (md_create_geometry P dmc).cache_devsize
  · rw [if_pos hfit] at h
    simp only [Outcome.returned.injEq] at h
    subst h; simp at hret
  exact ⟨hz, hfit⟩

/-- With fast remove asserted, flashcache_sync_for_remove makes one pass: it
sets `fast_remove_in_prog` and leaves the rest of the instance as it is. -/
theorem sync_for_remove_fast {fast_remove : Int} (sync_all : cache_inst → cache_inst)
    (s : cache_inst) (hf : fast_remove ≠ 0) :
    flashcache_sync_for_remove fast_remove sync_all loop_fuel s
      = Flow.run { s with fast_remove_in_prog := 1 } := by
  unfold flashcache_sync_for_remove
  simp only [if_neg hf]
  apply while_loop_stop
  · simp [hf]
  · unfold loop_fuel
    omega

/-- With fast remove asserted, flashcache_dtr hands to flashcache_md_store the
slot table as it is. -/
theorem dtr_fast_eq (P : Params) {fast_remove : Int} (sync_all : cache_inst → cache_inst)
    (dmc : cache_c) (n : Int) (env : Env) (dev : Disk) (hf : fast_remove ≠ 0) :
    flashcache_dtr P fast_remove sync_all (sample_inst dmc n) env dev
      = flashcache_md_store P dmc env dev := by
  unfold flashcache_dtr
  rw [sync_for_remove_fast sync_all _ hf, Flow.finish_of_run]
  rfl

/-! ## The arguments of flashcache_ctr -/

/-- The test `x && !(x & (x - 1))` of the code holds exactly of the powers of
two. -/
theorem pow2_test (x : Nat) : (x ≠ 0 ∧ x &&& (x - 1) = 0) ↔ ∃ k, x = 2 ^ k := by
  constructor
  · rintro ⟨h0, h1⟩
    refine ⟨Nat.log2 x, ?_⟩
    by_contra hne
    have hlo : 2 ^ Nat.log2 x ≤ x := Nat.log2_self_le h0
    have hhi : x < 2 ^ (Nat.log2 x + 1) := Nat.lt_log2_self
    have hb : ∀ y, 2 ^ Nat.log2 x ≤ y → y < 2 ^ (Nat.log2 x + 1) →
        y.testBit (Nat.log2 x) = true := by
      intro y h2 h3
      rw [Nat.testBit_to_div_mod]
      have : y / 2 ^ Nat.log2 x = 1 := by
        apply Nat.div_eq_of_lt_le
        · omega
        · rw [Nat.pow_succ] at h3
          omega
      rw [this]
      rfl
    have h4 := hb x hlo hhi
    have h5 := hb (x - 1) (by omega) (by omega)
    have h6 : (x &&& (x - 1)).testBit (Nat.log2 x) = true := by
      rw [Nat.testBit_land, h4, h5]
      rfl
    rw [h1] at h6
    simp at h6
  · rintro ⟨k, rfl⟩
    refine ⟨by positivity, ?_⟩
    rw [Nat.and_pow_two_sub_one_eq_mod, Nat.mod_self]

/-- Where at least two arguments are given and the steps before the persistence
argument succeed, flashcache_ctr is what follows those steps. -/
theorem ctr_of_setup (P : Params) (C : ctr_consts) (env : ctr_env) (args : ctr_args)
    (dev : Disk) (hargc : 2 ≤ args.argc) (hs : env.setup_ok) :
    flashcache_ctr P C env args dev
      = ctr_configure P C env args (ctr_setup P env args) dev := by
  obtain ⟨h1, h2, h3, h4, h5⟩ := hs
  unfold flashcache_ctr
  simp only []
  rw [if_neg (by omega), if_neg (by rw [h1]; decide), if_neg (not_not.mpr h2),
    if_neg (not_not.mpr h3), if_neg (not_not.mpr h4), if_neg (not_not.mpr h5)]

/-- A pass of the loop of flashcache_ctr that counts the slots leaves the
fields of the instance that the metadata code touches as they are. -/
theorem ctr_count_body_dmc {P : Params} {i : Nat} {s s1 : cache_inst}
    (h : ctr_count_body P i s = some s1) : s1.dmc = s.dmc := by
  unfold ctr_count_body at h
  by_cases hv : (s.dmc.cache i).cache_state &&& P.VALID ≠ 0
  · by_cases hd : (s.dmc.cache i).cache_state &&& P.DIRTY ≠ 0
    · by_cases ha : s.dmc.assoc = 0
      · simp [hv, hd, ha] at h
      · simp only [hv, hd, ha, if_true, if_false, ne_eq, not_false_eq_true,
          Option.some.injEq] at h
        rw [← h]
    · simp only [hv, hd, if_true, if_false, ne_eq, not_false_eq_true,
        Option.some.injEq] at h
      rw [← h]
  · by_cases hd : (s.dmc.cache i).cache_state &&& P.DIRTY ≠ 0
    · by_cases ha : s.dmc.assoc = 0
      · simp [hv, hd, ha] at h
      · simp only [hv, hd, ha, if_true, if_false, ne_eq, not_false_eq_true,
          Option.some.injEq] at h
        rw [← h]
    · simp only [hv, hd, if_false, Option.some.injEq] at h
      rw [← h]

/-- The loop of flashcache_ctr that counts the slots leaves the fields of the
instance that the metadata code touches as they are. -/
theorem ctr_count_dmc (P : Params) :
    ∀ (n : Nat) (s s1 : cache_inst), for_loop (ctr_count_body P) n s = some s1 →
      s1.dmc = s.dmc := by
  intro n
  induction n with
  | zero =>
    intro s s1 h
    simp only [for_loop, Option.some.injEq] at h
    rw [← h]
  | succ k ih =>
    intro s s1 h
    simp only [for_loop] at h
    cases hk : for_loop (ctr_count_body P) k s with
    | none => rw [hk] at h; simp at h
    | some s2 =>
      rw [hk, Option.some_bind] at h
      rw [← ih s s2 hk]
      exact ctr_count_body_dmc h

/-- The statements of flashcache_ctr from `init` on, where they return 0, leave
the fields of the instance that the metadata code touches as they are, and
issue no request. -/
theorem ctr_init_dmc {P : Params} {C : ctr_consts} {env : ctr_env} {s : cache_inst}
    {io : Io} {res : ctr_result} (hC : C.wf)
    (h : ctr_init P C env s io = Outcome.returned res) (hr : res.r = 0) :
    res.inst.dmc = s.dmc ∧ res.io = io := by
  obtain ⟨-, hE, -⟩ := hC
  unfold ctr_init at h
  by_cases h1 : env.cache_sets_ok = false ∨ s.dmc.size >>> s.dmc.consecutive_shift = 0
  · rw [if_pos h1] at h
    simp only [Outcome.returned.injEq] at h
    rw [← h] at hr
    simp only [] at hr
    omega
  rw [if_neg h1] at h
  simp only [] at h
  by_cases h2 : env.md_sectors_buf_ok = false ∨ int32 s.dmc.md_sectors - 1 = 0
  · rw [if_pos h2] at h
    simp only [Outcome.returned.injEq] at h
    rw [← h] at hr
    simp only [] at hr
    omega
  rw [if_neg h2] at h
  split at h
  · simp at h
  · rename_i s3 hl
    simp only [Outcome.returned.injEq] at h
    rw [← h]
    have := ctr_count_dmc P _ _ _ hl
    exact ⟨this, rfl⟩

/-- The call of a metadata function in flashcache_ctr, where flashcache_ctr
returns 0: the metadata function has returned 0, and the instance has the
fields it has set. -/
theorem ctr_after_md_success {P : Params} {C : ctr_consts} {env : ctr_env} {s : cache_inst}
    {m : Outcome md_result} {res : ctr_result} (hC : C.wf)
    (h : ctr_after_md P C env s m = Outcome.returned res) (hr : res.r = 0) :
    ∃ r, m = Outcome.returned r ∧ r.ret = 0 ∧ res.inst.dmc = r.dmc ∧ res.io = r.io := by
  unfold ctr_after_md at h
  cases m with
  | returned r =>
    simp only [] at h
    by_cases hret : r.ret ≠ 0
    · rw [if_pos hret] at h
      simp only [Outcome.returned.injEq] at h
      rw [← h] at hr
      simp only [] at hr
      have := hC.1
      omega
    · rw [if_neg hret] at h
      obtain ⟨h1, h2⟩ := ctr_init_dmc hC h hr
      exact ⟨r, rfl, not_not.mp hret, h1, h2⟩
  | panic => simp at h
  | timeout => simp at h

/-- The two ways flashcache_ctr can go: either at least two arguments are
given and every step before the persistence argument succeeds, and the function
is what follows those steps; or it returns a non-zero value with no request
issued to the cache device, -EINVAL where fewer than two arguments are the
reason. -/
theorem ctr_cases (P : Params) (C : ctr_consts) (env : ctr_env) (args : ctr_args)
    (dev : Disk) (hC : C.wf) :
    (2 ≤ args.argc ∧ env.setup_ok ∧
      flashcache_ctr P C env args dev
        = ctr_configure P C env args (ctr_setup P env args) dev) ∨
    (∃ res, flashcache_ctr P C env args dev = Outcome.returned res ∧ res.r ≠ 0 ∧
      res.io = { dev := dev, log := [] } ∧ (env.setup_ok → res.r = -C.EINVAL)) := by
  obtain ⟨hE, hM, -⟩ := hC
  by_cases h0 : args.argc < 2
  · right
    unfold flashcache_ctr
    simp only []
    rw [if_pos h0]
    exact ⟨_, rfl, by simp only []; omega, rfl, fun _ => rfl⟩
  by_cases h1 : env.kzalloc_ok = false
  · right
    unfold flashcache_ctr
    simp only []
    rw [if_neg h0, if_pos h1]
    refine ⟨_, rfl, by simp only []; omega, rfl, fun hs => ?_⟩
    rw [hs.1] at h1
    exact absurd h1 (by decide)
  by_cases h2 : env.disk_dev_error ≠ 0
  · right
    unfold flashcache_ctr
    simp only []
    rw [if_neg h0, if_neg h1, if_pos h2]
    exact ⟨_, rfl, h2, rfl, fun hs => absurd hs.2.1 h2⟩
  by_cases h3 : env.cache_dev_error ≠ 0
  · right
    unfold flashcache_ctr
    simp only []
    rw [if_neg h0, if_neg h1, if_neg h2, if_pos h3]
    exact ⟨_, rfl, h3, rfl, fun hs => absurd hs.2.2.1 h3⟩
  by_cases h4 : env.io_client_error ≠ 0
  · right
    unfold flashcache_ctr
    simp only []
    rw [if_neg h0, if_neg h1, if_neg h2, if_neg h3, if_pos h4]
    exact ⟨_, rfl, h4, rfl, fun hs => absurd hs.2.2.2.1 h4⟩
  by_cases h5 : env.kcopyd_error ≠ 0
  · right
    unfold flashcache_ctr
    simp only []
    rw [if_neg h0, if_neg h1, if_neg h2, if_neg h3, if_neg h4, if_pos h5]
    exact ⟨_, rfl, h5, rfl, fun hs => absurd hs.2.2.2.2 h5⟩
  left
  have hs : env.setup_ok :=
    ⟨by simpa using h1, not_not.mp h2, not_not.mp h3, not_not.mp h4, not_not.mp h5⟩
  exact ⟨by omega, hs, ctr_of_setup P C env args dev (by omega) hs⟩

/-- Where the statements of flashcache_ctr from the persistence argument on
leave with -EINVAL before any request, flashcache_ctr returns a non-zero value
with no request issued to the cache device, and that value is -EINVAL where the
steps before the persistence argument succeed. -/
theorem ctr_fails (P : Params) (C : ctr_consts) (env : ctr_env) (args : ctr_args)
    (dev : Disk) (hC : C.wf)
    (h : ∃ s, ctr_configure P C env args (ctr_setup P env args) dev
      = Outcome.returned { r := -C.EINVAL, inst := s, io := { dev := dev, log := [] } }) :
    ∃ res, flashcache_ctr P C env args dev = Outcome.returned res ∧ res.r ≠ 0 ∧
      res.io.log = [] ∧ res.io.dev = dev ∧ (env.setup_ok → res.r = -C.EINVAL) := by
  rcases ctr_cases P C env args dev hC with ⟨-, -, hc⟩ | ⟨res, hc, h1, h2, h3⟩
  · obtain ⟨s, hs⟩ := h
    rw [hc, hs]
    have := hC.1
    exact ⟨_, rfl, by simp only []; omega, rfl, rfl, fun _ => rfl⟩
  · refine ⟨res, hc, h1, ?_, ?_, h3⟩
    · rw [h2]
    · rw [h2]

/-- Where flashcache_ctr returns 0, every step before the persistence argument
has succeeded. -/
theorem ctr_success (P : Params) (C : ctr_consts) (env : ctr_env) (args : ctr_args)
    (dev : Disk) (hC : C.wf) {res : ctr_result}
    (h : flashcache_ctr P C env args dev = Outcome.returned res) (hr : res.r = 0) :
    ctr_configure P C env args (ctr_setup P env args) dev = Outcome.returned res := by
  rcases ctr_cases P C env args dev hC with ⟨-, -, hc⟩ | ⟨res2, hc, h1, -, -⟩
  · rw [← hc]
    exact h
  · rw [hc] at h
    simp only [Outcome.returned.injEq] at h
    rw [h] at h1
    exact absurd hr h1

/-- The steps of flashcache_ctr before the persistence argument look at the
number of arguments and at the two paths only. -/
theorem ctr_congr (P : Params) (C : ctr_consts) (env : ctr_env) (a b : ctr_args)
    (dev : Disk) (h1 : a.argc = b.argc) (h2 : a.disk_path = b.disk_path)
    (h3 : a.cache_path = b.cache_path)
    (h : ctr_configure P C env a (ctr_setup P env a) dev
      = ctr_configure P C env b (ctr_setup P env b) dev) :
    flashcache_ctr P C env a dev = flashcache_ctr P C env b dev := by
  unfold flashcache_ctr
  simp only []
  rw [h, h1, h2, h3]

/-- The `int` that holds an unsigned value outside the range of the persistence
modes is outside that range too. -/
theorem ctr_persistence_range {C : ctr_consts} (hC : C.wf) (v : Nat) :
    (int32 (uint32 v) < C.CACHE_RELOAD ∨ int32 (uint32 v) > C.CACHE_FORCECREATE) ↔
    (((uint32 v : Nat) : Int) < C.CACHE_RELOAD ∨
      ((uint32 v : Nat) : Int) > C.CACHE_FORCECREATE) := by
  obtain ⟨-, -, h0, h1, h2, -, -, -, -, -, -, -, h3⟩ := hC
  unfold int32 uint32
  omega

/-- The variable `persistence` of flashcache_ctr where the argument is one of
the three modes: that mode. -/
theorem ctr_persistence_mode {C : ctr_consts} (hC : C.wf) {args : ctr_args} {v : Nat}
    (hargc : 3 ≤ args.argc) (hv : args.persistence = some v)
    (hm : C.CACHE_RELOAD ≤ ((uint32 v : Nat) : Int) ∧
      ((uint32 v : Nat) : Int) ≤ C.CACHE_FORCECREATE) :
    ctr_persistence C args = some ((uint32 v : Nat) : Int) := by
  have hre : int32 (uint32 v) = ((uint32 v : Nat) : Int) := by
    obtain ⟨-, -, h0, h1, h2, -, -, -, -, -, -, -, h3⟩ := hC
    apply int32_of_range <;> omega
  unfold ctr_persistence
  rw [if_pos (by omega), hv]
  simp only []
  rw [if_neg (by rw [ctr_persistence_range hC]; omega), hre]

/-- The statements of flashcache_ctr from the persistence argument on, in a
mode other than CACHE_RELOAD: either an argument is refused with -EINVAL before
any request, or the three geometry arguments are accepted in turn and
flashcache_md_create is called. -/
theorem ctr_configure_create (P : Params) (C : ctr_consts) (env : ctr_env)
    (args : ctr_args) (s3 : cache_inst) (dev : Disk) {p : Int}
    (hp : ctr_persistence C args = some p) (hne : p ≠ C.CACHE_RELOAD) :
    ((ctr_block_size C args s3 = none ∨
        (∃ s4, ctr_block_size C args s3 = some s4 ∧
          (ctr_size env args s4 = none ∨
            ∃ s5, ctr_size env args s4 = some s5 ∧ ctr_assoc C args s5 = none))) ∧
      ∃ s, ctr_configure P C env args s3 dev
        = Outcome.returned { r := -C.EINVAL, inst := s, io := { dev := dev, log := [] } }) ∨
    (∃ s4 s5 s6 force, ctr_block_size C args s3 = some s4 ∧
      ctr_size env args s4 = some s5 ∧ ctr_assoc C args s5 = some s6 ∧
      ctr_configure P C env args s3 dev
        = ctr_after_md P C env s6 (flashcache_md_create P s6.dmc force env.md dev)) := by
  unfold ctr_configure
  rw [hp]
  simp only []
  rw [if_neg hne]
  cases h4 : ctr_block_size C args s3 with
  | none => exact Or.inl ⟨Or.inl rfl, _, rfl⟩
  | some s4 =>
    simp only []
    cases h5 : ctr_size env args s4 with
    | none => exact Or.inl ⟨Or.inr ⟨s4, rfl, Or.inl h5⟩, _, rfl⟩
    | some s5 =>
      simp only []
      cases h6 : ctr_assoc C args s5 with
      | none => exact Or.inl ⟨Or.inr ⟨s4, rfl, Or.inr ⟨s5, h5, h6⟩⟩, _, rfl⟩
      | some s6 =>
        simp only []
        right
        by_cases hc : p = C.CACHE_CREATE
        · rw [if_pos hc]
          exact ⟨s4, s5, s6, 0, rfl, h5, h6, rfl⟩
        · rw [if_neg hc]
          exact ⟨s4, s5, s6, 1, rfl, h5, h6, rfl⟩

/-! ## The geometry arguments of flashcache_ctr -/

/-- The block size flashcache_ctr accepts: the default or the argument, a power
of two, with the other fields of the instance that the later arguments use as
they were. -/
theorem ctr_block_size_some {C : ctr_consts} (hC : C.wf) {args : ctr_args}
    {s s4 : cache_inst} (h : ctr_block_size C args s = some s4) :
    (s4.dmc.block_size ≠ 0 ∧ s4.dmc.block_size &&& (s4.dmc.block_size - 1) = 0) ∧
    (args.argc < 4 → s4.dmc.block_size = C.DEFAULT_BLOCK_SIZE) ∧
    (4 ≤ args.argc → ∃ v, args.block_size = some v ∧ s4.dmc.block_size = uint32 v) := by
  obtain ⟨-, -, -, -, -, hd1, hd2, -⟩ := hC
  unfold ctr_block_size at h
  simp only [] at h
  by_cases ha : args.argc ≥ 4
  · rw [if_pos ha] at h
    cases hb : args.block_size with
    | none => rw [hb] at h; simp at h
    | some v =>
      rw [hb] at h
      simp only [] at h
      by_cases hbad : uint32 v = 0 ∨ uint32 v &&& (uint32 v - 1) ≠ 0
      · rw [if_pos hbad] at h
        simp at h
      · rw [if_neg hbad, Option.some.injEq] at h
        rw [← h]
        refine ⟨⟨fun h0 => hbad (Or.inl h0), ?_⟩, fun h4 => by omega, fun _ => ⟨v, rfl, rfl⟩⟩
        by_contra h1
        exact hbad (Or.inr h1)
  · rw [if_neg ha, Option.some.injEq] at h
    rw [← h]
    exact ⟨⟨hd1, hd2⟩, fun _ => rfl, fun h4 => by omega⟩

/-- The size argument of flashcache_ctr leaves the block size as it is. -/
theorem ctr_size_some {env : ctr_env} {args : ctr_args} {s s5 : cache_inst}
    (h : ctr_size env args s = some s5) :
    s5.dmc.block_size = s.dmc.block_size ∧
    (5 ≤ args.argc → ∃ z, args.size = some z ∧ s5.dmc.size = uint64 z) := by
  unfold ctr_size at h
  by_cases ha : args.argc ≥ 5
  · rw [if_pos ha] at h
    cases hb : args.size with
    | none => rw [hb] at h; simp at h
    | some v =>
      rw [hb] at h
      simp only [Option.some.injEq] at h
      rw [← h]
      exact ⟨rfl, fun _ => ⟨v, rfl, rfl⟩⟩
  · rw [if_neg ha, Option.some.injEq] at h
    rw [← h]
    exact ⟨rfl, fun h5 => by omega⟩

/-- The associativity flashcache_ctr accepts: the default or the argument, a
power of two not above FLASHCACHE_MAX_ASSOC, and as argument not above the
requested size either; the block size is left as it is. -/
theorem ctr_assoc_some {C : ctr_consts} (hC : C.wf) {args : ctr_args}
    {s s6 : cache_inst} (h : ctr_assoc C args s = some s6) :
    s6.dmc.block_size = s.dmc.block_size ∧
    (s6.dmc.assoc ≠ 0 ∧ s6.dmc.assoc &&& (s6.dmc.assoc - 1) = 0) ∧
    s6.dmc.assoc ≤ C.FLASHCACHE_MAX_ASSOC ∧
    (args.argc < 6 → s6.dmc.assoc = C.DEFAULT_CACHE_ASSOC) ∧
    (6 ≤ args.argc → ∃ v, args.assoc = some v ∧ s6.dmc.assoc = uint32 v ∧
      uint32 v ≤ s.dmc.size) := by
  obtain ⟨-, -, -, -, -, -, -, -, hd1, hd2, hd3, -⟩ := hC
  unfold ctr_assoc at h
  simp only [] at h
  by_cases ha : args.argc ≥ 6
  · rw [if_pos ha] at h
    cases hb : args.assoc with
    | none => rw [hb] at h; simp at h
    | some v =>
      rw [hb] at h
      simp only [] at h
      by_cases hbad : uint32 v = 0 ∨ uint32 v &&& (uint32 v - 1) ≠ 0 ∨
          uint32 v > C.FLASHCACHE_MAX_ASSOC ∨ s.dmc.size < uint32 v
      · rw [if_pos hbad] at h
        simp at h
      · rw [if_neg hbad, Option.some.injEq] at h
        rw [← h]
        refine ⟨rfl, ⟨fun h0 => hbad (Or.inl h0), ?_⟩, ?_, fun h4 => by omega,
          fun _ => ⟨v, rfl, rfl, ?_⟩⟩
        · by_contra h1
          exact hbad (Or.inr (Or.inl h1))
        · by_contra h1
          exact hbad (Or.inr (Or.inr (Or.inl (by
            show uint32 v > C.FLASHCACHE_MAX_ASSOC
            simp only [] at h1
            omega))))
        · by_contra h1
          exact hbad (Or.inr (Or.inr (Or.inr (by omega))))
  · rw [if_neg ha, Option.some.injEq] at h
    rw [← h]
    exact ⟨rfl, ⟨hd1, hd2⟩, hd3, fun _ => rfl, fun h4 => by omega⟩

/-- A successful flashcache_md_create leaves `block_size` and `assoc` as they
are. -/
theorem md_create_keeps {P : Params} {dmc : cache_c} {force : Int} {env : Env}
    {dev : Disk} {r : md_result}
    (h : flashcache_md_create P dmc force env dev = Outcome.returned r)
    (hret : r.ret = 0) :
    r.dmc.block_size = dmc.block_size ∧ r.dmc.assoc = dmc.assoc := by
  obtain ⟨-, -, c, s1, s, -, -, -, -, hr⟩ := md_create_success h hret
  rw [hr]
  exact ⟨rfl, rfl⟩

/-! ## The counters that flashcache_ctr sets up -/

theorem uint64_uint64_add (x : Nat) (y : Int) :
    uint64 ((uint64 x : Nat) + y) = uint64 (x + y) := by
  unfold uint64
  omega

theorem uint32_uint32_add (x : Nat) (y : Int) :
    uint32 ((uint32 x : Nat) + y) = uint32 (x + y) := by
  unfold uint32
  omega

/-- What one pass of the counting loop of flashcache_ctr does to the
counters. -/
theorem ctr_count_body_step {P : Params} {i : Nat} {s s1 : cache_inst}
    (h : ctr_count_body P i s = some s1) :
    s1.cached_blocks
      = (if (s.dmc.cache i).cache_state &&& P.VALID ≠ 0 then uint64 (s.cached_blocks + 1)
          else s.cached_blocks) ∧
    s1.nr_dirty
      = (if (s.dmc.cache i).cache_state &&& P.DIRTY ≠ 0 then int32 (s.nr_dirty + 1)
          else s.nr_dirty) ∧
    ∀ t, (s1.cache_sets t).nr_dirty
      = (if i / s.dmc.assoc = t ∧ (s.dmc.cache i).cache_state &&& P.DIRTY ≠ 0 then
          uint32 ((s.cache_sets t).nr_dirty + 1)
        else (s.cache_sets t).nr_dirty) := by
  unfold ctr_count_body at h
  by_cases hv : (s.dmc.cache i).cache_state &&& P.VALID ≠ 0
  · by_cases hd : (s.dmc.cache i).cache_state &&& P.DIRTY ≠ 0
    · by_cases ha : s.dmc.assoc = 0
      · simp [hv, hd, ha] at h
      · simp only [hv, hd, ha, if_true, if_false, ne_eq, not_false_eq_true,
          Option.some.injEq] at h
        rw [← h]
        refine ⟨by simp only [hv, if_true, ne_eq, not_false_eq_true],
          by simp only [hd, if_true, ne_eq, not_false_eq_true], fun t => ?_⟩
        by_cases ht : i / s.dmc.assoc = t
        · subst ht
          simp only [Function.update_same, hd, ne_eq, not_false_eq_true, and_self, if_true]
        · simp only [ne_eq, Function.update_noteq (Ne.symm ht), ht, false_and, if_false]
    · simp only [hv, hd, if_true, if_false, ne_eq, not_false_eq_true,
        Option.some.injEq] at h
      rw [← h]
      refine ⟨by simp only [hv, if_true, ne_eq, not_false_eq_true],
        by simp only [hd, if_false, ne_eq], fun t => ?_⟩
      simp only [hd, ne_eq, and_false, if_false]
  · by_cases hd : (s.dmc.cache i).cache_state &&& P.DIRTY ≠ 0
    · by_cases ha : s.dmc.assoc = 0
      · simp [hv, hd, ha] at h
      · simp only [hv, hd, ha, if_true, if_false, ne_eq, not_false_eq_true,
          Option.some.injEq] at h
        rw [← h]
        refine ⟨by simp only [hv, if_false, ne_eq],
          by simp only [hd, if_true, ne_eq, not_false_eq_true], fun t => ?_⟩
        by_cases ht : i / s.dmc.assoc = t
        · subst ht
          simp only [Function.update_same, hd, ne_eq, not_false_eq_true, and_self, if_true]
        · simp only [ne_eq, Function.update_noteq (Ne.symm ht), ht, false_and, if_false]
    · simp only [hv, hd, if_false, Option.some.injEq] at h
      rw [← h]
      refine ⟨by simp only [hv, if_false, ne_eq],
        by simp only [hd, if_false, ne_eq], fun t => ?_⟩
      simp only [hd, ne_eq, and_false, if_false]

/-- The counting loop of flashcache_ctr after `n` passes, started with the two
counters of the instance at zero: `cached_blocks` counts the VALID slots below
`n`, `nr_dirty` the DIRTY ones as an `int`, and the `nr_dirty` of a set that
started at zero the DIRTY slots below `n` that lie in the set. -/
theorem ctr_count_inv (P : Params) :
    ∀ (n : Nat) (s s1 : cache_inst), for_loop (ctr_count_body P) n s = some s1 →
      s.cached_blocks = 0 → s.nr_dirty = 0 →
      s1.cached_blocks = uint64 (count_flag P.VALID s.dmc.cache n) ∧
      s1.nr_dirty = int32 (count_flag P.DIRTY s.dmc.cache n) ∧
      ∀ t, (s.cache_sets t).nr_dirty = 0 →
        (s1.cache_sets t).nr_dirty
          = uint32 (count_set P.DIRTY s.dmc.assoc t s.dmc.cache n) := by
  intro n
  induction n with
  | zero =>
    intro s s1 h hc hd
    simp only [for_loop, Option.some.injEq] at h
    rw [← h]
    refine ⟨?_, ?_, fun t ht => ?_⟩
    · rw [hc]; rfl
    · rw [hd]
      simp only [count_flag]
      unfold int32
      omega
    · rw [ht]; rfl
  | succ k ih =>
    intro s s1 h hc hd
    simp only [for_loop] at h
    cases hk : for_loop (ctr_count_body P) k s with
    | none => rw [hk] at h; simp at h
    | some s2 =>
      rw [hk, Option.some_bind] at h
      obtain ⟨i1, i2, i3⟩ := ih s s2 hk hc hd
      have hdmc := ctr_count_dmc P _ _ _ hk
      obtain ⟨b1, b2, b3⟩ := ctr_count_body_step h
      rw [hdmc] at b1 b2 b3
      refine ⟨?_, ?_, fun t ht => ?_⟩
      · rw [b1, i1]
        simp only [count_flag]
        by_cases hv : (s.dmc.cache k).cache_state &&& P.VALID ≠ 0
        · rw [if_pos hv, if_pos hv, uint64_uint64_add]
          rfl
        · rw [if_neg hv, if_neg hv]
          rfl
      · rw [b2, i2]
        simp only [count_flag]
        by_cases hv : (s.dmc.cache k).cache_state &&& P.DIRTY ≠ 0
        · rw [if_pos hv, if_pos hv, int32_int32_add]
          rfl
        · rw [if_neg hv, if_neg hv]
          rfl
      · rw [b3 t, i3 t ht]
        simp only [count_set]
        by_cases hv : k / s.dmc.assoc = t ∧ (s.dmc.cache k).cache_state &&& P.DIRTY ≠ 0
        · rw [if_pos hv, if_pos hv, uint32_uint32_add]
          rfl
        · rw [if_neg hv, if_neg hv]
          rfl

/-- The counting loop of flashcache_ctr runs to its end on sets that are not
empty. -/
theorem ctr_count_total (P : Params) :
    ∀ (n : Nat) (s : cache_inst), s.dmc.assoc ≠ 0 →
      ∃ s1, for_loop (ctr_count_body P) n s = some s1 := by
  intro n
  induction n with
  | zero => intro s _; exact ⟨s, rfl⟩
  | succ k ih =>
    intro s ha
    obtain ⟨s2, hk⟩ := ih s ha
    have hdmc := ctr_count_dmc P _ _ _ hk
    simp only [for_loop]
    rw [hk, Option.some_bind]
    unfold ctr_count_body
    simp only []
    by_cases hd : (s2.dmc.cache k).cache_state &&& P.DIRTY ≠ 0
    · rw [if_pos hd]
      by_cases hv : (s2.dmc.cache k).cache_state &&& P.VALID ≠ 0
      · rw [if_pos hv, if_neg (by rw [hdmc]; exact ha)]
        exact ⟨_, rfl⟩
      · rw [if_neg hv, if_neg (by rw [hdmc]; exact ha)]
        exact ⟨_, rfl⟩
    · rw [if_neg hd]
      exact ⟨_, rfl⟩

/-- The slots of set `t` counted among the first `n`: none while `n` has not
reached the set. -/
theorem count_set_before (flag assoc t : Nat) (cache : Nat → cacheblock) :
    ∀ n, n ≤ t * assoc → count_set flag assoc t cache n = 0 := by
  intro n
  induction n with
  | zero => intro _; rfl
  | succ k ih =>
    intro hk
    simp only [count_set]
    rw [ih (by omega)]
    have : k / assoc ≠ t := by
      intro he
      have := Nat.div_mul_le_self k assoc
      have h2 : k / assoc < t := by
        apply Nat.div_lt_of_lt_mul
        rw [Nat.mul_comm]
        omega
      omega
    simp only [this, false_and, if_false]

/-- The slots of set `t` counted among the first `t * assoc + k`, for `k` up to
`assoc`: the flagged ones among the first `k` of the set. -/
theorem count_set_within (flag assoc t : Nat) (cache : Nat → cacheblock) :
    ∀ k, k ≤ assoc → count_set flag assoc t cache (t * assoc + k)
      = count_flag flag (fun j => cache (t * assoc + j)) k := by
  intro k
  induction k with
  | zero =>
    intro _
    exact count_set_before flag assoc t cache _ (Nat.le_refl _)
  | succ k ih =>
    intro hk
    rw [← Nat.add_assoc]
    simp only [count_set, count_flag]
    rw [ih (by omega)]
    have : (t * assoc + k) / assoc = t := by
      rw [Nat.mul_comm, Nat.mul_add_div (by omega), Nat.div_eq_of_lt (by omega), Nat.add_zero]
    simp only [this, true_and]

/-- The slots of set `t` counted among the first `n`, once `n` is past the set:
the flagged slots of the set. -/
theorem count_set_after (flag assoc t : Nat) (cache : Nat → cacheblock) (ha : assoc ≠ 0) :
    ∀ n, t * assoc + assoc ≤ n → count_set flag assoc t cache n
      = count_flag flag (fun j => cache (t * assoc + j)) assoc := by
  intro n
  induction n with
  | zero =>
    intro h
    omega
  | succ k ih =>
    intro hk
    by_cases he : t * assoc + assoc = k + 1
    · rw [← he]
      exact count_set_within flag assoc t cache assoc (Nat.le_refl _)
    · simp only [count_set]
      rw [ih (by omega)]
      have : k / assoc ≠ t := by
        intro h2
        have h3 : k < (k / assoc + 1) * assoc := by
          have := Nat.lt_div_mul_add (a := k) (b := assoc) (by omega)
          rw [Nat.add_mul, Nat.one_mul]
          exact this
        rw [h2, Nat.add_mul, Nat.one_mul] at h3
        omega
      simp only [this, false_and, if_false, Nat.add_zero]

/-- The lowest set bit of a non-zero word of `fuel` bits: its position from 1
is at most `fuel`, and the power of two below it divides the word. -/
theorem ffs_aux_dvd : ∀ (fuel x : Nat), x ≠ 0 → x < 2 ^ fuel →
    1 ≤ ffs_aux fuel x ∧ ffs_aux fuel x ≤ fuel ∧ 2 ^ (ffs_aux fuel x - 1) ∣ x := by
  intro fuel
  induction fuel with
  | zero =>
    intro x h0 h1
    simp only [Nat.pow_zero] at h1
    omega
  | succ f ih =>
    intro x h0 h1
    simp only [ffs_aux]
    by_cases hodd : x % 2 = 1
    · rw [if_pos hodd]
      exact ⟨Nat.le_refl _, by omega, by simp⟩
    · rw [if_neg hodd]
      rw [Nat.pow_succ] at h1
      obtain ⟨i1, i2, i3⟩ := ih (x / 2) (by omega) (by omega)
      refine ⟨by omega, by omega, ?_⟩
      have e : 1 + ffs_aux f (x / 2) - 1 = (ffs_aux f (x / 2) - 1) + 1 := by omega
      rw [e, Nat.pow_succ]
      have hx : x = x / 2 * 2 := by omega
      rw [hx]
      have hx2 : x / 2 * 2 / 2 = x / 2 := by omega
      rw [hx2]
      exact Nat.mul_dvd_mul_right i3 2

/-- The number of sets that flashcache_ctr initialises, `size >>
consecutive_shift` with the shift taken from the lowest set bit of `assoc`, is
at least the number of whole sets of `assoc` slots. -/
theorem ctr_sets_cover (size assoc : Nat) (h0 : assoc ≠ 0) (h1 : assoc < 4294967296) :
    size / assoc ≤ size >>> uint32 (ffs assoc - 1) := by
  have hm : assoc % 4294967296 = assoc := Nat.mod_eq_of_lt h1
  obtain ⟨a1, a2, a3⟩ := ffs_aux_dvd 32 assoc h0 (by norm_num; exact h1)
  have hf : ffs assoc = ((ffs_aux 32 assoc : Nat) : Int) := by
    unfold ffs
    rw [hm, if_neg h0]
  have hu : uint32 (ffs assoc - 1) = ffs_aux 32 assoc - 1 := by
    rw [hf]
    unfold uint32
    omega
  rw [hu, Nat.shiftRight_eq_div_pow]
  apply Nat.div_le_div_left
  · exact Nat.le_of_dvd (by omega) a3
  · positivity

/-- The statements of flashcache_ctr from `init` on, where they return 0 on an
instance whose two counters are zero: `cached_blocks` is the number of VALID
slots as an `unsigned long`, `nr_dirty` the number of DIRTY slots as an `int`,
and the `nr_dirty` of each set that was initialised the number of DIRTY slots
that lie in the set, as an `unsigned int`. -/
theorem ctr_init_counts {P : Params} {C : ctr_consts} {env : ctr_env} {s : cache_inst}
    {io : Io} {res : ctr_result} (hC : C.wf)
    (h : ctr_init P C env s io = Outcome.returned res) (hr : res.r = 0)
    (hc : s.cached_blocks = 0) (hd : s.nr_dirty = 0) :
    res.inst.cached_blocks = uint64 (count_flag P.VALID s.dmc.cache s.dmc.size) ∧
    res.inst.nr_dirty = int32 (count_flag P.DIRTY s.dmc.cache s.dmc.size) ∧
    ∀ t, t < s.dmc.size >>> s.dmc.consecutive_shift →
      (res.inst.cache_sets t).nr_dirty
        = uint32 (count_set P.DIRTY s.dmc.assoc t s.dmc.cache s.dmc.size) := by
  obtain ⟨-, hE, -⟩ := hC
  unfold ctr_init at h
  by_cases h1 : env.cache_sets_ok = false ∨ s.dmc.size >>> s.dmc.consecutive_shift = 0
  · rw [if_pos h1] at h
    simp only [Outcome.returned.injEq] at h
    rw [← h] at hr
    simp only [] at hr
    omega
  rw [if_neg h1] at h
  simp only [] at h
  by_cases h2 : env.md_sectors_buf_ok = false ∨ int32 s.dmc.md_sectors - 1 = 0
  · rw [if_pos h2] at h
    simp only [Outcome.returned.injEq] at h
    rw [← h] at hr
    simp only [] at hr
    omega
  rw [if_neg h2] at h
  split at h
  · simp at h
  · rename_i s3 hl
    simp only [Outcome.returned.injEq] at h
    rw [← h]
    obtain ⟨i1, i2, i3⟩ := ctr_count_inv P _ _ _ hl hc hd
    refine ⟨i1, i2, fun t ht => ?_⟩
    apply i3 t
    simp only []
    rw [if_pos ht]

/-- The statements of flashcache_ctr from `init` on return 0 where both
allocations are of at least one byte and succeed and the sets are not empty. -/
theorem ctr_init_total (P : Params) (C : ctr_consts) (env : ctr_env) (s : cache_inst)
    (io : Io) (h1 : env.cache_sets_ok = true) (h2 : env.md_sectors_buf_ok = true)
    (ha : s.dmc.assoc ≠ 0) (hn : s.dmc.size >>> s.dmc.consecutive_shift ≠ 0)
    (hm : int32 s.dmc.md_sectors - 1 ≠ 0) :
    ∃ res, ctr_init P C env s io = Outcome.returned res ∧ res.r = 0 := by
  unfold ctr_init
  rw [if_neg (by rw [h1]; simp [hn])]
  simp only []
  rw [if_neg (by rw [h2]; simp [hm])]
  obtain ⟨s3, hl⟩ := ctr_count_total P s.dmc.size
    { s with
      cache_sets := fun i =>
        if i < s.dmc.size >>> s.dmc.consecutive_shift then
          { set_fifo_next := uint32 (i * s.dmc.assoc)
            set_clean_next := uint32 (i * s.dmc.assoc)
            nr_dirty := 0
            clean_inprog := 0 }
        else env.cache_sets_garbage i
      sync_index := 0
      clean_inprog := 0
      dirty_thresh_set :=
        int32 ((uint32 (s.dmc.assoc * env.sysctl_flashcache_dirty_thresh) / 100 : Nat) : Int)
      max_clean_ios_total := env.sysctl_max_clean_ios_total
      max_clean_ios_set := env.sysctl_max_clean_ios_set } ha
  rw [hl]
  exact ⟨_, rfl, rfl⟩

/-- The call of a metadata function in flashcache_ctr, where flashcache_ctr
returns 0: the metadata function has returned 0, and the statements from `init`
on have run on the instance it left. -/
theorem ctr_after_md_init {P : Params} {C : ctr_consts} {env : ctr_env} {s : cache_inst}
    {m : Outcome md_result} {res : ctr_result} (hC : C.wf)
    (h : ctr_after_md P C env s m = Outcome.returned res) (hr : res.r = 0) :
    ∃ r, m = Outcome.returned r ∧ r.ret = 0 ∧
      ctr_init P C env { s with dmc := r.dmc } r.io = Outcome.returned res := by
  unfold ctr_after_md at h
  cases m with
  | returned r =>
    simp only [] at h
    by_cases hret : r.ret ≠ 0
    · rw [if_pos hret] at h
      simp only [Outcome.returned.injEq] at h
      rw [← h] at hr
      simp only [] at hr
      have := hC.1
      omega
    · rw [if_neg hret] at h
      exact ⟨r, rfl, not_not.mp hret, h⟩
  | panic => simp at h
  | timeout => simp at h

/-- The three geometry arguments of flashcache_ctr leave the two counters of
the instance as they are, and the last of them sets `consecutive_shift` from
the lowest set bit of `assoc`. -/
theorem ctr_geometry_counters {C : ctr_consts} {env : ctr_env} {args : ctr_args}
    {s s4 s5 s6 : cache_inst} (h4 : ctr_block_size C args s = some s4)
    (h5 : ctr_size env args s4 = some s5) (h6 : ctr_assoc C args s5 = some s6) :
    s6.cached_blocks = s.cached_blocks ∧ s6.nr_dirty = s.nr_dirty ∧
    s6.dmc.consecutive_shift = uint32 (ffs s6.dmc.assoc - 1) := by
  have e4 : s4.cached_blocks = s.cached_blocks ∧ s4.nr_dirty = s.nr_dirty := by
    unfold ctr_block_size at h4
    simp only [] at h4
    by_cases ha : args.argc ≥ 4
    · rw [if_pos ha] at h4
      cases hb : args.block_size with
      | none => rw [hb] at h4; simp at h4
      | some v =>
        rw [hb] at h4
        simp only [] at h4
        by_cases hbad : uint32 v = 0 ∨ uint32 v &&& (uint32 v - 1) ≠ 0
        · rw [if_pos hbad] at h4
          simp at h4
        · rw [if_neg hbad, Option.some.injEq] at h4
          rw [← h4]
          exact ⟨rfl, rfl⟩
    · rw [if_neg ha, Option.some.injEq] at h4
      rw [← h4]
      exact ⟨rfl, rfl⟩
  have e5 : s5.cached_blocks = s4.cached_blocks ∧ s5.nr_dirty = s4.nr_dirty := by
    unfold ctr_size at h5
    by_cases ha : args.argc ≥ 5
    · rw [if_pos ha] at h5
      cases hb : args.size with
      | none => rw [hb] at h5; simp at h5
      | some v =>
        rw [hb] at h5
        simp only [Option.some.injEq] at h5
        rw [← h5]
        exact ⟨rfl, rfl⟩
    · rw [if_neg ha, Option.some.injEq] at h5
      rw [← h5]
      exact ⟨rfl, rfl⟩
  have e6 : s6.cached_blocks = s5.cached_blocks ∧ s6.nr_dirty = s5.nr_dirty ∧
      s6.dmc.consecutive_shift = uint32 (ffs s6.dmc.assoc - 1) := by
    unfold ctr_assoc at h6
    simp only [] at h6
    by_cases ha : args.argc ≥ 6
    · rw [if_pos ha] at h6
      cases hb : args.assoc with
      | none => rw [hb] at h6; simp at h6
      | some v =>
        rw [hb] at h6
        simp only [] at h6
        by_cases hbad : uint32 v = 0 ∨ uint32 v &&& (uint32 v - 1) ≠ 0 ∨
            uint32 v > C.FLASHCACHE_MAX_ASSOC ∨ s5.dmc.size < uint32 v
        · rw [if_pos hbad] at h6
          simp at h6
        · rw [if_neg hbad, Option.some.injEq] at h6
          rw [← h6]
          exact ⟨rfl, rfl, rfl⟩
    · rw [if_neg ha, Option.some.injEq] at h6
      rw [← h6]
      exact ⟨rfl, rfl, rfl⟩
  exact ⟨by rw [e6.1, e5.1, e4.1], by rw [e6.2.1, e5.2, e4.2], e6.2.2⟩

/-- A successful flashcache_ctr: a metadata function has returned 0 and left
an instance whose `consecutive_shift` is taken from the lowest set bit of its
`assoc`, and the statements from `init` on have run on that instance with both
counters at zero. -/
theorem ctr_success_md (P : Params) (C : ctr_consts) (env : ctr_env) (args : ctr_args)
    (dev : Disk) (hC : C.wf) {res : ctr_result}
    (h : flashcache_ctr P C env args dev = Outcome.returned res) (hr : res.r = 0) :
    ∃ (s : cache_inst) (io : Io), s.cached_blocks = 0 ∧ s.nr_dirty = 0 ∧
      s.dmc.consecutive_shift = uint32 (ffs s.dmc.assoc - 1) ∧
      ctr_init P C env s io = Outcome.returned res := by
  have hcfg := ctr_success P C env args dev hC h hr
  cases hp : ctr_persistence C args with
  | none =>
    unfold ctr_configure at hcfg
    rw [hp] at hcfg
    simp only [Outcome.returned.injEq] at hcfg
    rw [← hcfg] at hr
    simp only [] at hr
    have := hC.1
    omega
  | some p =>
    by_cases hre : p = C.CACHE_RELOAD
    · unfold ctr_configure at hcfg
      rw [hp] at hcfg
      simp only [] at hcfg
      rw [if_pos hre] at hcfg
      obtain ⟨r, hm, hret, hi⟩ := ctr_after_md_init hC hcfg hr
      obtain ⟨-, s, -, -, hreq⟩ := md_load_success hm hret
      refine ⟨_, _, ?_, ?_, ?_, hi⟩
      · rfl
      · rfl
      · rw [hreq]
        rfl
    · rcases ctr_configure_create P C env args (ctr_setup P env args) dev hp hre with
        ⟨-, s, hf⟩ | ⟨s4, s5, s6, force, h4, h5, h6, hc⟩
      · rw [hf, Outcome.returned.injEq] at hcfg
        rw [← hcfg] at hr
        simp only [] at hr
        have := hC.1
        omega
      · rw [hc] at hcfg
        obtain ⟨r, hm, hret, hi⟩ := ctr_after_md_init hC hcfg hr
        obtain ⟨-, -, c, s1, s, -, -, -, -, hreq⟩ := md_create_success hm hret
        obtain ⟨g1, g2, g3⟩ := ctr_geometry_counters h4 h5 h6
        refine ⟨_, _, ?_, ?_, ?_, hi⟩
        · exact g1
        · exact g2
        · rw [hreq]
          exact g3

/-- With the persistence argument CACHE_RELOAD, and the steps before it
successful, flashcache_ctr is flashcache_md_load followed by the test of its
return value and the statements from `init` on. -/
theorem ctr_reload_eq (P : Params) (C : ctr_consts) (env : ctr_env) (args : ctr_args)
    (dev : Disk) (hC : C.wf) (hargc : 3 ≤ args.argc) (hs : env.setup_ok) {v : Nat}
    (hv : args.persistence = some v) (hre : ((uint32 v : Nat) : Int) = C.CACHE_RELOAD) :
    flashcache_ctr P C env args dev
      = ctr_after_md P C env (ctr_setup P env args)
          (flashcache_md_load P (ctr_setup P env args).dmc env.md dev) := by
  have hp : ctr_persistence C args = some C.CACHE_RELOAD := by
    rw [← hre]
    have h1 := hC.2.2.2.1
    have h2 := hC.2.2.2.2.1
    exact ctr_persistence_mode hC hargc hv (by omega)
  rw [ctr_of_setup P C env args dev (by omega) hs]
  unfold ctr_configure
  rw [hp]
  simp only []
  rw [if_pos trivial]

/-- The test of the return value of a metadata function that has returned 0
lets flashcache_ctr go on with the statements from `init` on. -/
theorem ctr_after_md_ok (P : Params) (C : ctr_consts) (env : ctr_env) (s : cache_inst)
    (r : md_result) (hret : r.ret = 0) :
    ctr_after_md P C env s (Outcome.returned r)
      = ctr_init P C env { s with dmc := r.dmc } r.io := by
  unfold ctr_after_md
  simp only []
  rw [if_neg (not_not.mpr hret)]

/-- Where every slot has the flag, the count of the flag among the first `n`
slots is `n`. -/
theorem count_flag_all (flag : Nat) (cache : Nat → cacheblock)
    (h : ∀ i, (cache i).cache_state &&& flag ≠ 0) (n : Nat) :
    count_flag flag cache n = n := by
  induction n with
  | zero => rfl
  | succ k ih =>
    simp only [count_flag]
    rw [ih, if_pos (h k)]

/-! ## The requests of the descriptor loop, one after the other -/

/-- Consecutive requests from sector 1 on cover as many sectors as lie before
the sector that follows the newest. -/
theorem md_chain_total : ∀ (ops : List io_req) (next : Nat), md_chain ops next →
    next = 1 + md_sectors_total ops := by
  intro ops
  induction ops with
  | nil =>
    intro next h
    simp only [md_chain] at h
    rw [h]
    rfl
  | cons op rest ih =>
    intro next h
    simp only [md_chain] at h
    obtain ⟨-, h2, -, h4⟩ := h
    have := ih op.sector h4
    simp only [md_sectors_total, List.map_cons, List.sum_cons] at this ⊢
    omega

/-- Each of consecutive requests from sector 1 on is a write that starts at
sector 1 or later and ends before `next`. -/
theorem md_chain_mem : ∀ (ops : List io_req) (next : Nat), md_chain ops next →
    ∀ op ∈ ops, op.rw = io_dir.WRITE ∧ 1 ≤ op.sector ∧ 1 ≤ op.count ∧
      op.sector + op.count ≤ next := by
  intro ops
  induction ops with
  | nil =>
    intro next _ op hop
    simp at hop
  | cons o rest ih =>
    intro next h op hop
    simp only [md_chain] at h
    obtain ⟨h1, h2, h3, h4⟩ := h
    have ht := md_chain_total rest o.sector h4
    rcases List.mem_cons.mp hop with e | hop1
    · rw [e]
      exact ⟨h1, by omega, h3, by omega⟩
    · obtain ⟨a, b, c, d⟩ := ih o.sector h4 op hop1
      exact ⟨a, b, c, by omega⟩

/-- What a pass of the descriptor loop does to the cache device and to
`where.sector`: nothing, or the write of the I/O block at `where.sector`, which
then moves behind the block. -/
theorem md_store_body_io (P : Params) (dmc : cache_c) (env : Env) (s : md_locals) :
    (md_body_writes P s →
      (md_store_body P dmc env s).cdev.log
        = ⟨io_dir.WRITE, s.where_sector,
            uint64 (int32 (s.slots_written + 1)) / P.MD_BLOCKS_PER_SECTOR,
            env.io_error s.cdev.log.length⟩ :: s.cdev.log ∧
      (md_store_body P dmc env s).where_sector
        = uint64 (s.where_sector
            + ((uint64 (int32 (s.slots_written + 1)) / P.MD_BLOCKS_PER_SECTOR : Nat) : Int))) ∧
    (¬ md_body_writes P s →
      (md_store_body P dmc env s).cdev = s.cdev ∧
      (md_store_body P dmc env s).where_sector = s.where_sector) := by
  unfold md_store_body md_body_writes
  simp only []
  by_cases c1 : int32 (s.j - 1) = 0
  · by_cases c2 : uint64 (int32 (s.slots_written + 1))
        = uint64 ((P.MD_BLOCKS_PER_SECTOR : Int) * (P.METADATA_IO_BLOCKSIZE_SECT : Int))
    · simp only [c1, c2, if_true, and_self, flashcache_dm_io_sync_vm_write_md,
        not_true_eq_false, false_implies, and_true, true_implies]
    · simp only [c1, c2, if_true, if_false, and_false, false_implies, not_false_eq_true,
        true_implies, and_self, true_and]
  · simp only [c1, if_false, false_and, false_implies, not_false_eq_true,
      true_implies, and_self, true_and]

/-- A pass of the descriptor loop keeps the requests consecutive: where `ops`
were consecutive up to the sector `1 + S` of `where.sector`, the requests after
the pass are consecutive up to the new `where.sector`. -/
theorem md_chain_store_body {P : Params} {dmc : cache_c} {sb0 : flash_superblock}
    {log0 : List io_req} {S q p S1 q1 p1 : Nat} {ops ops1 : List io_req} {k : Nat}
    {s : md_locals} (env : Env) (hP : P.wf) (hk : k < 2147483648)
    (h : md_pos P dmc sb0 log0 S q p ops k s)
    (h1 : md_pos P dmc sb0 log0 S1 q1 p1 ops1 (k + 1) (md_store_body P dmc env s))
    (hc : md_chain ops (1 + S)) : md_chain ops1 (1 + S1) := by
  obtain ⟨hsl1, hj0, -, -, hbd⟩ := md_step_facts hP h.hq h.hp h.hj h.hsl
  obtain ⟨hw, hnw⟩ := md_store_body_io P dmc env s
  by_cases hwr : md_body_writes P s
  · obtain ⟨hlog, hws⟩ := hw hwr
    have hp1 : p + 1 = P.MD_BLOCKS_PER_SECTOR := hj0.mp hwr.1
    obtain ⟨hdiv, -⟩ := hbd hp1
    rw [hsl1, hdiv] at hlog hws
    have hSle : S + (q + 1) ≤ 4294967296 := by
      have h1 := h.hk
      have h2 : S ≤ S * P.MD_BLOCKS_PER_SECTOR := Nat.le_mul_of_pos_right _ (by have := hP.1; omega)
      have h3 : (S + q) * P.MD_BLOCKS_PER_SECTOR
        = S * P.MD_BLOCKS_PER_SECTOR + q * P.MD_BLOCKS_PER_SECTOR := Nat.add_mul _ _ _
      have h4 := hP.2.2.2.1
      have h5 := hP.1
      have h6 : P.METADATA_IO_BLOCKSIZE_SECT
        ≤ P.MD_BLOCKS_PER_SECTOR * P.METADATA_IO_BLOCKSIZE_SECT :=
        Nat.le_mul_of_pos_left _ (by omega)
      have h7 := h.hq
      omega
    have hws1 : uint64 ((s.where_sector : Int) + ((q + 1 : Nat) : Int)) = 1 + (S + (q + 1)) := by
      rw [h.hws, ← Int.natCast_add, uint64_natCast (by omega)]; omega
    rw [hws1, h1.hws] at hws
    have hS1 : S1 = S + (q + 1) := by omega
    have hl := h1.hlog
    rw [hlog, h.hlog, ← List.cons_append] at hl
    have hops : ops1 = ⟨io_dir.WRITE, s.where_sector, q + 1,
        env.io_error (ops ++ log0).length⟩ :: ops :=
      (List.append_cancel_right hl).symm
    rw [hops, hS1]
    simp only [md_chain]
    refine ⟨trivial, ?_, by omega, ?_⟩
    · rw [h.hws]; omega
    · rw [h.hws]; exact hc
  · obtain ⟨hcdev, hws⟩ := hnw hwr
    rw [h1.hws, h.hws] at hws
    have hS1 : S1 = S := by omega
    have hl := h1.hlog
    rw [hcdev, h.hlog] at hl
    have hops : ops1 = ops := (List.append_cancel_right hl).symm
    rw [hops, hS1]
    exact hc

/-- The number of descriptor sectors of `k` slots, `k / M` rounded up, where the
descriptor loop stands after `k` passes. -/
theorem md_pos_ceil {P : Params} {dmc : cache_c} {sb0 : flash_superblock}
    {log0 : List io_req} {S q p : Nat} {ops : List io_req} {k : Nat} {s : md_locals}
    (hP : P.wf) (h : md_pos P dmc sb0 log0 S q p ops k s) :
    (k + P.MD_BLOCKS_PER_SECTOR - 1) / P.MD_BLOCKS_PER_SECTOR
      = S + q + (if p ≠ 0 then 1 else 0) := by
  have hM := hP.1
  have hp := h.hp
  have hk := h.hk
  generalize S + q = T at hk ⊢
  by_cases hp0 : p = 0
  · rw [if_neg (by simpa using hp0), Nat.add_zero]
    apply Nat.div_eq_of_lt_le
    · rw [hk, hp0]; omega
    · rw [hk, hp0, Nat.succ_mul]; omega
  · rw [if_pos hp0]
    apply Nat.div_eq_of_lt_le
    · rw [hk, Nat.succ_mul]; omega
    · rw [hk, Nat.succ_mul, Nat.succ_mul]; omega

/-- The block after the descriptor loop keeps the requests consecutive, and
they end with the last descriptor sector: the sector that follows is
`1 + k / M` rounded up. -/
theorem md_chain_rest {P : Params} {dmc : cache_c} {sb0 : flash_superblock}
    {log0 : List io_req} {S q p : Nat} {ops : List io_req} {k : Nat} {s : md_locals}
    (env : Env) (hP : P.wf) (h : md_pos P dmc sb0 log0 S q p ops k s)
    (hc : md_chain ops (1 + S)) :
    ∃ ops1, (md_rest_state P env s).cdev.log = ops1 ++ log0 ∧
      md_chain ops1 (1 + (k + P.MD_BLOCKS_PER_SECTOR - 1) / P.MD_BLOCKS_PER_SECTOR) ∧
      (s.next_ptr ≠ (0, 0) → ∃ c,
        ops1 = ⟨io_dir.WRITE, s.where_sector, c, env.io_error s.cdev.log.length⟩ :: ops) ∧
      (¬ s.next_ptr ≠ (0, 0) → ops1 = ops) := by
  have hM := hP.1
  have hb := slots_bound h.hq h.hp
  have hMB := hP.2.2.2.1
  rw [md_pos_ceil hP h]
  by_cases hne : s.next_ptr ≠ (0, 0)
  · have hqp : q ≠ 0 ∨ p ≠ 0 := by
      by_contra hc
      push_neg at hc
      apply hne
      rw [h.hnp, hc.1, hc.2]
    have hu : uint64 s.slots_written = q * P.MD_BLOCKS_PER_SECTOR + p := by
      rw [h.hsl, uint64_natCast (by omega)]
    have hdiv : (q * P.MD_BLOCKS_PER_SECTOR + p) / P.MD_BLOCKS_PER_SECTOR = q := by
      rw [Nat.mul_comm, Nat.mul_add_div (by omega), Nat.div_eq_of_lt h.hp, Nat.add_zero]
    have hmod : (q * P.MD_BLOCKS_PER_SECTOR + p) % P.MD_BLOCKS_PER_SECTOR = p := by
      rw [Nat.mul_comm, Nat.mul_add_mod, Nat.mod_eq_of_lt h.hp]
    have hqB : q < 2147483648 := by
      have h3 : q ≤ q * P.MD_BLOCKS_PER_SECTOR := Nat.le_mul_of_pos_right _ (by omega)
      omega
    have hcnt : (if p ≠ 0 then uint64 (((q : Nat) : Int) + 1) else q)
        = q + (if p ≠ 0 then 1 else 0) := by
      by_cases hp0 : p = 0
      · simp [hp0]
      · rw [if_pos hp0, if_pos hp0]
        have : ((q : Nat) : Int) + 1 = ((q + 1 : Nat) : Int) := by push_cast; rfl
        rw [this, uint64_natCast (by omega)]
    refine ⟨⟨io_dir.WRITE, s.where_sector, q + (if p ≠ 0 then 1 else 0),
      env.io_error s.cdev.log.length⟩ :: ops, ?_, ?_, fun _ => ⟨_, rfl⟩,
      fun hn => absurd hne hn⟩
    · unfold md_rest_state
      rw [if_pos hne]
      simp only []
      rw [hu, hdiv, hmod, hcnt]
      simp only [flashcache_dm_io_sync_vm_write_md, h.hlog, List.cons_append]
    · simp only [md_chain]
      refine ⟨trivial, ?_, ?_, ?_⟩
      · rw [h.hws]; omega
      · by_cases hp0 : p = 0
        · rw [if_neg (by simpa using hp0)]; omega
        · rw [if_pos hp0]; omega
      · rw [h.hws]; exact hc
  · have hqp : q = 0 ∧ p = 0 := by
      have h1 := h.hnp
      push_neg at hne
      rw [hne] at h1
      exact ⟨(Prod.mk.inj h1).1.symm, (Prod.mk.inj h1).2.symm⟩
    refine ⟨ops, ?_, ?_, fun hn => absurd hn hne, fun _ => rfl⟩
    · unfold md_rest_state
      rw [if_neg hne]
      exact h.hlog
    · rw [hqp.1, hqp.2]
      simpa using hc

theorem md_chained_zero {P : Params} {dmc : cache_c} {sb0 : flash_superblock}
    {log0 : List io_req} {s : md_locals} (hP : P.wf) : md_chained P dmc sb0 log0 0 s := by
  intro S q p ops h
  have hk := h.hk
  have hM := hP.1
  have hS : S = 0 := by
    by_contra hne
    have h1 : P.MD_BLOCKS_PER_SECTOR ≤ (S + q) * P.MD_BLOCKS_PER_SECTOR :=
      Nat.le_mul_of_pos_left _ (by omega)
    omega
  have hl := h.hlen
  have hops : ops = [] := List.length_eq_zero.mp (by omega)
  rw [hS, hops]
  rfl

theorem md_chained_store_body {P : Params} {dmc : cache_c} {sb0 : flash_superblock}
    {log0 : List io_req} {S q p : Nat} {ops : List io_req} {k : Nat} {s : md_locals}
    (env : Env) (hP : P.wf) (hk : k < 2147483648)
    (h : md_pos P dmc sb0 log0 S q p ops k s) (hc : md_chained P dmc sb0 log0 k s) :
    md_chained P dmc sb0 log0 (k + 1) (md_store_body P dmc env s) := by
  intro S1 q1 p1 ops1 h1
  exact md_chain_store_body env hP hk h h1 (hc S q p ops h)

theorem md_chained_run_state {P : Params} {dmc : cache_c} {sb0 : flash_superblock}
    {log0 : List io_req} {S q p : Nat} {ops : List io_req} {k : Nat} {s : md_locals}
    (env : Env) (hP : P.wf) (hk : k < 2147483648)
    (h : md_pos P dmc sb0 log0 S q p ops k s) (hc : md_chained P dmc sb0 log0 k s) :
    md_chained P dmc sb0 log0 (k + 1) (md_create_run_state P dmc env s) := by
  intro S1 q1 p1 ops1 h1
  have h3 := md_pos_counters (md_store_body P dmc env s).num_valid
    (md_store_body P dmc env s).num_dirty (md_store_body P dmc env s).write_errors h1
  have h2 : md_pos P dmc sb0 log0 S1 q1 p1 ops1 (k + 1) (md_store_body P dmc env s) := h3
  exact md_chain_store_body env hP hk h h2 (hc S q p ops h)

/-- The loop of flashcache_md_store runs to its end, and the requests it has
issued are consecutive writes from sector 1 on. -/
theorem md_store_loop_chain (P : Params) (dmc : cache_c) (env : Env) (dev : Disk)
    (hP : P.wf) (hsize : dmc.size ≤ 18446744071562067968) :
    ∃ s, md_store_loop P dmc env loop_fuel (md_locals_init P env dev) = Flow.run s ∧
      md_store_inv P dmc env dev.sb (int_loop_passes dmc.size) s ∧
      md_chained P dmc dev.sb [] (int_loop_passes dmc.size) s := by
  obtain ⟨s, hloop, hinv⟩ := md_store_loop_run P dmc env dev hP hsize
  refine ⟨s, hloop, hinv, ?_⟩
  unfold md_store_loop at hloop
  have := while_loop_partial _ _
    (fun s => ∃ k, k ≤ int_loop_passes dmc.size ∧
      (∃ S q p ops, md_pos P dmc dev.sb [] S q p ops k s) ∧ md_chained P dmc dev.sb [] k s)
    ?_ loop_fuel _ s
    ⟨0, Nat.zero_le _, ⟨0, 0, 0, [], md_pos_init P dmc env dev [] hP⟩, md_chained_zero hP⟩
    hloop
  · obtain ⟨⟨k, hk, ⟨S, q, p, ops, hpos⟩, hch⟩, hc⟩ := this
    rcases Nat.lt_or_ge k (int_loop_passes dmc.size) with hlt | hge
    · have := int_loop_cond hpos.hi hlt
      rw [this] at hc
      exact absurd hc (by simp)
    · have : k = int_loop_passes dmc.size := Nat.le_antisymm hk hge
      rw [← this]; exact hch
  · rintro s s2 ⟨k, hk, ⟨S, q, p, ops, hpos⟩, hch⟩ hc hb
    have hlt : k < int_loop_passes dmc.size := by
      rcases Nat.lt_or_ge k (int_loop_passes dmc.size) with hlt | hge
      · exact hlt
      · have hkN : k = int_loop_passes dmc.size := Nat.le_antisymm hk hge
        have := int_loop_stop hsize (hkN ▸ hpos.hi)
        rw [this] at hc
        exact absurd hc (by simp)
    have hk1 : k < 2147483648 := by unfold int_loop_passes at hlt; omega
    simp only [Flow.run.injEq] at hb
    subst hb
    obtain ⟨S1, q1, p1, ops1, h1, -, -⟩ := md_pos_store_body env hP hk1 hpos
    exact ⟨k + 1, hlt, ⟨S1, q1, p1, ops1, h1⟩, md_chained_store_body env hP hk1 hpos hch⟩

/-- The descriptor loop of flashcache_md_create, where it runs to its end, has
issued consecutive writes from sector 1 on. -/
theorem md_create_loop_chain {P : Params} {dmc : cache_c} {sb0 : flash_superblock}
    {log0 : List io_req} {env : Env} {s0 s1 : md_locals} (hP : P.wf)
    (hsize : dmc.size ≤ 18446744071562067968) (fuel : Nat)
    (h0 : md_create_inv P dmc sb0 log0 0 s0)
    (hrun : md_create_loop P dmc env fuel s0 = Flow.run s1) :
    md_chained P dmc sb0 log0 (int_loop_passes dmc.size) s1 := by
  unfold md_create_loop at hrun
  have := while_loop_partial _ _
    (fun s => ∃ k, k ≤ int_loop_passes dmc.size ∧ md_create_inv P dmc sb0 log0 k s ∧
      md_chained P dmc sb0 log0 k s)
    ?_ fuel s0 s1 ⟨0, Nat.zero_le _, h0, md_chained_zero hP⟩ hrun
  · obtain ⟨⟨k, hk, hinv, hch⟩, hc⟩ := this
    rcases Nat.lt_or_ge k (int_loop_passes dmc.size) with hlt | hge
    · obtain ⟨S, q, p, ops, hpos, -⟩ := hinv
      have := int_loop_cond hpos.hi hlt
      rw [this] at hc
      exact absurd hc (by simp)
    · have : k = int_loop_passes dmc.size := Nat.le_antisymm hk hge
      rw [← this]; exact hch
  · rintro s s2 ⟨k, hk, hinv, hch⟩ hc hb
    have hlt : k < int_loop_passes dmc.size := by
      rcases Nat.lt_or_ge k (int_loop_passes dmc.size) with hlt | hge
      · exact hlt
      · have hkN : k = int_loop_passes dmc.size := Nat.le_antisymm hk hge
        obtain ⟨S, q, p, ops, hpos, -⟩ := hinv
        have := int_loop_stop hsize (hkN ▸ hpos.hi)
        rw [this] at hc
        exact absurd hc (by simp)
    have hk1 : k < 2147483648 := by unfold int_loop_passes at hlt; omega
    rcases md_create_inv_body env hP hk1 hinv with ⟨-, -, hret⟩ | ⟨hr, hinv1⟩
    · rw [hret] at hb; simp at hb
    · rw [hr] at hb
      simp only [Flow.run.injEq] at hb
      subst hb
      obtain ⟨S, q, p, ops, hpos, -⟩ := hinv
      exact ⟨k + 1, hlt, hinv1, md_chained_run_state env hP hk1 hpos hch⟩

/-- A loop whose body either keeps an invariant indexed by the number of passes
or leaves the function with `return 1`: it runs to its end with the invariant
at `N`, or it leaves the function from a pass before `N`. -/
theorem while_loop_run_or_ret {σ : Type} (cond : σ → Bool) (body : σ → Flow σ)
    (Inv : Nat → σ → Prop) (R : σ → Prop) (N : Nat)
    (hcond : ∀ k s, Inv k s → k < N → cond s = true)
    (hstop : ∀ s, Inv N s → cond s = false)
    (hbody : ∀ k s, Inv k s → k < N →
      (∃ s1, body s = Flow.run s1 ∧ Inv (k + 1) s1) ∨ (∃ s1, body s = Flow.ret1 s1 ∧ R s1)) :
    ∀ (n k : Nat) (s : σ) (fuel : Nat), k + n = N → Inv k s → n < fuel →
      (∃ s1, while_loop cond body fuel s = Flow.run s1 ∧ Inv N s1) ∨
      (∃ s1, while_loop cond body fuel s = Flow.ret1 s1 ∧ R s1) := by
  intro n
  induction n with
  | zero =>
    intro k s fuel hk hinv hfuel
    obtain ⟨f, rfl⟩ : ∃ f, fuel = f + 1 := ⟨fuel - 1, by omega⟩
    have hkN : k = N := by omega
    subst hkN
    left
    refine ⟨s, ?_, hinv⟩
    simp [while_loop, hstop s hinv]
  | succ n ih =>
    intro k s fuel hk hinv hfuel
    obtain ⟨f, rfl⟩ : ∃ f, fuel = f + 1 := ⟨fuel - 1, by omega⟩
    have hlt : k < N := by omega
    rcases hbody k s hinv hlt with ⟨s1, hb, hinv1⟩ | ⟨s1, hb, hR⟩
    · rcases ih (k + 1) s1 f (by omega) hinv1 (by omega) with ⟨s2, h2, hinv2⟩ | ⟨s2, h2, hR2⟩
      · left
        refine ⟨s2, ?_, hinv2⟩
        simp [while_loop, hcond k s hinv hlt, hb, h2]
      · right
        refine ⟨s2, ?_, hR2⟩
        simp [while_loop, hcond k s hinv hlt, hb, h2]
    · right
      refine ⟨s1, ?_, hR⟩
      simp [while_loop, hcond k s hinv hlt, hb]

/-- The descriptor loop of flashcache_md_create either runs to its end, all its
requests consecutive and successful, or returns from the pass in which the
write of an I/O block fails, the requests before that one consecutive and
successful. -/
theorem md_create_loop_cases {P : Params} {dmc : cache_c} {sb0 : flash_superblock}
    {log0 : List io_req} {env : Env} {s0 : md_locals} (hP : P.wf)
    (hsize : dmc.size ≤ 18446744071562067968)
    (h0 : md_create_inv P dmc sb0 log0 0 s0) :
    (∃ s1, md_create_loop P dmc env loop_fuel s0 = Flow.run s1 ∧
      md_create_inv P dmc sb0 log0 (int_loop_passes dmc.size) s1 ∧
      md_chained P dmc sb0 log0 (int_loop_passes dmc.size) s1) ∨
    (∃ s1, md_create_loop P dmc env loop_fuel s0 = Flow.ret1 s1 ∧
      ∃ k s, k < int_loop_passes dmc.size ∧ md_create_inv P dmc sb0 log0 k s ∧
        md_chained P dmc sb0 log0 k s ∧ md_body_writes P s ∧
        env.io_error s.cdev.log.length ≠ 0 ∧ s1 = md_create_ret_state P dmc env s) := by
  unfold md_create_loop
  have hcond : ∀ k s, (md_create_inv P dmc sb0 log0 k s ∧ md_chained P dmc sb0 log0 k s) →
      k < int_loop_passes dmc.size → decide (uint64 s.i < dmc.size) = true := by
    rintro k s ⟨⟨S, q, p, ops, h, -⟩, -⟩ hk
    exact int_loop_cond h.hi hk
  have hstop : ∀ s, (md_create_inv P dmc sb0 log0 (int_loop_passes dmc.size) s ∧
      md_chained P dmc sb0 log0 (int_loop_passes dmc.size) s) →
      decide (uint64 s.i < dmc.size) = false := by
    rintro s ⟨⟨S, q, p, ops, h, -⟩, -⟩
    exact int_loop_stop hsize h.hi
  have hbody : ∀ k s, (md_create_inv P dmc sb0 log0 k s ∧ md_chained P dmc sb0 log0 k s) →
      k < int_loop_passes dmc.size →
      (∃ s1, md_create_body P dmc env s = Flow.run s1 ∧
        (md_create_inv P dmc sb0 log0 (k + 1) s1 ∧ md_chained P dmc sb0 log0 (k + 1) s1)) ∨
      (∃ s1, md_create_body P dmc env s = Flow.ret1 s1 ∧
        ∃ k s, k < int_loop_passes dmc.size ∧ md_create_inv P dmc sb0 log0 k s ∧
          md_chained P dmc sb0 log0 k s ∧ md_body_writes P s ∧
          env.io_error s.cdev.log.length ≠ 0 ∧ s1 = md_create_ret_state P dmc env s) := by
    rintro k s ⟨hinv, hch⟩ hk
    have hk1 : k < 2147483648 := by unfold int_loop_passes at hk; omega
    rcases md_create_inv_body env hP hk1 hinv with ⟨hw, hne, hret⟩ | ⟨hr, hinv1⟩
    · right
      exact ⟨_, hret, k, s, hk, hinv, hch, hw, hne, rfl⟩
    · left
      obtain ⟨S, q, p, ops, hpos, -⟩ := hinv
      exact ⟨_, hr, hinv1, md_chained_run_state env hP hk1 hpos hch⟩
  exact while_loop_run_or_ret _ _
    (fun k s => md_create_inv P dmc sb0 log0 k s ∧ md_chained P dmc sb0 log0 k s) _
    (int_loop_passes dmc.size) hcond hstop hbody (int_loop_passes dmc.size) 0 s0 loop_fuel
    (by omega) ⟨h0, md_chained_zero hP⟩ (by unfold int_loop_passes loop_fuel; omega)

/-- The state in which flashcache_md_create returns after a failed write of an
I/O block: the failed request is the newest, it follows the requests before it,
and the device is as it was before the request. -/
theorem md_create_ret_facts {P : Params} {dmc : cache_c} {sb0 : flash_superblock}
    {log0 : List io_req} {S q p : Nat} {ops : List io_req} {k : Nat} {s : md_locals}
    (env : Env) (hP : P.wf) (h : md_pos P dmc sb0 log0 S q p ops k s)
    (hc : md_chain ops (1 + S)) (hw : md_body_writes P s)
    (hne : env.io_error s.cdev.log.length ≠ 0) :
    (md_create_ret_state P dmc env s).cdev.dev = s.cdev.dev ∧
    (S + (q + 1)) * P.MD_BLOCKS_PER_SECTOR = k + 1 ∧
    ∃ op, (md_create_ret_state P dmc env s).cdev.log = op :: (ops ++ log0) ∧
      op.error ≠ 0 ∧ md_chain (op :: ops) (1 + S + (q + 1)) := by
  obtain ⟨hsl1, hj0, -, -, hbd⟩ := md_step_facts hP h.hq h.hp h.hj h.hsl
  have hp1 : p + 1 = P.MD_BLOCKS_PER_SECTOR := hj0.mp hw.1
  obtain ⟨hdiv, -⟩ := hbd hp1
  unfold md_create_ret_state
  simp only [flashcache_dm_io_sync_vm_write_md, if_neg hne]
  rw [hsl1, hdiv, h.hlog]
  refine ⟨trivial, ?_, _, rfl, ?_, ?_⟩
  · have hk := h.hk
    rw [← Nat.add_assoc, Nat.succ_mul]
    omega
  · rw [← h.hlog]; exact hne
  · simp only [md_chain]
    refine ⟨trivial, ?_, by omega, ?_⟩
    · rw [h.hws]
    · rw [h.hws]; exact hc

/-- The four ways flashcache_md_create can go.  It returns 1 before any write;
or it stops the kernel at a division by zero; or the write of descriptor
sectors fails and it returns 1 at once, the failed request being the newest and
the superblock untouched; or all descriptor sectors are written by consecutive
successful requests, and then the debug test stops the kernel or the superblock
is written as the last request. -/
theorem md_create_outcome (P : Params) (dmc : cache_c) (force : Int) (env : Env)
    (dev : Disk) (hP : P.wf)
    (hsize : (md_create_geometry P dmc).size ≤ 18446744071562067968) :
    (∃ r, flashcache_md_create P dmc force env dev = Outcome.returned r ∧ r.ret = 1 ∧
      r.io.dev = dev ∧
      (r.io.log = [] ∨ r.io.log = [⟨io_dir.READ, 0, 1, env.io_error 0⟩])) ∨
    (flashcache_md_create P dmc force env dev = Outcome.panic ∧
      (dmc.block_size = 0 ∨ dmc.assoc = 0)) ∨
    (¬ (dmc.block_size = 0 ∨ dmc.assoc = 0) ∧ env.io_error 0 = 0 ∧
      ((∃ r op ops next, flashcache_md_create P dmc force env dev = Outcome.returned r ∧
          r.ret = 1 ∧ r.io.dev.sb = dev.sb ∧
          r.io.log = op :: (ops ++ [⟨io_dir.READ, 0, 1, 0⟩]) ∧ op.error ≠ 0 ∧
          md_chain (op :: ops) next ∧
          next ≤ 1 + (int_loop_passes (md_create_geometry P dmc).size
            + P.MD_BLOCKS_PER_SECTOR - 1) / P.MD_BLOCKS_PER_SECTOR ∧
          ∀ o ∈ ops, o.error = 0) ∨
       (∃ ops, md_chain ops (1 + (int_loop_passes (md_create_geometry P dmc).size
            + P.MD_BLOCKS_PER_SECTOR - 1) / P.MD_BLOCKS_PER_SECTOR) ∧
          (∀ o ∈ ops, o.error = 0) ∧
          ((flashcache_md_create P dmc force env dev = Outcome.panic ∧
              sectors_expected P (md_create_geometry P dmc).size
                ≠ sectors_expected P (int_loop_passes (md_create_geometry P dmc).size)) ∨
           (sectors_expected P (md_create_geometry P dmc).size
                = sectors_expected P (int_loop_passes (md_create_geometry P dmc).size) ∧
             ∃ r, flashcache_md_create P dmc force env dev = Outcome.returned r ∧
               r.io.log = ⟨io_dir.WRITE, 0, 1, env.io_error (ops.length + 1)⟩
                 :: (ops ++ [⟨io_dir.READ, 0, 1, 0⟩]) ∧
               (env.io_error (ops.length + 1) = 0 →
                 r.ret = 0 ∧ r.io.dev.sb = md_dirty_header P r.dmc) ∧
               (env.io_error (ops.length + 1) ≠ 0 → r.ret = 1 ∧ r.io.dev.sb = dev.sb) ∧
               r.dmc.size = (md_create_geometry P dmc).size ∧
               r.dmc.md_sectors = (md_create_geometry P dmc).md_sectors))))) := by
  unfold flashcache_md_create
  simp only [flashcache_dm_io_sync_vm_read_sb, List.length_nil]
  by_cases hv0 : env.vmalloc_ok 0 = false
  · rw [if_pos hv0]
    exact Or.inl ⟨_, rfl, rfl, rfl, Or.inl rfl⟩
  rw [if_neg hv0]
  by_cases he0 : env.io_error 0 ≠ 0
  · rw [if_pos he0]
    exact Or.inl ⟨_, rfl, rfl, rfl, Or.inr rfl⟩
  rw [if_neg he0]
  have he0' : env.io_error 0 = 0 := not_not.mp he0
  by_cases hst : force = 0 ∧
      (dev.sb.cache_sb_state = P.CACHE_MD_STATE_DIRTY ∨
       dev.sb.cache_sb_state = P.CACHE_MD_STATE_CLEAN ∨
       dev.sb.cache_sb_state = P.CACHE_MD_STATE_FASTCLEAN)
  · rw [if_pos hst]
    exact Or.inl ⟨_, rfl, rfl, rfl, Or.inr rfl⟩
  rw [if_neg hst]
  by_cases hz : dmc.block_size = 0 ∨ dmc.assoc = 0
  · rw [if_pos hz]
    exact Or.inr (Or.inl ⟨rfl, hz⟩)
  rw [if_neg hz]
  by_cases hfit : uint64 (int32 ((md_create_geometry P dmc).md_sectors : Int)
      + ((md_create_geometry P dmc).size : Int) * ((md_create_geometry P dmc).block_size : Int))
      > (md_create_geometry P dmc).cache_devsize
  · rw [if_pos hfit]
    exact Or.inl ⟨_, rfl, rfl, rfl, Or.inr rfl⟩
  rw [if_neg hfit]
  by_cases hv1 : env.vmalloc_ok 1 = false
  · rw [if_pos hv1]
    exact Or.inl ⟨_, rfl, rfl, rfl, Or.inr rfl⟩
  rw [if_neg hv1]
  obtain ⟨c, hi, -, -⟩ := md_create_init_run P (md_create_geometry P dmc).size
    env.cache_garbage hsize
  rw [hi]
  simp only [Flow.finish]
  by_cases hv2 : env.vmalloc_ok 2 = false
  · rw [if_pos hv2]
    exact Or.inl ⟨_, rfl, rfl, rfl, Or.inr rfl⟩
  rw [if_neg hv2]
  refine Or.inr (Or.inr ⟨hz, he0', ?_⟩)
  have h0 : md_create_inv P { md_create_geometry P dmc with cache := c.2 } dev.sb
      (md_create_cdev env dev).log 0 (md_create_locals_init P env dev) :=
    ⟨0, 0, 0, [], md_pos_init P _ env dev _ hP, by simp⟩
  have hlog0 : (md_create_cdev env dev).log = [⟨io_dir.READ, 0, 1, 0⟩] := by
    unfold md_create_cdev
    rw [he0']
  rcases @md_create_loop_cases P { md_create_geometry P dmc with cache := c.2 } dev.sb
      (md_create_cdev env dev).log env (md_create_locals_init P env dev) hP hsize h0 with
    ⟨s1, hl, ⟨S, q, p, ops, hpos, hok⟩, hch⟩ | ⟨s1, hl, k, s, hk, ⟨S, q, p, ops, hpos, hok⟩, hch, hw, hne, hs1⟩
  · unfold md_create_locals_init md_create_cdev at hl
    rw [hl]
    simp only []
    obtain ⟨ops1, hwr, -⟩ := md_pos_rest env hP hpos
    obtain ⟨ops2, hlog2, hch2, hcons, hsame⟩ := md_chain_rest env hP hpos (hch S q p ops hpos)
    have hops : ops1 = ops2 := by
      have := hwr.hlog
      rw [hlog2] at this
      exact (List.append_cancel_right this).symm
    subst hops
    rw [hlog0] at hlog2
    rw [md_create_rest_eq env (fun hne => md_pos_slots_pos hP hpos hne)]
    by_cases hf : s1.next_ptr ≠ (0, 0) ∧ env.io_error s1.cdev.log.length ≠ 0
    · rw [if_pos hf]
      simp only []
      left
      obtain ⟨cnt, hc1⟩ := hcons hf.1
      refine ⟨_, ⟨io_dir.WRITE, s1.where_sector, cnt, env.io_error s1.cdev.log.length⟩, ops,
        1 + (int_loop_passes (md_create_geometry P dmc).size
            + P.MD_BLOCKS_PER_SECTOR - 1) / P.MD_BLOCKS_PER_SECTOR,
        rfl, rfl, hwr.hsb, ?_, ?_, ?_, Nat.le_refl _, hok⟩
      · show (md_rest_state P env s1).cdev.log = _
        rw [hlog2, hc1]
        rfl
      · exact hf.2
      · rw [← hc1]
        exact hch2
    · rw [if_neg hf]
      simp only []
      right
      have hok1 : ∀ o ∈ ops1, o.error = 0 := by
        intro o ho
        by_cases hnp : s1.next_ptr ≠ (0, 0)
        · obtain ⟨cnt, hc1⟩ := hcons hnp
          rw [hc1] at ho
          rcases List.mem_cons.mp ho with e | ho1
          · rw [e]
            by_contra hne
            exact hf ⟨hnp, hne⟩
          · exact hok o ho1
        · rw [hsame hnp] at ho
          exact hok o ho
      refine ⟨ops1, hch2, hok1, ?_⟩
      rw [hwr.hsw]
      by_cases hse : sectors_expected P (md_create_geometry P dmc).size
          ≠ sectors_expected P (int_loop_passes (md_create_geometry P dmc).size)
      · rw [if_pos hse]
        exact Or.inl ⟨rfl, hse⟩
      · rw [if_neg hse]
        right
        refine ⟨not_not.mp hse, ?_⟩
        have hlen : (md_rest_state P env s1).cdev.log.length = ops1.length + 1 := by
          rw [hlog2]
          simp
        simp only [flashcache_dm_io_sync_vm_write_sb, hlen]
        by_cases hwe : env.io_error (ops1.length + 1) ≠ 0
        · rw [if_pos hwe]
          refine ⟨_, rfl, ?_, fun h0 => absurd h0 hwe, fun _ => ⟨rfl, ?_⟩, rfl, rfl⟩
          · show _ :: (md_rest_state P env s1).cdev.log = _
            rw [hlog2]
          · simp only [if_neg hwe]
            exact hwr.hsb
        · rw [if_neg hwe]
          refine ⟨_, rfl, ?_, fun h0 => ⟨rfl, ?_⟩, fun h0 => absurd h0 hwe, rfl, rfl⟩
          · show _ :: (md_rest_state P env s1).cdev.log = _
            rw [hlog2]
          · simp only [if_pos h0]
  · unfold md_create_locals_init md_create_cdev at hl
    rw [hl]
    simp only []
    left
    obtain ⟨hdev, hkk, op, hlog, hnz, hchain⟩ :=
      md_create_ret_facts env hP hpos (hch S q p ops hpos) hw hne
    rw [hlog0] at hlog
    have hnext : 1 + S + (q + 1) ≤ 1 + (int_loop_passes (md_create_geometry P dmc).size
        + P.MD_BLOCKS_PER_SECTOR - 1) / P.MD_BLOCKS_PER_SECTOR := by
      have hM := hP.1
      have h1 : S + (q + 1) ≤ (int_loop_passes (md_create_geometry P dmc).size
          + P.MD_BLOCKS_PER_SECTOR - 1) / P.MD_BLOCKS_PER_SECTOR := by
        rw [Nat.le_div_iff_mul_le (by omega), hkk]
        have : k < int_loop_passes (md_create_geometry P dmc).size := hk
        omega
      omega
    refine ⟨_, op, ops, 1 + S + (q + 1), rfl, rfl, ?_, ?_, hnz, hchain, hnext, hok⟩
    · show s1.cdev.dev.sb = _
      rw [hs1, hdev]
      exact hpos.hsb
    · show s1.cdev.log = _
      rw [hs1]
      exact hlog

/-- The ways flashcache_md_store can go.  Without its buffer it returns 1 at
once.  With it, it writes all descriptor sectors of its passes by consecutive
requests from sector 1 on, whether they fail or not; then the debug test stops
the kernel, or the allocation of the header fails and it returns 1, or it
writes the superblock as the last request and returns 0. -/
theorem md_store_outcome (P : Params) (dmc : cache_c) (env : Env) (dev : Disk)
    (hP : P.wf) (hsize : dmc.size ≤ 18446744071562067968) :
    (env.vmalloc_ok 0 = false ∧
      flashcache_md_store P dmc env dev
        = Outcome.returned { ret := 1, dmc := dmc, io := { dev := dev, log := [] } }) ∨
    (env.vmalloc_ok 0 = true ∧
      ∃ ops, md_chain ops (1 + (int_loop_passes dmc.size + P.MD_BLOCKS_PER_SECTOR - 1)
          / P.MD_BLOCKS_PER_SECTOR) ∧
        ((flashcache_md_store P dmc env dev = Outcome.panic ∧
            sectors_expected P dmc.size ≠ sectors_expected P (int_loop_passes dmc.size)) ∨
         (sectors_expected P dmc.size = sectors_expected P (int_loop_passes dmc.size) ∧
           ((env.vmalloc_ok 1 = false ∧
              ∃ r, flashcache_md_store P dmc env dev = Outcome.returned r ∧ r.ret = 1 ∧
                r.dmc = dmc ∧ r.io.log = ops ∧ r.io.dev.sb = dev.sb) ∨
            (env.vmalloc_ok 1 = true ∧
              ∃ r, flashcache_md_store P dmc env dev = Outcome.returned r ∧ r.ret = 0 ∧
                r.dmc = dmc ∧
                r.io.log = ⟨io_dir.WRITE, 0, 1, env.io_error ops.length⟩ :: ops))))) := by
  by_cases hv0 : env.vmalloc_ok 0 = false
  · left
    refine ⟨hv0, ?_⟩
    unfold flashcache_md_store
    rw [if_pos hv0]
  right
  have hv0' : env.vmalloc_ok 0 = true := by simpa using hv0
  refine ⟨hv0', ?_⟩
  obtain ⟨s1, hloop, ⟨⟨S, q, p, ops, hpos, -⟩, -⟩, hch⟩ :=
    md_store_loop_chain P dmc env dev hP hsize
  obtain ⟨ops1, hw, -⟩ := md_pos_rest env hP hpos
  obtain ⟨ops2, hlog2, hch2, -, -⟩ := md_chain_rest env hP hpos (hch S q p ops hpos)
  have hops : ops1 = ops2 := by
    have := hw.hlog
    rw [hlog2] at this
    exact (List.append_cancel_right this).symm
  subst hops
  rw [List.append_nil] at hlog2
  have hrest := md_store_rest_eq (P := P) env (fun hne => md_pos_slots_pos hP hpos hne)
  have hlog : (md_store_rest_state P env s1).cdev.log = ops1 := hlog2
  have hsb : (md_store_rest_state P env s1).cdev.dev.sb = dev.sb := hw.hsb
  have hsw : (md_store_rest_state P env s1).sectors_written
      = sectors_expected P (int_loop_passes dmc.size) := hw.hsw
  refine ⟨ops1, hch2, ?_⟩
  unfold flashcache_md_store
  rw [if_neg hv0, hloop]
  simp only [Flow.finish]
  rw [hrest]
  simp only []
  rw [hsw]
  by_cases hse : sectors_expected P dmc.size ≠ sectors_expected P (int_loop_passes dmc.size)
  · rw [if_pos hse]
    exact Or.inl ⟨rfl, hse⟩
  · rw [if_neg hse]
    right
    refine ⟨not_not.mp hse, ?_⟩
    by_cases hv1 : env.vmalloc_ok 1 = false
    · rw [if_pos hv1]
      exact Or.inl ⟨hv1, _, rfl, rfl, rfl, hlog, hsb⟩
    · rw [if_neg hv1]
      refine Or.inr ⟨by simpa using hv1, _, rfl, rfl, rfl, ?_⟩
      simp only [flashcache_dm_io_sync_vm_write_sb, hlog]

/-- Where flashcache_md_create stops the kernel, it does so at a division by
zero, before any write, or at the debug test, after its descriptor loop has run
to the end and every request up to the test has succeeded. -/
theorem md_create_panic_run (P : Params) (dmc : cache_c) (force : Int) (env : Env)
    (dev : Disk) (hP : P.wf)
    (hsize : (md_create_geometry P dmc).size ≤ 18446744071562067968)
    (h : flashcache_md_create P dmc force env dev = Outcome.panic) :
    (dmc.block_size = 0 ∨ dmc.assoc = 0) ∨
    ∃ c s, md_create_loop P { md_create_geometry P dmc with cache := c } env loop_fuel
        (md_create_locals_init P env dev) = Flow.run s ∧
      ∀ o ∈ (md_rest_state P env s).cdev.log, o.error = 0 := by
  unfold flashcache_md_create at h
  simp only [flashcache_dm_io_sync_vm_read_sb, List.length_nil] at h
  by_cases hv0 : env.vmalloc_ok 0 = false
  · rw [if_pos hv0] at h
    exact absurd h (by simp)
  rw [if_neg hv0] at h
  by_cases he0 : env.io_error 0 ≠ 0
  · rw [if_pos he0] at h
    exact absurd h (by simp)
  rw [if_neg he0] at h
  have he0' : env.io_error 0 = 0 := not_not.mp he0
  by_cases hst : force = 0 ∧
      (dev.sb.cache_sb_state = P.CACHE_MD_STATE_DIRTY ∨
       dev.sb.cache_sb_state = P.CACHE_MD_STATE_CLEAN ∨
       dev.sb.cache_sb_state = P.CACHE_MD_STATE_FASTCLEAN)
  · rw [if_pos hst] at h
    exact absurd h (by simp)
  rw [if_neg hst] at h
  by_cases hz : dmc.block_size = 0 ∨ dmc.assoc = 0
  · exact Or.inl hz
  rw [if_neg hz] at h
  by_cases hfit : uint64 (int32 ((md_create_geometry P dmc).md_sectors : Int)
      + ((md_create_geometry P dmc).size : Int) * ((md_create_geometry P dmc).block_size : Int))
      > (md_create_geometry P dmc).cache_devsize
  · rw [if_pos hfit] at h
    exact absurd h (by simp)
  rw [if_neg hfit] at h
  by_cases hv1 : env.vmalloc_ok 1 = false
  · rw [if_pos hv1] at h
    exact absurd h (by simp)
  rw [if_neg hv1] at h
  obtain ⟨c, hi, -, -⟩ := md_create_init_run P (md_create_geometry P dmc).size
    env.cache_garbage hsize
  rw [hi] at h
  simp only [Flow.finish] at h
  by_cases hv2 : env.vmalloc_ok 2 = false
  · rw [if_pos hv2] at h
    exact absurd h (by simp)
  rw [if_neg hv2] at h
  right
  have h0 : md_create_inv P { md_create_geometry P dmc with cache := c.2 } dev.sb
      (md_create_cdev env dev).log 0 (md_create_locals_init P env dev) :=
    ⟨0, 0, 0, [], md_pos_init P _ env dev _ hP, by simp⟩
  have hlog0 : (md_create_cdev env dev).log = [⟨io_dir.READ, 0, 1, 0⟩] := by
    unfold md_create_cdev
    rw [he0']
  rcases @md_create_loop_cases P { md_create_geometry P dmc with cache := c.2 } dev.sb
      (md_create_cdev env dev).log env (md_create_locals_init P env dev) hP hsize h0 with
    ⟨s1, hl, ⟨S, q, p, ops, hpos, hok⟩, hch⟩ | ⟨s1, hl, -⟩
  · refine ⟨c.2, s1, hl, ?_⟩
    unfold md_create_locals_init md_create_cdev at hl
    rw [hl] at h
    simp only [] at h
    obtain ⟨ops2, hlog2, hch2, hcons, hsame⟩ := md_chain_rest env hP hpos (hch S q p ops hpos)
    rw [hlog0] at hlog2
    rw [md_create_rest_eq env (fun hne => md_pos_slots_pos hP hpos hne)] at h
    by_cases hf : s1.next_ptr ≠ (0, 0) ∧ env.io_error s1.cdev.log.length ≠ 0
    · rw [if_pos hf] at h
      exact absurd h (by simp)
    · intro o ho
      rw [hlog2] at ho
      rcases List.mem_append.mp ho with ho | ho
      · by_cases hnp : s1.next_ptr ≠ (0, 0)
        · obtain ⟨cnt, hc1⟩ := hcons hnp
          rw [hc1] at ho
          rcases List.mem_cons.mp ho with e | ho1
          · rw [e]
            by_contra hne
            exact hf ⟨hnp, hne⟩
          · exact hok o ho1
        · rw [hsame hnp] at ho
          exact hok o ho
      · rw [List.mem_singleton] at ho
        rw [ho]
  · unfold md_create_locals_init md_create_cdev at hl
    rw [hl] at h
    simp only [] at h
    exact absurd h (by simp)

/-- A write of descriptor sectors changes the sectors it covers only. -/
theorem md_untouched_write_md {dev0 : Disk} {io : Io} (env : Env) (sector count : Nat)
    (buf : Nat → Nat → flash_cacheblock) (h : md_untouched dev0 io) :
    md_untouched dev0 (flashcache_dm_io_sync_vm_write_md env io sector count buf).2 := by
  intro sec pos hops
  have hold : ∀ op ∈ io.log, op.rw = io_dir.WRITE →
      ¬ (op.sector ≤ sec ∧ sec < op.sector + op.count) := by
    intro op hop
    exact hops op (List.mem_cons_of_mem _ hop)
  have hnew := hops ⟨io_dir.WRITE, sector, count, env.io_error io.log.length⟩
    (List.mem_cons_self _ _) rfl
  simp only [flashcache_dm_io_sync_vm_write_md]
  by_cases he : env.io_error io.log.length = 0
  · rw [if_pos he]
    simp only [Disk.write_md]
    rw [if_neg hnew]
    exact h sec pos hold
  · rw [if_neg he]
    exact h sec pos hold

/-- The write of the superblock changes no descriptor sector. -/
theorem md_untouched_write_sb {dev0 : Disk} {io : Io} (env : Env)
    (header : flash_superblock) (h : md_untouched dev0 io) :
    md_untouched dev0 (flashcache_dm_io_sync_vm_write_sb env io header).2 := by
  intro sec pos hops
  have hold : ∀ op ∈ io.log, op.rw = io_dir.WRITE →
      ¬ (op.sector ≤ sec ∧ sec < op.sector + op.count) := by
    intro op hop
    exact hops op (List.mem_cons_of_mem _ hop)
  simp only [flashcache_dm_io_sync_vm_write_sb]
  by_cases he : env.io_error io.log.length = 0
  · rw [if_pos he]
    exact h sec pos hold
  · rw [if_neg he]
    exact h sec pos hold

/-- A pass of the loop of flashcache_md_store changes the sectors it writes
only. -/
theorem md_untouched_store_body {dev0 : Disk} (P : Params) (dmc : cache_c) (env : Env)
    (s : md_locals) (h : md_untouched dev0 s.cdev) :
    md_untouched dev0 (md_store_body P dmc env s).cdev := by
  unfold md_store_body
  simp only []
  split
  · split
    · exact md_untouched_write_md env _ _ _ h
    · exact h
  · exact h

/-- A run of flashcache_md_store that returns has changed the descriptor
sectors covered by its writes only. -/
theorem md_store_untouched (P : Params) (dmc : cache_c) (env : Env) (dev : Disk)
    {r : md_result} (hr : flashcache_md_store P dmc env dev = Outcome.returned r) :
    md_untouched dev r.io := by
  have h0 : md_untouched dev { dev := dev, log := [] } := fun _ _ _ => rfl
  unfold flashcache_md_store at hr
  by_cases hv0 : env.vmalloc_ok 0 = false
  · rw [if_pos hv0, Outcome.returned.injEq] at hr
    rw [← hr]
    exact h0
  rw [if_neg hv0] at hr
  cases hl : md_store_loop P dmc env loop_fuel (md_locals_init P env dev) with
  | run s1 =>
    rw [hl] at hr
    simp only [Flow.finish] at hr
    have h1 : md_untouched dev s1.cdev := by
      unfold md_store_loop at hl
      have hw := while_loop_partial _ _ (fun s => md_untouched dev s.cdev)
        (fun s s2 hs _ hb => by
          simp only [Flow.run.injEq] at hb
          rw [← hb]
          exact md_untouched_store_body P dmc env s hs) loop_fuel _ s1 h0 hl
      exact hw.1
    cases hrest : md_store_rest P env s1 with
    | none =>
      rw [hrest] at hr
      simp at hr
    | some s =>
      rw [hrest] at hr
      simp only [] at hr
      have h2 : md_untouched dev s.cdev := by
        unfold md_store_rest at hrest
        split at hrest
        · split at hrest
          · simp at hrest
          · simp only [Option.some.injEq] at hrest
            rw [← hrest]
            exact md_untouched_write_md env _ _ _ h1
        · simp only [Option.some.injEq] at hrest
          rw [← hrest]
          exact h1
      split at hr
      · simp at hr
      · split at hr
        · rw [Outcome.returned.injEq] at hr
          rw [← hr]
          exact h2
        · rw [Outcome.returned.injEq] at hr
          rw [← hr]
          exact md_untouched_write_sb env _ h2
  | ret1 s1 =>
    unfold md_store_loop at hl
    exfalso
    have : ∀ (fuel : Nat) (s : md_locals),
        while_loop (fun s => decide (uint64 s.i < dmc.size))
          (fun s => Flow.run (md_store_body P dmc env s)) fuel s ≠ Flow.ret1 s1 := by
      intro fuel
      induction fuel with
      | zero => intro s; simp [while_loop]
      | succ f ih =>
        intro s
        simp only [while_loop]
        split
        · exact ih _
        · simp
    exact this _ _ hl
  | panic =>
    rw [hl] at hr
    simp [Flow.finish] at hr
  | timeout =>
    rw [hl] at hr
    simp [Flow.finish] at hr

theorem Outcome.eq_panic_of_is_panic {α : Type} {o : Outcome α} (h : o.is_panic = true) :
    o = Outcome.panic := by
  cases o with
  | returned r => simp [Outcome.is_panic] at h
  | panic => rfl
  | timeout => simp [Outcome.is_panic] at h

/-- The number of descriptor sectors, the slot count divided by
MD_BLOCKS_PER_SECTOR rounded up, is at most one more than the quotient rounded
down. -/
theorem ceil_le_floor_succ {M : Nat} (hM : 1 ≤ M) (n : Nat) : (n + M - 1) / M ≤ n / M + 1 := by
  have h := ceil_div_facts hM n
  by_cases h0 : n % M = 0
  · rw [h.1 h0]; omega
  · rw [h.2 h0]

/-- The lowest set bit of a power of two. -/
theorem ffs_aux_pow2 : ∀ (k fuel : Nat), k < fuel → ffs_aux fuel (2 ^ k) = k + 1 := by
  intro k
  induction k with
  | zero =>
    intro fuel h
    obtain ⟨f, rfl⟩ : ∃ f, fuel = f + 1 := ⟨fuel - 1, by omega⟩
    simp [ffs_aux]
  | succ k ih =>
    intro fuel h
    obtain ⟨f, rfl⟩ : ∃ f, fuel = f + 1 := ⟨fuel - 1, by omega⟩
    have h2 : 2 ^ (k + 1) % 2 = 0 := by
      rw [Nat.pow_succ]
      omega
    have h3 : 2 ^ (k + 1) / 2 = 2 ^ k := by
      rw [Nat.pow_succ]
      omega
    simp only [ffs_aux]
    rw [if_neg (by omega), h3, ih f (by omega)]
    omega

/-- The shift that flashcache_ctr takes from a power of two below 2^32 is its
exponent. -/
theorem ffs_shift_pow2 (k : Nat) (h : 2 ^ k < 4294967296) :
    uint32 (ffs (2 ^ k) - 1) = k := by
  have hk : k < 32 := by
    by_contra hc
    have : 2 ^ 32 ≤ 2 ^ k := Nat.pow_le_pow_right (by omega) (by omega)
    omega
  have hpos : 0 < 2 ^ k := by positivity
  unfold ffs
  rw [Nat.mod_eq_of_lt h, if_neg (by omega), ffs_aux_pow2 k 32 hk]
  unfold uint32
  omega

/-- An accepted associativity fits 32 bits. -/
theorem ctr_assoc_lt {C : ctr_consts} (hC : C.wf) {args : ctr_args}
    {s s6 : cache_inst} (h : ctr_assoc C args s = some s6) :
    s6.dmc.assoc < 4294967296 := by
  obtain ⟨-, -, -, h6⟩ := ctr_assoc_some hC h
  by_cases ha : args.argc < 6
  · rw [h6.1 ha]
    exact hC.2.2.2.2.2.2.2.2.2.2.2.1
  · obtain ⟨v, -, hv, -⟩ := h6.2 (by omega)
    rw [hv]
    unfold uint32
    omega

/-- The slot count that flashcache_md_create computes is a number of whole sets,
cut to 64 bits. -/
theorem md_create_geometry_form (P : Params) (dmc : cache_c) :
    ∃ x : Nat, x < 18446744073709551616 ∧
      (md_create_geometry P dmc).size = uint64 ((x / dmc.assoc * dmc.assoc : Nat) : Int) := by
  unfold md_create_geometry
  simp only []
  refine ⟨_, ?_, rfl⟩
  apply Nat.lt_of_le_of_lt (Nat.div_le_self _ _)
  generalize (dmc.size : Int) - int32 (P.INDEX_TO_MD_SECTOR (dmc.size / dmc.block_size) + 1 + 1)
    = e
  unfold uint64
  omega

/-- The value that the handler computes for a set of `assoc` slots and a
percentage between 0 and 100 is between 0 and `assoc`, and it is the exact
quotient where the product fits 32 bits. -/
theorem dirty_thresh_value (assoc : Nat) (pct : Int) (h0 : 0 ≤ pct) (h1 : pct ≤ 100) :
    0 ≤ int32 ((uint32 (assoc * pct) / 100 : Nat) : Int) ∧
    int32 ((uint32 (assoc * pct) / 100 : Nat) : Int) ≤ assoc ∧
    ((assoc : Int) * pct < 4294967296 →
      int32 ((uint32 (assoc * pct) / 100 : Nat) : Int) = (assoc : Int) * pct / 100) := by
  obtain ⟨q, rfl⟩ : ∃ q : Nat, pct = q := ⟨pct.toNat, by omega⟩
  have hq : q ≤ 100 := by omega
  have hm : assoc * q ≤ assoc * 100 := Nat.mul_le_mul_left _ hq
  have hu : uint32 ((assoc : Int) * (q : Int)) = (assoc * q) % 4294967296 := by
    rw [← Nat.cast_mul]
    exact uint32_natCast_mod _
  rw [hu, ← Nat.cast_mul]
  generalize assoc * q = m at hm ⊢
  unfold int32
  refine ⟨by omega, by omega, fun h => ?_⟩
  omega

/-! ## The claims -/

/-- C1 (amended): for a slot table of fewer than 2^31 slots, none of them both
VALID and INVALID, when flashcache_md_store has returned 0 with no failed write,
the superblock on the device is CLEAN or FASTCLEAN, and a flashcache_md_load
from that device that meets no failed allocation and no failed request returns
0 with the same `size`, `block_size` and `assoc`, every slot `i < size` having
the stored dbn and the stored state masked to `INVALID | VALID | DIRTY`. -/
theorem md_store_load_round_trip {P : Params} {dmc : cache_c} {env : Env} {dev : Disk}
    {rs : md_result} (hP : P.wf) (hsize : dmc.size < 2147483648)
    (hslots : ∀ i, i < dmc.size →
      (dmc.cache i).cache_state &&& (P.VALID ||| P.INVALID) ≠ (P.VALID ||| P.INVALID))
    (h : flashcache_md_store P dmc env dev = Outcome.returned rs) (hret : rs.ret = 0)
    (hok : ∀ op ∈ rs.io.log, op.error = 0) :
    (rs.io.dev.sb.cache_sb_state = P.CACHE_MD_STATE_CLEAN ∨
      rs.io.dev.sb.cache_sb_state = P.CACHE_MD_STATE_FASTCLEAN) ∧
    ∀ (dmc2 : cache_c) (env2 : Env),
      (∀ k, env2.io_error k = 0) → (∀ k, env2.vmalloc_ok k = true) →
      ∃ rl, flashcache_md_load P dmc2 env2 rs.io.dev = Outcome.returned rl ∧ rl.ret = 0 ∧
        rl.dmc.size = dmc.size ∧ rl.dmc.block_size = dmc.block_size ∧
        rl.dmc.assoc = dmc.assoc ∧
        ∀ i, i < dmc.size →
          (rl.dmc.cache i).dbn = (dmc.cache i).dbn ∧
          (rl.dmc.cache i).cache_state
            = (dmc.cache i).cache_state &&& (P.INVALID ||| P.VALID ||| P.DIRTY) := by
  have hN : int_loop_passes dmc.size = dmc.size := by
    unfold int_loop_passes
    omega
  have hv0 : env.vmalloc_ok 0 = true := by
    by_contra hv0
    have hv0' : env.vmalloc_ok 0 = false := by simpa using hv0
    unfold flashcache_md_store at h
    rw [if_pos hv0'] at h
    simp only [Outcome.returned.injEq] at h
    rw [← h] at hret
    simp at hret
  obtain ⟨s, ops, hw, -, -, hwe, heq⟩ := md_store_run P dmc env dev hP (by omega) hv0
  have hwe0 := md_store_errors_zero hw hwe
  rw [hN] at hw heq
  have hlog : s.cdev.log = ops := by
    have := hw.hlog
    rw [List.append_nil] at this
    exact this
  rw [h, if_neg (fun hne => hne rfl)] at heq
  by_cases hv1 : env.vmalloc_ok 1 = false
  · rw [if_pos hv1] at heq
    simp only [Outcome.returned.injEq] at heq
    rw [heq] at hret
    simp at hret
  rw [if_neg hv1] at heq
  simp only [Outcome.returned.injEq] at heq
  have he0 : env.io_error ops.length = 0 := by
    have := hok ⟨io_dir.WRITE, 0, 1, env.io_error ops.length⟩ (by
      rw [heq]
      simp [flashcache_dm_io_sync_vm_write_sb, hlog])
    exact this
  have hops : ∀ op ∈ ops, op.error = 0 := by
    intro op hop
    apply hok op
    rw [heq]
    simp only [flashcache_dm_io_sync_vm_write_sb, hlog, List.mem_cons]
    exact Or.inr hop
  have hdev : rs.io.dev = { s.cdev.dev with
      sb := md_store_header P dmc s.write_errors s.num_dirty } := by
    rw [heq]
    simp only [flashcache_dm_io_sync_vm_write_sb, hlog, he0, if_true]
  have hstate : rs.io.dev.sb.cache_sb_state = P.CACHE_MD_STATE_CLEAN ∨
      rs.io.dev.sb.cache_sb_state = P.CACHE_MD_STATE_FASTCLEAN := by
    rw [hdev]
    simp only [md_store_header]
    rw [if_pos (hwe0.mpr hops)]
    by_cases hnd : s.num_dirty = 0
    · rw [if_pos hnd]
      exact Or.inl rfl
    · rw [if_neg hnd]
      exact Or.inr rfl
  refine ⟨hstate, ?_⟩
  intro dmc2 env2 herr2 hv2
  have hsz : rs.io.dev.sb.size = dmc.size := by rw [hdev]; rfl
  have hbs : rs.io.dev.sb.block_size = dmc.block_size := by rw [hdev]; rfl
  have has : rs.io.dev.sb.assoc = dmc.assoc := by rw [hdev]; rfl
  have hmd : rs.io.dev.md = s.cdev.dev.md := by rw [hdev]
  obtain ⟨rl, hl, hretl, h1, h2, h3, h4⟩ := @md_load_of_image P dmc2 env2 rs.io.dev
    dmc.cache hP (by rw [hsz]; exact hsize) hstate
    (by
      intro i hi
      rw [hsz] at hi
      rw [hmd]
      exact hw.hcont hops i hi)
    (by
      intro i hi
      rw [hsz] at hi
      exact hslots i hi)
    herr2 hv2
  refine ⟨rl, hl, hretl, h1.trans hsz, h2.trans hbs, h3.trans has, ?_⟩
  intro i hi
  exact h4 i (by rw [hsz]; exact hi)

/-- C1 (amended), at a sample instance of five slots, two of them DIRTY. -/
theorem md_store_load_round_trip_witness :
    ∃ rs rl, flashcache_md_store sample_params (sample_dmc 5 3) sample_env
        (sample_disk_dirty 0) = Outcome.returned rs ∧
      flashcache_md_load sample_params (sample_dmc 0 0) sample_env rs.io.dev
        = Outcome.returned rl ∧ rl.ret = 0 ∧ rl.dmc.size = 5 ∧
      (rl.dmc.cache 4).dbn = 14 ∧ (rl.dmc.cache 4).cache_state = 66 := by
  obtain ⟨s, ops, -, horig, hlog, -, -, heq⟩ :=
    md_store_returned sample_params (sample_dmc 5 3) sample_env (sample_disk_dirty 0)
      (by decide) (by decide) rfl rfl (by decide)
  have hall : ∀ op ∈ ops, op.error = 0 := by
    intro op hop
    obtain ⟨n, hn⟩ := horig op hop
    rw [hn]
    rfl
  obtain ⟨-, hload⟩ := md_store_load_round_trip (show sample_params.wf by decide)
    (show (sample_dmc 5 3).size < 2147483648 by decide) (by decide) heq rfl (by
      intro op hop
      simp only [flashcache_dm_io_sync_vm_write_sb, hlog, List.mem_cons] at hop
      rcases hop with rfl | hop
      · rfl
      · exact hall op hop)
  obtain ⟨rl, hl, hretl, hsz, -, -, hs⟩ :=
    hload (sample_dmc 0 0) sample_env (fun _ => rfl) (fun _ => rfl)
  exact ⟨_, rl, heq, hl, hretl, hsz, (hs 4 (by decide)).1, (hs 4 (by decide)).2⟩

/-- C1 as stated fails on a table of 2^31 VALID slots: flashcache_md_store
writes every descriptor and a CLEAN superblock without an error, and
flashcache_md_load from that device, the slot count being negative as an `int`,
reads no descriptor and is stopped by its debug test on the sector count. -/
theorem md_store_load_round_trip_counterexample :
    (∀ i, ((sample_dmc 2147483648 2147483648).cache i).cache_state
        &&& (sample_params.VALID ||| sample_params.INVALID)
      ≠ (sample_params.VALID ||| sample_params.INVALID)) ∧
    ∃ rs, flashcache_md_store sample_params (sample_dmc 2147483648 2147483648) sample_env
        (sample_disk_dirty 0) = Outcome.returned rs ∧ rs.ret = 0 ∧
      (∀ op ∈ rs.io.log, op.error = 0) ∧
      flashcache_md_load sample_params (sample_dmc 0 0) sample_env rs.io.dev
        = Outcome.panic := by
  constructor
  · intro i
    show (if 2147483648 ≤ i then 66 else 2) &&& (2 ||| 1) ≠ (2 ||| 1)
    split <;> decide
  obtain ⟨s, ops, hw, horig, hlog, hwe, -, heq⟩ :=
    md_store_returned sample_params (sample_dmc 2147483648 2147483648) sample_env
      (sample_disk_dirty 0) (by decide) (by decide) rfl rfl (by decide)
  have hall : ∀ op ∈ ops, op.error = 0 := by
    intro op hop
    obtain ⟨n, hn⟩ := horig op hop
    rw [hn]
    rfl
  have hwe0 : s.write_errors = 0 := hwe.mpr hall
  refine ⟨_, heq, rfl, ?_, ?_⟩
  · intro op hop
    simp only [flashcache_dm_io_sync_vm_write_sb, hlog, List.mem_cons] at hop
    rcases hop with rfl | hop
    · rfl
    · exact hall op hop
  · have hsz : (flashcache_dm_io_sync_vm_write_sb sample_env s.cdev
        (md_store_header sample_params (sample_dmc 2147483648 2147483648)
          s.write_errors s.num_dirty)).2.dev.sb.size = 2147483648 := rfl
    have hskip := @md_load_skip sample_params (sample_dmc 0 0) sample_env
      (flashcache_dm_io_sync_vm_write_sb sample_env s.cdev
        (md_store_header sample_params (sample_dmc 2147483648 2147483648)
          s.write_errors s.num_dirty)).2.dev
      (by
        show _ = _ ∨ _ = _ ∨ _ = _
        simp only [flashcache_dm_io_sync_vm_write_sb, md_store_header, hwe0]
        by_cases hnd : s.num_dirty = 0
        · exact Or.inr (Or.inl (by simp [sample_env, hnd]))
        · exact Or.inr (Or.inr (by simp [sample_env, hnd])))
      (fun _ => rfl) (fun _ => rfl) (by rw [hsz]; decide)
    rw [if_pos (by rw [hsz]; decide)] at hskip
    exact hskip

/-- C2 (amended): on a device whose superblock state is DIRTY and whose slot
count is below 2^31, after a successful flashcache_md_load every slot whose
descriptor has the DIRTY flag carries the dbn and the state of that descriptor,
and every slot whose descriptor lacks the DIRTY flag has state INVALID and
dbn 0. -/
theorem md_load_unclean_shutdown {P : Params} {dmc : cache_c} {env : Env} {dev : Disk}
    {r : md_result} (hP : P.wf)
    (hst : dev.sb.cache_sb_state = P.CACHE_MD_STATE_DIRTY)
    (hsize : dev.sb.size < 2147483648)
    (h : flashcache_md_load P dmc env dev = Outcome.returned r) (hret : r.ret = 0) :
    ∀ i, i < dev.sb.size →
      ((dev.md (1 + i / P.MD_BLOCKS_PER_SECTOR) (i % P.MD_BLOCKS_PER_SECTOR)).cache_state
          &&& P.DIRTY ≠ 0 →
        (r.dmc.cache i).dbn
          = (dev.md (1 + i / P.MD_BLOCKS_PER_SECTOR) (i % P.MD_BLOCKS_PER_SECTOR)).dbn ∧
        (r.dmc.cache i).cache_state
          = (dev.md (1 + i / P.MD_BLOCKS_PER_SECTOR)
              (i % P.MD_BLOCKS_PER_SECTOR)).cache_state) ∧
      ((dev.md (1 + i / P.MD_BLOCKS_PER_SECTOR) (i % P.MD_BLOCKS_PER_SECTOR)).cache_state
          &&& P.DIRTY = 0 →
        (r.dmc.cache i).cache_state = P.INVALID ∧ (r.dmc.cache i).dbn = 0) := by
  intro i hi
  obtain ⟨-, -, -, -, -, hslots⟩ := md_load_slots hP hsize h hret
  have hc : md_load_clean_shutdown P dev.sb = 0 := by
    unfold md_load_clean_shutdown
    rw [if_pos hst]
  rw [(hslots i hi).1, hc]
  unfold md_load_slot
  constructor
  · intro hd
    rw [if_pos (Or.inr hd)]
    exact ⟨rfl, rfl⟩
  · intro hd
    rw [if_neg (fun hc => hc.elim (fun h0 => h0 rfl) (fun h1 => h1 hd))]
    exact ⟨rfl, rfl⟩

/-- C2 (amended), at a sample device of three slots whose superblock is DIRTY
and whose descriptors all are DIRTY. -/
theorem md_load_unclean_shutdown_witness :
    ∃ r, flashcache_md_load sample_params (sample_dmc 0 0) sample_env (sample_disk_dirty 3)
        = Outcome.returned r ∧ r.ret = 0 ∧
      (r.dmc.cache 2).dbn = ((sample_disk_dirty 3).md 1 2).dbn ∧
      (r.dmc.cache 2).cache_state = ((sample_disk_dirty 3).md 1 2).cache_state := by
  obtain ⟨r, h, hret⟩ := @md_load_total sample_params (sample_dmc 0 0) sample_env
    (sample_disk_dirty 3) (by decide) (by decide) (by decide) (fun _ => rfl) (fun _ => rfl)
    (by decide)
  exact ⟨r, h, hret,
    (md_load_unclean_shutdown (by decide) rfl (by decide) h hret 2 (by decide)).1
      (by decide)⟩

/-- C2 as stated fails on a DIRTY superblock with 2^37 slots: as an `int` the
slot count is 0, the read loop is skipped, the debug test passes, the call
returns 0, and slot 0 is uninitialised memory although its descriptor is
DIRTY. -/
theorem md_load_unclean_shutdown_counterexample :
    ∃ r, flashcache_md_load sample_params (sample_dmc 0 0) sample_env
        (sample_disk_dirty 137438953472) = Outcome.returned r ∧ r.ret = 0 ∧
      (sample_disk_dirty 137438953472).sb.cache_sb_state = sample_params.CACHE_MD_STATE_DIRTY ∧
      ((sample_disk_dirty 137438953472).md 1 0).cache_state &&& sample_params.DIRTY ≠ 0 ∧
      (r.dmc.cache 0).dbn ≠ ((sample_disk_dirty 137438953472).md 1 0).dbn := by
  have h := @md_load_skip sample_params (sample_dmc 0 0) sample_env
    (sample_disk_dirty 137438953472) (by decide) (fun _ => rfl) (fun _ => rfl) (by decide)
  rw [if_neg (by decide)] at h
  exact ⟨_, h, rfl, rfl, by decide, by decide⟩

/-- C3 (amended): on an instance of at most 2^31 slots, its two allocations
successful, flashcache_md_store returns 0 after a write of sector 0 whose
superblock carries `block_size`, `size` and `assoc` of the instance and has
state CLEAN when no descriptor write failed and no slot is DIRTY, FASTCLEAN when
no descriptor write failed and some slot is DIRTY, and UNSTABLE when a
descriptor write failed. -/
theorem md_store_superblock_state (P : Params) (dmc : cache_c) (env : Env) (dev : Disk)
    (hP : P.wf) (hsize : dmc.size ≤ 2147483648)
    (hv0 : env.vmalloc_ok 0 = true) (hv1 : env.vmalloc_ok 1 = true) :
    ∃ (cdev : Io) (header : flash_superblock),
      flashcache_md_store P dmc env dev =
        Outcome.returned
          { ret := 0
            dmc := dmc
            io := (flashcache_dm_io_sync_vm_write_sb env cdev header).2 } ∧
      (∀ op ∈ cdev.log, op.rw = io_dir.WRITE ∧ 1 ≤ op.sector) ∧
      header.block_size = dmc.block_size ∧ header.size = dmc.size ∧
      header.assoc = dmc.assoc ∧
      ((∀ op ∈ cdev.log, op.error = 0) →
        (∀ i, i < dmc.size → (dmc.cache i).cache_state &&& P.DIRTY = 0) →
        header.cache_sb_state = P.CACHE_MD_STATE_CLEAN) ∧
      ((∀ op ∈ cdev.log, op.error = 0) →
        (∃ i, i < dmc.size ∧ (dmc.cache i).cache_state &&& P.DIRTY ≠ 0) →
        header.cache_sb_state = P.CACHE_MD_STATE_FASTCLEAN) ∧
      ((∃ op ∈ cdev.log, op.error ≠ 0) →
        header.cache_sb_state = P.CACHE_MD_STATE_UNSTABLE) := by
  have hN : int_loop_passes dmc.size = dmc.size := by
    unfold int_loop_passes
    omega
  obtain ⟨s, ops, hw, -, hlog, hwe, hnd, heq⟩ :=
    md_store_returned P dmc env dev hP (by omega) hv0 hv1 (by rw [hN])
  rw [hN] at hnd
  refine ⟨s.cdev, md_store_header P dmc s.write_errors s.num_dirty, heq, ?_, rfl, rfl, rfl,
    ?_, ?_, ?_⟩
  · rw [hlog]
    exact hw.hops
  · intro herr hclean
    rw [hlog] at herr
    unfold md_store_header
    simp only []
    rw [if_pos (hwe.mpr herr), if_pos (hnd.mpr hclean)]
  · intro herr hdirty
    rw [hlog] at herr
    obtain ⟨i, hi, hd⟩ := hdirty
    unfold md_store_header
    simp only []
    rw [if_pos (hwe.mpr herr), if_neg (fun h0 => hd (hnd.mp h0 i hi))]
  · intro hfail
    rw [hlog] at hfail
    obtain ⟨op, hop, he⟩ := hfail
    unfold md_store_header
    simp only []
    rw [if_neg (fun h0 => he (hwe.mp h0 op hop))]

/-- C3 (amended), at a sample instance of five slots. -/
theorem md_store_superblock_state_witness :
    ∃ (cdev : Io) (header : flash_superblock),
      flashcache_md_store sample_params (sample_dmc 5 3) sample_env (sample_disk_dirty 0) =
        Outcome.returned
          { ret := 0
            dmc := sample_dmc 5 3
            io := (flashcache_dm_io_sync_vm_write_sb sample_env cdev header).2 } ∧
      (∀ op ∈ cdev.log, op.rw = io_dir.WRITE ∧ 1 ≤ op.sector) ∧
      header.block_size = (sample_dmc 5 3).block_size ∧ header.size = (sample_dmc 5 3).size ∧
      header.assoc = (sample_dmc 5 3).assoc ∧
      ((∀ op ∈ cdev.log, op.error = 0) →
        (∀ i, i < (sample_dmc 5 3).size →
          ((sample_dmc 5 3).cache i).cache_state &&& sample_params.DIRTY = 0) →
        header.cache_sb_state = sample_params.CACHE_MD_STATE_CLEAN) ∧
      ((∀ op ∈ cdev.log, op.error = 0) →
        (∃ i, i < (sample_dmc 5 3).size ∧
          ((sample_dmc 5 3).cache i).cache_state &&& sample_params.DIRTY ≠ 0) →
        header.cache_sb_state = sample_params.CACHE_MD_STATE_FASTCLEAN) ∧
      ((∃ op ∈ cdev.log, op.error ≠ 0) →
        header.cache_sb_state = sample_params.CACHE_MD_STATE_UNSTABLE) :=
  md_store_superblock_state sample_params (sample_dmc 5 3) sample_env (sample_disk_dirty 0)
    (by decide) (by decide) rfl rfl

/-- C3 as stated fails on an instance of 2^31 + 2^37 slots whose slot 2^31 is
DIRTY: the `int` counter ends the loop after 2^31 slots, none of them DIRTY, the
debug test passes because the sector count is truncated to an `int`, and the
superblock written is CLEAN. -/
theorem md_store_superblock_state_counterexample :
    ∃ r, flashcache_md_store sample_params (sample_dmc 139586437120 2147483648) sample_env
        (sample_disk_dirty 0) = Outcome.returned r ∧ r.ret = 0 ∧
      (∀ op ∈ r.io.log, op.error = 0) ∧
      r.io.dev.sb.cache_sb_state = sample_params.CACHE_MD_STATE_CLEAN ∧
      2147483648 < (sample_dmc 139586437120 2147483648).size ∧
      ((sample_dmc 139586437120 2147483648).cache 2147483648).cache_state
        &&& sample_params.DIRTY ≠ 0 := by
  obtain ⟨s, ops, hw, horig, hlog, hwe, hnd, heq⟩ :=
    md_store_returned sample_params (sample_dmc 139586437120 2147483648) sample_env
      (sample_disk_dirty 0) (by decide) (by decide) rfl rfl (by decide)
  have hall : ∀ op ∈ ops, op.error = 0 := by
    intro op hop
    obtain ⟨n, hn⟩ := horig op hop
    rw [hn]
    rfl
  have hwe0 : s.write_errors = 0 := hwe.mpr hall
  have hnd0 : s.num_dirty = 0 := by
    apply hnd.mpr
    intro i hi
    have hi2 : ¬ 2147483648 ≤ i := by
      have : int_loop_passes (sample_dmc 139586437120 2147483648).size = 2147483648 := by
        decide
      omega
    show (if 2147483648 ≤ i then 66 else 2) &&& 64 = 0
    rw [if_neg hi2]
    decide
  refine ⟨_, heq, rfl, ?_, ?_, by decide, by decide⟩
  · intro op hop
    simp only [flashcache_dm_io_sync_vm_write_sb, hlog, List.mem_cons] at hop
    rcases hop with rfl | hop
    · rfl
    · exact hall op hop
  · simp only [flashcache_dm_io_sync_vm_write_sb, md_store_header, hwe0, hnd0]
    rfl

/-- C4 (amended): on an instance of at most 2^31 slots, its two allocations
successful, flashcache_md_store returns 0, and when all its writes succeed the
descriptor of every slot `i < size` is in sector `1 + i / MD_BLOCKS_PER_SECTOR`
of the cache device at position `i mod MD_BLOCKS_PER_SECTOR`, with the dbn of
the slot and with its state masked to `INVALID | VALID | DIRTY`, so with no
flag outside that mask. -/
theorem md_store_layout (P : Params) (dmc : cache_c) (env : Env) (dev : Disk)
    (hP : P.wf) (hsize : dmc.size ≤ 2147483648)
    (hv0 : env.vmalloc_ok 0 = true) (hv1 : env.vmalloc_ok 1 = true) :
    ∃ r, flashcache_md_store P dmc env dev = Outcome.returned r ∧ r.ret = 0 ∧
      ((∀ op ∈ r.io.log, op.error = 0) →
        ∀ i, i < dmc.size →
          r.io.dev.md (1 + i / P.MD_BLOCKS_PER_SECTOR) (i % P.MD_BLOCKS_PER_SECTOR)
            = { dbn := (dmc.cache i).dbn
                cache_state :=
                  (dmc.cache i).cache_state &&& (P.INVALID ||| P.VALID ||| P.DIRTY) } ∧
          (r.io.dev.md (1 + i / P.MD_BLOCKS_PER_SECTOR)
              (i % P.MD_BLOCKS_PER_SECTOR)).cache_state
            &&& (P.INVALID ||| P.VALID ||| P.DIRTY)
            = (r.io.dev.md (1 + i / P.MD_BLOCKS_PER_SECTOR)
              (i % P.MD_BLOCKS_PER_SECTOR)).cache_state) := by
  have hN : int_loop_passes dmc.size = dmc.size := by
    unfold int_loop_passes
    omega
  obtain ⟨s, ops, hw, -, hlog, -, -, heq⟩ :=
    md_store_returned P dmc env dev hP (by omega) hv0 hv1 (by rw [hN])
  rw [hN] at hw
  refine ⟨_, heq, rfl, ?_⟩
  intro hall i hi
  have hops : ∀ op ∈ ops, op.error = 0 := by
    intro op hop
    apply hall op
    simp only [flashcache_dm_io_sync_vm_write_sb, hlog, List.mem_cons]
    exact Or.inr hop
  have hmd : (flashcache_dm_io_sync_vm_write_sb env s.cdev
      (md_store_header P dmc s.write_errors s.num_dirty)).2.dev.md = s.cdev.dev.md := by
    unfold flashcache_dm_io_sync_vm_write_sb
    simp only []
    split <;> rfl
  have hd := hw.hcont hops i hi
  simp only []
  rw [hmd, hd]
  exact ⟨rfl, land_mask_idem _ _⟩

/-- C4 (amended), at a sample instance of five slots. -/
theorem md_store_layout_witness :
    ∃ r, flashcache_md_store sample_params (sample_dmc 5 3) sample_env (sample_disk_dirty 0)
        = Outcome.returned r ∧ r.ret = 0 ∧
      ((∀ op ∈ r.io.log, op.error = 0) →
        ∀ i, i < (sample_dmc 5 3).size →
          r.io.dev.md (1 + i / sample_params.MD_BLOCKS_PER_SECTOR)
              (i % sample_params.MD_BLOCKS_PER_SECTOR)
            = { dbn := ((sample_dmc 5 3).cache i).dbn
                cache_state := ((sample_dmc 5 3).cache i).cache_state &&&
                  (sample_params.INVALID ||| sample_params.VALID ||| sample_params.DIRTY) } ∧
          (r.io.dev.md (1 + i / sample_params.MD_BLOCKS_PER_SECTOR)
              (i % sample_params.MD_BLOCKS_PER_SECTOR)).cache_state
            &&& (sample_params.INVALID ||| sample_params.VALID ||| sample_params.DIRTY)
            = (r.io.dev.md (1 + i / sample_params.MD_BLOCKS_PER_SECTOR)
              (i % sample_params.MD_BLOCKS_PER_SECTOR)).cache_state) :=
  md_store_layout sample_params (sample_dmc 5 3) sample_env (sample_disk_dirty 0)
    (by decide) (by decide) rfl rfl

/-- C4 as stated fails on an instance of 2^31 + 2^37 slots, a slot count that
flashcache_md_create accepts.  The `int` counter ends the loop after 2^31
slots, the debug test passes because the sector count is truncated to an
`int`, and flashcache_md_store returns 0 with every write successful; no
request has reached sector 1 + 2^31 / MD_BLOCKS_PER_SECTOR, which still holds
the descriptor with dbn 5 that the device held, where the dbn of slot 2^31 is
2^31 + 10. -/
theorem md_store_layout_counterexample :
    ∃ r, flashcache_md_store sample_params sample_dmc_giant sample_env
        (sample_disk_dirty 139586437120) = Outcome.returned r ∧ r.ret = 0 ∧
      (∀ op ∈ r.io.log, op.error = 0) ∧
      2147483648 < sample_dmc_giant.size ∧
      r.io.dev.md (1 + 2147483648 / sample_params.MD_BLOCKS_PER_SECTOR)
          (2147483648 % sample_params.MD_BLOCKS_PER_SECTOR)
        = { dbn := 5, cache_state := 66 } ∧
      (sample_dmc_giant.cache 2147483648).dbn = 2147483658 := by
  obtain ⟨s, ops, hw, horig, hlog, -, -, heq⟩ :=
    md_store_returned sample_params sample_dmc_giant sample_env
      (sample_disk_dirty 139586437120) (by decide) (by decide) rfl rfl (by decide)
  have hall : ∀ op ∈ ops, op.error = 0 := by
    intro op hop
    obtain ⟨n, hn⟩ := horig op hop
    rw [hn]
    rfl
  have hch : md_chain ops 67108865 := by
    rcases md_store_outcome sample_params sample_dmc_giant sample_env
        (sample_disk_dirty 139586437120) (by decide) (by decide) with
      ⟨hv0, -⟩ | ⟨-, ops2, hch, h⟩
    · exact absurd hv0 (by decide)
    · rcases h with ⟨hp, -⟩ | ⟨-, ⟨hv1, -⟩ | ⟨-, r2, hr2, -, -, hlog2⟩⟩
      · rw [heq] at hp
        simp at hp
      · exact absurd hv1 (by decide)
      · rw [heq, Outcome.returned.injEq] at hr2
        rw [← hr2] at hlog2
        simp only [flashcache_dm_io_sync_vm_write_sb, hlog, List.cons.injEq] at hlog2
        rw [hlog2.2]
        exact hch
  have hun := md_store_untouched sample_params sample_dmc_giant sample_env
    (sample_disk_dirty 139586437120) heq
  refine ⟨_, heq, rfl, ?_, by decide, ?_, by decide⟩
  · intro op hop
    simp only [flashcache_dm_io_sync_vm_write_sb, hlog, List.mem_cons] at hop
    rcases hop with rfl | hop
    · rfl
    · exact hall op hop
  · rw [hun (1 + 2147483648 / sample_params.MD_BLOCKS_PER_SECTOR)
      (2147483648 % sample_params.MD_BLOCKS_PER_SECTOR)]
    · rfl
    · intro op hop _
      simp only [flashcache_dm_io_sync_vm_write_sb, hlog, List.mem_cons] at hop
      rcases hop with rfl | hop
      · simp only []
        decide
      · have := (md_chain_mem ops _ hch op hop).2.2.2
        have e : 1 + 2147483648 / sample_params.MD_BLOCKS_PER_SECTOR = 67108865 := by decide
        rw [e]
        omega

/-- C5: flashcache_md_load returns failure when the superblock state is none of
DIRTY, CLEAN and FASTCLEAN, in particular when it is UNSTABLE; in that case no
sector is written, the device is as before, and `block_size`, `size` and
`assoc` of the instance are unchanged. -/
theorem md_load_rejects_bad_superblock (P : Params) (dmc : cache_c) (env : Env) (dev : Disk)
    (hst : (P.wf ∧ dev.sb.cache_sb_state = P.CACHE_MD_STATE_UNSTABLE) ∨
      ¬ (dev.sb.cache_sb_state = P.CACHE_MD_STATE_DIRTY ∨
         dev.sb.cache_sb_state = P.CACHE_MD_STATE_CLEAN ∨
         dev.sb.cache_sb_state = P.CACHE_MD_STATE_FASTCLEAN)) :
    ∃ r, flashcache_md_load P dmc env dev = Outcome.returned r ∧ r.ret = 1 ∧
      (∀ op ∈ r.io.log, op.rw ≠ io_dir.WRITE) ∧ r.io.dev = dev ∧
      r.dmc.block_size = dmc.block_size ∧ r.dmc.size = dmc.size ∧
      r.dmc.assoc = dmc.assoc := by
  have hst2 : ¬ (dev.sb.cache_sb_state = P.CACHE_MD_STATE_DIRTY ∨
      dev.sb.cache_sb_state = P.CACHE_MD_STATE_CLEAN ∨
      dev.sb.cache_sb_state = P.CACHE_MD_STATE_FASTCLEAN) := by
    rcases hst with ⟨hP, hu⟩ | h
    · exact md_unstable_rejected hP hu
    · exact h
  obtain ⟨r, h, hret, hlog, hdev, hdmc⟩ := md_load_reject P dmc env dev hst2
  exact ⟨r, h, hret, hlog, hdev, by rw [hdmc], by rw [hdmc], by rw [hdmc]⟩

/-- C5, at a sample device whose superblock is UNSTABLE. -/
theorem md_load_rejects_bad_superblock_witness :
    ∃ r, flashcache_md_load sample_params (sample_dmc 3 3) sample_env (sample_disk_unstable 3)
        = Outcome.returned r ∧ r.ret = 1 ∧
      (∀ op ∈ r.io.log, op.rw ≠ io_dir.WRITE) ∧ r.io.dev = sample_disk_unstable 3 ∧
      r.dmc.block_size = (sample_dmc 3 3).block_size ∧ r.dmc.size = (sample_dmc 3 3).size ∧
      r.dmc.assoc = (sample_dmc 3 3).assoc :=
  md_load_rejects_bad_superblock sample_params (sample_dmc 3 3) sample_env (sample_disk_unstable 3)
    (Or.inl ⟨by decide, rfl⟩)

/-- C6: on a cache device whose superblock state is DIRTY, CLEAN or FASTCLEAN,
flashcache_md_create called with force = 0 returns failure, writes no sector and
leaves `size` and `md_sectors` of the instance unchanged; called with
force ≠ 0 it returns what it returns on the same device with any other
superblock, so that the existing state never makes it fail. -/
theorem md_create_refuses_overwrite (P : Params) (dmc : cache_c) (env : Env) (dev : Disk)
    (hst : dev.sb.cache_sb_state = P.CACHE_MD_STATE_DIRTY ∨
      dev.sb.cache_sb_state = P.CACHE_MD_STATE_CLEAN ∨
      dev.sb.cache_sb_state = P.CACHE_MD_STATE_FASTCLEAN) :
    (∃ r, flashcache_md_create P dmc 0 env dev = Outcome.returned r ∧ r.ret = 1 ∧
        (∀ op ∈ r.io.log, op.rw ≠ io_dir.WRITE) ∧ r.io.dev = dev ∧
        r.dmc.size = dmc.size ∧ r.dmc.md_sectors = dmc.md_sectors) ∧
    (∀ (force : Int) (sb : flash_superblock), force ≠ 0 →
        md_return_code (flashcache_md_create P dmc force env dev)
          = md_return_code (flashcache_md_create P dmc force env { dev with sb := sb })) := by
  constructor
  · have key : ∀ force : Int, force = 0 →
        ∃ r, flashcache_md_create P dmc force env dev = Outcome.returned r ∧ r.ret = 1 ∧
          (∀ op ∈ r.io.log, op.rw ≠ io_dir.WRITE) ∧ r.io.dev = dev ∧
          r.dmc.size = dmc.size ∧ r.dmc.md_sectors = dmc.md_sectors := by
      intro force hf
      unfold flashcache_md_create
      simp only []
      by_cases hv : env.vmalloc_ok 0 = false
      · rw [if_pos hv]
        exact ⟨_, rfl, rfl, by simp, rfl, rfl, rfl⟩
      · rw [if_neg hv]
        by_cases hr : (flashcache_dm_io_sync_vm_read_sb env { dev := dev, log := [] }).1 ≠ 0
        · rw [if_pos hr]
          exact ⟨_, rfl, rfl, by simp [flashcache_dm_io_sync_vm_read_sb], rfl, rfl, rfl⟩
        · have hst3 : force = 0 ∧
              ((flashcache_dm_io_sync_vm_read_sb env
                { dev := dev, log := [] }).2.1.cache_sb_state = P.CACHE_MD_STATE_DIRTY ∨
              (flashcache_dm_io_sync_vm_read_sb env
                { dev := dev, log := [] }).2.1.cache_sb_state = P.CACHE_MD_STATE_CLEAN ∨
              (flashcache_dm_io_sync_vm_read_sb env
                { dev := dev, log := [] }).2.1.cache_sb_state = P.CACHE_MD_STATE_FASTCLEAN) :=
            ⟨hf, hst⟩
          rw [if_neg hr, if_pos hst3]
          exact ⟨_, rfl, rfl, by simp [flashcache_dm_io_sync_vm_read_sb], rfl, rfl, rfl⟩
    exact key 0 rfl
  · intro force sb hf
    apply md_create_code_dev
    constructor
    · exact fun h => (hf h.1).elim
    · exact fun h => (hf h.1).elim

/-- C6, at a sample device whose superblock is CLEAN: the refusal with
force = 0, and with force = 1 the return code with the superblock replaced by
an UNSTABLE one. -/
theorem md_create_refuses_overwrite_witness :
    (∃ r, flashcache_md_create sample_params (sample_dmc 100 100) 0 sample_env
          (sample_disk_clean 3) = Outcome.returned r ∧ r.ret = 1 ∧
        (∀ op ∈ r.io.log, op.rw ≠ io_dir.WRITE) ∧ r.io.dev = sample_disk_clean 3 ∧
        r.dmc.size = (sample_dmc 100 100).size ∧
        r.dmc.md_sectors = (sample_dmc 100 100).md_sectors) ∧
    md_return_code (flashcache_md_create sample_params (sample_dmc 100 100) 1 sample_env
        (sample_disk_clean 3))
      = md_return_code (flashcache_md_create sample_params (sample_dmc 100 100) 1
          sample_env { sample_disk_clean 3 with sb := sample_sb sample_params.CACHE_MD_STATE_UNSTABLE 3 }) :=
  ⟨(md_create_refuses_overwrite sample_params (sample_dmc 100 100) sample_env
      (sample_disk_clean 3) (Or.inr (Or.inl rfl))).1,
    (md_create_refuses_overwrite sample_params (sample_dmc 100 100) sample_env
      (sample_disk_clean 3) (Or.inr (Or.inl rfl))).2 1 (sample_sb sample_params.CACHE_MD_STATE_UNSTABLE 3) (by decide)⟩

/-- C7 (amended): after a successful flashcache_md_create whose final slot
count, the one of the truncated geometry, is at most 2^31, every slot below that
count has state INVALID, dbn 0 and nr_queued 0, the descriptor on the device of
every such slot has state INVALID and dbn 0, and the superblock on the device
has state DIRTY with the final `size` and with `block_size` and `assoc` of the
instance. -/
theorem md_create_post_state {P : Params} {dmc : cache_c} {force : Int} {env : Env}
    {dev : Disk} {r : md_result} (hP : P.wf)
    (hsize : (md_create_geometry P dmc).size ≤ 2147483648)
    (h : flashcache_md_create P dmc force env dev = Outcome.returned r)
    (hret : r.ret = 0) :
    r.dmc.size = (md_create_geometry P dmc).size ∧
    r.dmc.block_size = dmc.block_size ∧ r.dmc.assoc = dmc.assoc ∧
    (∀ i, i < r.dmc.size →
      (r.dmc.cache i).cache_state = P.INVALID ∧ (r.dmc.cache i).dbn = 0 ∧
      (r.dmc.cache i).nr_queued = 0) ∧
    (∀ i, i < r.dmc.size →
      r.io.dev.md (1 + i / P.MD_BLOCKS_PER_SECTOR) (i % P.MD_BLOCKS_PER_SECTOR)
        = { dbn := 0, cache_state := P.INVALID }) ∧
    r.io.dev.sb.cache_sb_state = P.CACHE_MD_STATE_DIRTY ∧
    r.io.dev.sb.size = r.dmc.size ∧ r.io.dev.sb.block_size = r.dmc.block_size ∧
    r.io.dev.sb.assoc = r.dmc.assoc := by
  obtain ⟨hdmc, hslots, -, hdesc, hsb⟩ := md_create_post hP (by omega) h hret
  have hN : int_loop_passes (md_create_geometry P dmc).size
      = (md_create_geometry P dmc).size := by
    unfold int_loop_passes
    omega
  rw [hN] at hslots hdesc
  have hsz : r.dmc.size = (md_create_geometry P dmc).size := by rw [hdmc]
  have hbs : r.dmc.block_size = dmc.block_size := by rw [hdmc]; rfl
  have has : r.dmc.assoc = dmc.assoc := by rw [hdmc]; rfl
  refine ⟨hsz, hbs, has, ?_, ?_, ?_, ?_, ?_, ?_⟩
  · intro i hi
    rw [hslots i (by omega)]
    exact ⟨rfl, rfl, rfl⟩
  · intro i hi
    rw [hdesc i (by omega)]
    unfold md_descriptor md_create_slot
    simp only []
    rw [land_mask_self]
  · rw [hsb]; rfl
  · rw [hsb]; rfl
  · rw [hsb]; rfl
  · rw [hsb]; rfl

/-- C7 (amended), at a sample cache device of 100 sectors, which gives 12
slots. -/
theorem md_create_post_state_witness :
    ∃ r, flashcache_md_create sample_params (sample_dmc_new 100) 1 sample_env
        (sample_disk_dirty 3) = Outcome.returned r ∧ r.ret = 0 ∧
      r.dmc.size = 12 ∧
      (∀ i, i < r.dmc.size →
        (r.dmc.cache i).cache_state = sample_params.INVALID ∧ (r.dmc.cache i).dbn = 0 ∧
        (r.dmc.cache i).nr_queued = 0) ∧
      r.io.dev.sb.cache_sb_state = sample_params.CACHE_MD_STATE_DIRTY ∧
      r.io.dev.sb.size = r.dmc.size := by
  obtain ⟨r, h, hret⟩ := @md_create_total sample_params (sample_dmc_new 100) 1 sample_env
    (sample_disk_dirty 3) (by decide) (by decide) (by decide) (by decide) (by decide)
    (by decide) (fun _ => rfl) (fun _ => rfl)
  have h1 := md_create_post_state (by decide) (by decide) h hret
  exact ⟨r, h, hret, h1.1.trans (by decide), h1.2.2.2.1, h1.2.2.2.2.2.1, h1.2.2.2.2.2.2.1⟩

/-- C7 as stated fails on a cache device of 1116758868998 sectors, which gives
2^31 + 2^37 slots: the `int` counters end both loops after 2^31 slots, the debug
test passes because the sector count is truncated to an `int`, the call returns
0, and slot 2^31 is uninitialised memory. -/
theorem md_create_post_state_counterexample :
    ∃ r, flashcache_md_create sample_params (sample_dmc_new 1116758868998) 1 sample_env
        (sample_disk_dirty 3) = Outcome.returned r ∧ r.ret = 0 ∧
      2147483648 < r.dmc.size ∧
      (r.dmc.cache 2147483648).cache_state ≠ sample_params.INVALID ∧
      (r.dmc.cache 2147483648).dbn ≠ 0 := by
  obtain ⟨r, h, hret⟩ := @md_create_total sample_params (sample_dmc_new 1116758868998) 1
    sample_env (sample_disk_dirty 3) (by decide) (by decide) (by decide) (by decide)
    (by decide) (by decide) (fun _ => rfl) (fun _ => rfl)
  obtain ⟨hdmc, -, hhi, -, -⟩ :=
    md_create_post (show sample_params.wf by decide)
      (show (md_create_geometry sample_params (sample_dmc_new 1116758868998)).size
        ≤ 18446744071562067968 by decide) h hret
  have hsz0 : r.dmc.size
      = (md_create_geometry sample_params (sample_dmc_new 1116758868998)).size := by
    rw [hdmc]
  have hsz : r.dmc.size = 139586437120 := hsz0.trans (by decide)
  have hg := hhi 2147483648 (by decide)
  refine ⟨r, h, hret, by omega, ?_, ?_⟩
  · rw [hg]
    decide
  · rw [hg]
    decide

/-- C8: a successful flashcache_md_load ends with a write of sector 0 that
leaves on the device a superblock of state DIRTY with the `block_size`, `size`
and `assoc` that were read, whatever accepted state was there before; and a
call whose last request is a failed write does not return 0. -/
theorem md_load_rewrites_superblock {P : Params} {dmc : cache_c} {env : Env} {dev : Disk}
    {r : md_result} (h : flashcache_md_load P dmc env dev = Outcome.returned r) :
    (r.ret = 0 →
      r.io.log.head? = some ⟨io_dir.WRITE, 0, 1, 0⟩ ∧
      r.io.dev.sb.cache_sb_state = P.CACHE_MD_STATE_DIRTY ∧
      r.io.dev.sb.block_size = dev.sb.block_size ∧
      r.io.dev.sb.size = dev.sb.size ∧
      r.io.dev.sb.assoc = dev.sb.assoc) ∧
    (∀ op, r.io.log.head? = some op → op.rw = io_dir.WRITE → op.error ≠ 0 → r.ret ≠ 0) := by
  constructor
  · intro hret
    obtain ⟨-, s, -, -, hr⟩ := md_load_success h hret
    rw [hr]
    exact ⟨rfl, rfl, rfl, rfl, rfl⟩
  · intro op hop _ herr hret
    obtain ⟨-, s, -, -, hr⟩ := md_load_success h hret
    rw [hr] at hop
    simp only [List.head?_cons, Option.some.injEq] at hop
    rw [← hop] at herr
    exact herr rfl

/-- C8, at a sample device of three slots whose superblock is FASTCLEAN. -/
theorem md_load_rewrites_superblock_witness :
    ∃ r, flashcache_md_load sample_params (sample_dmc 0 0) sample_env (sample_disk_fastclean 3)
        = Outcome.returned r ∧ r.ret = 0 ∧
      r.io.log.head? = some ⟨io_dir.WRITE, 0, 1, 0⟩ ∧
      r.io.dev.sb.cache_sb_state = sample_params.CACHE_MD_STATE_DIRTY ∧
      r.io.dev.sb.block_size = 8 ∧ r.io.dev.sb.size = 3 ∧ r.io.dev.sb.assoc = 4 := by
  obtain ⟨r, h, hret⟩ := @md_load_total sample_params (sample_dmc 0 0) sample_env
    (sample_disk_fastclean 3) (by decide) (by decide) (by decide) (fun _ => rfl) (fun _ => rfl)
    (by decide)
  exact ⟨r, h, hret, (md_load_rewrites_superblock h).1 hret⟩

/-- C9 (amended): on a device whose superblock state is CLEAN and whose slot
count is below 2^31, after a successful flashcache_md_load every slot carries
the state and the dbn of its descriptor as they are on the device and does not
have both VALID and INVALID set; so a slot is DIRTY only where its descriptor
is DIRTY. -/
theorem md_load_clean {P : Params} {dmc : cache_c} {env : Env} {dev : Disk}
    {r : md_result} (hP : P.wf)
    (hst : dev.sb.cache_sb_state = P.CACHE_MD_STATE_CLEAN)
    (hsize : dev.sb.size < 2147483648)
    (h : flashcache_md_load P dmc env dev = Outcome.returned r) (hret : r.ret = 0) :
    ∀ i, i < dev.sb.size →
      (r.dmc.cache i).cache_state
        = (dev.md (1 + i / P.MD_BLOCKS_PER_SECTOR) (i % P.MD_BLOCKS_PER_SECTOR)).cache_state ∧
      (r.dmc.cache i).dbn
        = (dev.md (1 + i / P.MD_BLOCKS_PER_SECTOR) (i % P.MD_BLOCKS_PER_SECTOR)).dbn ∧
      (r.dmc.cache i).cache_state &&& (P.VALID ||| P.INVALID) ≠ (P.VALID ||| P.INVALID) ∧
      ((dev.md (1 + i / P.MD_BLOCKS_PER_SECTOR) (i % P.MD_BLOCKS_PER_SECTOR)).cache_state
          &&& P.DIRTY = 0 →
        (r.dmc.cache i).cache_state &&& P.DIRTY = 0) := by
  intro i hi
  obtain ⟨-, -, -, -, -, hslots⟩ := md_load_slots hP hsize h hret
  have hc : md_load_clean_shutdown P dev.sb = 1 := by
    unfold md_load_clean_shutdown
    rw [if_neg (fun hd => hP.2.2.2.2.1 (hd.symm.trans hst)), if_pos hst]
  obtain ⟨hs, hv⟩ := hslots i hi
  rw [hc] at hs hv
  have hs2 : r.dmc.cache i =
      { cache_state := (dev.md (1 + i / P.MD_BLOCKS_PER_SECTOR)
          (i % P.MD_BLOCKS_PER_SECTOR)).cache_state
        nr_queued := 0
        dbn := (dev.md (1 + i / P.MD_BLOCKS_PER_SECTOR) (i % P.MD_BLOCKS_PER_SECTOR)).dbn } := by
    rw [hs]
    unfold md_load_slot
    rw [if_pos (Or.inl (by decide))]
  rw [hs2]
  refine ⟨rfl, rfl, ?_, fun hd => hd⟩
  intro hboth
  exact hv ⟨Or.inl (by decide), hboth⟩

/-- C9 (amended), at a sample device of three slots whose superblock is
CLEAN. -/
theorem md_load_clean_witness :
    ∃ r, flashcache_md_load sample_params (sample_dmc 0 0) sample_env (sample_disk_clean 3)
        = Outcome.returned r ∧ r.ret = 0 ∧
      (r.dmc.cache 1).cache_state = ((sample_disk_clean 3).md 1 1).cache_state ∧
      (r.dmc.cache 1).dbn = ((sample_disk_clean 3).md 1 1).dbn := by
  obtain ⟨r, h, hret⟩ := @md_load_total sample_params (sample_dmc 0 0) sample_env
    (sample_disk_clean 3) (by decide) (by decide) (by decide) (fun _ => rfl) (fun _ => rfl)
    (by decide)
  have h1 := md_load_clean (by decide) rfl (by decide) h hret 1 (by decide)
  exact ⟨r, h, hret, h1.1, h1.2.1⟩

/-- C9 as stated fails.  On a device of three slots whose superblock is CLEAN
and whose descriptors are VALID | DIRTY, flashcache_md_load succeeds and slot 0
is DIRTY.  On a CLEAN superblock with 2^37 slots the read loop is skipped, and
slot 0 is uninitialised memory, neither INVALID nor VALID. -/
theorem md_load_clean_counterexample :
    (∃ r, flashcache_md_load sample_params (sample_dmc 0 0) sample_env (sample_disk_clean 3)
        = Outcome.returned r ∧ r.ret = 0 ∧
      (sample_disk_clean 3).sb.cache_sb_state = sample_params.CACHE_MD_STATE_CLEAN ∧
      (r.dmc.cache 0).cache_state &&& sample_params.DIRTY ≠ 0) ∧
    (∃ r, flashcache_md_load sample_params (sample_dmc 0 0) sample_env
        (sample_disk_clean 137438953472) = Outcome.returned r ∧ r.ret = 0 ∧
      (sample_disk_clean 137438953472).sb.cache_sb_state = sample_params.CACHE_MD_STATE_CLEAN ∧
      (r.dmc.cache 0).cache_state &&& sample_params.INVALID = 0 ∧
      (r.dmc.cache 0).cache_state &&& sample_params.VALID = 0) := by
  constructor
  · obtain ⟨r, h, hret⟩ := @md_load_total sample_params (sample_dmc 0 0) sample_env
      (sample_disk_clean 3) (by decide) (by decide) (by decide) (fun _ => rfl) (fun _ => rfl)
      (by decide)
    obtain ⟨-, -, -, -, -, hslots⟩ :=
      md_load_slots (show sample_params.wf by decide)
        (show (sample_disk_clean 3).sb.size < 2147483648 by decide) h hret
    refine ⟨r, h, hret, rfl, ?_⟩
    rw [(hslots 0 (by decide)).1]
    decide
  · have h := @md_load_skip sample_params (sample_dmc 0 0) sample_env
      (sample_disk_clean 137438953472) (by decide) (fun _ => rfl) (fun _ => rfl) (by decide)
    rw [if_neg (by decide)] at h
    exact ⟨_, h, rfl, rfl, by decide, by decide⟩

/-- C10: when flashcache_md_store has returned, a write of descriptor sectors
has failed and the write of sector 0 has succeeded, the superblock on the
device is UNSTABLE, and every flashcache_md_load from that device returns
failure.  The slot array of the instance is in memory, so that its size is far
below the bound `2^64 - 2^31` up to which the `int` counter of the loop indexes
it. -/
theorem md_store_unstable {P : Params} {dmc : cache_c} {env : Env} {dev : Disk}
    {r : md_result} (hP : P.wf) (hsize : dmc.size ≤ 18446744071562067968)
    (h : flashcache_md_store P dmc env dev = Outcome.returned r)
    (hd : ∃ op ∈ r.io.log, op.sector ≠ 0 ∧ op.error ≠ 0)
    (hs : ∃ op ∈ r.io.log, op.sector = 0 ∧ op.error = 0) :
    r.io.dev.sb.cache_sb_state = P.CACHE_MD_STATE_UNSTABLE ∧
    ∀ (dmc2 : cache_c) (env2 : Env),
      ∃ r2, flashcache_md_load P dmc2 env2 r.io.dev = Outcome.returned r2 ∧ r2.ret = 1 := by
  have hstate : r.io.dev.sb.cache_sb_state = P.CACHE_MD_STATE_UNSTABLE := by
    by_cases hv0 : env.vmalloc_ok 0 = false
    · unfold flashcache_md_store at h
      rw [if_pos hv0] at h
      simp only [Outcome.returned.injEq] at h
      rw [← h] at hd
      simp at hd
    obtain ⟨s, ops, hw, -, -, hwe, heq⟩ :=
      md_store_run P dmc env dev hP hsize (by simpa using hv0)
    have hlog : s.cdev.log = ops := by
      have := hw.hlog
      rw [List.append_nil] at this
      exact this
    have hwe0 := md_store_errors_zero hw hwe
    rw [h] at heq
    by_cases hp : sectors_expected P dmc.size ≠ sectors_expected P (int_loop_passes dmc.size)
    · rw [if_pos hp] at heq
      simp at heq
    rw [if_neg hp] at heq
    by_cases hv1 : env.vmalloc_ok 1 = false
    · rw [if_pos hv1] at heq
      simp only [Outcome.returned.injEq] at heq
      obtain ⟨op, hop, hsec, -⟩ := hs
      rw [heq] at hop
      simp only [hlog] at hop
      have := (hw.hops op hop).2
      omega
    rw [if_neg hv1] at heq
    simp only [Outcome.returned.injEq] at heq
    obtain ⟨op, hop, hsec, herr⟩ := hs
    obtain ⟨op2, hop2, hsec2, herr2⟩ := hd
    rw [heq] at hop hop2
    simp only [flashcache_dm_io_sync_vm_write_sb, hlog, List.mem_cons] at hop hop2
    have he0 : env.io_error ops.length = 0 := by
      rcases hop with rfl | hop
      · exact herr
      · have := (hw.hops op hop).2
        omega
    have hfail : s.write_errors ≠ 0 := by
      intro h0
      rcases hop2 with rfl | hop2
      · exact hsec2 rfl
      · exact herr2 (hwe0.mp h0 op2 hop2)
    rw [heq]
    simp only [flashcache_dm_io_sync_vm_write_sb, hlog, he0, if_true, md_store_header]
    rw [if_neg hfail]
  refine ⟨hstate, ?_⟩
  intro dmc2 env2
  obtain ⟨r2, h2, hret, -⟩ := md_load_reject P dmc2 env2 r.io.dev
    (md_unstable_rejected hP hstate)
  exact ⟨r2, h2, hret⟩

/-- C10, at a sample instance of five slots whose first write of descriptor
sectors fails. -/
theorem md_store_unstable_witness :
    ∃ r, flashcache_md_store sample_params (sample_dmc 5 3) sample_env_fail (sample_disk_dirty 0)
        = Outcome.returned r ∧
      r.io.dev.sb.cache_sb_state = sample_params.CACHE_MD_STATE_UNSTABLE ∧
      ∀ (dmc2 : cache_c) (env2 : Env),
        ∃ r2, flashcache_md_load sample_params dmc2 env2 r.io.dev = Outcome.returned r2 ∧
          r2.ret = 1 := by
  have hl : (Outcome.toOption (flashcache_md_store sample_params (sample_dmc 5 3)
      sample_env_fail (sample_disk_dirty 0))).map (fun r => r.io.log)
      = some [⟨io_dir.WRITE, 0, 1, 0⟩, ⟨io_dir.WRITE, 1, 1, 5⟩] := by
    decide
  cases h : flashcache_md_store sample_params (sample_dmc 5 3) sample_env_fail
      (sample_disk_dirty 0) with
  | returned r =>
    rw [h] at hl
    simp only [Outcome.toOption, Option.map_some', Option.some.injEq] at hl
    exact ⟨r, rfl, md_store_unstable (by decide) (by decide) h
      ⟨⟨io_dir.WRITE, 1, 1, 5⟩, by rw [hl]; simp, by decide, by decide⟩
      ⟨⟨io_dir.WRITE, 0, 1, 0⟩, by rw [hl]; simp, rfl, rfl⟩⟩
  | panic =>
    rw [h] at hl
    simp [Outcome.toOption] at hl
  | timeout =>
    rw [h] at hl
    simp [Outcome.toOption] at hl

/-- C11 (amended): with fast remove asserted, the removal of an instance of at
most 2^31 slots that holds at least one DIRTY slot, when no allocation and no
write fails, leaves on the cache device a superblock of state FASTCLEAN, which
is not the state DIRTY. -/
theorem dtr_fast_remove_superblock (P : Params) (fast_remove : Int)
    (sync_all : cache_inst → cache_inst) (s : cache_inst) (env : Env) (dev : Disk)
    (hP : P.wf) (hf : fast_remove ≠ 0) (hsize : s.dmc.size ≤ 2147483648)
    (hdirty : ∃ i, i < s.dmc.size ∧ (s.dmc.cache i).cache_state &&& P.DIRTY ≠ 0)
    (hv : ∀ k, env.vmalloc_ok k = true) (herr : ∀ k, env.io_error k = 0) :
    ∃ r, flashcache_dtr P fast_remove sync_all s env dev = Outcome.returned r ∧
      r.ret = 0 ∧ (∀ op ∈ r.io.log, op.error = 0) ∧
      r.io.dev.sb.cache_sb_state = P.CACHE_MD_STATE_FASTCLEAN ∧
      r.io.dev.sb.cache_sb_state ≠ P.CACHE_MD_STATE_DIRTY := by
  obtain ⟨r, h, hret, hok, hsb, -⟩ :=
    md_store_ok P s.dmc env dev hP hsize (hv 0) (hv 1) herr
  have hst : r.io.dev.sb.cache_sb_state = P.CACHE_MD_STATE_FASTCLEAN := by
    rw [hsb]
    unfold md_store_header
    simp only []
    obtain ⟨i, hi, hd⟩ := hdirty
    have hc : ¬ ((count_flag P.DIRTY s.dmc.cache s.dmc.size : Int) = 0) := by
      intro h0
      have h1 : count_flag P.DIRTY s.dmc.cache s.dmc.size = 0 := by omega
      exact hd ((count_flag_eq_zero _ _ _).mp h1 i hi)
    rw [if_pos trivial, if_neg hc]
  refine ⟨r, ?_, hret, hok, hst, ?_⟩
  · unfold flashcache_dtr
    rw [sync_for_remove_fast sync_all s hf]
    exact h
  · rw [hst]
    exact fun e => hP.2.2.2.2.2.1 e.symm

/-- C11 (amended), at a sample instance of five slots, two of them DIRTY. -/
theorem dtr_fast_remove_superblock_witness :
    ∃ r, flashcache_dtr sample_params 1 id (sample_inst (sample_dmc 5 3) 2) sample_env
        (sample_disk_dirty 5) = Outcome.returned r ∧
      r.ret = 0 ∧ (∀ op ∈ r.io.log, op.error = 0) ∧
      r.io.dev.sb.cache_sb_state = sample_params.CACHE_MD_STATE_FASTCLEAN ∧
      r.io.dev.sb.cache_sb_state ≠ sample_params.CACHE_MD_STATE_DIRTY :=
  dtr_fast_remove_superblock sample_params 1 id (sample_inst (sample_dmc 5 3) 2) sample_env
    (sample_disk_dirty 5) (by decide) (by decide) (by decide) ⟨3, by decide, by decide⟩
    (fun _ => rfl) (fun _ => rfl)

/-- C11 as stated fails.  With fast remove asserted, the removal of an instance
of five slots, two of them DIRTY, with no failed write leaves a superblock of
state FASTCLEAN, not DIRTY.  And on an instance of 2^31 + 2^37 slots whose slot
2^31 is DIRTY and whose slots below are not, the `int` counter of
flashcache_md_store ends the loop after 2^31 slots and the superblock written
is CLEAN. -/
theorem dtr_fast_remove_superblock_counterexample :
    (∃ r, flashcache_dtr sample_params 1 id (sample_inst (sample_dmc 5 3) 2) sample_env
        (sample_disk_dirty 5) = Outcome.returned r ∧
      (∀ op ∈ r.io.log, op.error = 0) ∧
      ((sample_dmc 5 3).cache 3).cache_state &&& sample_params.DIRTY ≠ 0 ∧
      r.io.dev.sb.cache_sb_state ≠ sample_params.CACHE_MD_STATE_DIRTY) ∧
    (∃ r, flashcache_dtr sample_params 1 id
        (sample_inst (sample_dmc 139586437120 2147483648) 1) sample_env
        (sample_disk_dirty 5) = Outcome.returned r ∧
      (∀ op ∈ r.io.log, op.error = 0) ∧
      ((sample_dmc 139586437120 2147483648).cache 2147483648).cache_state
        &&& sample_params.DIRTY ≠ 0 ∧
      r.io.dev.sb.cache_sb_state = sample_params.CACHE_MD_STATE_CLEAN) := by
  constructor
  · obtain ⟨r, h, hret, hok, hsb, -⟩ :=
      md_store_ok sample_params (sample_dmc 5 3) sample_env (sample_disk_dirty 5)
        (by decide) (by decide) rfl rfl (fun _ => rfl)
    refine ⟨r, ?_, hok, by decide, ?_⟩
    · rw [dtr_fast_eq sample_params id _ _ _ _ (by decide)]
      exact h
    · rw [hsb]
      decide
  · obtain ⟨s, ops, hw, horig, hlog, hwe, hnd, heq⟩ :=
      md_store_returned sample_params (sample_dmc 139586437120 2147483648) sample_env
        (sample_disk_dirty 5) (by decide) (by decide) rfl rfl (by decide)
    have hall : ∀ op ∈ ops, op.error = 0 := by
      intro op hop
      obtain ⟨n, hn⟩ := horig op hop
      rw [hn]
      rfl
    have hwe0 : s.write_errors = 0 := hwe.mpr hall
    have hnd0 : s.num_dirty = 0 := by
      apply hnd.mpr
      intro i hi
      have hi2 : ¬ 2147483648 ≤ i := by
        have : int_loop_passes (sample_dmc 139586437120 2147483648).size = 2147483648 := by
          decide
        omega
      show (if 2147483648 ≤ i then 66 else 2) &&& 64 = 0
      rw [if_neg hi2]
      decide
    rw [dtr_fast_eq sample_params id _ _ _ _ (by decide)]
    refine ⟨_, heq, ?_, by decide, ?_⟩
    · intro op hop
      simp only [flashcache_dm_io_sync_vm_write_sb, hlog, List.mem_cons] at hop
      rcases hop with rfl | hop
      · rfl
      · exact hall op hop
    · simp only [flashcache_dm_io_sync_vm_write_sb, md_store_header, hwe0, hnd0]
      rfl

/-- C12 (amended): flashcache_md_load does not validate the geometry of the
superblock.  For every superblock with an accepted state and fewer than 2^31
slots, whatever its `block_size`, `size` and `assoc` are and whatever the
capacity of the cache device is, the call returns 0 when no allocation and no
request fails and no descriptor that is taken over is both VALID and INVALID;
the instance then has `block_size`, `size` and `assoc` of the superblock. -/
theorem md_load_takes_geometry {P : Params} (dmc : cache_c) {env : Env} {dev : Disk}
    (hP : P.wf) (hsize : dev.sb.size < 2147483648)
    (hst : dev.sb.cache_sb_state = P.CACHE_MD_STATE_DIRTY ∨
      dev.sb.cache_sb_state = P.CACHE_MD_STATE_CLEAN ∨
      dev.sb.cache_sb_state = P.CACHE_MD_STATE_FASTCLEAN)
    (herr : ∀ k, env.io_error k = 0) (hv : ∀ k, env.vmalloc_ok k = true)
    (hver : ∀ i, i < dev.sb.size →
      md_load_verify P (md_load_clean_shutdown P dev.sb)
        (dev.md (1 + i / P.MD_BLOCKS_PER_SECTOR) (i % P.MD_BLOCKS_PER_SECTOR))) :
    ∃ r, flashcache_md_load P dmc env dev = Outcome.returned r ∧ r.ret = 0 ∧
      r.dmc.block_size = dev.sb.block_size ∧ r.dmc.size = dev.sb.size ∧
      r.dmc.assoc = dev.sb.assoc ∧ r.dmc.cache_devsize = dmc.cache_devsize := by
  obtain ⟨r, h, hret⟩ := md_load_total dmc hP hsize hst herr hv hver
  obtain ⟨-, s, -, -, hr⟩ := md_load_success h hret
  refine ⟨r, h, hret, ?_, ?_, ?_, ?_⟩ <;> rw [hr] <;> rfl

/-- C12 (amended), at a cache device of ten sectors whose sample superblock has
blocks of 3 sectors, 3 slots and sets of 5 slots. -/
theorem md_load_takes_geometry_witness :
    ∃ r, flashcache_md_load sample_params (sample_dmc_new 10) sample_env sample_disk_odd
        = Outcome.returned r ∧ r.ret = 0 ∧
      r.dmc.block_size = sample_disk_odd.sb.block_size ∧
      r.dmc.size = sample_disk_odd.sb.size ∧
      r.dmc.assoc = sample_disk_odd.sb.assoc ∧
      r.dmc.cache_devsize = (sample_dmc_new 10).cache_devsize :=
  md_load_takes_geometry (sample_dmc_new 10) (by decide) (by decide) (by decide)
    (fun _ => rfl) (fun _ => rfl) (by decide)

/-- C12 as stated fails: on a cache device of ten sectors whose superblock is
CLEAN with blocks of 3 sectors, 3 slots and sets of 5 slots, flashcache_md_load
reads the superblock and the one descriptor sector and returns 0, although none
of the three numbers is a power of two and the layout of 2 + 3 * 3 = 11 sectors
does not fit the device. -/
theorem md_load_takes_geometry_counterexample :
    ∃ r, flashcache_md_load sample_params (sample_dmc_new 10) sample_env sample_disk_odd
        = Outcome.returned r ∧ r.ret = 0 ∧
      r.dmc.block_size &&& (r.dmc.block_size - 1) ≠ 0 ∧
      r.dmc.size &&& (r.dmc.size - 1) ≠ 0 ∧
      r.dmc.assoc &&& (r.dmc.assoc - 1) ≠ 0 ∧
      r.dmc.cache_devsize < r.dmc.md_sectors + r.dmc.size * r.dmc.block_size ∧
      r.dmc.cache_devsize = 10 ∧
      r.io.log = [⟨io_dir.WRITE, 0, 1, 0⟩, ⟨io_dir.READ, 1, 1, 0⟩, ⟨io_dir.READ, 0, 1, 0⟩] := by
  obtain ⟨r, h, hret⟩ := @md_load_total sample_params (sample_dmc_new 10) sample_env
    sample_disk_odd (by decide) (by decide) (by decide) (fun _ => rfl) (fun _ => rfl)
    (by decide)
  have hlog : ((flashcache_md_load sample_params (sample_dmc_new 10) sample_env
      sample_disk_odd).toOption.map (fun r => r.io.log))
      = some [⟨io_dir.WRITE, 0, 1, 0⟩, ⟨io_dir.READ, 1, 1, 0⟩, ⟨io_dir.READ, 0, 1, 0⟩] := by
    decide
  rw [h] at hlog
  rw [show Outcome.toOption (Outcome.returned r) = some r from rfl,
    Option.map_some', Option.some.injEq] at hlog
  obtain ⟨-, s, -, -, hr⟩ := md_load_success h hret
  have hbs : r.dmc.block_size = 3 := by rw [hr]; rfl
  have hsz : r.dmc.size = 3 := by rw [hr]; rfl
  have has : r.dmc.assoc = 5 := by rw [hr]; rfl
  have hdev : r.dmc.cache_devsize = 10 := by rw [hr]; rfl
  have hmd : r.dmc.md_sectors = 2 := by rw [hr]; rfl
  refine ⟨r, h, hret, ?_, ?_, ?_, ?_, hdev, hlog⟩
  · rw [hbs]; decide
  · rw [hsz]; decide
  · rw [has]; decide
  · rw [hdev, hmd, hsz, hbs]; decide

/-- C13 (amended): after a successful flashcache_md_create and after a
successful flashcache_md_load, INDEX_TO_MD_SECTOR being the quotient by
MD_BLOCKS_PER_SECTOR, `md_sectors` is `size / MD_BLOCKS_PER_SECTOR + 2` with the
quotient rounded down, reduced modulo 2^32; where that number is below 2^32 it
is the quotient rounded up plus 2 when `size` is a multiple of
MD_BLOCKS_PER_SECTOR, and the quotient rounded up plus 1 otherwise. -/
theorem md_sectors_formula {P : Params} {dmc dmc2 : cache_c} {force : Int} {env env2 : Env}
    {dev dev2 : Disk} {r : md_result} (hP : P.wf) (hM : P.md_index_wf)
    (h : flashcache_md_create P dmc force env dev = Outcome.returned r ∨
      flashcache_md_load P dmc2 env2 dev2 = Outcome.returned r)
    (hret : r.ret = 0) :
    r.dmc.md_sectors = (r.dmc.size / P.MD_BLOCKS_PER_SECTOR + 2) % 4294967296 ∧
    (r.dmc.size / P.MD_BLOCKS_PER_SECTOR + 2 < 4294967296 →
      (r.dmc.size % P.MD_BLOCKS_PER_SECTOR = 0 →
        r.dmc.md_sectors
          = (r.dmc.size + P.MD_BLOCKS_PER_SECTOR - 1) / P.MD_BLOCKS_PER_SECTOR + 2) ∧
      (r.dmc.size % P.MD_BLOCKS_PER_SECTOR ≠ 0 →
        r.dmc.md_sectors
          = (r.dmc.size + P.MD_BLOCKS_PER_SECTOR - 1) / P.MD_BLOCKS_PER_SECTOR + 1)) := by
  have hmd : r.dmc.md_sectors = (r.dmc.size / P.MD_BLOCKS_PER_SECTOR + 2) % 4294967296 := by
    rcases h with h | h
    · obtain ⟨-, -, c, s1, s, -, -, -, -, hr⟩ := md_create_success h hret
      rw [hr]
      show (md_create_geometry P dmc).md_sectors
        = ((md_create_geometry P dmc).size / P.MD_BLOCKS_PER_SECTOR + 2) % 4294967296
      rw [md_create_geometry_md, hM]
    · obtain ⟨-, s, -, -, hr⟩ := md_load_success h hret
      rw [hr]
      show (md_load_geometry P dmc2 dev2.sb).md_sectors
        = ((md_load_geometry P dmc2 dev2.sb).size / P.MD_BLOCKS_PER_SECTOR + 2) % 4294967296
      rw [md_load_geometry_md, hM]
  refine ⟨hmd, ?_⟩
  intro hlt
  rw [hmd, Nat.mod_eq_of_lt hlt]
  obtain ⟨h0, h1⟩ := ceil_div_facts hP.1 r.dmc.size
  constructor
  · intro hz
    rw [h0 hz]
  · intro hnz
    rw [h1 hnz]

/-- C13 (amended), at a sample cache device of 100 sectors, which gives 12
slots. -/
theorem md_sectors_formula_witness :
    ∃ r, flashcache_md_create sample_params (sample_dmc_new 100) 1 sample_env
        (sample_disk_dirty 3) = Outcome.returned r ∧ r.ret = 0 ∧
      r.dmc.md_sectors
        = (r.dmc.size / sample_params.MD_BLOCKS_PER_SECTOR + 2) % 4294967296 := by
  obtain ⟨r, h, hret⟩ := @md_create_total sample_params (sample_dmc_new 100) 1 sample_env
    (sample_disk_dirty 3) (by decide) (by decide) (by decide) (by decide) (by decide)
    (by decide) (fun _ => rfl) (fun _ => rfl)
  exact ⟨r, h, hret,
    (@md_sectors_formula sample_params (sample_dmc_new 100) (sample_dmc 0 0) 1 sample_env
      sample_env (sample_disk_dirty 3) (sample_disk_dirty 3) r (by decide) (fun _ => rfl)
      (Or.inl h) hret).1⟩

/-- C13 as stated fails on a cache device of 100 sectors: flashcache_md_create
gives 12 slots, not a multiple of the 32 descriptors of a sector, and
`md_sectors` is 12 / 32 + 2 = 2, while the quotient rounded up plus 2 is 3. -/
theorem md_sectors_formula_counterexample :
    ∃ r, flashcache_md_create sample_params (sample_dmc_new 100) 1 sample_env
        (sample_disk_dirty 3) = Outcome.returned r ∧ r.ret = 0 ∧
      r.dmc.size = 12 ∧ r.dmc.md_sectors = 2 ∧
      r.dmc.md_sectors ≠ (r.dmc.size + sample_params.MD_BLOCKS_PER_SECTOR - 1)
        / sample_params.MD_BLOCKS_PER_SECTOR + 2 := by
  obtain ⟨r, h, hret⟩ := @md_create_total sample_params (sample_dmc_new 100) 1 sample_env
    (sample_disk_dirty 3) (by decide) (by decide) (by decide) (by decide) (by decide)
    (by decide) (fun _ => rfl) (fun _ => rfl)
  obtain ⟨-, -, c, s1, s, -, -, -, -, hr⟩ := md_create_success h hret
  have hsz : r.dmc.size = 12 := by rw [hr]; rfl
  have hmd : r.dmc.md_sectors = 2 := by rw [hr]; rfl
  refine ⟨r, h, hret, hsz, hmd, ?_⟩
  rw [hsz, hmd]
  decide

/-- C14 (amended): for every requested size `S` in sectors below 2^64, with
`block_size` and `assoc` at least 1 and with the first estimate of the metadata,
`INDEX_TO_MD_SECTOR(S / block_size) + 2`, below 2^31 and at most `S`, the slot
count computed by flashcache_md_create is a multiple of `assoc`, the largest one
not exceeding `(S - (INDEX_TO_MD_SECTOR(S / block_size) + 2)) / block_size`. -/
theorem md_create_size_aligned (P : Params) (dmc : cache_c)
    (_hbs : 1 ≤ dmc.block_size) (has : 1 ≤ dmc.assoc)
    (hS : dmc.size < 18446744073709551616)
    (h32 : P.INDEX_TO_MD_SECTOR (dmc.size / dmc.block_size) + 2 < 2147483648)
    (hest : P.INDEX_TO_MD_SECTOR (dmc.size / dmc.block_size) + 2 ≤ dmc.size) :
    (md_create_geometry P dmc).size % dmc.assoc = 0 ∧
    (md_create_geometry P dmc).size
      ≤ (dmc.size - (P.INDEX_TO_MD_SECTOR (dmc.size / dmc.block_size) + 2))
          / dmc.block_size ∧
    (dmc.size - (P.INDEX_TO_MD_SECTOR (dmc.size / dmc.block_size) + 2)) / dmc.block_size
      < (md_create_geometry P dmc).size + dmc.assoc := by
  rw [md_create_geometry_size P dmc hS h32 hest]
  refine ⟨Nat.mul_mod_left _ _, Nat.div_mul_le_self _ _, ?_⟩
  exact Nat.lt_div_mul_add (by omega)

/-- C14 (amended), at a sample cache device of 100 sectors with blocks of 8
sectors and sets of 4 slots. -/
theorem md_create_size_aligned_witness :
    (md_create_geometry sample_params (sample_dmc_new 100)).size % 4 = 0 ∧
    (md_create_geometry sample_params (sample_dmc_new 100)).size
      ≤ (100 - (sample_params.INDEX_TO_MD_SECTOR (100 / 8) + 2)) / 8 ∧
    (100 - (sample_params.INDEX_TO_MD_SECTOR (100 / 8) + 2)) / 8
      < (md_create_geometry sample_params (sample_dmc_new 100)).size + 4 :=
  md_create_size_aligned sample_params (sample_dmc_new 100) (by decide) (by decide)
    (by decide) (by decide) (by decide)

/-- C14 as stated fails for a requested size of 2^41 sectors with blocks of 8
sectors and sets of 4 slots: the first estimate of the metadata, 2^33 + 2
sectors, is cut to the 32 bits of the `int` field `md_sectors` and becomes 2,
and the slot count computed, 2^38 - 4, exceeds `(S - (2^33 + 2)) / 8`. -/
theorem md_create_size_aligned_counterexample :
    sample_params.INDEX_TO_MD_SECTOR
        ((sample_dmc_new 2199023255552).size / (sample_dmc_new 2199023255552).block_size) + 2
      ≤ (sample_dmc_new 2199023255552).size ∧
    (md_create_geometry sample_params (sample_dmc_new 2199023255552)).size = 274877906940 ∧
    ((sample_dmc_new 2199023255552).size
        - (sample_params.INDEX_TO_MD_SECTOR
            ((sample_dmc_new 2199023255552).size / (sample_dmc_new 2199023255552).block_size)
          + 2))
      / (sample_dmc_new 2199023255552).block_size
      < (md_create_geometry sample_params (sample_dmc_new 2199023255552)).size := by
  decide

/-- C15 (amended): where `block_size` and `assoc` are not zero and the end of the
layout, `md_sectors + size * block_size` with `md_sectors` read as the `int` it
is, is not negative and below 2^64, flashcache_md_create returns failure
without a write whenever the end of the layout exceeds the size of the cache
device in sectors; and after a successful create the payload extent of every
slot `i < size`, the `block_size` sectors from sector
`md_sectors + i * block_size`, lies within the cache device. -/
theorem md_create_fits {P : Params} {dmc : cache_c} {force : Int} {env : Env} {dev : Disk}
    (hz : ¬ (dmc.block_size = 0 ∨ dmc.assoc = 0))
    (hrep0 : 0 ≤ int32 ((md_create_geometry P dmc).md_sectors : Int)
      + ((md_create_geometry P dmc).size : Int) * (md_create_geometry P dmc).block_size)
    (hrep : int32 ((md_create_geometry P dmc).md_sectors : Int)
      + ((md_create_geometry P dmc).size : Int) * (md_create_geometry P dmc).block_size
      < 18446744073709551616) :
    (((md_create_geometry P dmc).cache_devsize : Int)
        < int32 ((md_create_geometry P dmc).md_sectors : Int)
          + ((md_create_geometry P dmc).size : Int) * (md_create_geometry P dmc).block_size →
      ∃ r, flashcache_md_create P dmc force env dev = Outcome.returned r ∧ r.ret = 1 ∧
        (∀ op ∈ r.io.log, op.rw ≠ io_dir.WRITE) ∧ r.io.dev = dev) ∧
    (∀ r, flashcache_md_create P dmc force env dev = Outcome.returned r → r.ret = 0 →
      ∀ i, i < r.dmc.size →
        int32 (r.dmc.md_sectors : Int) + (i : Int) * r.dmc.block_size + r.dmc.block_size
          ≤ r.dmc.cache_devsize) := by
  have hu : ((uint64 (int32 ((md_create_geometry P dmc).md_sectors : Int)
      + ((md_create_geometry P dmc).size : Int) * ((md_create_geometry P dmc).block_size : Int))
        : Nat) : Int)
      = int32 ((md_create_geometry P dmc).md_sectors : Int)
        + ((md_create_geometry P dmc).size : Int) * (md_create_geometry P dmc).block_size := by
    rw [uint64_of_nonneg hrep0 hrep]
    exact Int.toNat_of_nonneg hrep0
  constructor
  · intro hex
    have hgt : uint64 (int32 ((md_create_geometry P dmc).md_sectors : Int)
        + ((md_create_geometry P dmc).size : Int)
          * ((md_create_geometry P dmc).block_size : Int))
        > (md_create_geometry P dmc).cache_devsize := by
      have : ((md_create_geometry P dmc).cache_devsize : Int)
          < ((uint64 (int32 ((md_create_geometry P dmc).md_sectors : Int)
            + ((md_create_geometry P dmc).size : Int)
              * ((md_create_geometry P dmc).block_size : Int)) : Nat) : Int) := by
        rw [hu]
        exact hex
      exact_mod_cast this
    unfold flashcache_md_create
    simp only []
    by_cases hv : env.vmalloc_ok 0 = false
    · rw [if_pos hv]
      exact ⟨_, rfl, rfl, by simp, rfl⟩
    rw [if_neg hv]
    by_cases hr : (flashcache_dm_io_sync_vm_read_sb env { dev := dev, log := [] }).1 ≠ 0
    · rw [if_pos hr]
      exact ⟨_, rfl, rfl, by simp [flashcache_dm_io_sync_vm_read_sb], rfl⟩
    rw [if_neg hr]
    by_cases hst : force = 0 ∧
        ((flashcache_dm_io_sync_vm_read_sb env
          { dev := dev, log := [] }).2.1.cache_sb_state = P.CACHE_MD_STATE_DIRTY ∨
        (flashcache_dm_io_sync_vm_read_sb env
          { dev := dev, log := [] }).2.1.cache_sb_state = P.CACHE_MD_STATE_CLEAN ∨
        (flashcache_dm_io_sync_vm_read_sb env
          { dev := dev, log := [] }).2.1.cache_sb_state = P.CACHE_MD_STATE_FASTCLEAN)
    · rw [if_pos hst]
      exact ⟨_, rfl, rfl, by simp [flashcache_dm_io_sync_vm_read_sb], rfl⟩
    rw [if_neg hst, if_neg hz, if_pos hgt]
    exact ⟨_, rfl, rfl, by simp [flashcache_dm_io_sync_vm_read_sb], rfl⟩
  · intro r h hret i hi
    obtain ⟨-, hfit⟩ := md_create_success_fit h hret
    obtain ⟨-, -, c, s1, s, -, -, -, -, hr⟩ := md_create_success h hret
    have hle : ((uint64 (int32 ((md_create_geometry P dmc).md_sectors : Int)
        + ((md_create_geometry P dmc).size : Int)
          * ((md_create_geometry P dmc).block_size : Int)) : Nat) : Int)
        ≤ (md_create_geometry P dmc).cache_devsize := by
      have := Nat.le_of_not_lt hfit
      exact_mod_cast this
    rw [hu] at hle
    have e1 : r.dmc.md_sectors = (md_create_geometry P dmc).md_sectors := by rw [hr]
    have e2 : r.dmc.block_size = (md_create_geometry P dmc).block_size := by rw [hr]
    have e3 : r.dmc.size = (md_create_geometry P dmc).size := by rw [hr]
    have e4 : r.dmc.cache_devsize = (md_create_geometry P dmc).cache_devsize := by rw [hr]
    rw [e3] at hi
    rw [e1, e2, e4]
    have hm : (i + 1) * (md_create_geometry P dmc).block_size
        ≤ (md_create_geometry P dmc).size * (md_create_geometry P dmc).block_size :=
      Nat.mul_le_mul_right _ hi
    rw [Nat.succ_mul] at hm
    have hm2 : ((i * (md_create_geometry P dmc).block_size
        + (md_create_geometry P dmc).block_size : Nat) : Int)
        ≤ (((md_create_geometry P dmc).size * (md_create_geometry P dmc).block_size : Nat)
          : Int) := by exact_mod_cast hm
    push_cast at hm2
    omega

/-- C15 (amended), at a sample request of 1000 sectors on a cache device of 100
sectors, which is refused, and at a sample request of 100 sectors on a device
of 100 sectors, which succeeds. -/
theorem md_create_fits_witness :
    (∃ r, flashcache_md_create sample_params sample_dmc_small 1 sample_env
        (sample_disk_dirty 3) = Outcome.returned r ∧ r.ret = 1 ∧
      (∀ op ∈ r.io.log, op.rw ≠ io_dir.WRITE) ∧ r.io.dev = sample_disk_dirty 3) ∧
    (∃ r, flashcache_md_create sample_params (sample_dmc_new 100) 1 sample_env
        (sample_disk_dirty 3) = Outcome.returned r ∧ r.ret = 0 ∧
      ∀ i, i < r.dmc.size →
        int32 (r.dmc.md_sectors : Int) + (i : Int) * r.dmc.block_size + r.dmc.block_size
          ≤ r.dmc.cache_devsize) := by
  refine ⟨(@md_create_fits sample_params sample_dmc_small 1 sample_env (sample_disk_dirty 3)
    (by decide) (by decide) (by decide)).1 (by decide), ?_⟩
  obtain ⟨r, h, hret⟩ := @md_create_total sample_params (sample_dmc_new 100) 1 sample_env
    (sample_disk_dirty 3) (by decide) (by decide) (by decide) (by decide) (by decide)
    (by decide) (fun _ => rfl) (fun _ => rfl)
  exact ⟨r, h, hret,
    (@md_create_fits sample_params (sample_dmc_new 100) 1 sample_env (sample_disk_dirty 3)
      (by decide) (by decide) (by decide)).2 r h hret⟩

/-- C15 as stated fails for a requested size of one sector with blocks of 2^29
sectors and sets of one slot on a cache device of 2^30 sectors.  The
subtraction of the two metadata sectors from the size wraps around, the slot
count becomes 2^35 - 1 and `md_sectors` 2^30 + 1, a positive `int`, and the end
of the layout, 2^30 + 1 + (2^35 - 1) * 2^29, wraps around in 64 bits to
2^29 + 1, below the device size: the test passes, the descriptor loop runs, and
the debug test on the sector count stops the kernel. -/
theorem md_create_fits_counterexample :
    (md_create_geometry sample_params sample_dmc_wrap).size = 34359738367 ∧
    int32 ((md_create_geometry sample_params sample_dmc_wrap).md_sectors : Int) = 1073741825 ∧
    ((md_create_geometry sample_params sample_dmc_wrap).cache_devsize : Int)
      < int32 ((md_create_geometry sample_params sample_dmc_wrap).md_sectors : Int)
        + ((md_create_geometry sample_params sample_dmc_wrap).size : Int)
          * (md_create_geometry sample_params sample_dmc_wrap).block_size ∧
    flashcache_md_create sample_params sample_dmc_wrap 1 sample_env (sample_disk_dirty 3)
      = Outcome.panic :=
  ⟨by decide, by decide, by decide,
    md_create_panic (by decide) (by decide) (by decide) (by decide) (by decide) (by decide)
      (fun _ => rfl) (fun _ => rfl)⟩

/-- C16 (amended): flashcache_md_store run twice on the same instance of at
most 2^31 slots, with no failed allocation and no failed request, leaves after
the second run the superblock that the first run left and, for every slot
`i < size`, the descriptor that the first run left. -/
theorem md_store_twice (P : Params) (dmc : cache_c) (env env2 : Env) (dev : Disk)
    (hP : P.wf) (hsize : dmc.size ≤ 2147483648)
    (hv : ∀ k, env.vmalloc_ok k = true) (herr : ∀ k, env.io_error k = 0)
    (hv2 : ∀ k, env2.vmalloc_ok k = true) (herr2 : ∀ k, env2.io_error k = 0) :
    ∃ r1 r2, flashcache_md_store P dmc env dev = Outcome.returned r1 ∧ r1.ret = 0 ∧
      flashcache_md_store P dmc env2 r1.io.dev = Outcome.returned r2 ∧ r2.ret = 0 ∧
      r2.io.dev.sb = r1.io.dev.sb ∧
      ∀ i, i < dmc.size →
        r2.io.dev.md (1 + i / P.MD_BLOCKS_PER_SECTOR) (i % P.MD_BLOCKS_PER_SECTOR)
          = r1.io.dev.md (1 + i / P.MD_BLOCKS_PER_SECTOR) (i % P.MD_BLOCKS_PER_SECTOR) := by
  obtain ⟨r1, h1, hret1, -, hsb1, hmd1⟩ :=
    md_store_ok P dmc env dev hP hsize (hv 0) (hv 1) herr
  obtain ⟨r2, h2, hret2, -, hsb2, hmd2⟩ :=
    md_store_ok P dmc env2 r1.io.dev hP hsize (hv2 0) (hv2 1) herr2
  refine ⟨r1, r2, h1, hret1, h2, hret2, hsb2.trans hsb1.symm, ?_⟩
  intro i hi
  rw [hmd2 i hi, hmd1 i hi]

/-- C16 (amended), at a sample instance of five slots. -/
theorem md_store_twice_witness :
    ∃ r1 r2, flashcache_md_store sample_params (sample_dmc 5 3) sample_env
        (sample_disk_dirty 0) = Outcome.returned r1 ∧ r1.ret = 0 ∧
      flashcache_md_store sample_params (sample_dmc 5 3) sample_env_buf r1.io.dev
        = Outcome.returned r2 ∧ r2.ret = 0 ∧
      r2.io.dev.sb = r1.io.dev.sb ∧
      ∀ i, i < (sample_dmc 5 3).size →
        r2.io.dev.md (1 + i / sample_params.MD_BLOCKS_PER_SECTOR)
            (i % sample_params.MD_BLOCKS_PER_SECTOR)
          = r1.io.dev.md (1 + i / sample_params.MD_BLOCKS_PER_SECTOR)
            (i % sample_params.MD_BLOCKS_PER_SECTOR) :=
  md_store_twice sample_params (sample_dmc 5 3) sample_env sample_env_buf
    (sample_disk_dirty 0) (by decide) (by decide) (fun _ => rfl) (fun _ => rfl)
    (fun _ => rfl) (fun _ => rfl)

/-- C16 as stated fails on an instance of five slots: the one descriptor sector
that flashcache_md_store writes has room for 32 descriptors, and the 27 behind
the five slots are what the freshly allocated buffer held.  Two runs without
any error leave different content at position 5 of sector 1. -/
theorem md_store_twice_counterexample :
    ∃ r1 r2, flashcache_md_store sample_params (sample_dmc 5 3) sample_env
        (sample_disk_dirty 0) = Outcome.returned r1 ∧ r1.ret = 0 ∧
      flashcache_md_store sample_params (sample_dmc 5 3) sample_env_buf r1.io.dev
        = Outcome.returned r2 ∧ r2.ret = 0 ∧
      (∀ op ∈ r1.io.log, op.error = 0) ∧ (∀ op ∈ r2.io.log, op.error = 0) ∧
      r1.io.dev.md 1 5 ≠ r2.io.dev.md 1 5 := by
  obtain ⟨r1, h1, hret1, hok1, -, -⟩ :=
    md_store_ok sample_params (sample_dmc 5 3) sample_env (sample_disk_dirty 0)
      (by decide) (by decide) rfl rfl (fun _ => rfl)
  obtain ⟨r2, h2, hret2, hok2, -, -⟩ :=
    md_store_ok sample_params (sample_dmc 5 3) sample_env_buf r1.io.dev
      (by decide) (by decide) rfl rfl (fun _ => rfl)
  have hd : (Outcome.toOption (flashcache_md_store sample_params (sample_dmc 5 3) sample_env
      (sample_disk_dirty 0))).bind (fun a =>
        (Outcome.toOption (flashcache_md_store sample_params (sample_dmc 5 3) sample_env_buf
          a.io.dev)).map (fun b => (a.io.dev.md 1 5, b.io.dev.md 1 5)))
      = some (⟨0, 0⟩, ⟨9, 9⟩) := by
    decide
  rw [h1, show Outcome.toOption (Outcome.returned r1) = some r1 from rfl,
    Option.some_bind, h2, show Outcome.toOption (Outcome.returned r2) = some r2 from rfl,
    Option.map_some', Option.some.injEq, Prod.mk.injEq] at hd
  refine ⟨r1, r2, h1, hret1, h2, hret2, hok1, hok2, ?_⟩
  rw [hd.1, hd.2]
  decide

/-- C17 (amended): after a successful flashcache_md_load from a superblock of
fewer than 2^31 slots, whatever the accepted state and the descriptors are, no
slot is both VALID and INVALID, and a slot satisfies DIRTY implies VALID
whenever its descriptor on the device does. -/
theorem md_load_slot_states {P : Params} {dmc : cache_c} {env : Env} {dev : Disk}
    {r : md_result} (hP : P.wf) (hF : P.flags_wf) (hsize : dev.sb.size < 2147483648)
    (h : flashcache_md_load P dmc env dev = Outcome.returned r) (hret : r.ret = 0) :
    ∀ i, i < dev.sb.size →
      (r.dmc.cache i).cache_state &&& (P.VALID ||| P.INVALID) ≠ (P.VALID ||| P.INVALID) ∧
      (((dev.md (1 + i / P.MD_BLOCKS_PER_SECTOR) (i % P.MD_BLOCKS_PER_SECTOR)).cache_state
            &&& P.DIRTY ≠ 0 →
          (dev.md (1 + i / P.MD_BLOCKS_PER_SECTOR) (i % P.MD_BLOCKS_PER_SECTOR)).cache_state
            &&& P.VALID ≠ 0) →
        (r.dmc.cache i).cache_state &&& P.DIRTY ≠ 0 →
        (r.dmc.cache i).cache_state &&& P.VALID ≠ 0) := by
  intro i hi
  obtain ⟨-, -, -, -, -, hslots⟩ := md_load_slots hP hsize h hret
  obtain ⟨hs, hv⟩ := hslots i hi
  rw [hs]
  unfold md_load_slot
  by_cases hc : md_load_clean_shutdown P dev.sb ≠ 0 ∨
      (dev.md (1 + i / P.MD_BLOCKS_PER_SECTOR) (i % P.MD_BLOCKS_PER_SECTOR)).cache_state
        &&& P.DIRTY ≠ 0
  · rw [if_pos hc]
    exact ⟨fun hb => hv ⟨hc, hb⟩, fun hd => hd⟩
  · rw [if_neg hc]
    refine ⟨?_, ?_⟩
    · show P.INVALID &&& (P.VALID ||| P.INVALID) ≠ (P.VALID ||| P.INVALID)
      rw [land_lor_self]
      exact fun e => hF.2 e.symm
    · intro _ hd
      exact (hd hF.1).elim

/-- C17 (amended), at a sample device of three slots whose superblock is DIRTY
and whose descriptors are VALID | DIRTY. -/
theorem md_load_slot_states_witness :
    ∃ r, flashcache_md_load sample_params (sample_dmc 0 0) sample_env (sample_disk_dirty 3)
        = Outcome.returned r ∧ r.ret = 0 ∧
      (r.dmc.cache 2).cache_state &&& (sample_params.VALID ||| sample_params.INVALID)
        ≠ (sample_params.VALID ||| sample_params.INVALID) ∧
      ((r.dmc.cache 2).cache_state &&& sample_params.DIRTY ≠ 0 →
        (r.dmc.cache 2).cache_state &&& sample_params.VALID ≠ 0) := by
  obtain ⟨r, h, hret⟩ := @md_load_total sample_params (sample_dmc 0 0) sample_env
    (sample_disk_dirty 3) (by decide) (by decide) (by decide) (fun _ => rfl) (fun _ => rfl)
    (by decide)
  have h1 := md_load_slot_states (by decide) (by decide) (by decide) h hret 2 (by decide)
  exact ⟨r, h, hret, h1.1, h1.2 (by decide)⟩

/-- C17 as stated fails.  On a device of three slots whose superblock is DIRTY
and whose descriptors have the DIRTY flag without the VALID flag,
flashcache_md_load returns 0 and slot 0 is DIRTY and not VALID.  On a DIRTY
superblock with 2^37 slots the read loop is skipped, and slot 0 is uninitialised
memory, here both VALID and INVALID. -/
theorem md_load_slot_states_counterexample :
    (∃ r, flashcache_md_load sample_params (sample_dmc 0 0) sample_env
        (sample_disk_dirty_only 3) = Outcome.returned r ∧ r.ret = 0 ∧
      (r.dmc.cache 0).cache_state &&& sample_params.DIRTY ≠ 0 ∧
      (r.dmc.cache 0).cache_state &&& sample_params.VALID = 0) ∧
    (∃ r, flashcache_md_load sample_params (sample_dmc 0 0) sample_env_junk
        (sample_disk_dirty 137438953472) = Outcome.returned r ∧ r.ret = 0 ∧
      (r.dmc.cache 0).cache_state &&& (sample_params.VALID ||| sample_params.INVALID)
        = (sample_params.VALID ||| sample_params.INVALID)) := by
  constructor
  · obtain ⟨r, h, hret⟩ := @md_load_total sample_params (sample_dmc 0 0) sample_env
      (sample_disk_dirty_only 3) (by decide) (by decide) (by decide) (fun _ => rfl)
      (fun _ => rfl) (by decide)
    obtain ⟨-, -, -, -, -, hslots⟩ :=
      md_load_slots (show sample_params.wf by decide)
        (show (sample_disk_dirty_only 3).sb.size < 2147483648 by decide) h hret
    refine ⟨r, h, hret, ?_, ?_⟩
    · rw [(hslots 0 (by decide)).1]
      decide
    · rw [(hslots 0 (by decide)).1]
      decide
  · have h := @md_load_skip sample_params (sample_dmc 0 0) sample_env_junk
      (sample_disk_dirty 137438953472) (by decide) (fun _ => rfl) (fun _ => rfl) (by decide)
    rw [if_neg (by decide)] at h
    exact ⟨_, h, rfl, by decide⟩

/-- C18 (amended): when flashcache_ctr returns 0 with an instance of fewer than
2^31 slots, the `nr_dirty` of every set `t < size / assoc` is the number of
DIRTY slots among the slots `t*assoc .. t*assoc + assoc - 1`, hence at most
`assoc`; the `nr_dirty` of the instance is the number of DIRTY slots; and
`cached_blocks` is the number of VALID slots. -/
theorem ctr_dirty_counters (P : Params) (C : ctr_consts) (env : ctr_env) (args : ctr_args)
    (dev : Disk) (hC : C.wf) {res : ctr_result}
    (h : flashcache_ctr P C env args dev = Outcome.returned res) (hr : res.r = 0)
    (hsize : res.inst.dmc.size < 2147483648) :
    (∀ t, t < res.inst.dmc.size / res.inst.dmc.assoc →
      (res.inst.cache_sets t).nr_dirty
        = count_flag P.DIRTY (fun j => res.inst.dmc.cache (t * res.inst.dmc.assoc + j))
            res.inst.dmc.assoc ∧
      (res.inst.cache_sets t).nr_dirty ≤ res.inst.dmc.assoc) ∧
    res.inst.nr_dirty = count_flag P.DIRTY res.inst.dmc.cache res.inst.dmc.size ∧
    res.inst.cached_blocks = count_flag P.VALID res.inst.dmc.cache res.inst.dmc.size := by
  obtain ⟨s, io, hc, hd, hshift, hi⟩ := ctr_success_md P C env args dev hC h hr
  obtain ⟨hdmc, -⟩ := ctr_init_dmc hC hi hr
  obtain ⟨k1, k2, k3⟩ := ctr_init_counts hC hi hr hc hd
  rw [hdmc]
  rw [hdmc] at hsize
  refine ⟨fun t ht => ?_, ?_, ?_⟩
  · have ha : s.dmc.assoc ≠ 0 := by
      intro h0
      rw [h0, Nat.div_zero] at ht
      omega
    have hle : t * s.dmc.assoc + s.dmc.assoc ≤ s.dmc.size := by
      have h1 : (t + 1) * s.dmc.assoc ≤ s.dmc.size / s.dmc.assoc * s.dmc.assoc :=
        Nat.mul_le_mul_right _ ht
      have h2 := Nat.div_mul_le_self s.dmc.size s.dmc.assoc
      rw [Nat.add_mul, Nat.one_mul] at h1
      omega
    have hcov := ctr_sets_cover s.dmc.size s.dmc.assoc ha (by omega)
    have hset := k3 t (by rw [hshift]; omega)
    rw [count_set_after P.DIRTY s.dmc.assoc t s.dmc.cache ha s.dmc.size hle] at hset
    have hcl := count_flag_le P.DIRTY (fun j => s.dmc.cache (t * s.dmc.assoc + j))
      s.dmc.assoc
    rw [uint32_natCast_mod, Nat.mod_eq_of_lt (by omega)] at hset
    rw [hset]
    exact ⟨rfl, hcl⟩
  · rw [k2]
    have hcl := count_flag_le P.DIRTY s.dmc.cache s.dmc.size
    apply int32_of_range <;> omega
  · rw [k1]
    have hcl := count_flag_le P.VALID s.dmc.cache s.dmc.size
    exact uint64_natCast (by omega)

/-- C18 (amended), at the reload of the sample device of 8 slots in sets of 4,
all of them VALID and DIRTY: the construction returns 0 with `nr_dirty` 8,
`cached_blocks` 8 and 4 dirty slots in set 1, and the counters are the counts
of the flags. -/
theorem ctr_dirty_counters_witness :
    ∃ res, flashcache_ctr sample_params sample_consts (sample_ctr_env 1000 sample_env)
        (sample_args 3 (some 1) none none none) (sample_disk_dirty 8)
          = Outcome.returned res ∧
      res.r = 0 ∧ res.inst.dmc.size = 8 ∧ res.inst.dmc.assoc = 4 ∧
      res.inst.nr_dirty = 8 ∧ res.inst.cached_blocks = 8 ∧
      (res.inst.cache_sets 1).nr_dirty = 4 ∧
      (∀ t, t < res.inst.dmc.size / res.inst.dmc.assoc →
        (res.inst.cache_sets t).nr_dirty
          = count_flag sample_params.DIRTY
              (fun j => res.inst.dmc.cache (t * res.inst.dmc.assoc + j))
              res.inst.dmc.assoc ∧
        (res.inst.cache_sets t).nr_dirty ≤ res.inst.dmc.assoc) ∧
      res.inst.nr_dirty
        = count_flag sample_params.DIRTY res.inst.dmc.cache res.inst.dmc.size ∧
      res.inst.cached_blocks
        = count_flag sample_params.VALID res.inst.dmc.cache res.inst.dmc.size := by
  have hr : ((flashcache_ctr sample_params sample_consts (sample_ctr_env 1000 sample_env)
      (sample_args 3 (some 1) none none none) (sample_disk_dirty 8)).toOption.map
        (fun res => (res.r, res.inst.dmc.size, res.inst.dmc.assoc, res.inst.nr_dirty,
          res.inst.cached_blocks, (res.inst.cache_sets 1).nr_dirty)))
      = some (0, 8, 4, 8, 8, 4) := by decide
  cases hc : flashcache_ctr sample_params sample_consts (sample_ctr_env 1000 sample_env)
      (sample_args 3 (some 1) none none none) (sample_disk_dirty 8) with
  | returned res =>
    rw [hc] at hr
    rw [show Outcome.toOption (Outcome.returned res) = some res from rfl,
      Option.map_some', Option.some.injEq, Prod.mk.injEq, Prod.mk.injEq, Prod.mk.injEq,
      Prod.mk.injEq, Prod.mk.injEq] at hr
    obtain ⟨h0, h1, h2, h3, h4, h5⟩ := hr
    exact ⟨res, rfl, h0, h1, h2, h3, h4, h5,
      ctr_dirty_counters sample_params sample_consts (sample_ctr_env 1000 sample_env)
        (sample_args 3 (some 1) none none none) (sample_disk_dirty 8) (by decide) hc h0
        (by rw [h1]; decide)⟩
  | panic => rw [hc] at hr; simp [Outcome.toOption] at hr
  | timeout => rw [hc] at hr; simp [Outcome.toOption] at hr

/-- C18, a case where it fails: the reload of a device whose DIRTY superblock
gives 2^37 slots returns 0 with the slot array as `vmalloc` left it, here every
slot DIRTY; the 2^37 increments of the `int` counter `nr_dirty` leave it at 0,
while 2^37 slots are DIRTY. -/
theorem ctr_dirty_counters_counterexample :
    ∃ res, flashcache_ctr sample_params sample_consts sample_ctr_env_junk
        (sample_args 3 (some 1) none none none) (sample_disk_dirty 137438953472)
          = Outcome.returned res ∧
      res.r = 0 ∧ res.inst.nr_dirty = 0 ∧
      count_flag sample_params.DIRTY res.inst.dmc.cache res.inst.dmc.size
        = 137438953472 := by
  have hC : sample_consts.wf := by decide
  have he := ctr_reload_eq sample_params sample_consts sample_ctr_env_junk
    (sample_args 3 (some 1) none none none) (sample_disk_dirty 137438953472) hC
    (by decide) (by decide) (show (sample_args 3 (some 1) none none none).persistence
      = some 1 from rfl) (by decide)
  have hl := @md_load_skip sample_params
    (ctr_setup sample_params sample_ctr_env_junk (sample_args 3 (some 1) none none none)).dmc
    sample_ctr_env_junk.md (sample_disk_dirty 137438953472) (by decide) (fun _ => rfl)
    (fun _ => rfl) (by decide)
  rw [if_neg (by decide)] at hl
  rw [hl, ctr_after_md_ok _ _ _ _ _ rfl] at he
  have key : ∀ (s : cache_inst) (io : Io), s.dmc.assoc ≠ 0 →
      s.dmc.size >>> s.dmc.consecutive_shift ≠ 0 → int32 s.dmc.md_sectors - 1 ≠ 0 →
      flashcache_ctr sample_params sample_consts sample_ctr_env_junk
        (sample_args 3 (some 1) none none none) (sample_disk_dirty 137438953472)
          = ctr_init sample_params sample_consts sample_ctr_env_junk s io →
      s.cached_blocks = 0 → s.nr_dirty = 0 →
      (∀ i, (s.dmc.cache i).cache_state &&& sample_params.DIRTY ≠ 0) →
      s.dmc.size = 137438953472 →
      ∃ res, flashcache_ctr sample_params sample_consts sample_ctr_env_junk
          (sample_args 3 (some 1) none none none) (sample_disk_dirty 137438953472)
            = Outcome.returned res ∧
        res.r = 0 ∧ res.inst.nr_dirty = 0 ∧
        count_flag sample_params.DIRTY res.inst.dmc.cache res.inst.dmc.size
          = 137438953472 := by
    intro s io ha hn hm he hc hd hall hsz
    obtain ⟨res, hi, hr⟩ := ctr_init_total sample_params sample_consts sample_ctr_env_junk
      s io rfl rfl ha hn hm
    rw [hi] at he
    obtain ⟨hdmc, -⟩ := ctr_init_dmc hC hi hr
    obtain ⟨-, k2, -⟩ := ctr_init_counts hC hi hr hc hd
    have hcount : count_flag sample_params.DIRTY s.dmc.cache s.dmc.size = 137438953472 := by
      rw [hsz]
      exact count_flag_all sample_params.DIRTY _ hall 137438953472
    refine ⟨res, he, hr, ?_, ?_⟩
    · rw [k2, hcount]
      decide
    · rw [hdmc]
      exact hcount
  have h67 : (67 : Nat) &&& sample_params.DIRTY ≠ 0 := by decide
  exact key _ _ (by decide) (by decide) (by decide) he rfl rfl (fun _ => h67) rfl

/-- C19 (amended), with every supplied value taken as the 32 bits that `sscanf`
leaves of it: in the mode CACHE_CREATE or CACHE_FORCECREATE, flashcache_ctr fails,
with no request issued to the cache device and with -EINVAL where the steps
before the arguments are looked at succeed, if a block size is given that is 0
or not a power of two, or an associativity that is 0, not a power of two, above
FLASHCACHE_MAX_ASSOC or above the requested size; and where it returns 0,
`block_size` and `assoc` are non-zero powers of two, `assoc` is at most
FLASHCACHE_MAX_ASSOC, and a value not given is DEFAULT_BLOCK_SIZE or
DEFAULT_CACHE_ASSOC. -/
theorem ctr_geometry_validation (P : Params) (C : ctr_consts) (env : ctr_env)
    (args : ctr_args) (dev : Disk) (hC : C.wf) (hargc : 3 ≤ args.argc)
    (hmode : ∃ p, args.persistence = some p ∧
      (((uint32 p : Nat) : Int) = C.CACHE_CREATE ∨
        ((uint32 p : Nat) : Int) = C.CACHE_FORCECREATE)) :
    ((4 ≤ args.argc ∧ ∃ v, args.block_size = some v ∧
        (uint32 v = 0 ∨ ¬ ∃ k, uint32 v = 2 ^ k)) →
      ∃ res, flashcache_ctr P C env args dev = Outcome.returned res ∧
        res.r ≠ 0 ∧ res.io.log = [] ∧ res.io.dev = dev ∧
        (env.setup_ok → res.r = -C.EINVAL)) ∧
    ((6 ≤ args.argc ∧ ∃ v, args.assoc = some v ∧
        (uint32 v = 0 ∨ (¬ ∃ k, uint32 v = 2 ^ k) ∨ uint32 v > C.FLASHCACHE_MAX_ASSOC ∨
          ∃ z, args.size = some z ∧ uint32 v > uint64 z)) →
      ∃ res, flashcache_ctr P C env args dev = Outcome.returned res ∧
        res.r ≠ 0 ∧ res.io.log = [] ∧ res.io.dev = dev ∧
        (env.setup_ok → res.r = -C.EINVAL)) ∧
    (∀ res, flashcache_ctr P C env args dev = Outcome.returned res → res.r = 0 →
      (res.inst.dmc.block_size ≠ 0 ∧ ∃ k, res.inst.dmc.block_size = 2 ^ k) ∧
      (res.inst.dmc.assoc ≠ 0 ∧ ∃ k, res.inst.dmc.assoc = 2 ^ k) ∧
      res.inst.dmc.assoc ≤ C.FLASHCACHE_MAX_ASSOC ∧
      (args.argc < 4 → res.inst.dmc.block_size = C.DEFAULT_BLOCK_SIZE) ∧
      (args.argc < 6 → res.inst.dmc.assoc = C.DEFAULT_CACHE_ASSOC)) := by
  obtain ⟨p, hp, hpm⟩ := hmode
  have hw := hC
  obtain ⟨hE, -, h0, h1, h2, -⟩ := hw
  have hper : ctr_persistence C args = some ((uint32 p : Nat) : Int) :=
    ctr_persistence_mode hC hargc hp (by omega)
  have hne : ((uint32 p : Nat) : Int) ≠ C.CACHE_RELOAD := by omega
  have hcases := ctr_configure_create P C env args (ctr_setup P env args) dev hper hne
  refine ⟨?_, ?_, ?_⟩
  · rintro ⟨ha, v, hv, hbad⟩
    apply ctr_fails P C env args dev hC
    rcases hcases with ⟨-, hf⟩ | ⟨s4, s5, s6, force, h4, -, -, -⟩
    · exact hf
    · exfalso
      obtain ⟨hpow, -, hval⟩ := ctr_block_size_some hC h4
      obtain ⟨v2, hv2, hb⟩ := hval ha
      rw [hv, Option.some.injEq] at hv2
      rw [← hv2] at hb
      rw [hb] at hpow
      rcases hbad with hz | hnp
      · exact hpow.1 hz
      · exact hnp ((pow2_test (uint32 v)).mp hpow)
  · rintro ⟨ha, v, hv, hbad⟩
    apply ctr_fails P C env args dev hC
    rcases hcases with ⟨-, hf⟩ | ⟨s4, s5, s6, force, -, h5, h6, -⟩
    · exact hf
    · exfalso
      obtain ⟨-, hsz⟩ := ctr_size_some h5
      obtain ⟨-, hpow, hmax, -, hval⟩ := ctr_assoc_some hC h6
      obtain ⟨v2, hv2, hb, hle⟩ := hval ha
      rw [hv, Option.some.injEq] at hv2
      rw [← hv2] at hb hle
      rw [hb] at hpow hmax
      rcases hbad with hz | hnp | hgt | ⟨z, hz, hgt⟩
      · exact hpow.1 hz
      · exact hnp ((pow2_test (uint32 v)).mp hpow)
      · omega
      · obtain ⟨z2, hz2, hs5⟩ := hsz (by omega)
        rw [hz, Option.some.injEq] at hz2
        rw [hs5, ← hz2] at hle
        omega
  · intro res h hr
    have hcfg := ctr_success P C env args dev hC h hr
    rcases hcases with ⟨-, s, hf⟩ | ⟨s4, s5, s6, force, h4, h5, h6, hc⟩
    · rw [hf, Outcome.returned.injEq] at hcfg
      rw [← hcfg] at hr
      simp only [] at hr
      omega
    · rw [hc] at hcfg
      obtain ⟨r, hm, hret, hdmc, -⟩ := ctr_after_md_success hC hcfg hr
      obtain ⟨hk1, hk2⟩ := md_create_keeps hm hret
      obtain ⟨hb1, hb2, -⟩ := ctr_block_size_some hC h4
      obtain ⟨hs1, -⟩ := ctr_size_some h5
      obtain ⟨ha0, ha1, ha2, ha3, -⟩ := ctr_assoc_some hC h6
      rw [hdmc, hk1, hk2, ha0, hs1]
      exact ⟨⟨hb1.1, (pow2_test _).mp hb1⟩, ⟨ha1.1, (pow2_test _).mp ha1⟩, ha2, hb2, ha3⟩

/-- C19 (amended), at sample arguments in the mode CACHE_FORCECREATE on a device of 1000
sectors: the block size 3 is refused with -22, the associativity 16384 is
refused with -22, and with the block size 16, 200 sectors and the associativity
4 the construction returns 0 with blocks of 16 sectors and sets of 4 slots. -/
theorem ctr_geometry_validation_witness :
    (∃ res, flashcache_ctr sample_params sample_consts (sample_ctr_env 1000 sample_env)
        (sample_args 6 (some 3) (some 3) (some 200) (some 4)) (sample_disk_clean 3)
          = Outcome.returned res ∧
      res.r = -22 ∧ res.io.log = [] ∧ res.io.dev = sample_disk_clean 3) ∧
    (∃ res, flashcache_ctr sample_params sample_consts (sample_ctr_env 1000 sample_env)
        (sample_args 6 (some 3) (some 16) (some 200) (some 16384)) (sample_disk_clean 3)
          = Outcome.returned res ∧
      res.r = -22 ∧ res.io.log = [] ∧ res.io.dev = sample_disk_clean 3) ∧
    (∃ res, flashcache_ctr sample_params sample_consts (sample_ctr_env 1000 sample_env)
        (sample_args 6 (some 3) (some 16) (some 200) (some 4)) (sample_disk_clean 3)
          = Outcome.returned res ∧ res.r = 0 ∧
      res.inst.dmc.block_size = 16 ∧ res.inst.dmc.assoc = 4 ∧
      (∃ k, res.inst.dmc.block_size = 2 ^ k) ∧ (∃ k, res.inst.dmc.assoc = 2 ^ k) ∧
      res.inst.dmc.assoc ≤ 8192) := by
  have hA := ctr_geometry_validation sample_params sample_consts
    (sample_ctr_env 1000 sample_env) (sample_args 6 (some 3) (some 3) (some 200) (some 4))
    (sample_disk_clean 3) (by decide) (by decide) ⟨3, rfl, Or.inr (by decide)⟩
  have hB := ctr_geometry_validation sample_params sample_consts
    (sample_ctr_env 1000 sample_env)
    (sample_args 6 (some 3) (some 16) (some 200) (some 16384))
    (sample_disk_clean 3) (by decide) (by decide) ⟨3, rfl, Or.inr (by decide)⟩
  have hD := ctr_geometry_validation sample_params sample_consts
    (sample_ctr_env 1000 sample_env) (sample_args 6 (some 3) (some 16) (some 200) (some 4))
    (sample_disk_clean 3) (by decide) (by decide) ⟨3, rfl, Or.inr (by decide)⟩
  have hr : ((flashcache_ctr sample_params sample_consts (sample_ctr_env 1000 sample_env)
      (sample_args 6 (some 3) (some 16) (some 200) (some 4)) (sample_disk_clean 3)).toOption.map
        (fun res => (res.r, res.inst.dmc.block_size, res.inst.dmc.assoc)))
      = some (0, 16, 4) := by decide
  refine ⟨?_, ?_, ?_⟩
  · have h3 : ¬ ∃ k, uint32 ((3 : Nat) : Int) = 2 ^ k := by
      rw [← pow2_test]
      decide
    obtain ⟨res, h1, -, h3, h4, h5⟩ := hA.1 ⟨by decide, 3, rfl, Or.inr h3⟩
    exact ⟨res, h1, h5 (by decide), h3, h4⟩
  · obtain ⟨res, h1, -, h3, h4, h5⟩ :=
      hB.2.1 ⟨by decide, 16384, rfl, Or.inr (Or.inr (Or.inl (by decide)))⟩
    exact ⟨res, h1, h5 (by decide), h3, h4⟩
  · cases hc : flashcache_ctr sample_params sample_consts (sample_ctr_env 1000 sample_env)
        (sample_args 6 (some 3) (some 16) (some 200) (some 4)) (sample_disk_clean 3) with
    | returned res =>
      rw [hc] at hr
      rw [show Outcome.toOption (Outcome.returned res) = some res from rfl,
        Option.map_some', Option.some.injEq, Prod.mk.injEq, Prod.mk.injEq] at hr
      obtain ⟨h0, hbs, has⟩ := hr
      obtain ⟨hb, ha, hm, -, -⟩ := hD.2.2 res hc h0
      exact ⟨res, rfl, h0, hbs, has, hb.2, ha.2, hm⟩
    | panic => rw [hc] at hr; simp [Outcome.toOption] at hr
    | timeout => rw [hc] at hr; simp [Outcome.toOption] at hr

/-- C19 as stated fails for a supplied value that does not fit 32 bits: the
block size 4294967304 is not a power of two, yet `sscanf` with `%u` leaves 8,
its low 32 bits, in `block_size`, and flashcache_ctr in the mode
CACHE_FORCECREATE creates the cache with blocks of 8 sectors and returns 0. -/
theorem ctr_geometry_validation_counterexample :
    (¬ ∃ k, (4294967304 : Nat) = 2 ^ k) ∧
    ∃ res, flashcache_ctr sample_params sample_consts (sample_ctr_env 1000 sample_env)
        (sample_args 6 (some 3) (some 4294967304) (some 100) (some 4)) (sample_disk_clean 3)
          = Outcome.returned res ∧
      res.r = 0 ∧ res.inst.dmc.block_size = 8 ∧ res.inst.dmc.size = 12 ∧
      res.inst.dmc.assoc = 4 := by
  constructor
  · rw [← pow2_test]
    decide
  have hr : ((flashcache_ctr sample_params sample_consts (sample_ctr_env 1000 sample_env)
      (sample_args 6 (some 3) (some 4294967304) (some 100) (some 4))
      (sample_disk_clean 3)).toOption.map
        (fun res => (res.r, res.inst.dmc.block_size, res.inst.dmc.size, res.inst.dmc.assoc)))
      = some (0, 8, 12, 4) := by decide
  cases hc : flashcache_ctr sample_params sample_consts (sample_ctr_env 1000 sample_env)
      (sample_args 6 (some 3) (some 4294967304) (some 100) (some 4)) (sample_disk_clean 3) with
  | returned res =>
    rw [hc] at hr
    rw [show Outcome.toOption (Outcome.returned res) = some res from rfl,
      Option.map_some', Option.some.injEq, Prod.mk.injEq, Prod.mk.injEq, Prod.mk.injEq] at hr
    exact ⟨res, rfl, hr.1, hr.2.1, hr.2.2.1, hr.2.2.2⟩
  | panic => rw [hc] at hr; simp [Outcome.toOption] at hr
  | timeout => rw [hc] at hr; simp [Outcome.toOption] at hr

/-- C20 (amended): a persistence argument that does not parse as an unsigned
integer, or whose value, taken as the 32 bits that `sscanf` leaves of it, is
below CACHE_RELOAD or above CACHE_FORCECREATE, makes
flashcache_ctr fail with no request issued to the cache device, and with
-EINVAL where the steps before the argument is looked at succeed; and with
CACHE_RELOAD the arguments for block size, size and associativity do not
matter, the `block_size`, `size` and `assoc` of a successful construction being
those of the superblock. -/
theorem ctr_persistence_validation (P : Params) (C : ctr_consts) (env : ctr_env)
    (args : ctr_args) (dev : Disk) (hC : C.wf) (hargc : 3 ≤ args.argc) :
    ((args.persistence = none ∨
        ∃ v, args.persistence = some v ∧
          (((uint32 v : Nat) : Int) < C.CACHE_RELOAD ∨
            ((uint32 v : Nat) : Int) > C.CACHE_FORCECREATE)) →
      ∃ res, flashcache_ctr P C env args dev = Outcome.returned res ∧
        res.r ≠ 0 ∧ res.io.log = [] ∧ res.io.dev = dev ∧
        (env.setup_ok → res.r = -C.EINVAL)) ∧
    (∀ v, args.persistence = some v → ((uint32 v : Nat) : Int) = C.CACHE_RELOAD →
      (∀ (b z a : Option Nat),
        flashcache_ctr P C env { args with block_size := b, size := z, assoc := a } dev
          = flashcache_ctr P C env args dev) ∧
      (∀ res, flashcache_ctr P C env args dev = Outcome.returned res → res.r = 0 →
        res.inst.dmc.block_size = dev.sb.block_size ∧
        res.inst.dmc.size = dev.sb.size ∧
        res.inst.dmc.assoc = dev.sb.assoc)) := by
  constructor
  · intro hbad
    apply ctr_fails P C env args dev hC
    have hp : ctr_persistence C args = none := by
      unfold ctr_persistence
      rw [if_pos (by omega)]
      rcases hbad with h | ⟨v, h, hv⟩
      · rw [h]
      · rw [h]
        simp only []
        rw [if_pos ((ctr_persistence_range hC v).mpr hv)]
    unfold ctr_configure
    rw [hp]
    exact ⟨_, rfl⟩
  · intro v hv hre
    have hp : ∀ a : ctr_args, a.argc = args.argc → a.persistence = args.persistence →
        ctr_persistence C a = some C.CACHE_RELOAD := by
      intro a ha1 ha2
      rw [← hre]
      have h1 := hC.2.2.2.1
      have h2 := hC.2.2.2.2.1
      exact ctr_persistence_mode hC (by omega) (by rw [ha2, hv]) (by omega)
    have hcfg : ∀ a : ctr_args, a.argc = args.argc → a.persistence = args.persistence →
        a.disk_path = args.disk_path → a.cache_path = args.cache_path →
        ctr_configure P C env a (ctr_setup P env a) dev
          = ctr_after_md P C env (ctr_setup P env args)
              (flashcache_md_load P (ctr_setup P env args).dmc env.md dev) := by
      intro a ha1 ha2 ha3 ha4
      unfold ctr_configure
      rw [hp a ha1 ha2]
      simp only []
      rw [if_pos trivial]
      unfold ctr_setup
      rw [ha3, ha4]
    constructor
    · intro b z a
      apply ctr_congr P C env { args with block_size := b, size := z, assoc := a } args
        dev rfl rfl rfl
      rw [hcfg { args with block_size := b, size := z, assoc := a } rfl rfl rfl rfl,
        hcfg args rfl rfl rfl rfl]
    · intro res h hr
      have h2 := ctr_success P C env args dev hC h hr
      rw [hcfg args rfl rfl rfl rfl] at h2
      obtain ⟨r, hm, hret, hdmc, -⟩ := ctr_after_md_success hC h2 hr
      obtain ⟨-, s, -, -, hreq⟩ := md_load_success hm hret
      rw [hdmc, hreq]
      exact ⟨rfl, rfl, rfl⟩

/-- C20 (amended), at the sample device of eight slots with a CLEAN superblock:
the persistence argument 7 is refused with -22 and nothing is issued; and with
the argument 1 the block size 3 and the associativity 5 of the argument vector
change nothing, the instance having blocks of 8 sectors and 8 slots in two sets
of 4 as the superblock says. -/
theorem ctr_persistence_validation_witness :
    (∃ res, flashcache_ctr sample_params sample_consts (sample_ctr_env 1000 sample_env)
        (sample_args 3 (some 7) none none none) (sample_disk_clean 8)
          = Outcome.returned res ∧
      res.r = -22 ∧ res.io.log = [] ∧ res.io.dev = sample_disk_clean 8) ∧
    (flashcache_ctr sample_params sample_consts (sample_ctr_env 1000 sample_env)
        (sample_args 6 (some 1) (some 3) none (some 5)) (sample_disk_clean 8)
      = flashcache_ctr sample_params sample_consts (sample_ctr_env 1000 sample_env)
        (sample_args 6 (some 1) none none none) (sample_disk_clean 8)) ∧
    (∃ res, flashcache_ctr sample_params sample_consts (sample_ctr_env 1000 sample_env)
        (sample_args 6 (some 1) none none none) (sample_disk_clean 8)
          = Outcome.returned res ∧ res.r = 0 ∧
      res.inst.dmc.block_size = 8 ∧ res.inst.dmc.size = 8 ∧ res.inst.dmc.assoc = 4) := by
  have hA := ctr_persistence_validation sample_params sample_consts
    (sample_ctr_env 1000 sample_env) (sample_args 3 (some 7) none none none)
    (sample_disk_clean 8) (by decide) (by decide)
  have hB := ctr_persistence_validation sample_params sample_consts
    (sample_ctr_env 1000 sample_env) (sample_args 6 (some 1) none none none)
    (sample_disk_clean 8) (by decide) (by decide)
  have hr : ((flashcache_ctr sample_params sample_consts (sample_ctr_env 1000 sample_env)
      (sample_args 6 (some 1) none none none) (sample_disk_clean 8)).toOption.map
        (fun res => res.r)) = some 0 := by decide
  refine ⟨?_, (hB.2 1 rfl (by decide)).1 (some 3) none (some 5), ?_⟩
  · obtain ⟨res, h1, -, h3, h4, h5⟩ := hA.1 (Or.inr ⟨7, rfl, Or.inr (by decide)⟩)
    exact ⟨res, h1, h5 (by decide), h3, h4⟩
  cases hc : flashcache_ctr sample_params sample_consts (sample_ctr_env 1000 sample_env)
      (sample_args 6 (some 1) none none none) (sample_disk_clean 8) with
  | returned res =>
    rw [hc] at hr
    have h0 : res.r = 0 := by
      simpa [Outcome.toOption] using hr
    exact ⟨res, rfl, h0, (hB.2 1 rfl (by decide)).2 res hc h0⟩
  | panic => rw [hc] at hr; simp [Outcome.toOption] at hr
  | timeout => rw [hc] at hr; simp [Outcome.toOption] at hr

/-- C20 as stated fails for a supplied value that does not fit 32 bits: the
persistence argument 4294967297 is above CACHE_FORCECREATE, yet `sscanf` with
`%u` leaves 1, its low 32 bits, in `persistence`, and flashcache_ctr takes the
mode CACHE_RELOAD: it reads the superblock and the descriptors of the sample
device, writes the superblock, and returns 0. -/
theorem ctr_persistence_validation_counterexample :
    ((4294967297 : Nat) : Int) > sample_consts.CACHE_FORCECREATE ∧
    ∃ res, flashcache_ctr sample_params sample_consts (sample_ctr_env 1000 sample_env)
        (sample_args 3 (some 4294967297) none none none) (sample_disk_clean 8)
          = Outcome.returned res ∧
      res.r = 0 ∧
      res.io.log = [⟨io_dir.WRITE, 0, 1, 0⟩, ⟨io_dir.READ, 1, 1, 0⟩, ⟨io_dir.READ, 0, 1, 0⟩] ∧
      res.inst.dmc.size = 8 := by
  refine ⟨by decide, ?_⟩
  have hr : ((flashcache_ctr sample_params sample_consts (sample_ctr_env 1000 sample_env)
      (sample_args 3 (some 4294967297) none none none) (sample_disk_clean 8)).toOption.map
        (fun res => (res.r, res.io.log, res.inst.dmc.size)))
      = some (0, [⟨io_dir.WRITE, 0, 1, 0⟩, ⟨io_dir.READ, 1, 1, 0⟩, ⟨io_dir.READ, 0, 1, 0⟩], 8) := by
    decide
  cases hc : flashcache_ctr sample_params sample_consts (sample_ctr_env 1000 sample_env)
      (sample_args 3 (some 4294967297) none none none) (sample_disk_clean 8) with
  | returned res =>
    rw [hc] at hr
    rw [show Outcome.toOption (Outcome.returned res) = some res from rfl,
      Option.map_some', Option.some.injEq, Prod.mk.injEq, Prod.mk.injEq] at hr
    exact ⟨res, rfl, hr.1, hr.2.1, hr.2.2⟩
  | panic => rw [hc] at hr; simp [Outcome.toOption] at hr
  | timeout => rw [hc] at hr; simp [Outcome.toOption] at hr

/-- C21 (amended): a write through flashcache_dirty_thresh_sysctl_handler
returns 0 and leaves a percentage between DIRTY_THRESH_MIN and DIRTY_THRESH_MAX,
the written value where that lies between the bounds and DIRTY_THRESH_DEF
otherwise; the list holds the same instances as before, and in each of them
`dirty_thresh_set` is between 0 and `assoc`, and is `(assoc * percentage) / 100`
where that product is below 2^32. -/
theorem dirty_thresh_handler (T : thresh_consts) (write written : Int) (g : sysctl_globals)
    (hT : T.wf) (hw : write ≠ 0) :
    (flashcache_dirty_thresh_sysctl_handler T write written g).1 = 0 ∧
    T.DIRTY_THRESH_MIN
      ≤ (flashcache_dirty_thresh_sysctl_handler T write written g).2.sysctl_flashcache_dirty_thresh ∧
    (flashcache_dirty_thresh_sysctl_handler T write written g).2.sysctl_flashcache_dirty_thresh
      ≤ T.DIRTY_THRESH_MAX ∧
    ((written > T.DIRTY_THRESH_MAX ∨ written < T.DIRTY_THRESH_MIN) →
      (flashcache_dirty_thresh_sysctl_handler T write written g).2.sysctl_flashcache_dirty_thresh
        = T.DIRTY_THRESH_DEF) ∧
    ((T.DIRTY_THRESH_MIN ≤ written ∧ written ≤ T.DIRTY_THRESH_MAX) →
      (flashcache_dirty_thresh_sysctl_handler T write written g).2.sysctl_flashcache_dirty_thresh
        = written) ∧
    (flashcache_dirty_thresh_sysctl_handler T write written g).2.cache_list.map
        (fun dmc => dmc.dmc) = g.cache_list.map (fun dmc => dmc.dmc) ∧
    ∀ dmc ∈ (flashcache_dirty_thresh_sysctl_handler T write written g).2.cache_list,
      0 ≤ dmc.dirty_thresh_set ∧ dmc.dirty_thresh_set ≤ dmc.dmc.assoc ∧
      ((dmc.dmc.assoc : Int)
          * (flashcache_dirty_thresh_sysctl_handler T write written
              g).2.sysctl_flashcache_dirty_thresh < 4294967296 →
        dmc.dirty_thresh_set
          = (dmc.dmc.assoc : Int)
            * (flashcache_dirty_thresh_sysctl_handler T write written
                g).2.sysctl_flashcache_dirty_thresh / 100) := by
  obtain ⟨h0, h1, h2, h3⟩ := hT
  unfold flashcache_dirty_thresh_sysctl_handler
  rw [if_pos hw]
  simp only []
  refine ⟨trivial, ?_, ?_, fun h => if_pos h, fun h => if_neg (by omega), ?_, ?_⟩
  · split <;> omega
  · split <;> omega
  · rw [List.map_map]
    rfl
  · intro dmc hd
    obtain ⟨d0, -, rfl⟩ := List.mem_map.mp hd
    simp only []
    apply dirty_thresh_value
    · split <;> omega
    · split <;> omega

/-- C21 (amended), at the sample bounds and a list of two instances, of sets of
4 and of 512 slots: the written value 50 is kept and gives the thresholds 2 and
256. -/
theorem dirty_thresh_handler_witness :
    (flashcache_dirty_thresh_sysctl_handler sample_thresh 1 50 sample_globals).1 = 0 ∧
    (flashcache_dirty_thresh_sysctl_handler sample_thresh 1 50
      sample_globals).2.sysctl_flashcache_dirty_thresh = 50 ∧
    (flashcache_dirty_thresh_sysctl_handler sample_thresh 1 50 sample_globals).2.cache_list.map
      (fun dmc => (dmc.dmc.assoc, dmc.dirty_thresh_set)) = [(4, 2), (512, 256)] ∧
    ∀ dmc ∈ (flashcache_dirty_thresh_sysctl_handler sample_thresh 1 50
        sample_globals).2.cache_list,
      0 ≤ dmc.dirty_thresh_set ∧ dmc.dirty_thresh_set ≤ dmc.dmc.assoc := by
  obtain ⟨h1, -, -, -, h5, -, h7⟩ := dirty_thresh_handler sample_thresh 1 50 sample_globals
    (by decide) (by decide)
  exact ⟨h1, h5 (by decide), by decide, fun dmc hd => ⟨(h7 dmc hd).1, (h7 dmc hd).2.1⟩⟩

/-- C21 as stated fails for an instance whose sets are so large that the
product with the percentage does not fit the 32 bits of an `unsigned int`.
flashcache_ctr in the mode CACHE_RELOAD, on a cache device of 600000000 sectors,
takes 2^26 slots in one set of 2^26 from the superblock of the sample device and
returns 0; a write of 90 through the handler then keeps 90 and sets
`dirty_thresh_set` of that instance to 17448304, where `(assoc * 90) / 100` is
60397977. -/
theorem dirty_thresh_handler_counterexample :
    ∃ res, flashcache_ctr sample_params sample_consts (sample_ctr_env 600000000 sample_env)
        (sample_args 3 (some 1) none none none) sample_disk_wide = Outcome.returned res ∧
      res.r = 0 ∧ res.inst.dmc.assoc = 67108864 ∧ res.inst.dmc.size = 67108864 ∧
      (flashcache_dirty_thresh_sysctl_handler sample_thresh 1 90
        { sysctl_flashcache_dirty_thresh := 20,
          cache_list := [res.inst] }).2.sysctl_flashcache_dirty_thresh = 90 ∧
      (flashcache_dirty_thresh_sysctl_handler sample_thresh 1 90
        { sysctl_flashcache_dirty_thresh := 20, cache_list := [res.inst] }).2.cache_list.map
          (fun dmc => dmc.dirty_thresh_set) = [17448304] ∧
      (res.inst.dmc.assoc : Int) * 90 / 100 = 60397977 := by
  have hC : sample_consts.wf := by decide
  have he := ctr_reload_eq sample_params sample_consts (sample_ctr_env 600000000 sample_env)
    (sample_args 3 (some 1) none none none) sample_disk_wide hC
    (by decide) (by decide) (show (sample_args 3 (some 1) none none none).persistence
      = some 1 from rfl) (by decide)
  obtain ⟨r, hl, hret⟩ := @md_load_total sample_params
    (ctr_setup sample_params (sample_ctr_env 600000000 sample_env)
      (sample_args 3 (some 1) none none none)).dmc
    sample_env sample_disk_wide (by decide) (by decide) (by decide) (fun _ => rfl)
    (fun _ => rfl)
    (fun i _ => by
      show md_load_verify sample_params (md_load_clean_shutdown sample_params
        sample_disk_wide.sb) ⟨5, 66⟩
      decide)
  have hl2 : flashcache_md_load sample_params
      (ctr_setup sample_params (sample_ctr_env 600000000 sample_env)
        (sample_args 3 (some 1) none none none)).dmc
      (sample_ctr_env 600000000 sample_env).md sample_disk_wide = Outcome.returned r := hl
  rw [hl2, ctr_after_md_ok _ _ _ _ _ hret] at he
  obtain ⟨-, s, -, -, hr⟩ := md_load_success hl hret
  have hassoc : r.dmc.assoc = 67108864 := by rw [hr]; rfl
  have hsize : r.dmc.size = 67108864 := by rw [hr]; rfl
  have hshift : r.dmc.consecutive_shift = 26 := by
    rw [hr]
    show uint32 (ffs 67108864 - 1) = 26
    decide
  have hmd : r.dmc.md_sectors = 2097154 := by
    rw [hr]
    show uint32 (sample_params.INDEX_TO_MD_SECTOR 67108864 + 1 + 1) = 2097154
    decide
  obtain ⟨res, hi, h0⟩ := ctr_init_total sample_params sample_consts
    (sample_ctr_env 600000000 sample_env)
    { ctr_setup sample_params (sample_ctr_env 600000000 sample_env)
        (sample_args 3 (some 1) none none none) with dmc := r.dmc } r.io rfl rfl
    (by show r.dmc.assoc ≠ 0; rw [hassoc]; decide)
    (by show r.dmc.size >>> r.dmc.consecutive_shift ≠ 0; rw [hsize, hshift]; decide)
    (by show int32 (r.dmc.md_sectors : Int) - 1 ≠ 0; rw [hmd]; decide)
  rw [hi] at he
  obtain ⟨hdmc, -⟩ := ctr_init_dmc hC hi h0
  have ha : res.inst.dmc.assoc = 67108864 := by rw [hdmc]; exact hassoc
  have hz : res.inst.dmc.size = 67108864 := by rw [hdmc]; exact hsize
  refine ⟨res, he, h0, ha, hz, rfl, ?_, ?_⟩
  · unfold flashcache_dirty_thresh_sysctl_handler
    rw [if_pos (by decide)]
    simp only [List.map_cons, List.map_nil]
    rw [ha]
    decide
  · rw [ha]
    decide

/-- C22 (amended): for every slot count of at most 2^31, flashcache_md_store
returns, and flashcache_md_create returns unless it stops at a division by
zero, so that neither stops at the debug test on the sector count; where the
run has passed that test, the requests before the write of the superblock are
writes of consecutive runs of sectors, the first from sector 1 and each of the
others from the sector that follows the one before, and they cover as many
sectors as the slot count divided by MD_BLOCKS_PER_SECTOR, rounded up. -/
theorem md_sector_count (P : Params) (dmc dmc2 : cache_c) (force : Int) (env env2 : Env)
    (dev dev2 : Disk) (hP : P.wf) (hsize : dmc.size ≤ 2147483648)
    (hsize2 : (md_create_geometry P dmc2).size ≤ 2147483648) :
    (∃ r, flashcache_md_store P dmc env dev = Outcome.returned r ∧
      (env.vmalloc_ok 0 = true →
        ∃ ops, (r.io.log = ops ∨ r.io.log = ⟨io_dir.WRITE, 0, 1, env.io_error ops.length⟩ :: ops) ∧
          md_chain ops (1 + (dmc.size + P.MD_BLOCKS_PER_SECTOR - 1) / P.MD_BLOCKS_PER_SECTOR) ∧
          md_sectors_total ops
            = (dmc.size + P.MD_BLOCKS_PER_SECTOR - 1) / P.MD_BLOCKS_PER_SECTOR)) ∧
    ((flashcache_md_create P dmc2 force env2 dev2 = Outcome.panic ∧
        (dmc2.block_size = 0 ∨ dmc2.assoc = 0)) ∨
      ∃ r, flashcache_md_create P dmc2 force env2 dev2 = Outcome.returned r ∧
        ((∃ w ∈ r.io.log, w.rw = io_dir.WRITE ∧ w.sector = 0) →
          ∃ ops, r.io.log = ⟨io_dir.WRITE, 0, 1, env2.io_error (ops.length + 1)⟩
              :: (ops ++ [⟨io_dir.READ, 0, 1, 0⟩]) ∧
            md_chain ops (1 + ((md_create_geometry P dmc2).size + P.MD_BLOCKS_PER_SECTOR - 1)
              / P.MD_BLOCKS_PER_SECTOR) ∧
            md_sectors_total ops
              = ((md_create_geometry P dmc2).size + P.MD_BLOCKS_PER_SECTOR - 1)
                / P.MD_BLOCKS_PER_SECTOR)) := by
  have hN : int_loop_passes dmc.size = dmc.size := by
    unfold int_loop_passes; omega
  have hN2 : int_loop_passes (md_create_geometry P dmc2).size
      = (md_create_geometry P dmc2).size := by
    unfold int_loop_passes; omega
  constructor
  · rcases md_store_outcome P dmc env dev hP (by omega) with ⟨hv0, h⟩ | ⟨hv0, ops, hch, h⟩
    · refine ⟨_, h, fun hv => ?_⟩
      rw [hv0] at hv
      exact absurd hv (by decide)
    · rw [hN] at hch h
      have htot := md_chain_total ops _ hch
      rcases h with ⟨-, hne⟩ | ⟨-, ⟨-, r, hr, -, -, hlog, -⟩ | ⟨-, r, hr, -, -, hlog⟩⟩
      · exact absurd rfl hne
      · exact ⟨r, hr, fun _ => ⟨ops, Or.inl hlog, hch, by omega⟩⟩
      · exact ⟨r, hr, fun _ => ⟨ops, Or.inr hlog, hch, by omega⟩⟩
  · rcases md_create_outcome P dmc2 force env2 dev2 hP (by omega) with
      ⟨r, hr, -, -, hlog⟩ | ⟨hp, hz⟩ | ⟨-, -, ⟨r, op, ops, next, hr, -, -, hlog, -, hch, -, -⟩ |
        ⟨ops, hch, -, h⟩⟩
    · right
      refine ⟨r, hr, ?_⟩
      rintro ⟨w, hw, hw1, -⟩
      rcases hlog with hl | hl
      · rw [hl] at hw
        simp at hw
      · rw [hl, List.mem_singleton] at hw
        rw [hw] at hw1
        simp at hw1
    · exact Or.inl ⟨hp, hz⟩
    · right
      refine ⟨r, hr, ?_⟩
      rintro ⟨w, hw, hw1, hw2⟩
      rw [hlog, ← List.cons_append] at hw
      rcases List.mem_append.mp hw with hm | hm
      · have := (md_chain_mem _ _ hch w hm).2.1
        omega
      · simp only [List.mem_singleton] at hm
        rw [hm] at hw1
        exact absurd hw1 (by decide)
    · right
      rw [hN2] at hch h
      have htot := md_chain_total ops _ hch
      rcases h with ⟨-, hne⟩ | ⟨-, r, hr, hlog, -⟩
      · exact absurd rfl hne
      · exact ⟨r, hr, fun _ => ⟨ops, hlog, hch, by omega⟩⟩

/-- C22 (amended), at a sample instance of five slots for flashcache_md_store
and a sample cache device of 100 sectors, which gives 12 slots, for
flashcache_md_create. -/
theorem md_sector_count_witness :
    (∃ r, flashcache_md_store sample_params (sample_dmc 5 3) sample_env (sample_disk_dirty 0)
        = Outcome.returned r ∧
      (sample_env.vmalloc_ok 0 = true →
        ∃ ops, (r.io.log = ops ∨
            r.io.log = ⟨io_dir.WRITE, 0, 1, sample_env.io_error ops.length⟩ :: ops) ∧
          md_chain ops (1 + ((sample_dmc 5 3).size + sample_params.MD_BLOCKS_PER_SECTOR - 1)
            / sample_params.MD_BLOCKS_PER_SECTOR) ∧
          md_sectors_total ops
            = ((sample_dmc 5 3).size + sample_params.MD_BLOCKS_PER_SECTOR - 1)
              / sample_params.MD_BLOCKS_PER_SECTOR)) ∧
    ((flashcache_md_create sample_params (sample_dmc_new 100) 1 sample_env
          (sample_disk_dirty 3) = Outcome.panic ∧
        ((sample_dmc_new 100).block_size = 0 ∨ (sample_dmc_new 100).assoc = 0)) ∨
      ∃ r, flashcache_md_create sample_params (sample_dmc_new 100) 1 sample_env
          (sample_disk_dirty 3) = Outcome.returned r ∧
        ((∃ w ∈ r.io.log, w.rw = io_dir.WRITE ∧ w.sector = 0) →
          ∃ ops, r.io.log = ⟨io_dir.WRITE, 0, 1, sample_env.io_error (ops.length + 1)⟩
              :: (ops ++ [⟨io_dir.READ, 0, 1, 0⟩]) ∧
            md_chain ops (1 + ((md_create_geometry sample_params (sample_dmc_new 100)).size
              + sample_params.MD_BLOCKS_PER_SECTOR - 1) / sample_params.MD_BLOCKS_PER_SECTOR) ∧
            md_sectors_total ops
              = ((md_create_geometry sample_params (sample_dmc_new 100)).size
                + sample_params.MD_BLOCKS_PER_SECTOR - 1)
                / sample_params.MD_BLOCKS_PER_SECTOR)) :=
  md_sector_count sample_params (sample_dmc 5 3) (sample_dmc_new 100) 1 sample_env sample_env
    (sample_disk_dirty 0) (sample_disk_dirty 3) (by decide) (by decide) (by decide)

/-- C22 as stated fails above 2^31 slots.  On an instance of 2^31 + 1 slots the
`int` counter of flashcache_md_store ends the loop after 2^31 slots, 2^26
sectors are written where 2^26 + 1 are expected, and the debug test stops the
kernel.  The same happens in flashcache_md_create on a cache device that gives
2^31 + 4 slots. -/
theorem md_sector_count_counterexample :
    flashcache_md_store sample_params (sample_dmc 2147483649 0) sample_env
      (sample_disk_clean 0) = Outcome.panic ∧
    (md_create_geometry sample_params sample_dmc_over).size = 2147483652 ∧
    flashcache_md_create sample_params sample_dmc_over 1 sample_env (sample_disk_clean 0)
      = Outcome.panic := by
  refine ⟨?_, by decide, ?_⟩
  · rcases md_store_outcome sample_params (sample_dmc 2147483649 0) sample_env
        (sample_disk_clean 0) (by decide) (by decide) with ⟨hv0, -⟩ | ⟨-, ops, -, h⟩
    · exact absurd hv0 (by decide)
    · rcases h with ⟨hp, -⟩ | ⟨he, -⟩
      · exact hp
      · exact absurd he (by decide)
  · exact md_create_panic (by decide) (by decide) (by decide) (by decide) (by decide)
      (by decide) (fun _ => rfl) (fun _ => rfl)

/-- C23 (amended): for every superblock size below 2^31, the read loop of
flashcache_md_load, where it runs to its end, ends with `i = size`, with each
slot `0 .. size-1` made from its descriptor, and with `sectors_read` the size
divided by MD_BLOCKS_PER_SECTOR rounded up, which is what the debug test
expects; and where no read fails and no descriptor that is taken over is both
VALID and INVALID, the loop does run to its end, and the function, with its
allocations successful on a superblock of an accepted state, returns 0. -/
theorem md_load_sector_count {P : Params} (dmc : cache_c) {env : Env} {dev : Disk}
    (hP : P.wf) (hsize : dev.sb.size < 2147483648) :
    (∀ s, md_load_loop P (md_load_clean_shutdown P dev.sb) env loop_fuel
        (md_load_locals_init env (md_load_dmc P dmc env dev) (md_load_cdev dev)) = Flow.run s →
      s.i = dev.sb.size ∧
      s.sectors_read
        = (((dev.sb.size + P.MD_BLOCKS_PER_SECTOR - 1) / P.MD_BLOCKS_PER_SECTOR : Nat) : Int) ∧
      sectors_expected P dev.sb.size = s.sectors_read ∧
      ∀ i, i < dev.sb.size →
        s.cache i = md_load_slot P (md_load_clean_shutdown P dev.sb)
          (dev.md (1 + i / P.MD_BLOCKS_PER_SECTOR) (i % P.MD_BLOCKS_PER_SECTOR))) ∧
    ((∀ k, env.io_error k = 0) →
      (∀ i, i < dev.sb.size →
        md_load_verify P (md_load_clean_shutdown P dev.sb)
          (dev.md (1 + i / P.MD_BLOCKS_PER_SECTOR) (i % P.MD_BLOCKS_PER_SECTOR))) →
      (∃ s, md_load_loop P (md_load_clean_shutdown P dev.sb) env loop_fuel
        (md_load_locals_init env (md_load_dmc P dmc env dev) (md_load_cdev dev))
          = Flow.run s) ∧
      ((dev.sb.cache_sb_state = P.CACHE_MD_STATE_DIRTY ∨
          dev.sb.cache_sb_state = P.CACHE_MD_STATE_CLEAN ∨
          dev.sb.cache_sb_state = P.CACHE_MD_STATE_FASTCLEAN) →
        (∀ k, env.vmalloc_ok k = true) →
        ∃ r, flashcache_md_load P dmc env dev = Outcome.returned r ∧ r.ret = 0)) := by
  have h0 := md_load_inv_init P (md_load_clean_shutdown P dev.sb) env
    (md_load_dmc P dmc env dev) (md_load_cdev dev) hP hsize
  have hM := hP.1
  constructor
  · intro s hl
    obtain ⟨T, ops, hinv, hLT⟩ := md_load_loop_run hP loop_fuel h0 hl
    have hL : (md_load_dmc P dmc env dev).size = dev.sb.size := rfl
    rw [hL] at hinv hLT
    have hmin : min (T * P.MD_BLOCKS_PER_SECTOR) dev.sb.size = dev.sb.size :=
      Nat.min_eq_right hLT
    have hT := hinv.hT
    have hceil : (dev.sb.size + P.MD_BLOCKS_PER_SECTOR - 1) / P.MD_BLOCKS_PER_SECTOR = T := by
      apply Nat.div_eq_of_lt_le
      · omega
      · rw [Nat.succ_mul]; omega
    have hTle : T ≤ dev.sb.size := by
      by_contra hgt
      have h1 : (dev.sb.size + 1) * P.MD_BLOCKS_PER_SECTOR ≤ T * P.MD_BLOCKS_PER_SECTOR :=
        Nat.mul_le_mul_right _ (by omega)
      have h2 : dev.sb.size ≤ dev.sb.size * P.MD_BLOCKS_PER_SECTOR :=
        Nat.le_mul_of_pos_right _ (by omega)
      rw [Nat.succ_mul] at h1
      omega
    have hsec : s.sectors_read = (T : Int) := by
      rw [hinv.hsec]
      exact int32_of_range (by omega) (by omega)
    refine ⟨?_, ?_, ?_, ?_⟩
    · rw [hinv.hi, hmin]
    · rw [hceil, hsec]
    · rw [hinv.hsec]
      exact sectors_expected_of_cover hM hLT hT
    · intro i hi
      obtain ⟨h1, h2⟩ := div_mod_index hM i
      have := (hinv.hcache (i / P.MD_BLOCKS_PER_SECTOR) (i % P.MD_BLOCKS_PER_SECTOR) h1
        (by rw [hmin, h2]; exact hi)).1
      rw [h2] at this
      exact this
  · intro herr hver
    have hver2 : ∀ sec pos, pos < P.MD_BLOCKS_PER_SECTOR →
        sec * P.MD_BLOCKS_PER_SECTOR + pos < dev.sb.size →
        md_load_verify P (md_load_clean_shutdown P dev.sb) (dev.md (1 + sec) pos) := by
      intro sec pos hpos hlt
      have := hver (sec * P.MD_BLOCKS_PER_SECTOR + pos) hlt
      have hd : (sec * P.MD_BLOCKS_PER_SECTOR + pos) / P.MD_BLOCKS_PER_SECTOR = sec := by
        rw [Nat.mul_comm, Nat.mul_add_div (by omega), Nat.div_eq_of_lt hpos, Nat.add_zero]
      have hm : (sec * P.MD_BLOCKS_PER_SECTOR + pos) % P.MD_BLOCKS_PER_SECTOR = pos := by
        rw [Nat.mul_comm, Nat.mul_add_mod, Nat.mod_eq_of_lt hpos]
      rw [hd, hm] at this
      exact this
    refine ⟨@md_load_loop_total P _ _ _ _ env _ hP h0 herr hver2, fun hst hv => ?_⟩
    exact md_load_total dmc hP hsize hst herr hv hver

/-- C23 (amended), at a sample device of three slots whose superblock is
FASTCLEAN. -/
theorem md_load_sector_count_witness :
    (∃ s, md_load_loop sample_params
        (md_load_clean_shutdown sample_params (sample_disk_fastclean 3).sb) sample_env loop_fuel
        (md_load_locals_init sample_env
          (md_load_dmc sample_params (sample_dmc 0 0) sample_env (sample_disk_fastclean 3))
          (md_load_cdev (sample_disk_fastclean 3))) = Flow.run s ∧
      s.i = 3 ∧ s.sectors_read = 1 ∧
      sectors_expected sample_params 3 = s.sectors_read) ∧
    ∃ r, flashcache_md_load sample_params (sample_dmc 0 0) sample_env (sample_disk_fastclean 3)
      = Outcome.returned r ∧ r.ret = 0 := by
  have h := @md_load_sector_count sample_params (sample_dmc 0 0) sample_env
    (sample_disk_fastclean 3) (by decide) (by decide)
  obtain ⟨⟨s, hs⟩, hr⟩ := h.2 (fun _ => rfl) (by decide)
  obtain ⟨h1, h2, h3, -⟩ := h.1 s hs
  exact ⟨⟨s, hs, h1, h2, h3⟩, hr (by decide) (fun _ => rfl)⟩

/-- C23 as stated fails on a device of three slots whose superblock is CLEAN
and whose descriptors are both VALID and INVALID: every read succeeds, and the
`VERIFY` in the read loop stops the kernel at slot 0. -/
theorem md_load_sector_count_counterexample :
    sample_disk_both.sb.size < 2147483648 ∧ (∀ k, sample_env.io_error k = 0) ∧
    flashcache_md_load sample_params (sample_dmc 0 0) sample_env sample_disk_both
      = Outcome.panic :=
  ⟨by decide, fun _ => rfl, Outcome.eq_panic_of_is_panic (by decide)⟩

/-- C24: in every run of flashcache_md_store that returns, the requests are
writes of descriptor sectors, followed, where the function returns 0, by the
write of sector 0 as the last request; and in every run of flashcache_md_create
that returns 0, the requests are the read of sector 0, writes of descriptor
sectors, and the write of sector 0 as the last request.  The slot array of the
instance is in memory, so that its size is far below the bound `2^64 - 2^31` up
to which the `int` counter of the loop indexes it. -/
theorem md_superblock_last (P : Params) (dmc dmc2 : cache_c) (force : Int) (env env2 : Env)
    (dev dev2 : Disk) (hP : P.wf) (hsize : dmc.size ≤ 18446744071562067968)
    (hsize2 : (md_create_geometry P dmc2).size ≤ 18446744071562067968) :
    (∀ r, flashcache_md_store P dmc env dev = Outcome.returned r →
      ∃ ops, (∀ op ∈ ops, op.rw = io_dir.WRITE ∧ 1 ≤ op.sector) ∧
        (r.ret ≠ 0 → r.io.log = ops) ∧
        (r.ret = 0 → ∃ e, r.io.log = ⟨io_dir.WRITE, 0, 1, e⟩ :: ops)) ∧
    (∀ r, flashcache_md_create P dmc2 force env2 dev2 = Outcome.returned r → r.ret = 0 →
      ∃ ops, (∀ op ∈ ops, op.rw = io_dir.WRITE ∧ 1 ≤ op.sector) ∧
        r.io.log = ⟨io_dir.WRITE, 0, 1, 0⟩ :: (ops ++ [⟨io_dir.READ, 0, 1, 0⟩])) := by
  constructor
  · intro r hr
    rcases md_store_outcome P dmc env dev hP hsize with ⟨-, h⟩ | ⟨-, ops, hch, h⟩
    · rw [h, Outcome.returned.injEq] at hr
      refine ⟨[], by simp, fun _ => ?_, fun h0 => ?_⟩
      · rw [← hr]
      · rw [← hr] at h0
        simp at h0
    · have hm : ∀ op ∈ ops, op.rw = io_dir.WRITE ∧ 1 ≤ op.sector := fun op hop =>
        ⟨(md_chain_mem _ _ hch op hop).1, (md_chain_mem _ _ hch op hop).2.1⟩
      rcases h with ⟨hp, -⟩ | ⟨-, ⟨-, r1, hr1, hret, -, hlog, -⟩ | ⟨-, r1, hr1, hret, -, hlog⟩⟩
      · rw [hp] at hr
        simp at hr
      · rw [hr1, Outcome.returned.injEq] at hr
        subst hr
        refine ⟨ops, hm, fun _ => hlog, fun h0 => ?_⟩
        rw [hret] at h0
        simp at h0
      · rw [hr1, Outcome.returned.injEq] at hr
        subst hr
        exact ⟨ops, hm, fun hne => absurd hret hne, fun _ => ⟨_, hlog⟩⟩
  · intro r hr hret
    rcases md_create_outcome P dmc2 force env2 dev2 hP hsize2 with
      ⟨r1, hr1, h1, -, -⟩ | ⟨hp, -⟩ | ⟨-, -, ⟨r1, op, ops, next, hr1, h1, -⟩ |
        ⟨ops, hch, -, h⟩⟩
    · rw [hr1, Outcome.returned.injEq] at hr
      rw [← hr, h1] at hret
      simp at hret
    · rw [hp] at hr
      simp at hr
    · rw [hr1, Outcome.returned.injEq] at hr
      rw [← hr, h1] at hret
      simp at hret
    · have hm : ∀ op ∈ ops, op.rw = io_dir.WRITE ∧ 1 ≤ op.sector := fun op hop =>
        ⟨(md_chain_mem _ _ hch op hop).1, (md_chain_mem _ _ hch op hop).2.1⟩
      rcases h with ⟨hp, -⟩ | ⟨-, r1, hr1, hlog, -, hbad, -⟩
      · rw [hp] at hr
        simp at hr
      · rw [hr1, Outcome.returned.injEq] at hr
        subst hr
        refine ⟨ops, hm, ?_⟩
        by_cases he : env2.io_error (ops.length + 1) = 0
        · rw [hlog, he]
        · have := (hbad he).1
          rw [this] at hret
          simp at hret

/-- C24, at a sample instance of five slots for flashcache_md_store and a
sample cache device of 100 sectors for flashcache_md_create. -/
theorem md_superblock_last_witness :
    (∃ r, flashcache_md_store sample_params (sample_dmc 5 3) sample_env (sample_disk_dirty 0)
        = Outcome.returned r ∧ r.ret = 0 ∧
      ∃ ops e, (∀ op ∈ ops, op.rw = io_dir.WRITE ∧ 1 ≤ op.sector) ∧
        r.io.log = ⟨io_dir.WRITE, 0, 1, e⟩ :: ops) ∧
    (∃ r, flashcache_md_create sample_params (sample_dmc_new 100) 1 sample_env
        (sample_disk_dirty 3) = Outcome.returned r ∧ r.ret = 0 ∧
      ∃ ops, (∀ op ∈ ops, op.rw = io_dir.WRITE ∧ 1 ≤ op.sector) ∧
        r.io.log = ⟨io_dir.WRITE, 0, 1, 0⟩ :: (ops ++ [⟨io_dir.READ, 0, 1, 0⟩])) := by
  have h := md_superblock_last sample_params (sample_dmc 5 3) (sample_dmc_new 100) 1
    sample_env sample_env (sample_disk_dirty 0) (sample_disk_dirty 3) (by decide) (by decide)
    (by decide)
  obtain ⟨r1, h1, hret1, -⟩ := md_store_ok sample_params (sample_dmc 5 3) sample_env
    (sample_disk_dirty 0) (by decide) (by decide) rfl rfl (fun _ => rfl)
  obtain ⟨r2, h2, hret2⟩ := @md_create_total sample_params (sample_dmc_new 100) 1 sample_env
    (sample_disk_dirty 3) (by decide) (by decide) (by decide) (by decide) (by decide)
    (by decide) (fun _ => rfl) (fun _ => rfl)
  obtain ⟨ops1, hm1, -, hl1⟩ := h.1 r1 h1
  obtain ⟨e, he⟩ := hl1 hret1
  exact ⟨⟨r1, h1, hret1, ops1, e, hm1, he⟩, ⟨r2, h2, hret2, h.2 r2 h2 hret2⟩⟩

/-- C25 (amended): for every slot count of at most 2^31, INDEX_TO_MD_SECTOR
being the quotient by MD_BLOCKS_PER_SECTOR, every request that
flashcache_md_store or flashcache_md_create issues for a sector other than
sector 0 is a write that ends before sector INDEX_TO_MD_SECTOR(size) + 2, the
value of `md_sectors` and the first sector of the payload. -/
theorem md_descriptors_below_payload (P : Params) (dmc dmc2 : cache_c) (force : Int)
    (env env2 : Env) (dev dev2 : Disk) (hP : P.wf) (hM : P.md_index_wf)
    (hsize : dmc.size ≤ 2147483648)
    (hsize2 : (md_create_geometry P dmc2).size ≤ 2147483648) :
    (∃ r, flashcache_md_store P dmc env dev = Outcome.returned r ∧
      ∀ op ∈ r.io.log, 1 ≤ op.sector →
        op.rw = io_dir.WRITE ∧ op.sector + op.count ≤ P.INDEX_TO_MD_SECTOR dmc.size + 2) ∧
    (md_create_geometry P dmc2).md_sectors
      = P.INDEX_TO_MD_SECTOR (md_create_geometry P dmc2).size + 2 ∧
    ((flashcache_md_create P dmc2 force env2 dev2 = Outcome.panic ∧
        (dmc2.block_size = 0 ∨ dmc2.assoc = 0)) ∨
      ∃ r, flashcache_md_create P dmc2 force env2 dev2 = Outcome.returned r ∧
        ∀ op ∈ r.io.log, 1 ≤ op.sector →
          op.rw = io_dir.WRITE ∧
          op.sector + op.count ≤ (md_create_geometry P dmc2).md_sectors) := by
  have hM1 := hP.1
  have hN : int_loop_passes dmc.size = dmc.size := by
    unfold int_loop_passes; omega
  have hN2 : int_loop_passes (md_create_geometry P dmc2).size
      = (md_create_geometry P dmc2).size := by
    unfold int_loop_passes; omega
  have hc1 := ceil_le_floor_succ hM1 dmc.size
  have hc2 := ceil_le_floor_succ hM1 (md_create_geometry P dmc2).size
  have hdiv2 : (md_create_geometry P dmc2).size / P.MD_BLOCKS_PER_SECTOR
      ≤ (md_create_geometry P dmc2).size := Nat.div_le_self _ _
  have hmd : (md_create_geometry P dmc2).md_sectors
      = P.INDEX_TO_MD_SECTOR (md_create_geometry P dmc2).size + 2 := by
    rw [md_create_geometry_md, hM]
    have hx := hdiv2
    generalize (md_create_geometry P dmc2).size / P.MD_BLOCKS_PER_SECTOR = x at hx ⊢
    omega
  have hbelow : ∀ (ops : List io_req) (next bound : Nat), md_chain ops next →
      next ≤ 1 + bound → ∀ (rest : List io_req),
      (∀ o ∈ rest, ¬ 1 ≤ o.sector) → ∀ op ∈ ops ++ rest, 1 ≤ op.sector →
        op.rw = io_dir.WRITE ∧ op.sector + op.count ≤ bound + 1 := by
    intro ops next bound hch hle rest hrest op hop h1
    rcases List.mem_append.mp hop with hm | hm
    · obtain ⟨a, -, -, d⟩ := md_chain_mem ops next hch op hm
      exact ⟨a, by omega⟩
    · exact absurd h1 (hrest op hm)
  refine ⟨?_, hmd, ?_⟩
  · rw [hM]
    rcases md_store_outcome P dmc env dev hP (by omega) with ⟨-, h⟩ | ⟨-, ops, hch, h⟩
    · exact ⟨_, h, by simp⟩
    · rw [hN] at hch h
      rcases h with ⟨-, hne⟩ | ⟨-, ⟨-, r, hr, -, -, hlog, -⟩ | ⟨-, r, hr, -, -, hlog⟩⟩
      · exact absurd rfl hne
      · refine ⟨r, hr, fun op hop h1 => ?_⟩
        rw [hlog] at hop
        have := hbelow ops _ _ hch (Nat.le_refl _) [] (by simp) op (by simpa using hop) h1
        exact ⟨this.1, by omega⟩
      · refine ⟨r, hr, fun op hop h1 => ?_⟩
        rw [hlog] at hop
        rcases List.mem_cons.mp hop with e | hop1
        · rw [e] at h1
          simp at h1
        · have := hbelow ops _ _ hch (Nat.le_refl _) [] (by simp) op (by simpa using hop1) h1
          exact ⟨this.1, by omega⟩
  · rw [hmd, hM]
    rcases md_create_outcome P dmc2 force env2 dev2 hP (by omega) with
      ⟨r, hr, -, -, hlog⟩ | ⟨hp, hz⟩ | ⟨-, -, ⟨r, op, ops, next, hr, -, -, hlog, -, hch, hnext, -⟩ |
        ⟨ops, hch, -, h⟩⟩
    · right
      refine ⟨r, hr, fun op hop h1 => ?_⟩
      rcases hlog with hl | hl
      · rw [hl] at hop
        simp at hop
      · rw [hl, List.mem_singleton] at hop
        rw [hop] at h1
        simp at h1
    · exact Or.inl ⟨hp, hz⟩
    · right
      rw [hN2] at hnext
      refine ⟨r, hr, fun o ho h1 => ?_⟩
      rw [hlog, ← List.cons_append] at ho
      have := hbelow (op :: ops) next _ hch hnext [⟨io_dir.READ, 0, 1, 0⟩] (by simp) o ho h1
      exact ⟨this.1, by omega⟩
    · right
      rw [hN2] at hch h
      rcases h with ⟨-, hne⟩ | ⟨-, r, hr, hlog, -⟩
      · exact absurd rfl hne
      · refine ⟨r, hr, fun o ho h1 => ?_⟩
        rw [hlog] at ho
        rcases List.mem_cons.mp ho with e | ho1
        · rw [e] at h1
          simp at h1
        · have := hbelow ops _ _ hch (Nat.le_refl _) [⟨io_dir.READ, 0, 1, 0⟩] (by simp) o ho1 h1
          exact ⟨this.1, by omega⟩

/-- C25 (amended), at a sample instance of five slots for flashcache_md_store
and a sample cache device of 100 sectors, which gives 12 slots and
`md_sectors` 2, for flashcache_md_create. -/
theorem md_descriptors_below_payload_witness :
    (∃ r, flashcache_md_store sample_params (sample_dmc 5 3) sample_env (sample_disk_dirty 0)
        = Outcome.returned r ∧
      ∀ op ∈ r.io.log, 1 ≤ op.sector →
        op.rw = io_dir.WRITE ∧
        op.sector + op.count ≤ sample_params.INDEX_TO_MD_SECTOR (sample_dmc 5 3).size + 2) ∧
    (md_create_geometry sample_params (sample_dmc_new 100)).md_sectors
      = sample_params.INDEX_TO_MD_SECTOR
          (md_create_geometry sample_params (sample_dmc_new 100)).size + 2 ∧
    ((flashcache_md_create sample_params (sample_dmc_new 100) 1 sample_env
          (sample_disk_dirty 3) = Outcome.panic ∧
        ((sample_dmc_new 100).block_size = 0 ∨ (sample_dmc_new 100).assoc = 0)) ∨
      ∃ r, flashcache_md_create sample_params (sample_dmc_new 100) 1 sample_env
          (sample_disk_dirty 3) = Outcome.returned r ∧
        ∀ op ∈ r.io.log, 1 ≤ op.sector →
          op.rw = io_dir.WRITE ∧
          op.sector + op.count
            ≤ (md_create_geometry sample_params (sample_dmc_new 100)).md_sectors) :=
  md_descriptors_below_payload sample_params (sample_dmc 5 3) (sample_dmc_new 100) 1
    sample_env sample_env (sample_disk_dirty 0) (sample_disk_dirty 3) (by decide)
    (fun _ => rfl) (by decide) (by decide)

/-- C25 as stated fails on an instance of 2^37 slots, for which
INDEX_TO_MD_SECTOR(size) + 2 is 2^32 + 2 and `md_sectors`, of 32 bits, is 2.
The loop of flashcache_md_store makes 2^31 passes, and the newest of its
requests ends beyond sector 2; after the loop the debug test stops the
kernel. -/
theorem md_descriptors_below_payload_counterexample :
    uint32 (sample_params.INDEX_TO_MD_SECTOR (sample_dmc 137438953472 0).size + 1 + 1) = 2 ∧
    (∃ s op, md_store_loop sample_params (sample_dmc 137438953472 0) sample_env loop_fuel
        (md_locals_init sample_params sample_env (sample_disk_clean 0)) = Flow.run s ∧
      op ∈ s.cdev.log ∧ op.rw = io_dir.WRITE ∧ 1 ≤ op.sector ∧ 2 < op.sector + op.count) ∧
    flashcache_md_store sample_params (sample_dmc 137438953472 0) sample_env
      (sample_disk_clean 0) = Outcome.panic := by
  refine ⟨by decide, ?_, ?_⟩
  · obtain ⟨s, hloop, ⟨⟨S, q, p, ops, hpos, -⟩, -⟩, hch⟩ :=
      md_store_loop_chain sample_params (sample_dmc 137438953472 0) sample_env
        (sample_disk_clean 0) (by decide) (by decide)
    have hc := hch S q p ops hpos
    have hN : int_loop_passes (sample_dmc 137438953472 0).size = 2147483648 := by decide
    have hk := hpos.hk
    have hp := hpos.hp
    have hq := hpos.hq
    rw [hN] at hk
    simp only [show sample_params.MD_BLOCKS_PER_SECTOR = 32 from rfl,
      show sample_params.METADATA_IO_BLOCKSIZE_SECT = 512 from rfl] at hk hp hq
    have hlog := hpos.hlog
    rw [List.append_nil] at hlog
    cases ops with
    | nil =>
      simp only [md_chain] at hc
      omega
    | cons op rest =>
      have hm := md_chain_mem _ _ hc op (List.mem_cons_self _ _)
      simp only [md_chain] at hc
      refine ⟨s, op, hloop, ?_, hc.1, hm.2.1, by omega⟩
      rw [hlog]
      exact List.mem_cons_self _ _
  · rcases md_store_outcome sample_params (sample_dmc 137438953472 0) sample_env
        (sample_disk_clean 0) (by decide) (by decide) with ⟨hv0, -⟩ | ⟨-, ops, -, h⟩
    · exact absurd hv0 (by decide)
    · rcases h with ⟨hp, -⟩ | ⟨he, -⟩
      · exact hp
      · exact absurd he (by decide)

/-- C26 (amended): for every requested size `S` in sectors below 2^64, with
`block_size` and `assoc` at least 1, INDEX_TO_MD_SECTOR being the quotient by
MD_BLOCKS_PER_SECTOR, and with the first estimate of the metadata,
`INDEX_TO_MD_SECTOR(S / block_size) + 2`, below 2^31 and at most `S`, the
geometry computed by flashcache_md_create has an `md_sectors` that is not
negative and `md_sectors + size * block_size <= S`. -/
theorem md_create_within (P : Params) (dmc : cache_c) (hM : P.md_index_wf)
    (_hbs : 1 ≤ dmc.block_size) (_has : 1 ≤ dmc.assoc)
    (hS : dmc.size < 18446744073709551616)
    (h32 : P.INDEX_TO_MD_SECTOR (dmc.size / dmc.block_size) + 2 < 2147483648)
    (hest : P.INDEX_TO_MD_SECTOR (dmc.size / dmc.block_size) + 2 ≤ dmc.size) :
    int32 ((md_create_geometry P dmc).md_sectors : Int) = (md_create_geometry P dmc).md_sectors ∧
    (md_create_geometry P dmc).md_sectors
      + (md_create_geometry P dmc).size * (md_create_geometry P dmc).block_size
      ≤ dmc.size := by
  have hsz := md_create_geometry_size P dmc hS h32 hest
  have hmd := md_create_geometry_md P dmc
  have hbs : (md_create_geometry P dmc).block_size = dmc.block_size := rfl
  rw [hmd, hbs, hsz]
  rw [hM] at h32 hest ⊢
  rw [hM]
  generalize he : dmc.size / dmc.block_size / P.MD_BLOCKS_PER_SECTOR + 2 = e1 at h32 hest ⊢
  have h1 : (dmc.size - e1) / dmc.block_size / dmc.assoc * dmc.assoc
      ≤ (dmc.size - e1) / dmc.block_size := Nat.div_mul_le_self _ _
  have h2 : (dmc.size - e1) / dmc.block_size * dmc.block_size ≤ dmc.size - e1 :=
    Nat.div_mul_le_self _ _
  have h3 : (dmc.size - e1) / dmc.block_size / dmc.assoc * dmc.assoc * dmc.block_size
      ≤ (dmc.size - e1) / dmc.block_size * dmc.block_size := Nat.mul_le_mul_right _ h1
  have h4 : (dmc.size - e1) / dmc.block_size ≤ dmc.size / dmc.block_size :=
    Nat.div_le_div_right (Nat.sub_le _ _)
  have h5 : (dmc.size - e1) / dmc.block_size / dmc.assoc * dmc.assoc
      / P.MD_BLOCKS_PER_SECTOR ≤ dmc.size / dmc.block_size / P.MD_BLOCKS_PER_SECTOR :=
    Nat.div_le_div_right (Nat.le_trans h1 h4)
  have h6 := Nat.mod_le ((dmc.size - e1) / dmc.block_size / dmc.assoc * dmc.assoc
      / P.MD_BLOCKS_PER_SECTOR + 2) 4294967296
  refine ⟨?_, by omega⟩
  unfold int32
  omega

/-- C26 (amended), at a sample cache device of 100 sectors with blocks of 8
sectors and sets of 4 slots: 2 metadata sectors and 12 slots. -/
theorem md_create_within_witness :
    int32 ((md_create_geometry sample_params (sample_dmc_new 100)).md_sectors : Int)
      = (md_create_geometry sample_params (sample_dmc_new 100)).md_sectors ∧
    (md_create_geometry sample_params (sample_dmc_new 100)).md_sectors
      + (md_create_geometry sample_params (sample_dmc_new 100)).size
        * (md_create_geometry sample_params (sample_dmc_new 100)).block_size
      ≤ (sample_dmc_new 100).size :=
  md_create_within sample_params (sample_dmc_new 100) (fun _ => rfl) (by decide) (by decide)
    (by decide) (by decide) (by decide)

/-- C26 as stated fails for a requested size of 549755813376 sectors with
blocks of 8 sectors and sets of 4 slots.  The first estimate of the metadata is
2^31 sectors, at most the requested size, and is -2^31 in the `int` field
`md_sectors`, so that the subtraction adds 2^31 sectors to the size; the slot
count then is 68987912128, `md_sectors` is 2155872256 - 2^32, and
`md_sectors + size * block_size` is 549764201984, above the requested size. -/
theorem md_create_within_counterexample :
    sample_params.INDEX_TO_MD_SECTOR
        ((sample_dmc_new 549755813376).size / (sample_dmc_new 549755813376).block_size) + 2
      ≤ (sample_dmc_new 549755813376).size ∧
    1 ≤ (sample_dmc_new 549755813376).block_size ∧ 1 ≤ (sample_dmc_new 549755813376).assoc ∧
    (md_create_geometry sample_params (sample_dmc_new 549755813376)).size = 68987912128 ∧
    int32 ((md_create_geometry sample_params (sample_dmc_new 549755813376)).md_sectors : Int)
      = -2139095040 ∧
    int32 ((md_create_geometry sample_params (sample_dmc_new 549755813376)).md_sectors : Int)
        + ((md_create_geometry sample_params (sample_dmc_new 549755813376)).size : Int)
          * (md_create_geometry sample_params (sample_dmc_new 549755813376)).block_size
      = 549764201984 ∧
    (sample_dmc_new 549755813376).size < 549764201984 := by
  decide

/-- C27: called with the two device paths only, flashcache_ctr leaves
`persistence` at 0, a value below CACHE_RELOAD that no range check sees, takes
the default block size and associativity and the size of the cache device, and
calls flashcache_md_create with force = 1; where it then returns 0, the
superblock on the cache device is the new one, of state DIRTY, whatever
superblock the device held. -/
theorem ctr_default_force_create (P : Params) (C : ctr_consts) (env : ctr_env)
    (args : ctr_args) (dev : Disk) (hC : C.wf) (hargc : args.argc = 2)
    (hs : env.setup_ok) :
    ctr_persistence C args = some 0 ∧ (0 : Int) < C.CACHE_RELOAD ∧
    (∃ s6 : cache_inst,
      s6.dmc = { (ctr_setup P env args).dmc with
        block_size := C.DEFAULT_BLOCK_SIZE
        block_shift := uint32 (ffs C.DEFAULT_BLOCK_SIZE - 1)
        block_mask := uint32 ((C.DEFAULT_BLOCK_SIZE : Int) - 1)
        size := env.cache_devsize
        assoc := C.DEFAULT_CACHE_ASSOC
        consecutive_shift := uint32 (ffs C.DEFAULT_CACHE_ASSOC - 1) } ∧
      flashcache_ctr P C env args dev
        = ctr_after_md P C env s6 (flashcache_md_create P s6.dmc 1 env.md dev)) ∧
    (∀ res, flashcache_ctr P C env args dev = Outcome.returned res → res.r = 0 →
      res.io.dev.sb = md_dirty_header P res.inst.dmc ∧
      res.io.dev.sb.cache_sb_state = P.CACHE_MD_STATE_DIRTY ∧
      res.inst.dmc.block_size = C.DEFAULT_BLOCK_SIZE ∧
      res.inst.dmc.assoc = C.DEFAULT_CACHE_ASSOC) := by
  have hRELOAD := hC.2.2.1
  have hCREATE := hC.2.2.2.1
  have hp : ctr_persistence C args = some 0 := by
    unfold ctr_persistence
    rw [if_neg (by omega)]
  have heq : flashcache_ctr P C env args dev
      = ctr_after_md P C env
          { ctr_setup P env args with dmc := { (ctr_setup P env args).dmc with
            block_size := C.DEFAULT_BLOCK_SIZE
            block_shift := uint32 (ffs C.DEFAULT_BLOCK_SIZE - 1)
            block_mask := uint32 ((C.DEFAULT_BLOCK_SIZE : Int) - 1)
            size := env.cache_devsize
            assoc := C.DEFAULT_CACHE_ASSOC
            consecutive_shift := uint32 (ffs C.DEFAULT_CACHE_ASSOC - 1) } }
          (flashcache_md_create P
            { (ctr_setup P env args).dmc with
              block_size := C.DEFAULT_BLOCK_SIZE
              block_shift := uint32 (ffs C.DEFAULT_BLOCK_SIZE - 1)
              block_mask := uint32 ((C.DEFAULT_BLOCK_SIZE : Int) - 1)
              size := env.cache_devsize
              assoc := C.DEFAULT_CACHE_ASSOC
              consecutive_shift := uint32 (ffs C.DEFAULT_CACHE_ASSOC - 1) } 1 env.md dev) := by
    rw [ctr_of_setup P C env args dev (by omega) hs]
    unfold ctr_configure
    rw [hp]
    simp only []
    rw [if_neg (by omega)]
    unfold ctr_block_size
    simp only []
    rw [if_neg (by omega)]
    simp only []
    unfold ctr_size
    rw [if_neg (by omega)]
    simp only []
    unfold ctr_assoc
    simp only []
    rw [if_neg (by omega)]
    simp only []
    rw [if_neg (by omega)]
  refine ⟨hp, hRELOAD, ⟨_, rfl, heq⟩, ?_⟩
  intro res h hr
  rw [heq] at h
  obtain ⟨r, hm, hret, hdmc, hio⟩ := ctr_after_md_success hC h hr
  obtain ⟨-, -, c, s1, s, -, -, -, -, hreq⟩ := md_create_success hm hret
  rw [hdmc, hio, hreq]
  exact ⟨rfl, rfl, rfl, rfl⟩

/-- C27, at a sample cache device of 5000 sectors that holds a CLEAN
superblock: the call with two arguments returns 0, with blocks of 8 sectors and
sets of 512 slots, and leaves a DIRTY superblock. -/
theorem ctr_default_force_create_witness :
    ctr_persistence sample_consts (sample_args 2 none none none none) = some 0 ∧
    (sample_disk_clean 3).sb.cache_sb_state = sample_params.CACHE_MD_STATE_CLEAN ∧
    ∃ res, flashcache_ctr sample_params sample_consts (sample_ctr_env 5000 sample_env)
        (sample_args 2 none none none none) (sample_disk_clean 3) = Outcome.returned res ∧
      res.r = 0 ∧ res.io.dev.sb.cache_sb_state = sample_params.CACHE_MD_STATE_DIRTY ∧
      res.inst.dmc.block_size = 8 ∧ res.inst.dmc.assoc = 512 := by
  have h := ctr_default_force_create sample_params sample_consts
    (sample_ctr_env 5000 sample_env) (sample_args 2 none none none none) (sample_disk_clean 3)
    (by decide) rfl (by decide)
  obtain ⟨hp, -, ⟨s6, hd, heq⟩, hres⟩ := h
  refine ⟨hp, rfl, ?_⟩
  obtain ⟨r, hr, hret⟩ := @md_create_total sample_params s6.dmc 1 sample_env
    (sample_disk_clean 3) (by decide) (by decide) (by rw [hd]; decide) (by rw [hd]; decide)
    (by rw [hd]; decide) (by rw [hd]; decide) (fun _ => rfl) (fun _ => rfl)
  have hr2 : flashcache_md_create sample_params s6.dmc 1 (sample_ctr_env 5000 sample_env).md
      (sample_disk_clean 3) = Outcome.returned r := hr
  rw [hr2, ctr_after_md_ok _ _ _ _ _ hret] at heq
  obtain ⟨-, -, c, s1, s, -, -, -, -, hreq⟩ := md_create_success hr hret
  have hg : r.dmc.size = (md_create_geometry sample_params s6.dmc).size ∧
      r.dmc.consecutive_shift = s6.dmc.consecutive_shift ∧
      r.dmc.md_sectors = (md_create_geometry sample_params s6.dmc).md_sectors := by
    rw [hreq]
    exact ⟨rfl, rfl, rfl⟩
  obtain ⟨res, hi, h0⟩ := ctr_init_total sample_params sample_consts
    (sample_ctr_env 5000 sample_env) { s6 with dmc := r.dmc } r.io rfl rfl
    (by rw [hreq]; show s6.dmc.assoc ≠ 0; rw [hd]; decide)
    (by
      show r.dmc.size >>> r.dmc.consecutive_shift ≠ 0
      rw [hg.1, hg.2.1, hd]
      decide)
    (by
      show int32 (r.dmc.md_sectors : Int) - 1 ≠ 0
      rw [hg.2.2, hd]
      decide)
  rw [hi] at heq
  obtain ⟨-, h2, h3, h4⟩ := hres res heq h0
  exact ⟨res, heq, h0, h2, h3, h4⟩

/-- C29: where a write of descriptor sectors has failed in a run of
flashcache_md_create, the function has returned 1, the failed write is its last
request and every request before it has succeeded, no request has written
sector 0, and the device holds the superblock it held before the call.  The
function always ends; it stops the kernel only at a division by zero, before
any write, or at the debug test after the descriptor loop has run to its end
with every request successful, so that a failed descriptor write always leads
to the return. -/
theorem md_create_stops_at_write_failure (P : Params) (dmc : cache_c) (force : Int)
    (env : Env) (dev : Disk) (hP : P.wf)
    (hsize : (md_create_geometry P dmc).size ≤ 18446744071562067968) :
    (∀ r, flashcache_md_create P dmc force env dev = Outcome.returned r →
      (∃ w ∈ r.io.log, w.rw = io_dir.WRITE ∧ w.sector ≠ 0 ∧ w.error ≠ 0) →
      r.ret = 1 ∧ r.io.dev.sb = dev.sb ∧
      (∀ o ∈ r.io.log, o.rw = io_dir.WRITE → o.sector ≠ 0) ∧
      ∃ op ops, r.io.log = op :: ops ∧ op.rw = io_dir.WRITE ∧ op.sector ≠ 0 ∧
        op.error ≠ 0 ∧ ∀ o ∈ ops, o.error = 0) ∧
    flashcache_md_create P dmc force env dev ≠ Outcome.timeout ∧
    (flashcache_md_create P dmc force env dev = Outcome.panic →
      (dmc.block_size = 0 ∨ dmc.assoc = 0) ∨
      ∃ c s, md_create_loop P { md_create_geometry P dmc with cache := c } env loop_fuel
          (md_create_locals_init P env dev) = Flow.run s ∧
        ∀ o ∈ (md_rest_state P env s).cdev.log, o.error = 0) := by
  refine ⟨?_, ?_, md_create_panic_run P dmc force env dev hP hsize⟩
  · intro r hr ⟨w, hw, hw1, hw2, hw3⟩
    rcases md_create_outcome P dmc force env dev hP hsize with
      ⟨r1, hr1, -, -, hlog⟩ | ⟨hp, -⟩ |
        ⟨-, -, ⟨r1, op, ops, next, hr1, hret, hsb, hlog, hne, hch, -, hok⟩ | ⟨ops, hch, hok, h⟩⟩
    · rw [hr1, Outcome.returned.injEq] at hr
      subst hr
      rcases hlog with hl | hl
      · rw [hl] at hw
        simp at hw
      · rw [hl, List.mem_singleton] at hw
        rw [hw] at hw1
        simp at hw1
    · rw [hp] at hr
      simp at hr
    · rw [hr1, Outcome.returned.injEq] at hr
      subst hr
      have hmem := md_chain_mem _ _ hch
      refine ⟨hret, hsb, ?_, op, ops ++ [⟨io_dir.READ, 0, 1, 0⟩], hlog,
        (hmem op (List.mem_cons_self _ _)).1, ?_, hne, ?_⟩
      · intro o ho ho1
        rw [hlog, ← List.cons_append] at ho
        rcases List.mem_append.mp ho with hm | hm
        · have := (hmem o hm).2.1
          omega
        · rw [List.mem_singleton] at hm
          rw [hm] at ho1
          simp at ho1
      · have := (hmem op (List.mem_cons_self _ _)).2.1
        omega
      · intro o ho
        rcases List.mem_append.mp ho with hm | hm
        · exact hok o hm
        · rw [List.mem_singleton] at hm
          rw [hm]
    · rcases h with ⟨hp, -⟩ | ⟨-, r1, hr1, hlog, -⟩
      · rw [hp] at hr
        simp at hr
      · rw [hr1, Outcome.returned.injEq] at hr
        subst hr
        rw [hlog] at hw
        rcases List.mem_cons.mp hw with e | hm
        · rw [e] at hw2
          exact absurd rfl hw2
        · rcases List.mem_append.mp hm with hm | hm
          · exact absurd (hok w hm) hw3
          · rw [List.mem_singleton] at hm
            rw [hm] at hw1
            simp at hw1
  · intro ht
    rcases md_create_outcome P dmc force env dev hP hsize with
      ⟨r1, hr1, -⟩ | ⟨hp, -⟩ | ⟨-, -, ⟨r1, op, ops, next, hr1, -⟩ | ⟨ops, -, -, h⟩⟩
    · rw [hr1] at ht
      simp at ht
    · rw [hp] at ht
      simp at ht
    · rw [hr1] at ht
      simp at ht
    · rcases h with ⟨hp, -⟩ | ⟨-, r1, hr1, -⟩
      · rw [hp] at ht
        simp at ht
      · rw [hr1] at ht
        simp at ht

/-- C29, at a sample cache device of 100 sectors that holds a CLEAN superblock,
where the write of the descriptor sector fails: flashcache_md_create, called
with force = 1, returns 1 after the read of the superblock and the failed
write, and the CLEAN superblock is still on the device. -/
theorem md_create_stops_at_write_failure_witness :
    ∃ r, flashcache_md_create sample_params (sample_dmc_new 100) 1 sample_env_write_fail
        (sample_disk_clean 3) = Outcome.returned r ∧
      r.io.log = [⟨io_dir.WRITE, 1, 1, 5⟩, ⟨io_dir.READ, 0, 1, 0⟩] ∧
      r.ret = 1 ∧ r.io.dev.sb = (sample_disk_clean 3).sb ∧
      (∀ o ∈ r.io.log, o.rw = io_dir.WRITE → o.sector ≠ 0) := by
  have h := (md_create_stops_at_write_failure sample_params (sample_dmc_new 100) 1
    sample_env_write_fail (sample_disk_clean 3) (by decide) (by decide)).1
  have hc : ((flashcache_md_create sample_params (sample_dmc_new 100) 1 sample_env_write_fail
      (sample_disk_clean 3)).toOption.map (fun r => r.io.log))
      = some [⟨io_dir.WRITE, 1, 1, 5⟩, ⟨io_dir.READ, 0, 1, 0⟩] := by decide
  cases hr : flashcache_md_create sample_params (sample_dmc_new 100) 1 sample_env_write_fail
      (sample_disk_clean 3) with
  | returned r =>
    rw [hr] at hc
    rw [show Outcome.toOption (Outcome.returned r) = some r from rfl,
      Option.map_some', Option.some.injEq] at hc
    obtain ⟨h1, h2, h3, -⟩ := h r hr
      ⟨⟨io_dir.WRITE, 1, 1, 5⟩, by rw [hc]; exact List.mem_cons_self _ _, rfl, by decide,
        by decide⟩
    exact ⟨r, rfl, hc, h1, h2, h3⟩
  | panic => rw [hr] at hc; simp [Outcome.toOption] at hc
  | timeout => rw [hr] at hc; simp [Outcome.toOption] at hc

/-- C30: where flashcache_ctr returns 0 in a mode other than CACHE_RELOAD, the
associativity of the instance is a power of two, `consecutive_shift` is its
exponent and the slot count is a multiple of it; the number of sets `size >>
consecutive_shift` is `size / assoc`, that number times `assoc` is `size`, and
for every slot index below `size` the set index `i / assoc` of the counting
loop is below the number of sets. -/
theorem ctr_create_set_index (P : Params) (C : ctr_consts) (env : ctr_env)
    (args : ctr_args) (dev : Disk) (hC : C.wf) {res : ctr_result} {p : Int}
    (h : flashcache_ctr P C env args dev = Outcome.returned res) (hr : res.r = 0)
    (hp : ctr_persistence C args = some p) (hne : p ≠ C.CACHE_RELOAD) :
    (∃ k, res.inst.dmc.assoc = 2 ^ k ∧ res.inst.dmc.consecutive_shift = k) ∧
    res.inst.dmc.size % res.inst.dmc.assoc = 0 ∧
    res.inst.dmc.size >>> res.inst.dmc.consecutive_shift
      = res.inst.dmc.size / res.inst.dmc.assoc ∧
    (res.inst.dmc.size >>> res.inst.dmc.consecutive_shift) * res.inst.dmc.assoc
      = res.inst.dmc.size ∧
    ∀ i, i < res.inst.dmc.size →
      i / res.inst.dmc.assoc < res.inst.dmc.size >>> res.inst.dmc.consecutive_shift := by
  have hcfg := ctr_success P C env args dev hC h hr
  rcases ctr_configure_create P C env args (ctr_setup P env args) dev hp hne with
    ⟨-, s, hs⟩ | ⟨s4, s5, s6, force, -, -, h6, hs⟩
  · rw [hs, Outcome.returned.injEq] at hcfg
    rw [← hcfg] at hr
    have := hC.1
    simp only [] at hr
    omega
  rw [hs] at hcfg
  obtain ⟨r, hm, hret, hdmc, -⟩ := ctr_after_md_success hC hcfg hr
  obtain ⟨-, -, c, s1, s, -, -, -, -, hreq⟩ := md_create_success hm hret
  obtain ⟨-, hpow, -, -⟩ := ctr_assoc_some hC h6
  have hlt := ctr_assoc_lt hC h6
  obtain ⟨k, hk⟩ := (pow2_test _).mp hpow
  have hshift : s6.dmc.consecutive_shift = uint32 (ffs s6.dmc.assoc - 1) := by
    unfold ctr_assoc at h6
    simp only [] at h6
    split at h6
    · split at h6
      · simp at h6
      · split at h6
        · simp at h6
        · simp only [Option.some.injEq] at h6
          rw [← h6]
    · simp only [Option.some.injEq] at h6
      rw [← h6]
  have ha : res.inst.dmc.assoc = s6.dmc.assoc := by rw [hdmc, hreq]; rfl
  have hc : res.inst.dmc.consecutive_shift = s6.dmc.consecutive_shift := by
    rw [hdmc, hreq]; rfl
  have hz : ∃ x : Nat, x < 18446744073709551616 ∧
      res.inst.dmc.size = uint64 ((x / s6.dmc.assoc * s6.dmc.assoc : Nat) : Int) := by
    obtain ⟨x, hx, hg⟩ := md_create_geometry_form P s6.dmc
    refine ⟨x, hx, ?_⟩
    rw [hdmc, hreq]
    exact hg
  obtain ⟨x, hx, hsz⟩ := hz
  have hle : x / s6.dmc.assoc * s6.dmc.assoc ≤ x := Nat.div_mul_le_self _ _
  rw [uint64_natCast (by omega)] at hsz
  rw [ha, hc, hshift, hsz, hk, ffs_shift_pow2 k (by rw [← hk]; exact hlt),
    Nat.shiftRight_eq_div_pow]
  have hpos : 0 < 2 ^ k := by positivity
  refine ⟨⟨k, rfl, rfl⟩, Nat.mul_mod_left _ _, rfl, ?_, ?_⟩
  · rw [Nat.mul_div_cancel _ hpos]
  · intro i hi
    rw [Nat.mul_div_cancel _ hpos]
    exact (Nat.div_lt_iff_lt_mul hpos).mpr hi

/-- C30, at sample arguments in the mode CACHE_FORCECREATE on 200 sectors with
blocks of 16 sectors and sets of 4 slots: flashcache_ctr returns 0 with 12
slots in 3 sets, the shift 2, and every slot index below 12 falls in a set below
3. -/
theorem ctr_create_set_index_witness :
    ∃ res, flashcache_ctr sample_params sample_consts (sample_ctr_env 1000 sample_env)
        (sample_args 6 (some 3) (some 16) (some 200) (some 4)) (sample_disk_clean 3)
          = Outcome.returned res ∧ res.r = 0 ∧
      res.inst.dmc.size = 12 ∧ res.inst.dmc.assoc = 4 ∧ res.inst.dmc.consecutive_shift = 2 ∧
      res.inst.dmc.size >>> res.inst.dmc.consecutive_shift = 3 ∧
      (res.inst.dmc.size >>> res.inst.dmc.consecutive_shift) * res.inst.dmc.assoc
        = res.inst.dmc.size ∧
      ∀ i, i < res.inst.dmc.size →
        i / res.inst.dmc.assoc < res.inst.dmc.size >>> res.inst.dmc.consecutive_shift := by
  have hr : ((flashcache_ctr sample_params sample_consts (sample_ctr_env 1000 sample_env)
      (sample_args 6 (some 3) (some 16) (some 200) (some 4)) (sample_disk_clean 3)).toOption.map
        (fun res => (res.r, res.inst.dmc.size, res.inst.dmc.assoc,
          res.inst.dmc.consecutive_shift)))
      = some (0, 12, 4, 2) := by decide
  cases hc : flashcache_ctr sample_params sample_consts (sample_ctr_env 1000 sample_env)
      (sample_args 6 (some 3) (some 16) (some 200) (some 4)) (sample_disk_clean 3) with
  | returned res =>
    rw [hc] at hr
    rw [show Outcome.toOption (Outcome.returned res) = some res from rfl,
      Option.map_some', Option.some.injEq, Prod.mk.injEq, Prod.mk.injEq, Prod.mk.injEq] at hr
    obtain ⟨h0, h1, h2, h3⟩ := hr
    obtain ⟨-, -, h5, h6, h7⟩ := ctr_create_set_index sample_params sample_consts
      (sample_ctr_env 1000 sample_env) (sample_args 6 (some 3) (some 16) (some 200) (some 4))
      (sample_disk_clean 3) (by decide) hc h0
      (show ctr_persistence sample_consts (sample_args 6 (some 3) (some 16) (some 200) (some 4))
        = some 3 by decide) (by decide)
    refine ⟨res, rfl, h0, h1, h2, h3, ?_, h6, h7⟩
    rw [h5, h1, h2]
  | panic => rw [hc] at hr; simp [Outcome.toOption] at hr
  | timeout => rw [hc] at hr; simp [Outcome.toOption] at hr

end Flashcache
